import Mathlib

/-! # ME firmware restoration: SPI hardware-sequencing driver and chunked transfer

A shallow embedding of `edk2_shell_pkg/Application/MeRestoreApp/MeRestoreApp.c`, with
`devmem2/devmem2.c` and the full unlock sequence of
`edk2_shell_pkg/DynamicCommand/DsmilUnlockCommand/DsmilUnlock.c`.

* Machine integers are natural numbers; a narrowing cast is an explicit `% 2 ^ w`.
* External services (MMIO, the shell file API, the pool allocator) are records of
  functions over an explicit state, so that the driver code is independent of the
  device it talks to.
* A C pointer into a byte buffer is an offset (`none` is `NULL`) together with the
  buffer, a function from index to byte.
-/

set_option autoImplicit false

namespace MeRestore

/-! ## Status codes (UEFI `Base.h` encoding, 64-bit `UINTN`) -/

/-- A byte of memory, file or flash. -/
abbrev Byte := Fin 256

def MAX_BIT : Nat := 2 ^ 63

def ENCODE_ERROR (StatusCode : Nat) : Nat := MAX_BIT ||| StatusCode

def EFI_SUCCESS : Nat := 0
def EFI_INVALID_PARAMETER : Nat := ENCODE_ERROR 2
def EFI_NOT_READY : Nat := ENCODE_ERROR 6
def EFI_DEVICE_ERROR : Nat := ENCODE_ERROR 7
def EFI_OUT_OF_RESOURCES : Nat := ENCODE_ERROR 9
def EFI_NOT_FOUND : Nat := ENCODE_ERROR 14
def EFI_ACCESS_DENIED : Nat := ENCODE_ERROR 15
def EFI_TIMEOUT : Nat := ENCODE_ERROR 18

/-- The `EFI_ERROR` test: the status, read as a signed `INTN`, is negative. -/
def EFI_ERROR (Status : Nat) : Bool := decide (MAX_BIT ≤ Status % 2 ^ 64)

/-! ## Register map and constants of `MeRestoreApp.c` -/

def SPI_HSFSTS_CTL : Nat := 0x0000
def SPI_HSFCTL : Nat := 0x0004
def SPI_FADDR : Nat := 0x0008
def SPI_FDATA0 : Nat := 0x0010

def HSFSTS_CTL_FCYCLE_SHIFT : Nat := 1
def HSFSTS_CTL_FCYCLE_READ : Nat := 0x00
def HSFSTS_CTL_FCYCLE_WRITE : Nat := 0x02
def HSFSTS_CTL_FDBC_SHIFT : Nat := 24
def HSFSTS_CTL_FGO : Nat := 1 <<< 0
def HSFSTS_CTL_FCERR : Nat := 1 <<< 2
def HSFSTS_CTL_FDONE : Nat := 1 <<< 3
def HSFSTS_CTL_SCIP : Nat := 1 <<< 5

def ME_FIRMWARE_START : Nat := 0x00126000
def ME_FIRMWARE_END : Nat := 0x00EC7FFF
def ME_FIRMWARE_SIZE : Nat := ME_FIRMWARE_END - ME_FIRMWARE_START + 1
def ME_CHUNK_SIZE : Nat := 256

/-- The file-scope variables of the application (`mSpiMmioBase = 0` is `NULL`). -/
structure Globals where
  mSpiMmioBase : Nat
  mOriginalSpiClock : Nat
  mEnableHap : Bool

/-! ## Hardware access -/

/-- Memory-mapped register access and the boot-services stall, over a device state. A
read may change the device state (status bits that evolve, read counters). -/
structure Hardware (σ : Type) where
  MmioRead32 : Nat → σ → Nat × σ
  MmioWrite32 : Nat → Nat → σ → σ
  Stall : Nat → σ → σ

/-- The idle wait shared by the driver functions:
`for (Timeout = ..; Timeout > 0; Timeout--) { HsfstsCtl = MmioRead32 (..); if (!(HsfstsCtl & SCIP)) break; Stall (100); }`.
Returns the final `Timeout`, the last `HsfstsCtl` and the device state. -/
def waitNotBusy {σ : Type} (H : Hardware σ) (SpiMmio : Nat) : Nat → Nat → σ → Nat × Nat × σ
  | 0, HsfstsCtl, s => (0, HsfstsCtl, s)
  | Timeout + 1, _, s =>
    let r := H.MmioRead32 (SpiMmio + SPI_HSFSTS_CTL) s
    if r.1 &&& HSFSTS_CTL_SCIP = 0 then (Timeout + 1, r.1, r.2)
    else waitNotBusy H SpiMmio Timeout r.1 (H.Stall 100 r.2)

/-- The completion wait of a transaction:
`for (Timeout = ..; Timeout > 0; Timeout--) { read; if (FDONE) break; if (FCERR) return EFI_DEVICE_ERROR; Stall (100); }`.
The first component is `some status` when the loop returned from the function. -/
def waitComplete {σ : Type} (H : Hardware σ) (SpiMmio : Nat) : Nat → σ → Option Nat × Nat × σ
  | 0, s => (none, 0, s)
  | Timeout + 1, s =>
    let r := H.MmioRead32 (SpiMmio + SPI_HSFSTS_CTL) s
    if r.1 &&& HSFSTS_CTL_FDONE ≠ 0 then (none, Timeout + 1, r.2)
    else if r.1 &&& HSFSTS_CTL_FCERR ≠ 0 then (some EFI_DEVICE_ERROR, Timeout + 1, r.2)
    else waitComplete H SpiMmio Timeout (H.Stall 100 r.2)

/-- The effect of `DataWord = 0; CopyMem (&DataWord, p, BytesToCopy)` on a little-endian
machine: the value of `DataWord` afterwards. -/
def CopyMemToWord (Mem : Nat → Byte) (p : Nat) : Nat → Nat
  | 0 => 0
  | k + 1 => CopyMemToWord Mem p k + (Mem (p + k)).val * 256 ^ k

/-- Byte `b` of a little-endian word. -/
def wordByte (DataWord b : Nat) : Byte := ⟨(DataWord / 256 ^ b) % 256, Nat.mod_lt _ (by decide)⟩

/-- The effect of `CopyMem (p, &DataWord, BytesToCopy)` on the buffer holding `p`. -/
def CopyMemFromWord (Mem : Nat → Byte) (p DataWord BytesToCopy : Nat) : Nat → Byte :=
  fun j => if p ≤ j ∧ j < p + BytesToCopy then wordByte DataWord (j - p) else Mem j

/-- The staging loop of `WriteSpiChunk`:
`for (i = 0; i < DataSize && i < 16; i += 4) { ...; MmioWrite32 (SpiMmio + SPI_FDATA0 + i, DataWord); }`. -/
def writeFdata {σ : Type} (H : Hardware σ) (SpiMmio : Nat) (Mem : Nat → Byte) (Data DataSize : Nat)
    (i : Nat) (s : σ) : σ :=
  if i < DataSize ∧ i < 16 then
    let BytesToCopy := if DataSize - i < 4 then DataSize - i else 4
    let DataWord := CopyMemToWord Mem (Data + i) BytesToCopy
    writeFdata H SpiMmio Mem Data DataSize (i + 4) (H.MmioWrite32 (SpiMmio + SPI_FDATA0 + i) DataWord s)
  else s
termination_by 16 - i
decreasing_by omega

/-- The drain loop of `ReadSpiChunk`:
`for (i = 0; i < DataSize && i < 16; i += 4) { DataWord = MmioRead32 (SpiMmio + SPI_FDATA0 + i); CopyMem (Data + i, &DataWord, BytesToCopy); }`. -/
def readFdata {σ : Type} (H : Hardware σ) (SpiMmio : Nat) (Data DataSize : Nat)
    (i : Nat) (Mem : Nat → Byte) (s : σ) : (Nat → Byte) × σ :=
  if i < DataSize ∧ i < 16 then
    let BytesToCopy := if DataSize - i < 4 then DataSize - i else 4
    let r := H.MmioRead32 (SpiMmio + SPI_FDATA0 + i) s
    readFdata H SpiMmio Data DataSize (i + 4) (CopyMemFromWord Mem (Data + i) r.1 BytesToCopy) r.2
  else (Mem, s)
termination_by 16 - i
decreasing_by omega

/-- `WriteSpiChunk (FlashAddr, Data, DataSize)`: one hardware write transaction. `Data` is
the offset of the pointer into the buffer `Mem`, `none` for `NULL`. -/
def WriteSpiChunk {σ : Type} (H : Hardware σ) (g : Globals) (FlashAddr : Nat) (Data : Option Nat)
    (Mem : Nat → Byte) (DataSize : Nat) (s : σ) : Nat × σ :=
  if g.mSpiMmioBase = 0 ∨ Data = none ∨ DataSize = 0 ∨ DataSize > 16 then
    (EFI_INVALID_PARAMETER, s)
  else
    let SpiMmio := g.mSpiMmioBase
    -- Wait for SPI controller to be ready
    let w := waitNotBusy H SpiMmio 1000 0 s
    if w.1 = 0 then (EFI_DEVICE_ERROR, w.2.2)
    else
      let HsfstsCtl := w.2.1
      -- Clear any previous errors
      let s1 := if HsfstsCtl &&& HSFSTS_CTL_FCERR ≠ 0 then
          H.MmioWrite32 (SpiMmio + SPI_HSFSTS_CTL) (HsfstsCtl ||| HSFSTS_CTL_FCERR) w.2.2
        else w.2.2
      -- Set flash address
      let s2 := H.MmioWrite32 (SpiMmio + SPI_FADDR) FlashAddr s1
      -- Write data to FDATA registers (up to 16 bytes)
      let s3 := writeFdata H SpiMmio Mem (Data.getD 0) DataSize 0 s2
      -- Configure HSFSTS_CTL for write operation
      let HsfstsVal := ((HSFSTS_CTL_FCYCLE_WRITE <<< HSFSTS_CTL_FCYCLE_SHIFT) |||
          ((DataSize - 1) <<< HSFSTS_CTL_FDBC_SHIFT) ||| HSFSTS_CTL_FGO) % 2 ^ 32
      -- Start write operation
      let s4 := H.MmioWrite32 (SpiMmio + SPI_HSFSTS_CTL) HsfstsVal s3
      -- Wait for completion
      let c := waitComplete H SpiMmio 10000 s4
      match c.1 with
      | some Status => (Status, c.2.2)
      | none => if c.2.1 = 0 then (EFI_TIMEOUT, c.2.2) else (EFI_SUCCESS, c.2.2)

/-- `ReadSpiChunk (FlashAddr, Data, DataSize)`: one hardware read transaction. Returns the
status and the buffer `Mem` as the call leaves it. -/
def ReadSpiChunk {σ : Type} (H : Hardware σ) (g : Globals) (FlashAddr : Nat) (Data : Option Nat)
    (Mem : Nat → Byte) (DataSize : Nat) (s : σ) : (Nat × (Nat → Byte)) × σ :=
  if g.mSpiMmioBase = 0 ∨ Data = none ∨ DataSize = 0 ∨ DataSize > 16 then
    ((EFI_INVALID_PARAMETER, Mem), s)
  else
    let SpiMmio := g.mSpiMmioBase
    -- Wait for SPI controller to be ready
    let w := waitNotBusy H SpiMmio 1000 0 s
    if w.1 = 0 then ((EFI_DEVICE_ERROR, Mem), w.2.2)
    else
      let HsfstsCtl := w.2.1
      -- Clear any previous errors
      let s1 := if HsfstsCtl &&& HSFSTS_CTL_FCERR ≠ 0 then
          H.MmioWrite32 (SpiMmio + SPI_HSFSTS_CTL) (HsfstsCtl ||| HSFSTS_CTL_FCERR) w.2.2
        else w.2.2
      -- Set flash address
      let s2 := H.MmioWrite32 (SpiMmio + SPI_FADDR) FlashAddr s1
      -- Configure HSFSTS_CTL for read operation
      let HsfstsVal := ((HSFSTS_CTL_FCYCLE_READ <<< HSFSTS_CTL_FCYCLE_SHIFT) |||
          ((DataSize - 1) <<< HSFSTS_CTL_FDBC_SHIFT) ||| HSFSTS_CTL_FGO) % 2 ^ 32
      -- Start read operation
      let s3 := H.MmioWrite32 (SpiMmio + SPI_HSFSTS_CTL) HsfstsVal s2
      -- Wait for completion
      let c := waitComplete H SpiMmio 10000 s3
      match c.1 with
      | some Status => ((Status, Mem), c.2.2)
      | none =>
        if c.2.1 = 0 then ((EFI_TIMEOUT, Mem), c.2.2)
        else
          -- Read data from FDATA registers (up to 16 bytes)
          let d := readFdata H SpiMmio (Data.getD 0) DataSize 0 Mem c.2.2
          ((EFI_SUCCESS, d.1), d.2)

/-! ## An ideal flash controller

The controller model of the round-trip property: the busy flag is never set, every
transaction started by a write of the go-bit completes at once and without error, a write
cycle stores the staged data-register bytes at the programmed flash address and a read
cycle loads the bytes at that address into the data registers. The control word is decoded
the way the driver encodes it (go-bit 0, cycle type in bits 1-2, byte count minus one from
bit 24). -/

structure IdealSpi where
  done : Bool
  faddr : Nat
  fdata : Nat → Nat
  flash : Nat → Byte

/-- Byte `j` of the data registers, register `j / 4` holding bytes `4 * (j / 4) ..` in
little-endian order. -/
def IdealSpi.dataByte (s : IdealSpi) (j : Nat) : Byte := wordByte (s.fdata (j / 4)) (j % 4)

/-- The index of the data register at MMIO address `a`, if `a` is one of the sixteen. -/
def fdataIndex (base a : Nat) : Option Nat :=
  if base + SPI_FDATA0 ≤ a ∧ a < base + SPI_FDATA0 + 64 ∧ (a - (base + SPI_FDATA0)) % 4 = 0 then
    some ((a - (base + SPI_FDATA0)) / 4)
  else none

/-- The ideal controller mapped at `base`. -/
def idealSpi (base : Nat) : Hardware IdealSpi where
  MmioRead32 := fun a s =>
    if a = base + SPI_HSFSTS_CTL then (if s.done then HSFSTS_CTL_FDONE else 0, s)
    else if a = base + SPI_FADDR then (s.faddr, s)
    else match fdataIndex base a with
      | some k => (s.fdata k, s)
      | none => (0, s)
  MmioWrite32 := fun a v s =>
    if a = base + SPI_HSFSTS_CTL then
      if v &&& HSFSTS_CTL_FGO ≠ 0 then
        let count := (v >>> HSFSTS_CTL_FDBC_SHIFT) % 64 + 1
        let cycle := (v >>> HSFSTS_CTL_FCYCLE_SHIFT) % 4
        if cycle = HSFSTS_CTL_FCYCLE_WRITE then
          { s with
            done := true
            flash := fun x =>
              if s.faddr ≤ x ∧ x < s.faddr + count then s.dataByte (x - s.faddr) else s.flash x }
        else if cycle = HSFSTS_CTL_FCYCLE_READ then
          { s with
            done := true
            fdata := fun k =>
              if 4 * k < count then CopyMemToWord s.flash (s.faddr + 4 * k) (min 4 (count - 4 * k))
              else s.fdata k }
        else { s with done := true }
      else s
    else if a = base + SPI_FADDR then { s with faddr := v }
    else match fdataIndex base a with
      | some k => { s with fdata := fun j => if j = k then v else s.fdata j }
      | none => s
  Stall := fun _ s => s

/-! ## Shell services -/

/-- The shell file API on the open dump file and the pool allocator, over an environment
state. `ShellReadFile n Buffer` is the call with `BytesRead = n` on entry; it returns the
status, `BytesRead` on exit and the buffer. `AllocatePool` returns `none` for `NULL`, else
the (arbitrary) contents of the fresh block. -/
structure Shell (φ : Type) where
  ShellGetFileSize : φ → (Nat × Nat) × φ
  ShellSetFilePosition : Nat → φ → Nat × φ
  ShellReadFile : Nat → (Nat → Byte) → φ → (Nat × Nat × (Nat → Byte)) × φ
  AllocatePool : Nat → φ → Option (Nat → Byte) × φ

/-- A dump file held in memory: `size` bytes `data 0 .. data (size - 1)`, a position, and
the contents `heap` that a freshly allocated block happens to have. -/
structure RamFile where
  size : Nat
  data : Nat → Byte
  pos : Nat
  heap : Nat → Byte

/-- The reliable source: every call succeeds, a read delivers the bytes at the position (as
many as are left) and advances it, an allocation never fails. -/
def ramShell : Shell RamFile where
  ShellGetFileSize := fun f => ((EFI_SUCCESS, f.size), f)
  ShellSetFilePosition := fun p f => (EFI_SUCCESS, { f with pos := p })
  ShellReadFile := fun n Buffer f =>
    let k := min n (f.size - f.pos)
    ((EFI_SUCCESS, k, fun i => if i < k then f.data (f.pos + i) else Buffer i),
      { f with pos := f.pos + k })
  AllocatePool := fun _ f => (some f.heap, f)

/-! ## Chunked transfer engine

The transfer functions take the single-transaction primitive as an argument (`wr`, `rd`);
`WriteMeFirmware` and `VerifyMeFirmware` below bind it to `WriteSpiChunk` and
`ReadSpiChunk`. The region size is the argument `R`, bound there to `ME_FIRMWARE_SIZE`. -/

/-- The type of `WriteSpiChunk` over a device state. -/
abbrev WriteTx (σ : Type) := Nat → Option Nat → (Nat → Byte) → Nat → σ → Nat × σ

/-- The type of `ReadSpiChunk` over a device state. -/
abbrev ReadTx (σ : Type) := Nat → Option Nat → (Nat → Byte) → Nat → σ → (Nat × (Nat → Byte)) × σ

/-- The sub-chunk loop of `WriteMeFirmware`:
`for (SubOffset = 0; SubOffset < ChunkSize; SubOffset += 16) { ...; Status = WriteSpiChunk (..); if (EFI_ERROR (Status)) return Status; }`.
`some Status` is the early return. -/
def writeSubChunks {σ : Type} (wr : WriteTx σ) (Buffer : Nat → Byte) (Offset ChunkSize : Nat)
    (SubOffset : Nat) (s : σ) : Option Nat × σ :=
  if SubOffset < ChunkSize then
    let SubChunkSize := if ChunkSize - SubOffset < 16 then ChunkSize - SubOffset else 16
    let SubFlashAddr := (ME_FIRMWARE_START + Offset + SubOffset) % 2 ^ 32
    let r := wr SubFlashAddr (some SubOffset) Buffer SubChunkSize s
    if EFI_ERROR r.1 then (some r.1, r.2)
    else writeSubChunks wr Buffer Offset ChunkSize (SubOffset + 16) r.2
  else (none, s)
termination_by ChunkSize - SubOffset
decreasing_by omega

/-- The chunk loop of `WriteMeFirmware`, up to the function's return:
`for (Offset = 0; Offset < ME_FIRMWARE_SIZE && Offset < FileSize; Offset += ME_CHUNK_SIZE) { .. }`
followed by `return EFI_SUCCESS`. -/
def writeChunks {σ φ : Type} (S : Shell φ) (wr : WriteTx σ) (R FileSize : Nat)
    (Buffer : Nat → Byte) (Offset : Nat) (s : σ) (f : φ) : Nat × σ × φ :=
  if Offset < R ∧ Offset < FileSize then
    let ChunkSize := if R - Offset < ME_CHUNK_SIZE then R - Offset else ME_CHUNK_SIZE
    let ChunkSize := if FileSize - Offset < ChunkSize then FileSize - Offset else ChunkSize
    -- Read chunk from file
    let rf := S.ShellReadFile ChunkSize Buffer f
    if EFI_ERROR rf.1.1 ∨ rf.1.2.1 ≠ ChunkSize then (EFI_DEVICE_ERROR, s, rf.2)
    else
      -- Write chunk to SPI flash in 16-byte sub-chunks (SPI hardware limit)
      let w := writeSubChunks wr rf.1.2.2 Offset ChunkSize 0 s
      match w.1 with
      | some Status => (Status, w.2, rf.2)
      | none => writeChunks S wr R FileSize rf.1.2.2 (Offset + ME_CHUNK_SIZE) w.2 rf.2
  else (EFI_SUCCESS, s, f)
termination_by R - Offset
decreasing_by simp only [ME_CHUNK_SIZE]; omega

/-- `WriteMeFirmware (FileHandle)` over a transaction primitive and a region size. -/
def WriteMeFirmwareOn {σ φ : Type} (S : Shell φ) (wr : WriteTx σ) (R : Nat) (s : σ) (f : φ) :
    Nat × σ × φ :=
  -- Get file size
  let sz := S.ShellGetFileSize f
  if EFI_ERROR sz.1.1 then (sz.1.1, s, sz.2)
  else
    let FileSize := sz.1.2
    -- Allocate buffer for chunk
    let a := S.AllocatePool ME_CHUNK_SIZE sz.2
    match a.1 with
    | none => (EFI_OUT_OF_RESOURCES, s, a.2)
    | some Buffer =>
      -- Seek to beginning of file
      let sk := S.ShellSetFilePosition 0 a.2
      if EFI_ERROR sk.1 then (sk.1, s, sk.2)
      else writeChunks S wr R FileSize Buffer 0 s sk.2

/-- `WriteMeFirmware (FileHandle)`. -/
def WriteMeFirmware {σ φ : Type} (H : Hardware σ) (S : Shell φ) (g : Globals) (s : σ) (f : φ) :
    Nat × σ × φ :=
  WriteMeFirmwareOn S (WriteSpiChunk H g) ME_FIRMWARE_SIZE s f

/-- `CompareMem (DestinationBuffer, SourceBuffer, Length)` of `BaseMemoryLib` from index `i`
on: `0` if the buffers agree, else the difference of the first mismatched bytes. -/
def CompareMemFrom (Destination Source : Nat → Byte) (i : Nat) : Nat → Int
  | 0 => 0
  | Length + 1 =>
    if Destination i = Source i then CompareMemFrom Destination Source (i + 1) Length
    else ((Destination i).val : Int) - ((Source i).val : Int)

def CompareMem (Destination Source : Nat → Byte) (Length : Nat) : Int :=
  CompareMemFrom Destination Source 0 Length

/-- The sub-chunk loop of `VerifyMeFirmware`:
`for (SubOffset = 0; SubOffset < ChunkSize; SubOffset += 16) { ...; Status = ReadSpiChunk (SubFlashAddr, FlashBuffer + SubOffset, SubChunkSize); if (EFI_ERROR (Status)) return Status; }`. -/
def readSubChunks {σ : Type} (rd : ReadTx σ) (Offset ChunkSize : Nat) (SubOffset : Nat)
    (FlashBuffer : Nat → Byte) (s : σ) : Option Nat × (Nat → Byte) × σ :=
  if SubOffset < ChunkSize then
    let SubChunkSize := if ChunkSize - SubOffset < 16 then ChunkSize - SubOffset else 16
    let SubFlashAddr := (ME_FIRMWARE_START + Offset + SubOffset) % 2 ^ 32
    let r := rd SubFlashAddr (some SubOffset) FlashBuffer SubChunkSize s
    if EFI_ERROR r.1.1 then (some r.1.1, r.1.2, r.2)
    else readSubChunks rd Offset ChunkSize (SubOffset + 16) r.1.2 r.2
  else (none, FlashBuffer, s)
termination_by ChunkSize - SubOffset
decreasing_by omega

/-- The byte loop of `VerifyMeFirmware`:
`for (i = 0; i < ChunkSize; i++) { if (FileBuffer[i] != FlashBuffer[i]) { if (MismatchCount == 0) FirstMismatchOffset = Offset + i; MismatchCount++; } }`.
Returns `(MismatchCount, FirstMismatchOffset)`. -/
def countMismatches (FileBuffer FlashBuffer : Nat → Byte) (Offset ChunkSize : Nat) (i : Nat)
    (MismatchCount FirstMismatchOffset : Nat) : Nat × Nat :=
  if i < ChunkSize then
    if FileBuffer i ≠ FlashBuffer i then
      countMismatches FileBuffer FlashBuffer Offset ChunkSize (i + 1) (MismatchCount + 1)
        (if MismatchCount = 0 then Offset + i else FirstMismatchOffset)
    else
      countMismatches FileBuffer FlashBuffer Offset ChunkSize (i + 1) MismatchCount
        FirstMismatchOffset
  else (MismatchCount, FirstMismatchOffset)
termination_by ChunkSize - i
decreasing_by all_goals omega

/-- What `VerifyMeFirmware` delivers: its status, the out-parameter `*Matches`, and the two
statistics it prints, `MismatchCount` and `FirstMismatchOffset`. -/
structure VerifyResult where
  Status : Nat
  Matches : Bool
  MismatchCount : Nat
  FirstMismatchOffset : Nat
deriving DecidableEq, Repr

/-- The compare loop of `VerifyMeFirmware`:
`for (Offset = 0; Offset < ME_FIRMWARE_SIZE && Offset < FileSize; Offset += ME_CHUNK_SIZE) { .. }`.
Returns the early-return status if any, and the two counters. -/
def verifyChunks {σ φ : Type} (S : Shell φ) (rd : ReadTx σ) (R FileSize : Nat)
    (FileBuffer FlashBuffer : Nat → Byte) (Offset MismatchCount FirstMismatchOffset : Nat)
    (s : σ) (f : φ) : (Option Nat × Nat × Nat) × σ × φ :=
  if Offset < R ∧ Offset < FileSize then
    let ChunkSize := if R - Offset < ME_CHUNK_SIZE then R - Offset else ME_CHUNK_SIZE
    let ChunkSize := if FileSize - Offset < ChunkSize then FileSize - Offset else ChunkSize
    -- Read chunk from file
    let rf := S.ShellReadFile ChunkSize FileBuffer f
    if EFI_ERROR rf.1.1 ∨ rf.1.2.1 ≠ ChunkSize then
      ((some EFI_DEVICE_ERROR, MismatchCount, FirstMismatchOffset), s, rf.2)
    else
      -- Read chunk from SPI flash in 16-byte sub-chunks
      let r := readSubChunks rd Offset ChunkSize 0 FlashBuffer s
      match r.1 with
      | some Status => ((some Status, MismatchCount, FirstMismatchOffset), r.2.2, rf.2)
      | none =>
        -- Compare buffers
        let c := if CompareMem rf.1.2.2 r.2.1 ChunkSize ≠ 0 then
            countMismatches rf.1.2.2 r.2.1 Offset ChunkSize 0 MismatchCount FirstMismatchOffset
          else (MismatchCount, FirstMismatchOffset)
        verifyChunks S rd R FileSize rf.1.2.2 r.2.1 (Offset + ME_CHUNK_SIZE) c.1 c.2 r.2.2 rf.2
  else ((none, MismatchCount, FirstMismatchOffset), s, f)
termination_by R - Offset
decreasing_by simp only [ME_CHUNK_SIZE]; omega

/-- `VerifyMeFirmware (FileHandle, &Matches)` over a transaction primitive and a region
size. The out-pointer `Matches` is not `NULL` (it is `&Matches` at the only call site);
`*Matches = FALSE` is set before anything else. -/
def VerifyMeFirmwareOn {σ φ : Type} (S : Shell φ) (rd : ReadTx σ) (R : Nat) (s : σ) (f : φ) :
    VerifyResult × σ × φ :=
  -- Get file size
  let sz := S.ShellGetFileSize f
  if EFI_ERROR sz.1.1 then (⟨sz.1.1, false, 0, 0⟩, s, sz.2)
  else
    let FileSize := sz.1.2
    -- Allocate buffers for comparison
    let a := S.AllocatePool ME_CHUNK_SIZE sz.2
    let b := S.AllocatePool ME_CHUNK_SIZE a.2
    match a.1, b.1 with
    | some FileBuffer, some FlashBuffer =>
      -- Seek to beginning of file
      let sk := S.ShellSetFilePosition 0 b.2
      if EFI_ERROR sk.1 then (⟨sk.1, false, 0, 0⟩, s, sk.2)
      else
        let v := verifyChunks S rd R FileSize FileBuffer FlashBuffer 0 0 0 s sk.2
        match v.1.1 with
        | some Status => (⟨Status, false, v.1.2.1, v.1.2.2⟩, v.2)
        | none =>
          if v.1.2.1 > 0 then (⟨EFI_SUCCESS, false, v.1.2.1, v.1.2.2⟩, v.2)
          else (⟨EFI_SUCCESS, true, v.1.2.1, v.1.2.2⟩, v.2)
    | _, _ => (⟨EFI_OUT_OF_RESOURCES, false, 0, 0⟩, s, b.2)

/-- `VerifyMeFirmware (FileHandle, &Matches)`. -/
def VerifyMeFirmware {σ φ : Type} (H : Hardware σ) (S : Shell φ) (g : Globals) (s : σ) (f : φ) :
    VerifyResult × σ × φ :=
  VerifyMeFirmwareOn S (ReadSpiChunk H g) ME_FIRMWARE_SIZE s f

/-- `RestoreMeFirmware (FileHandle)`: `return WriteMeFirmware (FileHandle);`. -/
def RestoreMeFirmwareOn {σ φ : Type} (S : Shell φ) (wr : WriteTx σ) (R : Nat) (s : σ) (f : φ) :
    Nat × σ × φ :=
  WriteMeFirmwareOn S wr R s f

/-- `RestoreMeFirmware (FileHandle)`. -/
def RestoreMeFirmware {σ φ : Type} (H : Hardware σ) (S : Shell φ) (g : Globals) (s : σ) (f : φ) :
    Nat × σ × φ :=
  WriteMeFirmware H S g s f

/-! ## The application: `ShellAppMain`

`ShellAppMain` is embedded over a record of the functions it calls, each a state
transformer on a world state; `transferOps` binds the transfer functions to the code
above. Console output and the command-line parsing (which only selects the file name and the
HAP flag) are not modelled. -/

def SPI_CLOCK_DIV_8 : Nat := 0x300
def SPI_CLOCK_DIV_RELIABLE : Nat := SPI_CLOCK_DIV_8

/-- The callees of `ShellAppMain`. -/
structure AppOps (ω : Type) where
  MapSpiController : ω → Nat × ω
  VerifyMeRegion : ω → Nat × ω
  UnlockMeProtection : ω → Nat × ω
  DisableWriteProtection : ω → Nat × ω
  ShellOpenFileByName : ω → Nat × ω
  SetSpiClockSpeed : Nat → ω → Nat × ω
  WriteMeFirmware : ω → Nat × ω
  VerifyMeFirmware : ω → VerifyResult × ω
  ShellSetFilePosition : Nat → ω → Nat × ω
  RestoreMeFirmware : ω → Nat × ω
  RestoreSpiClockSpeed : ω → Nat × ω
  ShellCloseFile : ω → Nat × ω

/-- The local variables of the verify/restore block of `ShellAppMain`. -/
structure LoopVars where
  Status : Nat
  Matches : Bool
  RestoreAttempts : Nat
deriving DecidableEq, Repr

/-- One pass through the body of the `do { .. } while (..)` loop of `ShellAppMain`. The
first component tells whether the body left the loop by `break`. -/
def verifyRestoreBody {ω : Type} (ops : AppOps ω) (MaxRestoreAttempts RestoreAttempts : Nat)
    (w : ω) : Bool × LoopVars × ω :=
  let v := ops.VerifyMeFirmware w
  let Status := v.1.Status
  let Matches := v.1.Matches
  if EFI_ERROR Status then (true, ⟨Status, Matches, RestoreAttempts⟩, v.2)
  else if !Matches then
    let RestoreAttempts := RestoreAttempts + 1
    if RestoreAttempts ≤ MaxRestoreAttempts then
      -- Seek back to beginning of file for restore
      let k1 := ops.ShellSetFilePosition 0 v.2
      if EFI_ERROR k1.1 then (true, ⟨k1.1, Matches, RestoreAttempts⟩, k1.2)
      else
        let r := ops.RestoreMeFirmware k1.2
        if EFI_ERROR r.1 then (true, ⟨r.1, Matches, RestoreAttempts⟩, r.2)
        else
          -- Seek back to beginning again for next verification
          let k2 := ops.ShellSetFilePosition 0 r.2
          if EFI_ERROR k2.1 then (true, ⟨k2.1, Matches, RestoreAttempts⟩, k2.2)
          else (false, ⟨k2.1, Matches, RestoreAttempts⟩, k2.2)
    else (true, ⟨EFI_DEVICE_ERROR, Matches, RestoreAttempts⟩, v.2)
  else (false, ⟨Status, Matches, RestoreAttempts⟩, v.2)

/-- The loop `do { body } while (!Matches && RestoreAttempts <= MaxRestoreAttempts);`. -/
def verifyRestoreLoop {ω : Type} (ops : AppOps ω) (MaxRestoreAttempts RestoreAttempts : Nat)
    (w : ω) : LoopVars × ω :=
  if hb : (verifyRestoreBody ops MaxRestoreAttempts RestoreAttempts w).1 = true then
    (verifyRestoreBody ops MaxRestoreAttempts RestoreAttempts w).2
  else if h : (!(verifyRestoreBody ops MaxRestoreAttempts RestoreAttempts w).2.1.Matches) = true ∧
      (verifyRestoreBody ops MaxRestoreAttempts RestoreAttempts w).2.1.RestoreAttempts ≤
        MaxRestoreAttempts then
    verifyRestoreLoop ops MaxRestoreAttempts
      (verifyRestoreBody ops MaxRestoreAttempts RestoreAttempts w).2.1.RestoreAttempts
      (verifyRestoreBody ops MaxRestoreAttempts RestoreAttempts w).2.2
  else (verifyRestoreBody ops MaxRestoreAttempts RestoreAttempts w).2
termination_by MaxRestoreAttempts + 1 - RestoreAttempts
decreasing_by
  have key : RestoreAttempts <
      (verifyRestoreBody ops MaxRestoreAttempts RestoreAttempts w).2.1.RestoreAttempts := by
    simp only [verifyRestoreBody] at hb h ⊢
    split_ifs at hb h ⊢ <;> simp_all
  omega

/-- The end of `ShellAppMain`, from the exit of the verify/restore loop: the clock restore,
the file close and the exit code. -/
def ShellAppMain_exit {ω : Type} (ops : AppOps ω) (l : LoopVars × ω) : Nat × ω :=
  if EFI_ERROR l.1.Status then
    let c := ops.RestoreSpiClockSpeed l.2
    let d := ops.ShellCloseFile c.2
    (1, d.2)
  else if !l.1.Matches then
    let c := ops.RestoreSpiClockSpeed l.2
    let d := ops.ShellCloseFile c.2
    (1, d.2)
  else
    -- Restore original SPI clock speed
    let c := ops.RestoreSpiClockSpeed l.2
    -- Close file
    let d := ops.ShellCloseFile c.2
    if EFI_ERROR l.1.Status then (1, d.2) else (0, d.2)

/-- Step 7 of `ShellAppMain` to its return: the verify/restore block with
`RestoreAttempts = 0` and `MaxRestoreAttempts = 3`, then the exit. -/
def ShellAppMain_verify {ω : Type} (ops : AppOps ω) (w : ω) : Nat × ω :=
  ShellAppMain_exit ops (verifyRestoreLoop ops 3 0 w)

/-- Step 6 of `ShellAppMain` to its return: write the firmware, then verify. -/
def ShellAppMain_write {ω : Type} (ops : AppOps ω) (w : ω) : Nat × ω :=
  let r := ops.WriteMeFirmware w
  if EFI_ERROR r.1 then
    let c := ops.RestoreSpiClockSpeed r.2
    let d := ops.ShellCloseFile c.2
    (1, d.2)
  else ShellAppMain_verify ops r.2

/-- `ShellAppMain` from step 1 on. -/
def ShellAppMain {ω : Type} (ops : AppOps ω) (w : ω) : Nat × ω :=
  -- Step 1: Map SPI controller
  let m := ops.MapSpiController w
  if EFI_ERROR m.1 then (1, m.2)
  else
    -- Step 2: Verify ME region
    let v := ops.VerifyMeRegion m.2
    if EFI_ERROR v.1 then (1, v.2)
    else
      -- Step 2.5: Run comprehensive ME protection unlock sequence
      let u := ops.UnlockMeProtection v.2
      -- Step 3: Disable write protection
      let d := ops.DisableWriteProtection u.2
      -- Step 4: Open dump file
      let o := ops.ShellOpenFileByName d.2
      if EFI_ERROR o.1 then (1, o.2)
      else
        -- Step 5: Set SPI clock to slower speed for reliability
        let c := ops.SetSpiClockSpeed SPI_CLOCK_DIV_RELIABLE o.2
        ShellAppMain_write ops c.2

/-- A call made by `ShellAppMain`, with what it returned. -/
inductive Call where
  | MapSpiController (Status : Nat)
  | VerifyMeRegion (Status : Nat)
  | UnlockMeProtection (Status : Nat)
  | DisableWriteProtection (Status : Nat)
  | ShellOpenFileByName (Status : Nat)
  | SetSpiClockSpeed (ClockDivider Status : Nat)
  | WriteMeFirmware (Status : Nat)
  | VerifyMeFirmware (Result : VerifyResult)
  | ShellSetFilePosition (Position Status : Nat)
  | RestoreMeFirmware (Status : Nat)
  | RestoreSpiClockSpeed (Status : Nat)
  | ShellCloseFile (Status : Nat)
deriving DecidableEq, Repr

/-- The same callees, each call appended to a journal kept beside the world state. -/
def AppOps.recorded {ω : Type} (ops : AppOps ω) : AppOps (ω × List Call) where
  MapSpiController := fun w =>
    let r := ops.MapSpiController w.1; (r.1, r.2, w.2 ++ [Call.MapSpiController r.1])
  VerifyMeRegion := fun w =>
    let r := ops.VerifyMeRegion w.1; (r.1, r.2, w.2 ++ [Call.VerifyMeRegion r.1])
  UnlockMeProtection := fun w =>
    let r := ops.UnlockMeProtection w.1; (r.1, r.2, w.2 ++ [Call.UnlockMeProtection r.1])
  DisableWriteProtection := fun w =>
    let r := ops.DisableWriteProtection w.1; (r.1, r.2, w.2 ++ [Call.DisableWriteProtection r.1])
  ShellOpenFileByName := fun w =>
    let r := ops.ShellOpenFileByName w.1; (r.1, r.2, w.2 ++ [Call.ShellOpenFileByName r.1])
  SetSpiClockSpeed := fun d w =>
    let r := ops.SetSpiClockSpeed d w.1; (r.1, r.2, w.2 ++ [Call.SetSpiClockSpeed d r.1])
  WriteMeFirmware := fun w =>
    let r := ops.WriteMeFirmware w.1; (r.1, r.2, w.2 ++ [Call.WriteMeFirmware r.1])
  VerifyMeFirmware := fun w =>
    let r := ops.VerifyMeFirmware w.1; (r.1, r.2, w.2 ++ [Call.VerifyMeFirmware r.1])
  ShellSetFilePosition := fun p w =>
    let r := ops.ShellSetFilePosition p w.1; (r.1, r.2, w.2 ++ [Call.ShellSetFilePosition p r.1])
  RestoreMeFirmware := fun w =>
    let r := ops.RestoreMeFirmware w.1; (r.1, r.2, w.2 ++ [Call.RestoreMeFirmware r.1])
  RestoreSpiClockSpeed := fun w =>
    let r := ops.RestoreSpiClockSpeed w.1; (r.1, r.2, w.2 ++ [Call.RestoreSpiClockSpeed r.1])
  ShellCloseFile := fun w =>
    let r := ops.ShellCloseFile w.1; (r.1, r.2, w.2 ++ [Call.ShellCloseFile r.1])

/-- The number of `RestoreMeFirmware` calls in a journal. -/
def restoreCalls (journal : List Call) : Nat :=
  (journal.filter (fun c => match c with | Call.RestoreMeFirmware _ => true | _ => false)).length

/-- The number of `VerifyMeFirmware` calls in a journal. -/
def verifyCalls (journal : List Call) : Nat :=
  (journal.filter (fun c => match c with | Call.VerifyMeFirmware _ => true | _ => false)).length

/-- A verify, seek or restore call that returned an error status. -/
def Call.transferFailed : Call → Bool
  | Call.VerifyMeFirmware r => EFI_ERROR r.Status
  | Call.ShellSetFilePosition _ st => EFI_ERROR st
  | Call.RestoreMeFirmware st => EFI_ERROR st
  | _ => false

/-- A call of `VerifyMeFirmware` or `RestoreMeFirmware`. -/
def Call.isVerifyOrRestore : Call → Bool
  | Call.VerifyMeFirmware _ => true
  | Call.RestoreMeFirmware _ => true
  | _ => false

/-- The callees of `ShellAppMain` with the transfer functions bound to the transfer engine
over a transaction primitive pair, a shell and a region size; the world is the device state
and the shell state. The other callees are taken from `rest`. -/
def transferOps {σ φ : Type} (S : Shell φ) (wr : WriteTx σ) (rd : ReadTx σ) (R : Nat)
    (rest : AppOps (σ × φ)) : AppOps (σ × φ) :=
  { rest with
    WriteMeFirmware := fun w => WriteMeFirmwareOn S wr R w.1 w.2
    VerifyMeFirmware := fun w => VerifyMeFirmwareOn S rd R w.1 w.2
    ShellSetFilePosition := fun p w => let r := S.ShellSetFilePosition p w.2; (r.1, w.1, r.2)
    RestoreMeFirmware := fun w => RestoreMeFirmwareOn S wr R w.1 w.2 }

/-! ## Observing the transactions of a transfer -/

/-- One call of a transaction primitive as seen by its caller: the flash address, the size,
the `DataSize` bytes at `Data` (for a read, as the call leaves them) and the returned status. -/
structure TxRecord where
  FlashAddr : Nat
  DataSize : Nat
  Data : List Byte
  Status : Nat
deriving DecidableEq, Repr

/-- The address and size of a recorded transaction. -/
def TxRecord.range (t : TxRecord) : Nat × Nat := (t.FlashAddr, t.DataSize)

/-- A write primitive that also appends each call to a log kept beside the device state. -/
def recordWrites {σ : Type} (wr : WriteTx σ) : WriteTx (σ × List TxRecord) :=
  fun FlashAddr Data Mem DataSize st =>
    let r := wr FlashAddr Data Mem DataSize st.1
    (r.1, r.2,
      st.2 ++ [⟨FlashAddr, DataSize, (List.range DataSize).map (fun i => Mem (Data.getD 0 + i)), r.1⟩])

/-- A read primitive that also appends each call to a log kept beside the device state. -/
def recordReads {σ : Type} (rd : ReadTx σ) : ReadTx (σ × List TxRecord) :=
  fun FlashAddr Data Mem DataSize st =>
    let r := rd FlashAddr Data Mem DataSize st.1
    (r.1, r.2,
      st.2 ++ [⟨FlashAddr, DataSize, (List.range DataSize).map (fun i => r.1.2 (Data.getD 0 + i)),
        r.1.1⟩])

/-- The address/size schedule of a transfer of `n` bytes, from byte offset `a` on: 16-byte
transactions at `ME_FIRMWARE_START + a`, `+ 16`, .., the last one shorter when `n - a` is not
a multiple of 16. -/
def txPlan (n : Nat) (a : Nat) : List (Nat × Nat) :=
  if a < n then (ME_FIRMWARE_START + a, min 16 (n - a)) :: txPlan n (a + 16) else []
termination_by n - a
decreasing_by omega

/-- The number of offsets below `n` at which the source differs from the flash region. -/
def mismatchCount (src flash : Nat → Byte) (n : Nat) : Nat :=
  ((List.range n).filter (fun i => decide (src i ≠ flash (ME_FIRMWARE_START + i)))).length

/-- The address, size and data of a recorded transaction. -/
def TxRecord.call (t : TxRecord) : Nat × Nat × List Byte := (t.FlashAddr, t.DataSize, t.Data)

/-- The transactions of `log` move exactly `n` bytes inside the first `n` bytes of the ME
region: their sizes sum to `n`, each byte range `[FlashAddr, FlashAddr + DataSize)` lies
inside `[ME_FIRMWARE_START, ME_FIRMWARE_START + n)`, and the 32-bit address of the `i`-th
one is the untruncated sum `ME_FIRMWARE_START + 16 * i`. -/
def CoversExactly (n : Nat) (log : List TxRecord) : Prop :=
  (log.map TxRecord.DataSize).sum = n ∧
  (∀ t ∈ log, ME_FIRMWARE_START ≤ t.FlashAddr ∧
    t.FlashAddr + t.DataSize ≤ ME_FIRMWARE_START + n) ∧
  ∀ i (hi : i < log.length), (log.get ⟨i, hi⟩).FlashAddr = ME_FIRMWARE_START + 16 * i

/-! ## Flash seen through the transaction primitives -/

/-- The read primitive `rd` reads a flash whose contents are `flashOf s`: a read of a valid
size succeeds, copies the bytes at the flash address to `Data` and nothing else, and leaves
the flash contents as they are. -/
structure ReadsFlash {σ : Type} (rd : ReadTx σ) (flashOf : σ → Nat → Byte) : Prop where
  status : ∀ a p Mem n s, 1 ≤ n → n ≤ 16 → (rd a (some p) Mem n s).1.1 = EFI_SUCCESS
  data : ∀ a p Mem n s, 1 ≤ n → n ≤ 16 →
    (rd a (some p) Mem n s).1.2 =
      fun j => if p ≤ j ∧ j < p + n then flashOf s (a + (j - p)) else Mem j
  frame : ∀ a p Mem n s, 1 ≤ n → n ≤ 16 → flashOf (rd a (some p) Mem n s).2 = flashOf s

/-- The write primitive `wr` writes that flash: a write of a valid size that does not return
an error stores the bytes at `Data` at the flash address and changes nothing else. -/
structure StoresFlash {σ : Type} (wr : WriteTx σ) (flashOf : σ → Nat → Byte) : Prop where
  flash : ∀ a p Mem n s, 1 ≤ n → n ≤ 16 → EFI_ERROR (wr a (some p) Mem n s).1 = false →
    flashOf (wr a (some p) Mem n s).2 =
      fun x => if a ≤ x ∧ x < a + n then Mem (p + (x - a)) else flashOf s x

/-- The two counters of `VerifyMeFirmware` are right for the first `d` bytes: `c` is the
number of mismatches below `d` and, if there is one, `fst` is the least mismatching offset
(`fst` keeps its initial value 0 otherwise). -/
def CountInv (src flash : Nat → Byte) (d c fst : Nat) : Prop :=
  c = mismatchCount src flash d ∧ (c = 0 → fst = 0) ∧
    (0 < c → fst < d ∧ src fst ≠ flash (ME_FIRMWARE_START + fst) ∧
      ∀ i, i < fst → src i = flash (ME_FIRMWARE_START + i))

/-- The file `g` is the dump file `f` at some position: same length, contents and heap. -/
def SameSource (f g : RamFile) : Prop := g.size = f.size ∧ g.data = f.data ∧ g.heap = f.heap

/-! ## Controller set-up: mapping, region check, clock divider, write protection -/

def SPI_VENDOR_ID : Nat := 0x8086
def SPI_DEVICE_ID : Nat := 0x7E23
def SPI_MMIO_BASE : Nat := 0x7c120000

def VSEC_ME_CONTROL : Nat := 0x5019240300
def VSEC_CSME_BYPASS : Nat := 0x501924030C

def SPI_FRAP : Nat := 0x0050
def SPI_FREG0 : Nat := 0x0054
def SPI_FREG1 : Nat := 0x0058
def SPI_FREG2 : Nat := 0x005C
def SPI_FREG3 : Nat := 0x0060

def HSFSTS_CTL_FLOCKDN : Nat := 1 <<< 15

def SPI_CLOCK_CTL : Nat := 0x0010
def SPI_CLOCK_DIV_SHIFT : Nat := 8
def SPI_CLOCK_DIV_MASK : Nat := 0x700
def SPI_CLOCK_DIV_1 : Nat := 0x000

def HSFSTS_CTL_FSPI_MASK : Nat := 0x700
def HSFSTS_CTL_FSPI_DIV_8 : Nat := 0x300

def HSFCTL_CLOCK_DIV_SHIFT : Nat := 8
def HSFCTL_CLOCK_DIV_MASK : Nat := 0x700

/-- The C operator `~` on a 32-bit operand. -/
def not32 (x : Nat) : Nat := (2 ^ 32 - 1) ^^^ (x % 2 ^ 32)

/-- The C operator `~` on a 64-bit operand. -/
def not64 (x : Nat) : Nat := (2 ^ 64 - 1) ^^^ (x % 2 ^ 64)

/-- The PCI configuration space access of the platform library: the address encoding
`PCI_LIB_ADDRESS (Bus, Device, Function, Register)` and the reads, over a state. -/
structure PciBus (π : Type) where
  PCI_LIB_ADDRESS : Nat → Nat → Nat → Nat → Nat
  PciRead16 : Nat → π → Nat × π
  PciRead32 : Nat → π → Nat × π

/-- `MapSpiController ()`: returns the status and the globals as the call leaves them. -/
def MapSpiController {π : Type} (P : PciBus π) (g : Globals) (c : π) : (Nat × Globals) × π :=
  -- Find SPI controller (00:1f.5) - discovered device ID: 0x7E23
  let v := P.PciRead16 (P.PCI_LIB_ADDRESS 0 0x1f 5 0) c
  let VendorId := v.1
  let d := P.PciRead16 (P.PCI_LIB_ADDRESS 0 0x1f 5 2) v.2
  let DeviceId := d.1
  if VendorId ≠ SPI_VENDOR_ID ∨ DeviceId ≠ SPI_DEVICE_ID then ((EFI_NOT_FOUND, g), d.2)
  else
    -- Read BAR0
    let b0 := P.PciRead32 (P.PCI_LIB_ADDRESS 0 0x1f 5 0x10) d.2
    let SpiBar := b0.1
    let b1 := P.PciRead32 (P.PCI_LIB_ADDRESS 0 0x1f 5 0x14) b0.2
    let SpiBar := (SpiBar ||| (b1.1 <<< 32)) % 2 ^ 64
    let SpiBar := SpiBar &&& not64 0xF
    -- Use discovered address if BAR0 is zero or doesn't match
    let SpiBar := if SpiBar = 0 ∨ SpiBar ≠ SPI_MMIO_BASE then SPI_MMIO_BASE else SpiBar
    -- Map MMIO region
    ((EFI_SUCCESS, { g with mSpiMmioBase := SpiBar }), b1.2)

/-- `VerifyMeRegion (&MeBase, &MeLimit)`: returns the status and the two out-parameters,
`none` when they are not written. -/
def VerifyMeRegion {σ : Type} (H : Hardware σ) (g : Globals) (s : σ) :
    (Nat × Option (Nat × Nat)) × σ :=
  if g.mSpiMmioBase = 0 then ((EFI_NOT_READY, none), s)
  else
    let SpiMmio := g.mSpiMmioBase
    -- Read all FREG registers
    let f0 := H.MmioRead32 (SpiMmio + SPI_FREG0) s
    let f1 := H.MmioRead32 (SpiMmio + SPI_FREG1) f0.2
    let f2 := H.MmioRead32 (SpiMmio + SPI_FREG2) f1.2
    let Freg2 := f2.1
    let f3 := H.MmioRead32 (SpiMmio + SPI_FREG3) f2.2
    -- Check FREG2 (ME region)
    let Base := ((Freg2 &&& 0x7FFF) <<< 12) % 2 ^ 64
    let Limit := (((Freg2 >>> 16) &&& 0x7FFF) <<< 12) % 2 ^ 64
    -- Verify addresses match (account for 4KB alignment)
    if Base = ME_FIRMWARE_START ∧
        (Limit = ME_FIRMWARE_END ∨ Limit = ME_FIRMWARE_END &&& not64 0xFFF) then
      ((EFI_SUCCESS, some (ME_FIRMWARE_START, ME_FIRMWARE_END)), f3.2)
    else ((EFI_NOT_FOUND, none), f3.2)

/-- The three out-parameters of `ProbeSpiClockControl`. -/
structure ClockLoc where
  ClockRegOffset : Nat
  ClockBitShift : Nat
  ClockBitMask : Nat
deriving DecidableEq, Repr

/-- Method 3 of `ProbeSpiClockControl` and the default that follows it. -/
def probeMethod3 {σ : Type} (H : Hardware σ) (SpiMmio OriginalHsfctl : Nat) (s : σ) :
    (Nat × Option ClockLoc) × σ :=
  -- Method 3: Check HSFCTL for clock divider bits
  let Hsfctl := OriginalHsfctl
  let TestValue := (Hsfctl &&& not32 HSFCTL_CLOCK_DIV_MASK) ||| (0x3 <<< HSFCTL_CLOCK_DIV_SHIFT)
  let s1 := H.MmioWrite32 (SpiMmio + SPI_HSFCTL) TestValue s
  let s2 := H.Stall 1000 s1
  let rb := H.MmioRead32 (SpiMmio + SPI_HSFCTL) s2
  let ReadBack := rb.1
  if ReadBack &&& HSFCTL_CLOCK_DIV_MASK = TestValue &&& HSFCTL_CLOCK_DIV_MASK then
    ((EFI_SUCCESS, some ⟨SPI_HSFCTL, 8, HSFCTL_CLOCK_DIV_MASK⟩),
      H.MmioWrite32 (SpiMmio + SPI_HSFCTL) OriginalHsfctl rb.2)
  else
    -- Restore original value; default to offset 0x0010 (discovered for Meteor Lake)
    ((EFI_NOT_FOUND, some ⟨SPI_CLOCK_CTL, SPI_CLOCK_DIV_SHIFT, SPI_CLOCK_DIV_MASK⟩),
      H.MmioWrite32 (SpiMmio + SPI_HSFCTL) OriginalHsfctl rb.2)

/-- Method 2 of `ProbeSpiClockControl`, falling through to method 3. -/
def probeMethod2 {σ : Type} (H : Hardware σ) (SpiMmio OriginalHsfstsCtl OriginalHsfctl : Nat)
    (s : σ) : (Nat × Option ClockLoc) × σ :=
  -- Method 2: Check HSFSTS_CTL for clock divider bits (fallback for other platforms)
  let HsfstsCtl := OriginalHsfstsCtl
  let TestValue := (HsfstsCtl &&& not32 HSFSTS_CTL_FSPI_MASK) ||| HSFSTS_CTL_FSPI_DIV_8
  -- Only modify if controller is idle
  if HsfstsCtl &&& HSFSTS_CTL_SCIP = 0 then
    let s1 := H.MmioWrite32 (SpiMmio + SPI_HSFSTS_CTL) TestValue s
    let s2 := H.Stall 1000 s1
    let rb := H.MmioRead32 (SpiMmio + SPI_HSFSTS_CTL) s2
    let ReadBack := rb.1
    if ReadBack &&& HSFSTS_CTL_FSPI_MASK = HSFSTS_CTL_FSPI_DIV_8 then
      ((EFI_SUCCESS, some ⟨SPI_HSFSTS_CTL, 8, HSFSTS_CTL_FSPI_MASK⟩),
        H.MmioWrite32 (SpiMmio + SPI_HSFSTS_CTL) OriginalHsfstsCtl rb.2)
    else
      -- Restore original value
      probeMethod3 H SpiMmio OriginalHsfctl
        (H.MmioWrite32 (SpiMmio + SPI_HSFSTS_CTL) OriginalHsfstsCtl rb.2)
  else probeMethod3 H SpiMmio OriginalHsfctl s

/-- `ProbeSpiClockControl (&ClockRegOffset, &ClockBitShift, &ClockBitMask)`: returns the
status and the out-parameters, `none` when they are not written. -/
def ProbeSpiClockControl {σ : Type} (H : Hardware σ) (g : Globals) (s : σ) :
    (Nat × Option ClockLoc) × σ :=
  if g.mSpiMmioBase = 0 then ((EFI_NOT_READY, none), s)
  else
    let SpiMmio := g.mSpiMmioBase
    -- Read original values
    let r0 := H.MmioRead32 (SpiMmio + SPI_HSFSTS_CTL) s
    let OriginalHsfstsCtl := r0.1
    let r1 := H.MmioRead32 (SpiMmio + SPI_HSFCTL) r0.2
    let OriginalHsfctl := r1.1
    -- Method 1: Check offset 0x0010 first; wait for SPI controller to be idle
    let w := waitNotBusy H SpiMmio 1000 0 r1.2
    if w.1 > 0 then
      let c := H.MmioRead32 (SpiMmio + SPI_CLOCK_CTL) w.2.2
      let OriginalClockCtl := c.1
      -- Test if bits 8-10 are writable (try setting to DIV_8 = 0x300)
      let ClockCtl := OriginalClockCtl
      let TestValue := (ClockCtl &&& not32 SPI_CLOCK_DIV_MASK) ||| SPI_CLOCK_DIV_8
      let s1 := H.MmioWrite32 (SpiMmio + SPI_CLOCK_CTL) TestValue c.2
      let s2 := H.Stall 1000 s1
      let rb := H.MmioRead32 (SpiMmio + SPI_CLOCK_CTL) s2
      let ReadBack := rb.1
      if ReadBack &&& SPI_CLOCK_DIV_MASK = SPI_CLOCK_DIV_8 then
        ((EFI_SUCCESS, some ⟨SPI_CLOCK_CTL, SPI_CLOCK_DIV_SHIFT, SPI_CLOCK_DIV_MASK⟩),
          H.MmioWrite32 (SpiMmio + SPI_CLOCK_CTL) OriginalClockCtl rb.2)
      else
        -- Restore original value
        probeMethod2 H SpiMmio OriginalHsfstsCtl OriginalHsfctl
          (H.MmioWrite32 (SpiMmio + SPI_CLOCK_CTL) OriginalClockCtl rb.2)
    else probeMethod2 H SpiMmio OriginalHsfstsCtl OriginalHsfctl w.2.2

/-- The value of the out-parameter locals of a caller of `ProbeSpiClockControl` when the
probe did not write them. The callers test `mSpiMmioBase` before the call, and the probe
writes the three of them whenever the base is not `NULL`, so this value is never used. -/
def unwrittenLoc : ClockLoc := ⟨0, 0, 0⟩

/-- `SetSpiClockSpeed (ClockDivider)`: returns the status, the globals and the device state. -/
def SetSpiClockSpeed {σ : Type} (H : Hardware σ) (g : Globals) (ClockDivider : Nat) (s : σ) :
    Nat × Globals × σ :=
  if g.mSpiMmioBase = 0 then (EFI_NOT_READY, g, s)
  else
    let SpiMmio := g.mSpiMmioBase
    -- Probe for clock divider register
    let p := ProbeSpiClockControl H g s
    let loc := p.1.2.getD unwrittenLoc
    -- Read current register value
    let r := H.MmioRead32 (SpiMmio + loc.ClockRegOffset) p.2
    let RegValue := r.1
    -- Save original clock setting
    let g1 := { g with mOriginalSpiClock := RegValue &&& loc.ClockBitMask }
    -- Wait for SPI controller to be idle before modifying clock
    let w := waitNotBusy H SpiMmio 1000 0 r.2
    if w.1 = 0 then (EFI_DEVICE_ERROR, g1, w.2.2)
    else
      -- Set new clock divider (clear old bits, set new ones)
      let RegValue := (RegValue &&& not32 loc.ClockBitMask) ||| (ClockDivider &&& loc.ClockBitMask)
      let s1 := H.MmioWrite32 (SpiMmio + loc.ClockRegOffset) RegValue w.2.2
      let s2 := H.Stall 1000 s1
      -- Verify write
      let v := H.MmioRead32 (SpiMmio + loc.ClockRegOffset) s2
      let RegValue := v.1
      if RegValue &&& loc.ClockBitMask = ClockDivider &&& loc.ClockBitMask then
        (EFI_SUCCESS, g1, v.2)
      else (EFI_DEVICE_ERROR, g1, v.2)

/-- `RestoreSpiClockSpeed ()`: returns the status, the globals and the device state. -/
def RestoreSpiClockSpeed {σ : Type} (H : Hardware σ) (g : Globals) (s : σ) :
    Nat × Globals × σ :=
  if g.mSpiMmioBase = 0 then (EFI_NOT_READY, g, s)
  else if g.mOriginalSpiClock = 0 then
    -- No clock was changed, nothing to restore
    (EFI_SUCCESS, g, s)
  else
    let SpiMmio := g.mSpiMmioBase
    -- Probe for clock divider register (same as before)
    let p := ProbeSpiClockControl H g s
    let loc := if EFI_ERROR p.1.1 then
        (⟨SPI_CLOCK_CTL, SPI_CLOCK_DIV_SHIFT, SPI_CLOCK_DIV_MASK⟩ : ClockLoc)
      else p.1.2.getD unwrittenLoc
    -- Wait for SPI controller to be idle before modifying clock
    let w := waitNotBusy H SpiMmio 1000 0 p.2
    if w.1 = 0 then (EFI_DEVICE_ERROR, g, w.2.2)
    else
      -- Read current register value
      let r := H.MmioRead32 (SpiMmio + loc.ClockRegOffset) w.2.2
      let RegValue := r.1
      -- Restore original clock setting
      let RegValue := (RegValue &&& not32 loc.ClockBitMask) |||
        (g.mOriginalSpiClock &&& loc.ClockBitMask)
      let s1 := H.MmioWrite32 (SpiMmio + loc.ClockRegOffset) RegValue r.2
      let s2 := H.Stall 1000 s1
      -- Clear saved value
      (EFI_SUCCESS, { g with mOriginalSpiClock := 0 }, s2)

/-- `DisableWriteProtection ()`. -/
def DisableWriteProtection {σ : Type} (H : Hardware σ) (g : Globals) (s : σ) : Nat × σ :=
  if g.mSpiMmioBase = 0 then (EFI_NOT_READY, s)
  else
    let SpiMmio := g.mSpiMmioBase
    -- CRITICAL SAFETY CHECK: Verify FLOCKDN status before attempting FRAP writes
    -- (the value read only selects the message printed)
    let h := H.MmioRead32 (SpiMmio + SPI_HSFSTS_CTL) s
    let f := H.MmioRead32 (SpiMmio + SPI_FRAP) h.2
    let Frap := f.1
    if Frap &&& (1 <<< 2) ≠ 0 then
      -- Method 1: Try to clear write protect bit directly
      let s1 := H.MmioWrite32 (SpiMmio + SPI_FRAP) (Frap &&& not32 (1 <<< 2)) f.2
      let s2 := H.Stall 100000 s1
      let f1 := H.MmioRead32 (SpiMmio + SPI_FRAP) s2
      let Frap := f1.1
      if Frap &&& (1 <<< 2) ≠ 0 then
        -- Method 2: Try VSEC CSME bypass (discovered address)
        let s3 := H.MmioWrite32 VSEC_CSME_BYPASS 0xFFFFFFFF f1.2
        let s4 := H.Stall 100000 s3
        -- Method 3: Try VSEC ME Control (discovered address)
        let s5 := H.MmioWrite32 VSEC_ME_CONTROL 0x00000001 s4
        let s6 := H.Stall 100000 s5
        -- Try FRAP again
        let s7 := H.MmioWrite32 (SpiMmio + SPI_FRAP) 0x00000000 s6
        let s8 := H.Stall 100000 s7
        let f2 := H.MmioRead32 (SpiMmio + SPI_FRAP) s8
        let Frap := f2.1
        if Frap &&& (1 <<< 2) ≠ 0 then (EFI_ACCESS_DENIED, f2.2)
        else (EFI_SUCCESS, f2.2)
      else (EFI_SUCCESS, f1.2)
    else (EFI_SUCCESS, f.2)

/-! ## Observing the register accesses of the driver -/

/-- One access to the hardware: a register read with the value read, a register write with
the value written, or a stall. -/
inductive Access where
  | read (Address Value : Nat)
  | write (Address Value : Nat)
  | stall (Microseconds : Nat)
deriving DecidableEq, Repr

/-- The same hardware, each access appended to a log kept beside the device state. -/
def Hardware.logged {σ : Type} (H : Hardware σ) : Hardware (σ × List Access) where
  MmioRead32 := fun a st =>
    let r := H.MmioRead32 a st.1; (r.1, r.2, st.2 ++ [Access.read a r.1])
  MmioWrite32 := fun a v st => (H.MmioWrite32 a v st.1, st.2 ++ [Access.write a v])
  Stall := fun n st => (H.Stall n st.1, st.2 ++ [Access.stall n])

def Access.isRead : Access → Bool
  | Access.read _ _ => true
  | _ => false

def Access.isWrite : Access → Bool
  | Access.write _ _ => true
  | _ => false

/-- A register file: every register keeps its value except for the bits a write can change,
the writable bits of the register at address `a` being those of `wm a`. The state gives the
value of each register. -/
def regFile (wm : Nat → Nat) : Hardware (Nat → Nat) where
  MmioRead32 := fun a s => (s a, s)
  MmioWrite32 := fun a v s =>
    fun x => if x = a then (s a ^^^ (s a &&& wm a)) ||| (v &&& wm a) else s x
  Stall := fun _ s => s

/-- The values read from the register at address `a`, in order. -/
def readsAt (a : Nat) (log : List Access) : List Nat :=
  log.filterMap (fun x => match x with
    | Access.read b v => if b = a then some v else none
    | _ => none)

/-- The write-then-read-back attempts of a log: each write to a register that is followed
by one stall and then a read of the same register, as the triple of the address, the value
written and the value read back. The first argument is the last write, if nothing or only a
stall (the flag) came after it. -/
def attemptsFrom : Option (Nat × Nat × Bool) → List Access → List (Nat × Nat × Nat)
  | _, [] => []
  | _, Access.write a t :: rest => attemptsFrom (some (a, t, false)) rest
  | some (a, t, false), Access.stall _ :: rest => attemptsFrom (some (a, t, true)) rest
  | _, Access.stall _ :: rest => attemptsFrom none rest
  | some (a, t, true), Access.read b v :: rest =>
    if a = b then (a, t, v) :: attemptsFrom none rest else attemptsFrom none rest
  | _, Access.read _ _ :: rest => attemptsFrom none rest

/-- The write-then-read-back attempts of a log. -/
def attempts (log : List Access) : List (Nat × Nat × Nat) := attemptsFrom none log

/-- A probe that made the attempts `atts` and returned `res` tried its candidates in the
order of `cands` (register offsets) with a test pattern whose bits 8-10 are 0x300, wrote
its out-parameters with shift 8 and mask 0x700, and either returned `EFI_SUCCESS` with the
offset of its last attempt, the only one whose bits 8-10 read back as written, or returned
`EFI_NOT_FOUND` with offset 0x0010, no attempt having read back as written. -/
def ProbeReport (SpiMmio : Nat) (cands : List Nat) (atts : List (Nat × Nat × Nat))
    (res : Nat × Option ClockLoc) : Prop :=
  (atts.map (fun x => x.1)).Sublist (cands.map (fun c => SpiMmio + c)) ∧
  (∀ x ∈ atts, x.2.1 &&& 0x700 = 0x300) ∧
  ∃ loc, res.2 = some loc ∧ loc.ClockBitShift = 8 ∧ loc.ClockBitMask = 0x700 ∧
    (res.1 = EFI_SUCCESS →
      ∃ pre t v, atts = pre ++ [(SpiMmio + loc.ClockRegOffset, t, v)] ∧
        v &&& 0x700 = t &&& 0x700 ∧ ∀ x ∈ pre, x.2.2 &&& 0x700 ≠ x.2.1 &&& 0x700) ∧
    (res.1 ≠ EFI_SUCCESS →
      res.1 = EFI_NOT_FOUND ∧ loc.ClockRegOffset = 0x0010 ∧
        ∀ x ∈ atts, x.2.2 &&& 0x700 ≠ x.2.1 &&& 0x700)

/-! ## devmem2: memory access and the modes of `main`

`devmem2/devmem2.c`. The kernel, `strtoul` and the returns of `getopt_long` are parameters;
console output is not modelled. A C string is a `String` and a character its code. An
`off_t` is a signed integer of 64 bits whose arithmetic wraps, and it is passed to
`access_memory` as its 64-bit pattern. -/

def MAP_SIZE : Nat := 4096
def MAP_MASK : Nat := MAP_SIZE - 1

/-- The kernel behind `access_memory`, over a machine state: `open ("/dev/mem", ..)` (the
descriptor, `-1` on failure), `mmap` of `MAP_SIZE` bytes of the descriptor at a file offset
(the address of the mapping, `none` for `MAP_FAILED`), a load and a store of `width` bytes
at a mapped address, `munmap` and `close`. -/
structure DevMem (μ : Type) where
  openMem : μ → Int × μ
  mmap : Int → Nat → μ → Option Nat × μ
  load : Nat → Nat → μ → Nat × μ
  store : Nat → Nat → Nat → μ → μ
  munmap : Nat → μ → Int × μ
  close : Int → μ → μ

/-- The width in bytes that the `switch (access_type)` of `access_memory` selects: `'b'`,
`'h'`, `'w'`, `'d'`; `none` is the `default` case ("Illegal data type"). -/
def accessWidth (access_type : Nat) : Option Nat :=
  if access_type = 'b'.toNat then some 1
  else if access_type = 'h'.toNat then some 2
  else if access_type = 'w'.toNat then some 4
  else if access_type = 'd'.toNat then some 8
  else none

/-- `access_memory (target, access_type, writeval, do_write)`: the return value and the
machine state. -/
def access_memory {μ : Type} (K : DevMem μ) (target access_type writeval : Nat) (do_write : Bool)
    (m : μ) : Int × μ :=
  let o := K.openMem m
  let fd := o.1
  if fd = -1 then (-1, o.2)
  else
    -- Map one page
    let mp := K.mmap fd (target &&& not64 MAP_MASK) o.2
    match mp.1 with
    | none => (-1, K.close fd mp.2)
    | some map_base =>
      let virt_addr := map_base + (target &&& MAP_MASK)
      -- Read operation
      match accessWidth access_type with
      | none =>
        let u := K.munmap map_base mp.2
        (-1, K.close fd u.2)
      | some width =>
        let r := K.load width virt_addr mp.2
        -- Write operation if requested
        let s1 := if do_write then
            (K.load width virt_addr
              (K.store width virt_addr (writeval % 2 ^ (8 * width)) r.2)).2
          else r.2
        let u := K.munmap map_base s1
        let ret : Int := if u.1 = -1 then -1 else 0
        (ret, K.close fd u.2)

/-- The type of `access_memory` over a machine state. -/
abbrev MemAccess (μ : Type) := Nat → Nat → Nat → Bool → μ → Int × μ

/-- `tolower` of the C library in the "C" locale, on character codes. -/
def tolower (c : Nat) : Nat := if 'A'.toNat ≤ c ∧ c ≤ 'Z'.toNat then c + 32 else c

/-- The character `s[0]` of a C string: the code of its first character, the terminating
`0` if it is empty. -/
def firstChar (s : String) : Nat :=
  match s.toList with
  | [] => 0
  | c :: _ => c.toNat

/-- The argument `argv[i]`. -/
def argAt (argv : List String) (i : Nat) : String := argv.getD i default

/-- The conversion of an `unsigned long` to `off_t` (signed, 64 bits). -/
def toOff (x : Nat) : Int :=
  if x % 2 ^ 64 < 2 ^ 63 then ((x % 2 ^ 64 : Nat) : Int) else ((x % 2 ^ 64 : Nat) : Int) - 2 ^ 64

/-- One return of `getopt_long` other than `-1`: the option character returned, the values
of `optarg` and `optind` when the call returns, and the argument vector at that moment
(`getopt_long` permutes `argv` as it scans, so it need not be the final one). -/
structure GetoptEvent where
  opt : Nat
  optarg : String
  optind : Nat
  argv : List String

/-- The globals and locals of `main` that its option loop sets. -/
structure Options where
  quiet_mode : Bool
  verbose_mode : Bool
  batch_mode : Bool
  parse_mode : Bool
  hex_output : Bool
  range_mode : Bool
  range_start : Int
  range_end : Int

/-- The values at the start of `main`. -/
def Options.initial : Options := ⟨false, false, false, false, true, false, 0, 0⟩

/-- The option loop of `main`,
`while ((opt = getopt_long (argc, argv, "qvbpdr:h", long_options, NULL)) != -1) switch (opt) { .. }`,
over the returns of `getopt_long` in order. `Except.error c` is `exit (c)`. The case `'r'`
reads `argv[optind]` in the argument vector as it stands at that return; its `optind++`
shows in the `optind` of the returns that follow. -/
def parseOptions (strtoul : String → Nat) (argc : Nat) :
    List GetoptEvent → Options → Except Int Options
  | [], o => Except.ok o
  | e :: rest, o =>
    if e.opt = 'q'.toNat then parseOptions strtoul argc rest { o with quiet_mode := true }
    else if e.opt = 'v'.toNat then parseOptions strtoul argc rest { o with verbose_mode := true }
    else if e.opt = 'b'.toNat then parseOptions strtoul argc rest { o with batch_mode := true }
    else if e.opt = 'p'.toNat then parseOptions strtoul argc rest { o with parse_mode := true }
    else if e.opt = 'r'.toNat then
      if e.optind < argc then
        parseOptions strtoul argc rest
          { o with
            range_mode := true
            range_start := toOff (strtoul e.optarg)
            range_end := toOff (strtoul (argAt e.argv e.optind)) }
      else Except.error 1
    else if e.opt = 'd'.toNat then parseOptions strtoul argc rest { o with hex_output := false }
    else if e.opt = 'h'.toNat then Except.error 0
    else Except.error 1

/-- The sum of two `off_t` values as the machine computes it: the 64-bit two's-complement
sum, which wraps. -/
def offAdd (a b : Int) : Int := toOff ((a + b) % 2 ^ 64).toNat

/-- The loop of the range mode,
`for (addr = range_start; addr <= range_end; addr += step) access_memory (addr, access_type, 0, 0);`
with `step = 4`. `addr` is an `off_t`, and `addr += step` wraps at 64 bits, so the loop need
not end: `fuel` bounds the number of tests of the loop condition. `Except.ok m` is the
machine state when the loop is left, `Except.error m` the machine state of a run that is
still in the loop when the fuel is spent. -/
def rangeLoop {μ : Type} (access : MemAccess μ) (access_type : Nat) (range_end : Int) :
    Nat → Int → μ → Except μ μ
  | 0, _, m => Except.error m
  | fuel + 1, addr, m =>
    if addr ≤ range_end then
      rangeLoop access access_type range_end fuel (offAdd addr 4)
        (access (addr % 2 ^ 64).toNat access_type 0 false m).2
    else Except.ok m

/-- The loop of the batch mode,
`for (i = optind; i < argc; i++) { target = strtoul (argv[i], NULL, 0); access_memory (target, access_type, 0, 0); }`,
over the arguments `argv[optind]`, .., `argv[argc - 1]`. -/
def batchLoop {μ : Type} (access : MemAccess μ) (strtoul : String → Nat) (access_type : Nat) :
    List String → μ → μ
  | [], m => m
  | a :: rest, m =>
    batchLoop access strtoul access_type rest (access (strtoul a % 2 ^ 64) access_type 0 false m).2

/-- `main (argc, argv)` over the function it calls for a memory access: `Except.ok` of the
exit status and the machine state, or `Except.error` of the machine state of a run that is
still in the range loop after `fuel` tests of its condition (the other modes always
return). `events` are the returns of `getopt_long` before it returns `-1`, `optind` is its
value after that, and `argv` the argument vector as `getopt_long` leaves it. -/
def mainOn {μ : Type} (access : MemAccess μ) (strtoul : String → Nat) (argv : List String)
    (events : List GetoptEvent) (optind : Nat) (fuel : Nat) (m : μ) : Except μ (Int × μ) :=
  let argc := argv.length
  let access_type := 'w'.toNat
  -- Parse options
  match parseOptions strtoul argc events Options.initial with
  | Except.error c => Except.ok (c, m)
  | Except.ok o =>
    -- Handle range mode
    if o.range_mode then
      if o.range_start > o.range_end then Except.ok (1, m)
      else
        match rangeLoop access access_type o.range_end fuel o.range_start m with
        | Except.error m1 => Except.error m1
        | Except.ok m1 => Except.ok (0, m1)
    -- Handle batch mode
    else if o.batch_mode then
      if optind ≥ argc then Except.ok (1, m)
      else
        let access_type :=
          if optind + 1 < argc then tolower (firstChar (argAt argv (optind + 1))) else access_type
        Except.ok (0, batchLoop access strtoul access_type (argv.drop optind) m)
    -- Standard mode - require address
    else if optind ≥ argc then Except.ok (1, m)
    else
      let target := strtoul (argAt argv optind) % 2 ^ 64
      let access_type :=
        if optind + 1 < argc then tolower (firstChar (argAt argv (optind + 1))) else access_type
      let writeval := if optind + 2 < argc then strtoul (argAt argv (optind + 2)) else 0
      let do_write := decide (optind + 2 < argc)
      let r := access target access_type writeval do_write m
      if r.1 < 0 then Except.ok (1, r.2) else Except.ok (0, r.2)

/-- `main (argc, argv)`. -/
def main {μ : Type} (K : DevMem μ) (strtoul : String → Nat) (argv : List String)
    (events : List GetoptEvent) (optind : Nat) (fuel : Nat) (m : μ) : Except μ (Int × μ) :=
  mainOn (access_memory K) strtoul argv events optind fuel m

/-- One call of `access_memory` as seen by `main`: the arguments and the value returned. -/
structure MemCall where
  target : Nat
  access_type : Nat
  writeval : Nat
  do_write : Bool
  ret : Int
deriving DecidableEq, Repr

/-- The same memory access, each call appended to a journal kept beside the machine state. -/
def recordAccess {μ : Type} (access : MemAccess μ) : MemAccess (μ × List MemCall) :=
  fun target access_type writeval do_write st =>
    let r := access target access_type writeval do_write st.1
    (r.1, r.2, st.2 ++ [⟨target, access_type, writeval, do_write, r.1⟩])

/-! ## DSMIL unlock command: the full unlock sequence

`edk2_shell_pkg/DynamicCommand/DsmilUnlockCommand/DsmilUnlock.c` with the constants of
`DsmilUnlock.h`. -/

def MSR_COORD_1B0 : Nat := 0x1B0

def VSEC_MMIO_BASE : Nat := 0x5019240000
def VSEC_CTRL_REG : Nat := 0x0014
def VSEC_FEAT_UNLOCK_REG : Nat := 0x0100
def VSEC_AVX512_UNLOCK_REG : Nat := 0x0200
def VSEC_AMX_UNLOCK_REG : Nat := 0x0204

def HECI_MMIO_BASE : Nat := 0x50192DD000
def HECI_ME_CSR_HA : Nat := 0x00
def HECI_HFSTS1 : Nat := 0x40

def SMBUS_MMIO_BASE : Nat := 0x50192DC000

def HOST_BRIDGE_PCI_ADDR : Nat := 0x00000000
def HOST_BRIDGE_CTRL : Nat := 0xEC

def CLEARANCE_LAYER9 : Nat := 0xFF090909

/-- The local `UefiMarker` of `DsmilFullUnlock`. -/
def UefiMarker : Nat := 0x55554549464C554B

/-- The tiers that `DsmilFullUnlock` calls and the accesses it makes itself, over a machine
state: the stall of the boot services, the MMIO and PCI reads of its verification part, and
the MSR write instruction. -/
structure UnlockOps (ω : Type) where
  DsmilSetClearance : Nat → ω → Nat × ω
  DsmilCoordinateMsrs : ω → Nat × ω
  DsmilDevice255Unlock : ω → Nat × ω
  DsmilActivateHap : ω → Nat × ω
  DsmilVsecUnlock : Bool → ω → Nat × ω
  DsmilHostBridgeUnlock : ω → Nat × ω
  DsmilStageMicrocode : Nat → ω → Nat × ω
  DsmilI2CUnlock : ω → Nat × ω
  DsmilAdditionalHardwareUnlock : ω → Nat × ω
  Stall : Nat → ω → ω
  MmioRead32 : Nat → ω → Nat × ω
  PciRead32 : Nat → Nat → ω → Nat × ω
  AsmWriteMsr64 : Nat → Nat → ω → ω

/-- `DsmilMsrWrite (MsrAddress, Value)`. -/
def DsmilMsrWrite {ω : Type} (ops : UnlockOps ω) (MsrAddress Value : Nat) (w : ω) : Nat × ω :=
  -- Use CPU MSR write instruction
  (EFI_SUCCESS, ops.AsmWriteMsr64 (MsrAddress % 2 ^ 32) (Value % 2 ^ 64) w)

/-- `DsmilFullUnlock (Mode)`, `Mode = none` for `NULL`. -/
def DsmilFullUnlock {ω : Type} (ops : UnlockOps ω) (Mode : Option String) (w : ω) : Nat × ω :=
  let Aggressive := decide (Mode = some "aggressive" ∨ Mode = some "complete")
  -- TIER 0: Set maximum clearance
  let w := ops.Stall 100000 (ops.DsmilSetClearance CLEARANCE_LAYER9 w).2
  -- TIER 0.5: Coordinate MSRs
  let w := ops.Stall 100000 (ops.DsmilCoordinateMsrs w).2
  -- TIER 1: Unlock Device255
  let w := ops.Stall 200000 (ops.DsmilDevice255Unlock w).2
  -- TIER 2: Activate HAP (6 methods)
  let w := ops.Stall 500000 (ops.DsmilActivateHap w).2
  -- TIER 3: VSEC unlock (all 21 registers)
  let w := ops.Stall 200000 (ops.DsmilVsecUnlock Aggressive w).2
  -- TIER 4: Host Bridge unlock
  let w := ops.Stall 100000 (ops.DsmilHostBridgeUnlock w).2
  -- TIER 5: Microcode staging (if aggressive mode)
  let w := if Aggressive then ops.Stall 100000 (ops.DsmilStageMicrocode 0x1C w).2 else w
  -- TIER 6: I2C Controller unlock (if aggressive mode)
  let w := if Aggressive then ops.Stall 100000 (ops.DsmilI2CUnlock w).2 else w
  -- TIER 7: Additional hardware unlocks (if aggressive mode)
  let w := if Aggressive then ops.Stall 100000 (ops.DsmilAdditionalHardwareUnlock w).2 else w
  -- Comprehensive verification (the values read are only printed)
  let w := (ops.MmioRead32 (HECI_MMIO_BASE + HECI_HFSTS1) w).2
  let w := (ops.MmioRead32 (VSEC_MMIO_BASE + VSEC_CTRL_REG) w).2
  let w := (ops.MmioRead32 (VSEC_MMIO_BASE + VSEC_AVX512_UNLOCK_REG) w).2
  let w := (ops.MmioRead32 (VSEC_MMIO_BASE + VSEC_AMX_UNLOCK_REG) w).2
  let w := (ops.MmioRead32 (VSEC_MMIO_BASE + VSEC_FEAT_UNLOCK_REG) w).2
  let w := (ops.PciRead32 HOST_BRIDGE_PCI_ADDR HOST_BRIDGE_CTRL w).2
  let w := (ops.MmioRead32 SMBUS_MMIO_BASE w).2
  let w := (ops.MmioRead32 (HECI_MMIO_BASE + HECI_ME_CSR_HA) w).2
  -- Write UEFI unlock completion marker to MSR 0x1B0 (persists across boot)
  let w := (DsmilMsrWrite ops MSR_COORD_1B0 UefiMarker w).2
  (EFI_SUCCESS, w)

/-- The eight bytes of a 64-bit value, most significant first. -/
def bytesMsbFirst (v : Nat) : List Nat :=
  (List.range 8).map (fun i => (v >>> (8 * (7 - i))) % 256)

/-- The character codes of a string. -/
def charCodes (s : String) : List Nat := s.toList.map Char.toNat

/-! ## Further observations: tilings and the clock calls of a journal -/

/-- A call of `SetSpiClockSpeed`. -/
def Call.isSetClock : Call → Bool
  | Call.SetSpiClockSpeed _ _ => true
  | _ => false

/-- A call of `RestoreSpiClockSpeed`. -/
def Call.isRestoreClock : Call → Bool
  | Call.RestoreSpiClockSpeed _ => true
  | _ => false

/-- A call of `MapSpiController`, `VerifyMeRegion` or `ShellOpenFileByName` that returned an
error status. -/
def Call.setupFailed : Call → Bool
  | Call.MapSpiController st => EFI_ERROR st
  | Call.VerifyMeRegion st => EFI_ERROR st
  | Call.ShellOpenFileByName st => EFI_ERROR st
  | _ => false

/-! ## Sample inputs -/

/-- Callees over a trivial world: `VerifyMeFirmware` always returns `v`, a seek returns
`seek`, `RestoreMeFirmware` returns `restore`, every other call succeeds. -/
def constOps (v : VerifyResult) (seek restore : Nat) : AppOps Unit where
  MapSpiController := fun w => (EFI_SUCCESS, w)
  VerifyMeRegion := fun w => (EFI_SUCCESS, w)
  UnlockMeProtection := fun w => (EFI_SUCCESS, w)
  DisableWriteProtection := fun w => (EFI_SUCCESS, w)
  ShellOpenFileByName := fun w => (EFI_SUCCESS, w)
  SetSpiClockSpeed := fun _ w => (EFI_SUCCESS, w)
  WriteMeFirmware := fun w => (EFI_SUCCESS, w)
  VerifyMeFirmware := fun w => (v, w)
  ShellSetFilePosition := fun _ w => (seek, w)
  RestoreMeFirmware := fun w => (restore, w)
  RestoreSpiClockSpeed := fun w => (EFI_SUCCESS, w)
  ShellCloseFile := fun w => (EFI_SUCCESS, w)

/-- Callees over any world that all succeed and leave it alone (`VerifyMeFirmware` reporting
a match). -/
def idleOps (ω : Type) : AppOps ω where
  MapSpiController := fun w => (EFI_SUCCESS, w)
  VerifyMeRegion := fun w => (EFI_SUCCESS, w)
  UnlockMeProtection := fun w => (EFI_SUCCESS, w)
  DisableWriteProtection := fun w => (EFI_SUCCESS, w)
  ShellOpenFileByName := fun w => (EFI_SUCCESS, w)
  SetSpiClockSpeed := fun _ w => (EFI_SUCCESS, w)
  WriteMeFirmware := fun w => (EFI_SUCCESS, w)
  VerifyMeFirmware := fun w => (⟨EFI_SUCCESS, true, 0, 0⟩, w)
  ShellSetFilePosition := fun _ w => (EFI_SUCCESS, w)
  RestoreMeFirmware := fun w => (EFI_SUCCESS, w)
  RestoreSpiClockSpeed := fun w => (EFI_SUCCESS, w)
  ShellCloseFile := fun w => (EFI_SUCCESS, w)

/-- The globals after `MapSpiController`: the controller mapped at `SPI_MMIO_BASE`. -/
def mappedGlobals : Globals := ⟨0x7c120000, 0, false⟩

/-- An ideal controller with erased (all-zero) flash and cleared registers. -/
def blankSpi : IdealSpi := ⟨false, 0, fun _ => 0, fun _ => 0⟩

/-- A dump file of `size` bytes, all equal to `b`, at position 0. -/
def constFile (size : Nat) (b : Byte) : RamFile := ⟨size, fun _ => b, 0, fun _ => 0⟩

/-- A buffer holding the bytes 0, 1, 2, .. -/
def rampBytes : Nat → Byte := fun i => ⟨i % 256, Nat.mod_lt _ (by decide)⟩

/-- A write primitive that always returns `Status` and does nothing. -/
def constWrite (Status : Nat) : WriteTx Unit := fun _ _ _ _ s => (Status, s)

/-- A read primitive that always returns `Status` and leaves the buffer alone. -/
def constRead (Status : Nat) : ReadTx Unit := fun _ _ Mem _ s => ((Status, Mem), s)

/-- The one write transaction of a transfer whose first transaction fails, source all `0xFF`. -/
def failedWrite : TxRecord := ⟨ME_FIRMWARE_START, 16, List.replicate 16 0xFF, EFI_DEVICE_ERROR⟩

/-- The one read transaction of a verify whose first transaction fails, buffer all zero. -/
def failedRead : TxRecord := ⟨ME_FIRMWARE_START, 16, List.replicate 16 0, EFI_DEVICE_ERROR⟩

/-- The file-scope variables as initialised: controller not mapped, nothing saved. -/
def initialGlobals : Globals := ⟨0, 0, false⟩

/-- The globals with the controller mapped and the divider field `0x100` saved. -/
def savedGlobals : Globals := ⟨0x7c120000, 0x100, false⟩

/-- Writable masks of a register file all of whose bits can be written. -/
def allWritable : Nat → Nat := fun _ => 0xFFFFFFFF

/-- Writable masks of a register file no bit of which can be written. -/
def readOnly : Nat → Nat := fun _ => 0

/-- Writable masks of a register file in which only the register at `a` can be written. -/
def onlyWritable (a : Nat) : Nat → Nat := fun x => if x = a then 0xFFFFFFFF else 0

/-- A register file all of whose registers hold 0. -/
def zeroRegs : Nat → Nat := fun _ => 0

/-- A register file all of whose registers hold `0x400`: idle, divider field `0x400`. -/
def slowRegs : Nat → Nat := fun _ => 0x400

/-- A register file whose `FREG2` (controller at `SPI_MMIO_BASE`) holds `0x0EC70126`. -/
def meRegs : Nat → Nat := fun a => if a = SPI_MMIO_BASE + SPI_FREG2 then 0x0EC70126 else 0

/-- A register file (controller at `SPI_MMIO_BASE`) with `FLOCKDN` set in the status
register and the ME write-protect bit, bit 2, set in `FRAP`. -/
def lockedRegs : Nat → Nat := fun a =>
  if a = SPI_MMIO_BASE + SPI_FRAP then 0x00000004
  else if a = SPI_MMIO_BASE + SPI_HSFSTS_CTL then 0x00008000 else 0

/-- A device whose every register reads `v`, whatever is written. -/
def constSpi (v : Nat) : Hardware Unit where
  MmioRead32 := fun _ s => (v, s)
  MmioWrite32 := fun _ _ s => s
  Stall := fun _ s => s

/-- A controller at `base` whose every flash cycle completes with an error: the status
register reads 0 (idle, no flag) until a go-bit is written and `FDONE | FCERR` from then on;
every other register reads `fdata`. The state tells whether a cycle was started. -/
def failingSpi (base fdata : Nat) : Hardware Bool where
  MmioRead32 := fun a s =>
    if a = base + SPI_HSFSTS_CTL then
      (if s then HSFSTS_CTL_FDONE ||| HSFSTS_CTL_FCERR else 0, s)
    else (fdata, s)
  MmioWrite32 := fun a v s =>
    if a = base + SPI_HSFSTS_CTL ∧ v &&& HSFSTS_CTL_FGO ≠ 0 then true else s
  Stall := fun _ s => s

/-- A controller that is busy for ever: every register reads `0x20`, the flag `SCIP` alone,
whatever is written. The state is the list of the register writes made, as pairs of address
and value, the latest last. -/
def busySpi : Hardware (List (Nat × Nat)) where
  MmioRead32 := fun _ s => (HSFSTS_CTL_SCIP, s)
  MmioWrite32 := fun a v s => s ++ [(a, v)]
  Stall := fun _ s => s

/-- An empty dump file. -/
def emptyFile : RamFile := ⟨0, fun _ => 0, 0, fun _ => 0⟩

/-! # Theorems -/

/-! ## The single-transaction primitives -/

theorem wordByte_CopyMemToWord (Mem : Nat → Byte) (p c b : Nat) (hb : b < c) (hc : c ≤ 4) :
    wordByte (CopyMemToWord Mem p c) b = Mem (p + b) := by
  have h0 := (Mem p).isLt
  have h1 := (Mem (p + 1)).isLt
  have h2 := (Mem (p + 2)).isLt
  have h3 := (Mem (p + 3)).isLt
  apply Fin.ext
  interval_cases c <;> interval_cases b <;>
    simp only [wordByte, CopyMemToWord, Nat.add_zero] <;> norm_num <;> omega

theorem idealSpi_read_status (b : Nat) (s : IdealSpi) :
    (idealSpi b).MmioRead32 (b + SPI_HSFSTS_CTL) s =
      ((if s.done then HSFSTS_CTL_FDONE else 0), s) := by
  simp [idealSpi]

theorem idealSpi_stall (b t : Nat) (s : IdealSpi) : (idealSpi b).Stall t s = s := rfl

theorem idealSpi_write_faddr (b v : Nat) (s : IdealSpi) :
    (idealSpi b).MmioWrite32 (b + SPI_FADDR) v s = { s with faddr := v } := by
  simp [idealSpi, SPI_FADDR, SPI_HSFSTS_CTL]

theorem fdataIndex_fdata (b k : Nat) (hk : k < 16) :
    fdataIndex b (b + SPI_FDATA0 + 4 * k) = some k := by
  unfold fdataIndex
  rw [if_pos (by omega)]
  congr 1
  omega

theorem idealSpi_write_fdata (b k v : Nat) (hk : k < 16) (s : IdealSpi) :
    (idealSpi b).MmioWrite32 (b + SPI_FDATA0 + 4 * k) v s =
      { s with fdata := fun j => if j = k then v else s.fdata j } := by
  have h1 : b + SPI_FDATA0 + 4 * k ≠ b + SPI_HSFSTS_CTL := by
    simp only [SPI_FDATA0, SPI_HSFSTS_CTL]; omega
  have h2 : b + SPI_FDATA0 + 4 * k ≠ b + SPI_FADDR := by
    simp only [SPI_FDATA0, SPI_FADDR]; omega
  simp only [idealSpi, if_neg h1, if_neg h2, fdataIndex_fdata b k hk]

theorem idealSpi_read_fdata (b k : Nat) (hk : k < 16) (s : IdealSpi) :
    (idealSpi b).MmioRead32 (b + SPI_FDATA0 + 4 * k) s = (s.fdata k, s) := by
  have h1 : b + SPI_FDATA0 + 4 * k ≠ b + SPI_HSFSTS_CTL := by
    simp only [SPI_FDATA0, SPI_HSFSTS_CTL]; omega
  have h2 : b + SPI_FDATA0 + 4 * k ≠ b + SPI_FADDR := by
    simp only [SPI_FDATA0, SPI_FADDR]; omega
  simp only [idealSpi, if_neg h1, if_neg h2, fdataIndex_fdata b k hk]

theorem waitNotBusy_ideal (b T h : Nat) (s : IdealSpi) :
    waitNotBusy (idealSpi b) b (T + 1) h s =
      (T + 1, (if s.done then HSFSTS_CTL_FDONE else 0), s) := by
  have h1 : HSFSTS_CTL_FDONE &&& HSFSTS_CTL_SCIP = 0 := by decide
  have h2 : 0 &&& HSFSTS_CTL_SCIP = 0 := by decide
  rw [waitNotBusy, idealSpi_read_status]
  cases hd : s.done <;> simp [h1, h2]

theorem waitComplete_ideal (b T : Nat) (s : IdealSpi) (hd : s.done = true) :
    waitComplete (idealSpi b) b (T + 1) s = (none, T + 1, s) := by
  have h1 : HSFSTS_CTL_FDONE &&& HSFSTS_CTL_FDONE ≠ 0 := by decide
  rw [waitComplete, idealSpi_read_status]
  simp only [hd, if_true, if_pos h1]

theorem writeFdata_ideal (b : Nat) (Mem : Nat → Byte) (p n : Nat) (m : Nat) (s : IdealSpi) :
    writeFdata (idealSpi b) b Mem p n (4 * m) s =
      { s with fdata := fun k =>
          if m ≤ k ∧ 4 * k < n ∧ k < 4 then CopyMemToWord Mem (p + 4 * k) (min 4 (n - 4 * k))
          else s.fdata k } := by
  generalize hr : 4 - m = r
  induction r using Nat.strong_induction_on generalizing m s with
  | _ r ih =>
    rw [writeFdata]
    split
    · rename_i hc
      have := ih (4 - (m + 1)) (by omega) (m + 1) ((idealSpi b).MmioWrite32 (b + SPI_FDATA0 + 4 * m)
        (CopyMemToWord Mem (p + 4 * m) (if n - 4 * m < 4 then n - 4 * m else 4)) s) rfl
      simp only []
      rw [show 4 * m + 4 = 4 * (m + 1) by ring, this, idealSpi_write_fdata b m _ (by omega)]
      congr 1
      funext k
      by_cases hk : k = m
      · subst hk
        have : min 4 (n - 4 * k) = if n - 4 * k < 4 then n - 4 * k else 4 := by
          split <;> omega
        simp [hc.1, show k < 4 by omega, this]
      · by_cases h2 : m + 1 ≤ k ∧ 4 * k < n ∧ k < 4
        · simp only [if_pos h2]
          rw [if_pos ⟨by omega, h2.2⟩]
        · simp only [if_neg h2, if_neg hk]
          rw [if_neg (by omega)]
    · rename_i hc
      cases s
      congr 1
      funext k
      rw [if_neg (by omega)]

theorem readFdata_ideal (b p n m : Nat) (Mem : Nat → Byte) (s : IdealSpi) :
    readFdata (idealSpi b) b p n (4 * m) Mem s =
      ((fun j => if p + 4 * m ≤ j ∧ j < p + n ∧ j < p + 16 then s.dataByte (j - p) else Mem j), s) := by
  generalize hr : 4 - m = r
  induction r using Nat.strong_induction_on generalizing m Mem with
  | _ r ih =>
    rw [readFdata]
    split
    · rename_i hc
      simp only []
      rw [show 4 * m + 4 = 4 * (m + 1) by ring, idealSpi_read_fdata b m (by omega)]
      simp only []
      rw [ih (4 - (m + 1)) (by omega) (m + 1) _ rfl]
      congr 1
      funext j
      by_cases h1 : p + 4 * (m + 1) ≤ j ∧ j < p + n ∧ j < p + 16
      · rw [if_pos h1, if_pos ⟨by omega, h1.2⟩]
      · rw [if_neg h1]
        unfold CopyMemFromWord
        by_cases h2 : p + 4 * m ≤ j ∧ j < p + n ∧ j < p + 16
        · rw [if_pos h2, if_pos (by split <;> omega)]
          unfold IdealSpi.dataByte
          rw [show (j - p) / 4 = m by omega, show (j - p) % 4 = j - (p + 4 * m) by omega]
        · rw [if_neg h2, if_neg (by split <;> omega)]
    · rename_i hc
      congr 1
      funext j
      rw [if_neg (by omega)]

theorem ctl_write_decode (n : Nat) (h1 : 1 ≤ n) (h16 : n ≤ 16) :
    let v := ((HSFSTS_CTL_FCYCLE_WRITE <<< HSFSTS_CTL_FCYCLE_SHIFT) |||
      ((n - 1) <<< HSFSTS_CTL_FDBC_SHIFT) ||| HSFSTS_CTL_FGO) % 2 ^ 32
    v &&& HSFSTS_CTL_FGO ≠ 0 ∧ (v >>> HSFSTS_CTL_FDBC_SHIFT) % 64 + 1 = n ∧
      (v >>> HSFSTS_CTL_FCYCLE_SHIFT) % 4 = HSFSTS_CTL_FCYCLE_WRITE := by
  interval_cases n <;> decide

theorem ctl_read_decode (n : Nat) (h1 : 1 ≤ n) (h16 : n ≤ 16) :
    let v := ((HSFSTS_CTL_FCYCLE_READ <<< HSFSTS_CTL_FCYCLE_SHIFT) |||
      ((n - 1) <<< HSFSTS_CTL_FDBC_SHIFT) ||| HSFSTS_CTL_FGO) % 2 ^ 32
    v &&& HSFSTS_CTL_FGO ≠ 0 ∧ (v >>> HSFSTS_CTL_FDBC_SHIFT) % 64 + 1 = n ∧
      (v >>> HSFSTS_CTL_FCYCLE_SHIFT) % 4 = HSFSTS_CTL_FCYCLE_READ := by
  interval_cases n <;> decide

theorem idealSpi_write_ctl_write (b v n : Nat) (s : IdealSpi)
    (hv : v &&& HSFSTS_CTL_FGO ≠ 0 ∧ (v >>> HSFSTS_CTL_FDBC_SHIFT) % 64 + 1 = n ∧
      (v >>> HSFSTS_CTL_FCYCLE_SHIFT) % 4 = HSFSTS_CTL_FCYCLE_WRITE) :
    (idealSpi b).MmioWrite32 (b + SPI_HSFSTS_CTL) v s =
      { s with
        done := true
        flash := fun x => if s.faddr ≤ x ∧ x < s.faddr + n then s.dataByte (x - s.faddr) else s.flash x } := by
  simp only [idealSpi, if_true, if_pos hv.1, hv.2.1, hv.2.2]

theorem idealSpi_write_ctl_read (b v n : Nat) (s : IdealSpi)
    (hv : v &&& HSFSTS_CTL_FGO ≠ 0 ∧ (v >>> HSFSTS_CTL_FDBC_SHIFT) % 64 + 1 = n ∧
      (v >>> HSFSTS_CTL_FCYCLE_SHIFT) % 4 = HSFSTS_CTL_FCYCLE_READ) :
    (idealSpi b).MmioWrite32 (b + SPI_HSFSTS_CTL) v s =
      { s with
        done := true
        fdata := fun k =>
          if 4 * k < n then CopyMemToWord s.flash (s.faddr + 4 * k) (min 4 (n - 4 * k))
          else s.fdata k } := by
  have hne : HSFSTS_CTL_FCYCLE_READ ≠ HSFSTS_CTL_FCYCLE_WRITE := by decide
  simp only [idealSpi, if_true, if_pos hv.1, hv.2.1, hv.2.2, if_neg hne]

/-- What `WriteSpiChunk` does on the ideal controller: it succeeds and the `DataSize` bytes
at `Data` are stored at `FlashAddr`, the rest of the flash being untouched. -/
theorem WriteSpiChunk_ideal (g : Globals) (hb : g.mSpiMmioBase ≠ 0) (addr p n : Nat)
    (h1 : 1 ≤ n) (h16 : n ≤ 16) (Mem : Nat → Byte) (s : IdealSpi) :
    (WriteSpiChunk (idealSpi g.mSpiMmioBase) g addr (some p) Mem n s).1 = EFI_SUCCESS ∧
    (WriteSpiChunk (idealSpi g.mSpiMmioBase) g addr (some p) Mem n s).2.flash =
      (fun x => if addr ≤ x ∧ x < addr + n then Mem (p + (x - addr)) else s.flash x) := by
  have hguard : ¬ (g.mSpiMmioBase = 0 ∨ (some p : Option Nat) = none ∨ n = 0 ∨ n > 16) := by
    simp; omega
  have hF : (if s.done then HSFSTS_CTL_FDONE else 0) &&& HSFSTS_CTL_FCERR = 0 := by
    cases s.done <;> decide
  unfold WriteSpiChunk
  rw [if_neg hguard]
  simp only [show (1000 : Nat) = 999 + 1 from rfl, waitNotBusy_ideal]
  rw [if_neg (by omega)]
  simp only [hF, ne_eq, not_true_eq_false, if_false, idealSpi_write_faddr, Option.getD_some]
  rw [show (0 : Nat) = 4 * 0 from rfl, writeFdata_ideal]
  rw [idealSpi_write_ctl_write _ _ n _ (ctl_write_decode n h1 h16)]
  simp only [show (10000 : Nat) = 9999 + 1 from rfl]
  rw [waitComplete_ideal _ _ _ rfl]
  simp only []
  rw [if_neg (by omega)]
  refine ⟨rfl, ?_⟩
  funext x
  by_cases hx : addr ≤ x ∧ x < addr + n
  · simp only [if_pos hx, IdealSpi.dataByte]
    rw [if_pos (by omega), wordByte_CopyMemToWord _ _ _ _ (by omega) (by omega)]
    congr 1
    omega
  · simp only [if_neg hx]

/-- What `ReadSpiChunk` does on the ideal controller: it succeeds, the flash is unchanged
and the `DataSize` bytes at `FlashAddr` are copied to `Data`, the rest of the buffer being
untouched. -/
theorem ReadSpiChunk_ideal (g : Globals) (hb : g.mSpiMmioBase ≠ 0) (addr p n : Nat)
    (h1 : 1 ≤ n) (h16 : n ≤ 16) (Mem : Nat → Byte) (s : IdealSpi) :
    (ReadSpiChunk (idealSpi g.mSpiMmioBase) g addr (some p) Mem n s).1.1 = EFI_SUCCESS ∧
    (ReadSpiChunk (idealSpi g.mSpiMmioBase) g addr (some p) Mem n s).1.2 =
      (fun j => if p ≤ j ∧ j < p + n then s.flash (addr + (j - p)) else Mem j) ∧
    (ReadSpiChunk (idealSpi g.mSpiMmioBase) g addr (some p) Mem n s).2.flash = s.flash := by
  have hguard : ¬ (g.mSpiMmioBase = 0 ∨ (some p : Option Nat) = none ∨ n = 0 ∨ n > 16) := by
    simp; omega
  have hF : (if s.done then HSFSTS_CTL_FDONE else 0) &&& HSFSTS_CTL_FCERR = 0 := by
    cases s.done <;> decide
  unfold ReadSpiChunk
  rw [if_neg hguard]
  simp only [show (1000 : Nat) = 999 + 1 from rfl, waitNotBusy_ideal]
  rw [if_neg (by omega)]
  simp only [hF, ne_eq, not_true_eq_false, if_false, idealSpi_write_faddr, Option.getD_some]
  rw [idealSpi_write_ctl_read _ _ n _ (ctl_read_decode n h1 h16)]
  simp only [show (10000 : Nat) = 9999 + 1 from rfl]
  rw [waitComplete_ideal _ _ _ rfl]
  simp only []
  rw [if_neg (by omega)]
  have hz : readFdata (idealSpi g.mSpiMmioBase) g.mSpiMmioBase p n 0 Mem =
      readFdata (idealSpi g.mSpiMmioBase) g.mSpiMmioBase p n (4 * 0) Mem := rfl
  rw [hz, readFdata_ideal]
  refine ⟨rfl, ?_, rfl⟩
  funext j
  by_cases hj : p ≤ j ∧ j < p + n
  · simp only [if_pos hj, IdealSpi.dataByte]
    rw [if_pos (by omega), if_pos (by omega), wordByte_CopyMemToWord _ _ _ _ (by omega) (by omega)]
    congr 1
    omega
  · simp only [if_neg hj]
    rw [if_neg (by omega)]

/-- C1. Round trip on the ideal controller: for every size `n` in `1..16`, every flash
address and every buffer `d`, `WriteSpiChunk (addr, d, n)` followed by
`ReadSpiChunk (addr, out, n)` both return `EFI_SUCCESS` and `out[0..n) = d[0..n)`. -/
theorem spi_chunk_round_trip (g : Globals) (hb : g.mSpiMmioBase ≠ 0) (n : Nat) (h1 : 1 ≤ n)
    (h16 : n ≤ 16) (addr : Nat) (d out : Nat → Byte) (pd po : Nat) (s : IdealSpi) :
    (WriteSpiChunk (idealSpi g.mSpiMmioBase) g addr (some pd) d n s).1 = EFI_SUCCESS ∧
    (ReadSpiChunk (idealSpi g.mSpiMmioBase) g addr (some po) out n
      (WriteSpiChunk (idealSpi g.mSpiMmioBase) g addr (some pd) d n s).2).1.1 = EFI_SUCCESS ∧
    ∀ i, i < n →
      (ReadSpiChunk (idealSpi g.mSpiMmioBase) g addr (some po) out n
        (WriteSpiChunk (idealSpi g.mSpiMmioBase) g addr (some pd) d n s).2).1.2 (po + i) =
      d (pd + i) := by
  have hw := WriteSpiChunk_ideal g hb addr pd n h1 h16 d s
  have hr := ReadSpiChunk_ideal g hb addr po n h1 h16 out
    (WriteSpiChunk (idealSpi g.mSpiMmioBase) g addr (some pd) d n s).2
  refine ⟨hw.1, hr.1, ?_⟩
  intro i hi
  rw [hr.2.1, hw.2]
  simp only []
  rw [if_pos (by omega), if_pos (by omega)]
  congr 1
  omega

/-- C2. With `DataSize = 0` or `DataSize > 16`, `WriteSpiChunk` and `ReadSpiChunk` return
`EFI_INVALID_PARAMETER` on any hardware, leaving the device state (hence every register) and
the output buffer as they were: no register is read or written. -/
theorem spi_chunk_bad_size {σ : Type} (H : Hardware σ) (g : Globals) (addr : Nat)
    (Data : Option Nat) (Mem : Nat → Byte) (n : Nat) (s : σ) (hn : n = 0 ∨ n > 16) :
    WriteSpiChunk H g addr Data Mem n s = (EFI_INVALID_PARAMETER, s) ∧
    ReadSpiChunk H g addr Data Mem n s = ((EFI_INVALID_PARAMETER, Mem), s) := by
  have hguard : g.mSpiMmioBase = 0 ∨ Data = none ∨ n = 0 ∨ n > 16 := Or.inr (Or.inr hn)
  constructor
  · unfold WriteSpiChunk
    rw [if_pos hguard]
  · unfold ReadSpiChunk
    rw [if_pos hguard]

/-! ## The verify/restore loop of `ShellAppMain` -/

/-- One turn of the loop over recorded callees, written out: the journal grows by the calls
made, and the loop goes round again only after a restore that went through. -/
theorem verifyRestoreLoop_recorded {ω : Type} (ops : AppOps ω) (Max RA : Nat) (w : ω)
    (j : List Call) :
    verifyRestoreLoop ops.recorded Max RA (w, j) =
      if EFI_ERROR (ops.VerifyMeFirmware w).1.Status then
        (⟨(ops.VerifyMeFirmware w).1.Status, (ops.VerifyMeFirmware w).1.Matches, RA⟩,
          (ops.VerifyMeFirmware w).2, j ++ [Call.VerifyMeFirmware (ops.VerifyMeFirmware w).1])
      else if (ops.VerifyMeFirmware w).1.Matches then
        (⟨(ops.VerifyMeFirmware w).1.Status, true, RA⟩,
          (ops.VerifyMeFirmware w).2, j ++ [Call.VerifyMeFirmware (ops.VerifyMeFirmware w).1])
      else if RA + 1 ≤ Max then
        if EFI_ERROR (ops.ShellSetFilePosition 0 (ops.VerifyMeFirmware w).2).1 then
          (⟨(ops.ShellSetFilePosition 0 (ops.VerifyMeFirmware w).2).1, false, RA + 1⟩,
            (ops.ShellSetFilePosition 0 (ops.VerifyMeFirmware w).2).2,
            j ++ [Call.VerifyMeFirmware (ops.VerifyMeFirmware w).1,
              Call.ShellSetFilePosition 0 (ops.ShellSetFilePosition 0 (ops.VerifyMeFirmware w).2).1])
        else if EFI_ERROR (ops.RestoreMeFirmware
            (ops.ShellSetFilePosition 0 (ops.VerifyMeFirmware w).2).2).1 then
          (⟨(ops.RestoreMeFirmware (ops.ShellSetFilePosition 0 (ops.VerifyMeFirmware w).2).2).1,
              false, RA + 1⟩,
            (ops.RestoreMeFirmware (ops.ShellSetFilePosition 0 (ops.VerifyMeFirmware w).2).2).2,
            j ++ [Call.VerifyMeFirmware (ops.VerifyMeFirmware w).1,
              Call.ShellSetFilePosition 0 (ops.ShellSetFilePosition 0 (ops.VerifyMeFirmware w).2).1,
              Call.RestoreMeFirmware (ops.RestoreMeFirmware
                (ops.ShellSetFilePosition 0 (ops.VerifyMeFirmware w).2).2).1])
        else if EFI_ERROR (ops.ShellSetFilePosition 0 (ops.RestoreMeFirmware
            (ops.ShellSetFilePosition 0 (ops.VerifyMeFirmware w).2).2).2).1 then
          (⟨(ops.ShellSetFilePosition 0 (ops.RestoreMeFirmware
              (ops.ShellSetFilePosition 0 (ops.VerifyMeFirmware w).2).2).2).1, false, RA + 1⟩,
            (ops.ShellSetFilePosition 0 (ops.RestoreMeFirmware
              (ops.ShellSetFilePosition 0 (ops.VerifyMeFirmware w).2).2).2).2,
            j ++ [Call.VerifyMeFirmware (ops.VerifyMeFirmware w).1,
              Call.ShellSetFilePosition 0 (ops.ShellSetFilePosition 0 (ops.VerifyMeFirmware w).2).1,
              Call.RestoreMeFirmware (ops.RestoreMeFirmware
                (ops.ShellSetFilePosition 0 (ops.VerifyMeFirmware w).2).2).1,
              Call.ShellSetFilePosition 0 (ops.ShellSetFilePosition 0 (ops.RestoreMeFirmware
                (ops.ShellSetFilePosition 0 (ops.VerifyMeFirmware w).2).2).2).1])
        else
          verifyRestoreLoop ops.recorded Max (RA + 1)
            ((ops.ShellSetFilePosition 0 (ops.RestoreMeFirmware
              (ops.ShellSetFilePosition 0 (ops.VerifyMeFirmware w).2).2).2).2,
            j ++ [Call.VerifyMeFirmware (ops.VerifyMeFirmware w).1,
              Call.ShellSetFilePosition 0 (ops.ShellSetFilePosition 0 (ops.VerifyMeFirmware w).2).1,
              Call.RestoreMeFirmware (ops.RestoreMeFirmware
                (ops.ShellSetFilePosition 0 (ops.VerifyMeFirmware w).2).2).1,
              Call.ShellSetFilePosition 0 (ops.ShellSetFilePosition 0 (ops.RestoreMeFirmware
                (ops.ShellSetFilePosition 0 (ops.VerifyMeFirmware w).2).2).2).1])
      else
        (⟨EFI_DEVICE_ERROR, false, RA + 1⟩,
          (ops.VerifyMeFirmware w).2, j ++ [Call.VerifyMeFirmware (ops.VerifyMeFirmware w).1]) := by
  rw [verifyRestoreLoop]
  simp only [verifyRestoreBody, AppOps.recorded]
  by_cases h1 : EFI_ERROR (ops.VerifyMeFirmware w).1.Status = true
  · simp [h1]
  by_cases h2 : (ops.VerifyMeFirmware w).1.Matches = true
  · simp [h1, h2]
  by_cases h3 : RA + 1 ≤ Max
  swap
  · simp [h1, h2, h3]
  by_cases h4 : EFI_ERROR (ops.ShellSetFilePosition 0 (ops.VerifyMeFirmware w).2).1 = true
  · simp [h1, h2, h3, h4]
  by_cases h5 : EFI_ERROR (ops.RestoreMeFirmware
      (ops.ShellSetFilePosition 0 (ops.VerifyMeFirmware w).2).2).1 = true
  · simp [h1, h2, h3, h4, h5]
  by_cases h6 : EFI_ERROR (ops.ShellSetFilePosition 0 (ops.RestoreMeFirmware
      (ops.ShellSetFilePosition 0 (ops.VerifyMeFirmware w).2).2).2).1 = true
  · simp [h1, h2, h3, h4, h5, h6]
  · simp [h1, h2, h3, h4, h5, h6]

theorem restoreCalls_append (a b : List Call) :
    restoreCalls (a ++ b) = restoreCalls a + restoreCalls b := by
  simp [restoreCalls, List.filter_append]

theorem verifyCalls_append (a b : List Call) :
    verifyCalls (a ++ b) = verifyCalls a + verifyCalls b := by
  simp [verifyCalls, List.filter_append]

/-- A turn of the loop that calls `RestoreMeFirmware` uses up one of the attempts left. -/
theorem restoreCalls_loop_le {ω : Type} (ops : AppOps ω) (Max RA : Nat) (w : ω) (j : List Call) :
    restoreCalls (verifyRestoreLoop ops.recorded Max RA (w, j)).2.2 ≤
      restoreCalls j + (Max - RA) := by
  generalize hr : Max + 1 - RA = r
  induction r using Nat.strong_induction_on generalizing RA w j with
  | _ r ih =>
    rw [verifyRestoreLoop_recorded]
    split_ifs with h1 h2 h3 h4 h5 h6
    · simp [restoreCalls_append, restoreCalls]
    · simp [restoreCalls_append, restoreCalls]
    · simp [restoreCalls_append, restoreCalls]
    · simp [restoreCalls_append, restoreCalls]; omega
    · simp [restoreCalls_append, restoreCalls]; omega
    · refine le_trans (ih (Max + 1 - (RA + 1)) (by omega) (RA + 1) _ _ rfl) ?_
      simp [restoreCalls_append, restoreCalls]; omega
    · simp [restoreCalls_append, restoreCalls]

/-- When every verify reports a mismatch and nothing returns an error, the loop uses all the
attempts left and ends with `EFI_DEVICE_ERROR`. -/
theorem verifyRestoreLoop_never_matches {ω : Type} (ops : AppOps ω)
    (hv : ∀ x, EFI_ERROR (ops.VerifyMeFirmware x).1.Status = false ∧
      (ops.VerifyMeFirmware x).1.Matches = false)
    (hs : ∀ p x, EFI_ERROR (ops.ShellSetFilePosition p x).1 = false)
    (hrs : ∀ x, EFI_ERROR (ops.RestoreMeFirmware x).1 = false)
    (Max RA : Nat) (hle : RA ≤ Max) (w : ω) (j : List Call) :
    (verifyRestoreLoop ops.recorded Max RA (w, j)).1.Status = EFI_DEVICE_ERROR ∧
    (verifyRestoreLoop ops.recorded Max RA (w, j)).1.Matches = false ∧
    restoreCalls (verifyRestoreLoop ops.recorded Max RA (w, j)).2.2 =
      restoreCalls j + (Max - RA) ∧
    verifyCalls (verifyRestoreLoop ops.recorded Max RA (w, j)).2.2 =
      verifyCalls j + (Max - RA) + 1 := by
  generalize hr : Max - RA = r
  induction r generalizing RA w j with
  | zero =>
    rw [verifyRestoreLoop_recorded]
    simp only [hv, hs, hrs, Bool.false_eq_true, if_false]
    rw [if_neg (by omega)]
    simp [restoreCalls_append, restoreCalls, verifyCalls_append, verifyCalls]
  | succ r ih =>
    rw [verifyRestoreLoop_recorded]
    simp only [hv, hs, hrs, Bool.false_eq_true, if_false]
    rw [if_pos (by omega)]
    obtain ⟨i1, i2, i3, i4⟩ := ih (RA + 1) (by omega)
      (ops.ShellSetFilePosition 0 (ops.RestoreMeFirmware
        (ops.ShellSetFilePosition 0 (ops.VerifyMeFirmware w).2).2).2).2
      (j ++ [Call.VerifyMeFirmware (ops.VerifyMeFirmware w).1,
        Call.ShellSetFilePosition 0 (ops.ShellSetFilePosition 0 (ops.VerifyMeFirmware w).2).1,
        Call.RestoreMeFirmware (ops.RestoreMeFirmware
          (ops.ShellSetFilePosition 0 (ops.VerifyMeFirmware w).2).2).1,
        Call.ShellSetFilePosition 0 (ops.ShellSetFilePosition 0 (ops.RestoreMeFirmware
          (ops.ShellSetFilePosition 0 (ops.VerifyMeFirmware w).2).2).2).1]) (by omega)
    refine ⟨i1, i2, ?_, ?_⟩
    · rw [i3]; simp [restoreCalls_append, restoreCalls]; omega
    · rw [i4]; simp [verifyCalls_append, verifyCalls]; omega

theorem ShellAppMain_exit_recorded {ω : Type} (ops : AppOps ω) (l : LoopVars × ω × List Call) :
    ShellAppMain_exit ops.recorded l =
      ((if EFI_ERROR l.1.Status ∨ l.1.Matches = false then 1 else 0),
        (ops.ShellCloseFile (ops.RestoreSpiClockSpeed l.2.1).2).2,
        l.2.2 ++ [Call.RestoreSpiClockSpeed (ops.RestoreSpiClockSpeed l.2.1).1,
          Call.ShellCloseFile (ops.ShellCloseFile (ops.RestoreSpiClockSpeed l.2.1).2).1]) := by
  unfold ShellAppMain_exit
  simp only [AppOps.recorded]
  by_cases h1 : EFI_ERROR l.1.Status = true
  · simp [h1]
  · cases h2 : l.1.Matches <;> simp [h1, h2]

/-- C6. Retry bound. In every execution the verify/restore block of `ShellAppMain` makes at
most 3 `RestoreMeFirmware` calls. If every `VerifyMeFirmware` call reports a mismatch and
no call returns an error, `RestoreMeFirmware` is called exactly 3 times (after 4 verifies),
the loop ends with `Status = EFI_DEVICE_ERROR` and the application returns 1. -/
theorem retry_bound {ω : Type} (ops : AppOps ω) (w : ω) :
    restoreCalls (ShellAppMain_verify ops.recorded (w, [])).2.2 ≤ 3 ∧
    ((∀ x, EFI_ERROR (ops.VerifyMeFirmware x).1.Status = false ∧
        (ops.VerifyMeFirmware x).1.Matches = false) →
      (∀ p x, EFI_ERROR (ops.ShellSetFilePosition p x).1 = false) →
      (∀ x, EFI_ERROR (ops.RestoreMeFirmware x).1 = false) →
      restoreCalls (ShellAppMain_verify ops.recorded (w, [])).2.2 = 3 ∧
      verifyCalls (ShellAppMain_verify ops.recorded (w, [])).2.2 = 4 ∧
      (verifyRestoreLoop ops.recorded 3 0 (w, [])).1.Status = EFI_DEVICE_ERROR ∧
      (ShellAppMain_verify ops.recorded (w, [])).1 = 1) := by
  unfold ShellAppMain_verify
  rw [ShellAppMain_exit_recorded]
  constructor
  · have := restoreCalls_loop_le ops 3 0 w []
    simp [restoreCalls_append] at this ⊢
    simpa [restoreCalls] using this
  · intro hv hs hrs
    obtain ⟨i1, i2, i3, i4⟩ := verifyRestoreLoop_never_matches ops hv hs hrs 3 0 (by omega) w []
    refine ⟨?_, ?_, i1, ?_⟩
    · simp only [restoreCalls_append, i3]; simp [restoreCalls]
    · simp only [verifyCalls_append, i4]; simp [verifyCalls]
    · simp [i2]

/-- The journal of the loop: either no verify, seek or restore call in it failed, or exactly
the last one did, and then the loop ends with that error status. -/
theorem verifyRestoreLoop_journal {ω : Type} (ops : AppOps ω) (Max RA : Nat) (w : ω)
    (j : List Call) :
    ∃ new, (verifyRestoreLoop ops.recorded Max RA (w, j)).2.2 = j ++ new ∧
      ((∀ c ∈ new, Call.transferFailed c = false) ∨
        (∃ pre c, new = pre ++ [c] ∧ Call.transferFailed c = true ∧
          (∀ x ∈ pre, Call.transferFailed x = false) ∧
          EFI_ERROR (verifyRestoreLoop ops.recorded Max RA (w, j)).1.Status = true)) := by
  generalize hr : Max + 1 - RA = r
  induction r using Nat.strong_induction_on generalizing RA w j with
  | _ r ih =>
    rw [verifyRestoreLoop_recorded]
    split_ifs with h1 h2 h3 h4 h5 h6
    all_goals (try have h1 := Bool.of_not_eq_true h1)
    all_goals (try have h4 := Bool.of_not_eq_true h4)
    all_goals (try have h5 := Bool.of_not_eq_true h5)
    all_goals (try have h6 := Bool.of_not_eq_true h6)
    · exact ⟨_, rfl, Or.inr ⟨[], _, rfl, by simpa [Call.transferFailed] using h1, by simp, h1⟩⟩
    · exact ⟨_, rfl, Or.inl (by simpa [Call.transferFailed] using h1)⟩
    · refine ⟨_, rfl, Or.inr ⟨[_], _, rfl, ?_, ?_, h4⟩⟩
      · simpa [Call.transferFailed] using h4
      · simpa [Call.transferFailed] using h1
    · refine ⟨_, rfl, Or.inr ⟨[_, _], _, rfl, ?_, ?_, h5⟩⟩
      · simpa [Call.transferFailed] using h5
      · simpa [Call.transferFailed] using ⟨h1, h4⟩
    · refine ⟨_, rfl, Or.inr ⟨[_, _, _], _, rfl, ?_, ?_, h6⟩⟩
      · simpa [Call.transferFailed] using h6
      · simpa [Call.transferFailed] using ⟨h1, h4, h5⟩
    · obtain ⟨new, e, hnew⟩ := ih (Max + 1 - (RA + 1)) (by omega) (RA + 1)
        (ops.ShellSetFilePosition 0 (ops.RestoreMeFirmware
          (ops.ShellSetFilePosition 0 (ops.VerifyMeFirmware w).2).2).2).2
        (j ++ [Call.VerifyMeFirmware (ops.VerifyMeFirmware w).1,
          Call.ShellSetFilePosition 0 (ops.ShellSetFilePosition 0 (ops.VerifyMeFirmware w).2).1,
          Call.RestoreMeFirmware (ops.RestoreMeFirmware
            (ops.ShellSetFilePosition 0 (ops.VerifyMeFirmware w).2).2).1,
          Call.ShellSetFilePosition 0 (ops.ShellSetFilePosition 0 (ops.RestoreMeFirmware
            (ops.ShellSetFilePosition 0 (ops.VerifyMeFirmware w).2).2).2).1]) rfl
      have hclean : ∀ x ∈ [Call.VerifyMeFirmware (ops.VerifyMeFirmware w).1,
          Call.ShellSetFilePosition 0 (ops.ShellSetFilePosition 0 (ops.VerifyMeFirmware w).2).1,
          Call.RestoreMeFirmware (ops.RestoreMeFirmware
            (ops.ShellSetFilePosition 0 (ops.VerifyMeFirmware w).2).2).1,
          Call.ShellSetFilePosition 0 (ops.ShellSetFilePosition 0 (ops.RestoreMeFirmware
            (ops.ShellSetFilePosition 0 (ops.VerifyMeFirmware w).2).2).2).1],
          Call.transferFailed x = false := by
        simpa [Call.transferFailed] using ⟨h1, h4, h5, h6⟩
      refine ⟨[Call.VerifyMeFirmware (ops.VerifyMeFirmware w).1,
          Call.ShellSetFilePosition 0 (ops.ShellSetFilePosition 0 (ops.VerifyMeFirmware w).2).1,
          Call.RestoreMeFirmware (ops.RestoreMeFirmware
            (ops.ShellSetFilePosition 0 (ops.VerifyMeFirmware w).2).2).1,
          Call.ShellSetFilePosition 0 (ops.ShellSetFilePosition 0 (ops.RestoreMeFirmware
            (ops.ShellSetFilePosition 0 (ops.VerifyMeFirmware w).2).2).2).1] ++ new, by rw [e, List.append_assoc], ?_⟩
      rcases hnew with hc | ⟨pre, c, e2, hc, hpre, herr⟩
      · left
        intro c hcm
        rcases List.mem_append.1 hcm with h | h
        · exact hclean c h
        · exact hc c h
      · right
        refine ⟨[Call.VerifyMeFirmware (ops.VerifyMeFirmware w).1,
          Call.ShellSetFilePosition 0 (ops.ShellSetFilePosition 0 (ops.VerifyMeFirmware w).2).1,
          Call.RestoreMeFirmware (ops.RestoreMeFirmware
            (ops.ShellSetFilePosition 0 (ops.VerifyMeFirmware w).2).2).1,
          Call.ShellSetFilePosition 0 (ops.ShellSetFilePosition 0 (ops.RestoreMeFirmware
            (ops.ShellSetFilePosition 0 (ops.VerifyMeFirmware w).2).2).2).1] ++ pre, c, by rw [e2, List.append_assoc], hc, ?_, herr⟩
        intro x hx
        rcases List.mem_append.1 hx with h | h
        · exact hclean x h
        · exact hpre x h
    · exact ⟨_, rfl, Or.inl (by simpa [Call.transferFailed] using h1)⟩

/-- C9. In the verify/restore block of `ShellAppMain`, once a `VerifyMeFirmware`, a
`ShellSetFilePosition` or a `RestoreMeFirmware` call has returned an error status, no
`VerifyMeFirmware` or `RestoreMeFirmware` call follows it in the journal, and the
application returns 1. -/
theorem error_short_circuits {ω : Type} (ops : AppOps ω) (w : ω) (pre post : List Call)
    (c : Call) (hj : (ShellAppMain_verify ops.recorded (w, [])).2.2 = pre ++ c :: post)
    (hc : Call.transferFailed c = true) :
    (∀ x ∈ post, Call.isVerifyOrRestore x = false) ∧
    (ShellAppMain_verify ops.recorded (w, [])).1 = 1 := by
  unfold ShellAppMain_verify at hj ⊢
  rw [ShellAppMain_exit_recorded] at hj ⊢
  obtain ⟨new, e, hnew⟩ := verifyRestoreLoop_journal ops 3 0 w []
  simp only [List.nil_append] at e
  simp only [e] at hj
  rcases hnew with hclean | ⟨p0, c0, e2, hc0, hp0, herr⟩
  · exfalso
    have hmem : c ∈ new ++ [Call.RestoreSpiClockSpeed
        (ops.RestoreSpiClockSpeed (verifyRestoreLoop ops.recorded 3 0 (w, [])).2.1).1,
        Call.ShellCloseFile (ops.ShellCloseFile (ops.RestoreSpiClockSpeed
          (verifyRestoreLoop ops.recorded 3 0 (w, [])).2.1).2).1] := by
      rw [hj]; simp
    rcases List.mem_append.1 hmem with h | h
    · rw [hclean c h] at hc; exact Bool.false_ne_true hc
    · simp only [List.mem_cons, List.mem_singleton, List.not_mem_nil, or_false] at h
      rcases h with h | h <;> rw [h] at hc <;> simp [Call.transferFailed] at hc
  · constructor
    · subst e2
      rw [List.append_assoc] at hj
      rcases List.append_eq_append_iff.1 hj with ⟨a, ha, hb⟩ | ⟨a, ha, hb⟩
      · -- pre = p0 ++ a
        cases a with
        | nil =>
          simp only [List.nil_append, List.singleton_append, List.cons.injEq] at hb
          intro x hx
          rw [← hb.2] at hx
          simp only [List.mem_cons, List.mem_singleton, List.not_mem_nil, or_false] at hx
          rcases hx with h | h <;> rw [h] <;> rfl
        | cons a0 as =>
          simp only [List.singleton_append, List.cons_append, List.cons.injEq] at hb
          intro x hx
          have hx2 : x ∈ as ++ c :: post := by simp [hx]
          rw [← hb.2] at hx2
          simp only [List.nil_append, List.mem_cons, List.mem_singleton, List.not_mem_nil,
            or_false] at hx2
          rcases hx2 with h | h <;> rw [h] <;> rfl
      · -- p0 = pre ++ a
        cases a with
        | nil =>
          simp only [List.nil_append, List.singleton_append, List.cons.injEq] at hb
          intro x hx
          rw [hb.2] at hx
          simp only [List.mem_cons, List.mem_singleton, List.not_mem_nil, or_false] at hx
          rcases hx with h | h <;> rw [h] <;> rfl
        | cons a0 as =>
          exfalso
          simp only [List.cons_append, List.cons.injEq] at hb
          have : c ∈ p0 := by rw [ha, ← hb.1]; simp
          rw [hp0 c this] at hc
          exact Bool.false_ne_true hc
    · simp [herr]

/-! ## The chunked transfer: write side -/

/-- A loop invariant for the sub-chunk loop of `WriteMeFirmware`. `I d` holds when `d`
bytes of the chunk have been handled; a transaction that returns an error establishes `Q`. -/
theorem writeSubChunks_inv {σ : Type} (wr : WriteTx σ) (Buffer : Nat → Byte)
    (Offset ChunkSize : Nat) (I : Nat → σ → Prop) (Q : Nat → σ → Prop)
    (hstep : ∀ sub s, sub < ChunkSize → sub % 16 = 0 → I sub s →
      (EFI_ERROR (wr ((ME_FIRMWARE_START + Offset + sub) % 2 ^ 32) (some sub) Buffer
          (min 16 (ChunkSize - sub)) s).1 = false →
        I (min (sub + 16) ChunkSize) (wr ((ME_FIRMWARE_START + Offset + sub) % 2 ^ 32)
          (some sub) Buffer (min 16 (ChunkSize - sub)) s).2) ∧
      (EFI_ERROR (wr ((ME_FIRMWARE_START + Offset + sub) % 2 ^ 32) (some sub) Buffer
          (min 16 (ChunkSize - sub)) s).1 = true →
        Q (wr ((ME_FIRMWARE_START + Offset + sub) % 2 ^ 32) (some sub) Buffer
            (min 16 (ChunkSize - sub)) s).1
          (wr ((ME_FIRMWARE_START + Offset + sub) % 2 ^ 32) (some sub) Buffer
            (min 16 (ChunkSize - sub)) s).2))
    (SubOffset : Nat) (s : σ) (h16 : SubOffset % 16 = 0) (hI : I (min SubOffset ChunkSize) s) :
    ((writeSubChunks wr Buffer Offset ChunkSize SubOffset s).1 = none ∧
        I ChunkSize (writeSubChunks wr Buffer Offset ChunkSize SubOffset s).2) ∨
      (∃ e, (writeSubChunks wr Buffer Offset ChunkSize SubOffset s).1 = some e ∧
        EFI_ERROR e = true ∧ Q e (writeSubChunks wr Buffer Offset ChunkSize SubOffset s).2) := by
  generalize hr : ChunkSize - SubOffset = r
  induction r using Nat.strong_induction_on generalizing SubOffset s with
  | _ r ih =>
    rw [writeSubChunks]
    by_cases hlt : SubOffset < ChunkSize
    · rw [if_pos hlt]
      have hmin : (if ChunkSize - SubOffset < 16 then ChunkSize - SubOffset else 16) =
          min 16 (ChunkSize - SubOffset) := by split <;> omega
      simp only [hmin]
      rw [Nat.min_eq_left (le_of_lt hlt)] at hI
      obtain ⟨hok, herr⟩ := hstep SubOffset s hlt h16 hI
      cases he : EFI_ERROR (wr ((ME_FIRMWARE_START + Offset + SubOffset) % 2 ^ 32)
          (some SubOffset) Buffer (min 16 (ChunkSize - SubOffset)) s).1
      · simp only [Bool.false_eq_true, if_false]
        exact ih (ChunkSize - (SubOffset + 16)) (by omega) (SubOffset + 16) _ (by omega)
          (hok he) rfl
      · simp only [if_true]
        exact Or.inr ⟨_, rfl, he, herr he⟩
    · rw [if_neg hlt]
      rw [Nat.min_eq_right (by omega)] at hI
      exact Or.inl ⟨rfl, hI⟩

theorem EFI_ERROR_SUCCESS : EFI_ERROR EFI_SUCCESS = false := by decide

theorem ramShell_size (f : RamFile) : ramShell.ShellGetFileSize f = ((EFI_SUCCESS, f.size), f) :=
  rfl

theorem ramShell_alloc (n : Nat) (f : RamFile) : ramShell.AllocatePool n f = (some f.heap, f) :=
  rfl

theorem ramShell_seek (p : Nat) (f : RamFile) :
    ramShell.ShellSetFilePosition p f = (EFI_SUCCESS, ⟨f.size, f.data, p, f.heap⟩) := rfl

theorem ramShell_read (c : Nat) (Buffer : Nat → Byte) (sz : Nat) (data : Nat → Byte) (pos : Nat)
    (heap : Nat → Byte) :
    ramShell.ShellReadFile c Buffer ⟨sz, data, pos, heap⟩ =
      ((EFI_SUCCESS, min c (sz - pos),
          fun i => if i < min c (sz - pos) then data (pos + i) else Buffer i),
        ⟨sz, data, pos + min c (sz - pos), heap⟩) := rfl

/-- A loop invariant for the chunk loop of `WriteMeFirmware` reading from a reliable source
of `sz` bytes `data`. `I a` holds when the first `a` source bytes have been handled; every
transaction is issued at `ME_FIRMWARE_START + a` for a multiple `a` of 16 below
`n = min R sz`, with size `min 16 (n - a)` and a buffer holding the source bytes from `a`. -/
theorem writeChunks_inv {σ : Type} (wr : WriteTx σ) (R sz : Nat) (data heap : Nat → Byte)
    (I : Nat → σ → Prop) (Q : Nat → σ → Prop)
    (hstep : ∀ a s Mem p, a < min R sz → a % 16 = 0 →
      (∀ i, i < min 16 (min R sz - a) → Mem (p + i) = data (a + i)) → I a s →
      (EFI_ERROR (wr ((ME_FIRMWARE_START + a) % 2 ^ 32) (some p) Mem
          (min 16 (min R sz - a)) s).1 = false →
        I (min (a + 16) (min R sz)) (wr ((ME_FIRMWARE_START + a) % 2 ^ 32) (some p) Mem
          (min 16 (min R sz - a)) s).2) ∧
      (EFI_ERROR (wr ((ME_FIRMWARE_START + a) % 2 ^ 32) (some p) Mem
          (min 16 (min R sz - a)) s).1 = true →
        Q (wr ((ME_FIRMWARE_START + a) % 2 ^ 32) (some p) Mem (min 16 (min R sz - a)) s).1
          (wr ((ME_FIRMWARE_START + a) % 2 ^ 32) (some p) Mem (min 16 (min R sz - a)) s).2))
    (Offset : Nat) (Buffer : Nat → Byte) (s : σ) (hO : Offset % 256 = 0)
    (hI : I (min Offset (min R sz)) s) :
    (((writeChunks ramShell wr R sz Buffer Offset s ⟨sz, data, min Offset (min R sz), heap⟩).1 =
          EFI_SUCCESS ∧
        I (min R sz)
          (writeChunks ramShell wr R sz Buffer Offset s
            ⟨sz, data, min Offset (min R sz), heap⟩).2.1) ∨
      (EFI_ERROR (writeChunks ramShell wr R sz Buffer Offset s
          ⟨sz, data, min Offset (min R sz), heap⟩).1 = true ∧
        Q (writeChunks ramShell wr R sz Buffer Offset s
            ⟨sz, data, min Offset (min R sz), heap⟩).1
          (writeChunks ramShell wr R sz Buffer Offset s
            ⟨sz, data, min Offset (min R sz), heap⟩).2.1)) ∧
    ∃ pos, (writeChunks ramShell wr R sz Buffer Offset s
      ⟨sz, data, min Offset (min R sz), heap⟩).2.2 = ⟨sz, data, pos, heap⟩ := by
  generalize hr : min R sz - Offset = r
  induction r using Nat.strong_induction_on generalizing Offset Buffer s with
  | _ r ih =>
    rw [writeChunks]
    by_cases hlt : Offset < R ∧ Offset < sz
    · rw [if_pos hlt]
      have hn : Offset < min R sz := by omega
      have hchunk : (if sz - Offset < (if R - Offset < ME_CHUNK_SIZE then R - Offset
            else ME_CHUNK_SIZE) then sz - Offset
          else (if R - Offset < ME_CHUNK_SIZE then R - Offset else ME_CHUNK_SIZE)) =
          min 256 (min R sz - Offset) := by
        simp only [ME_CHUNK_SIZE]; split <;> split <;> omega
      simp only [hchunk]
      rw [Nat.min_eq_left (le_of_lt hn)] at hI ⊢
      rw [ramShell_read]
      have hk : min (min 256 (min R sz - Offset)) (sz - Offset) = min 256 (min R sz - Offset) := by
        omega
      simp only [hk, EFI_ERROR_SUCCESS, ne_eq, not_true_eq_false, or_self, Bool.false_eq_true,
        if_false]
      have hsub := writeSubChunks_inv wr
        (fun i => if i < min 256 (min R sz - Offset) then data (Offset + i) else Buffer i)
        Offset (min 256 (min R sz - Offset)) (fun d s => I (Offset + d) s) Q
        (by
          intro sub s0 hs h16 hI0
          have hmem : ∀ i, i < min 16 (min R sz - (Offset + sub)) →
              (fun i => if i < min 256 (min R sz - Offset) then data (Offset + i) else Buffer i)
                (sub + i) = data (Offset + sub + i) := by
            intro i hi
            simp only []
            rw [if_pos (by omega), Nat.add_assoc]
          have h := hstep (Offset + sub) s0
            (fun i => if i < min 256 (min R sz - Offset) then data (Offset + i) else Buffer i)
            sub (by omega) (by omega) hmem hI0
          have e1 : min 16 (min R sz - (Offset + sub)) = min 16 (min 256 (min R sz - Offset) - sub) := by
            omega
          have e2 : ME_FIRMWARE_START + (Offset + sub) = ME_FIRMWARE_START + Offset + sub := by
            omega
          have e3 : min (Offset + sub + 16) (min R sz) =
              Offset + min (sub + 16) (min 256 (min R sz - Offset)) := by omega
          rw [e1, e2, e3] at h
          exact h)
        0 s (by omega) (by simpa using hI)
      rcases hsub with ⟨hnone, hIc⟩ | ⟨e, hsome, herr, hQ⟩
      · simp only [hnone]
        have hpos : Offset + min 256 (min R sz - Offset) = min (Offset + ME_CHUNK_SIZE) (min R sz) := by
          simp only [ME_CHUNK_SIZE]; omega
        rw [hpos] at hIc ⊢
        exact ih (min R sz - (Offset + ME_CHUNK_SIZE)) (by simp only [ME_CHUNK_SIZE]; omega)
          (Offset + ME_CHUNK_SIZE) _ _ (by simp only [ME_CHUNK_SIZE]; omega) hIc rfl
      · simp only [hsome]
        exact ⟨Or.inr ⟨herr, hQ⟩, _, rfl⟩
    · rw [if_neg hlt]
      rw [Nat.min_eq_right (by omega)] at hI ⊢
      exact ⟨Or.inl ⟨rfl, hI⟩, _, rfl⟩

/-- The invariant of `writeChunks_inv` for the whole of `WriteMeFirmware` on a reliable
source. -/
theorem WriteMeFirmwareOn_inv {σ : Type} (wr : WriteTx σ) (R : Nat) (f : RamFile)
    (I : Nat → σ → Prop) (Q : Nat → σ → Prop)
    (hstep : ∀ a s Mem p, a < min R f.size → a % 16 = 0 →
      (∀ i, i < min 16 (min R f.size - a) → Mem (p + i) = f.data (a + i)) → I a s →
      (EFI_ERROR (wr ((ME_FIRMWARE_START + a) % 2 ^ 32) (some p) Mem
          (min 16 (min R f.size - a)) s).1 = false →
        I (min (a + 16) (min R f.size)) (wr ((ME_FIRMWARE_START + a) % 2 ^ 32) (some p) Mem
          (min 16 (min R f.size - a)) s).2) ∧
      (EFI_ERROR (wr ((ME_FIRMWARE_START + a) % 2 ^ 32) (some p) Mem
          (min 16 (min R f.size - a)) s).1 = true →
        Q (wr ((ME_FIRMWARE_START + a) % 2 ^ 32) (some p) Mem (min 16 (min R f.size - a)) s).1
          (wr ((ME_FIRMWARE_START + a) % 2 ^ 32) (some p) Mem (min 16 (min R f.size - a)) s).2))
    (s : σ) (hI : I 0 s) :
    (((WriteMeFirmwareOn ramShell wr R s f).1 = EFI_SUCCESS ∧
        I (min R f.size) (WriteMeFirmwareOn ramShell wr R s f).2.1) ∨
      (EFI_ERROR (WriteMeFirmwareOn ramShell wr R s f).1 = true ∧
        Q (WriteMeFirmwareOn ramShell wr R s f).1 (WriteMeFirmwareOn ramShell wr R s f).2.1)) ∧
    ∃ pos, (WriteMeFirmwareOn ramShell wr R s f).2.2 = ⟨f.size, f.data, pos, f.heap⟩ := by
  have h := writeChunks_inv wr R f.size f.data f.heap I Q hstep 0 f.heap s (by omega)
    (by simpa using hI)
  have e : WriteMeFirmwareOn ramShell wr R s f =
      writeChunks ramShell wr R f.size f.heap 0 s ⟨f.size, f.data, min 0 (min R f.size), f.heap⟩ := by
    simp [WriteMeFirmwareOn, ramShell, EFI_ERROR_SUCCESS]
  rw [e]
  exact h

/-! ### The schedule of a transfer -/

theorem txPlan_of_lt (n a : Nat) (h : a < n) :
    txPlan n a = (ME_FIRMWARE_START + a, min 16 (n - a)) :: txPlan n (a + 16) := by
  rw [txPlan, if_pos h]

theorem txPlan_of_ge (n a : Nat) (h : n ≤ a) : txPlan n a = [] := by
  rw [txPlan, if_neg (by omega)]

theorem txPlan_min (n a : Nat) : txPlan n (min (a + 16) n) = txPlan n (a + 16) := by
  by_cases h : a + 16 ≤ n
  · rw [Nat.min_eq_left h]
  · rw [Nat.min_eq_right (by omega), txPlan_of_ge n n (le_refl n), txPlan_of_ge n (a + 16) (by omega)]

theorem txPlan_sum (n a : Nat) : ((txPlan n a).map Prod.snd).sum = n - a := by
  generalize hr : n - a = r
  induction r using Nat.strong_induction_on generalizing a with
  | _ r ih =>
    by_cases h : a < n
    · rw [txPlan_of_lt n a h, List.map_cons, List.sum_cons, ih (n - (a + 16)) (by omega) (a + 16) rfl]
      simp only []
      omega
    · rw [txPlan_of_ge n a (by omega)]
      simp only [List.map_nil, List.sum_nil]
      omega

theorem txPlan_mem (n a : Nat) (t : Nat × Nat) (ht : t ∈ txPlan n a) :
    ME_FIRMWARE_START + a ≤ t.1 ∧ t.1 + t.2 ≤ ME_FIRMWARE_START + n ∧ 1 ≤ t.2 ∧ t.2 ≤ 16 := by
  generalize hr : n - a = r at ht
  induction r using Nat.strong_induction_on generalizing a with
  | _ r ih =>
    by_cases h : a < n
    · rw [txPlan_of_lt n a h] at ht
      rcases List.mem_cons.1 ht with h1 | h1
      · subst h1
        simp only []
        omega
      · have := ih (n - (a + 16)) (by omega) (a + 16) h1 rfl
        omega
    · rw [txPlan_of_ge n a (by omega)] at ht
      exact absurd ht (List.not_mem_nil _)

theorem txPlan_getElem (n a i : Nat) (t : Nat × Nat) (ht : (txPlan n a)[i]? = some t) :
    t.1 = ME_FIRMWARE_START + a + 16 * i := by
  induction i generalizing a with
  | zero =>
    by_cases h : a < n
    · rw [txPlan_of_lt n a h] at ht
      simp only [List.getElem?_cons_zero, Option.some.injEq] at ht
      subst ht
      simp
    · rw [txPlan_of_ge n a (by omega)] at ht
      simp at ht
  | succ i ih =>
    by_cases h : a < n
    · rw [txPlan_of_lt n a h] at ht
      simp only [List.getElem?_cons_succ] at ht
      have := ih (a + 16) ht
      omega
    · rw [txPlan_of_ge n a (by omega)] at ht
      simp at ht

/-- The log of `WriteMeFirmware` on a reliable source. Either the function returns
`EFI_SUCCESS`, every transaction succeeded and the log follows the whole schedule; or it
returns the error status of the last transaction in the log, the only one that failed, and
the log follows the schedule as far as it goes. In both cases every transaction carries the
source bytes of its range. -/
theorem WriteMeFirmwareOn_log {σ : Type} (wr : WriteTx σ) (R : Nat)
    (hR : ME_FIRMWARE_START + R ≤ 2 ^ 32) (P : Nat → Prop)
    (hP : ∀ a p m n s, 1 ≤ n → n ≤ 16 → P (wr a (some p) m n s).1) (s : σ) (f : RamFile) :
    (((WriteMeFirmwareOn ramShell (recordWrites wr) R (s, []) f).1 = EFI_SUCCESS ∧
        (WriteMeFirmwareOn ramShell (recordWrites wr) R (s, []) f).2.1.2.map TxRecord.range =
          txPlan (min R f.size) 0 ∧
        ∀ t ∈ (WriteMeFirmwareOn ramShell (recordWrites wr) R (s, []) f).2.1.2,
          EFI_ERROR t.Status = false) ∨
      (EFI_ERROR (WriteMeFirmwareOn ramShell (recordWrites wr) R (s, []) f).1 = true ∧
        ∃ pre t rest,
          (WriteMeFirmwareOn ramShell (recordWrites wr) R (s, []) f).2.1.2 = pre ++ [t] ∧
          t.Status = (WriteMeFirmwareOn ramShell (recordWrites wr) R (s, []) f).1 ∧
          (∀ x ∈ pre, EFI_ERROR x.Status = false) ∧
          (pre ++ [t]).map TxRecord.range ++ rest = txPlan (min R f.size) 0)) ∧
    ∀ t ∈ (WriteMeFirmwareOn ramShell (recordWrites wr) R (s, []) f).2.1.2,
      P t.Status ∧
      t.Data = (List.range t.DataSize).map (fun i => f.data (t.FlashAddr - ME_FIRMWARE_START + i)) := by
  have h := WriteMeFirmwareOn_inv (recordWrites wr) R f
    (fun a st => st.2.map TxRecord.range ++ txPlan (min R f.size) a = txPlan (min R f.size) 0 ∧
      (∀ t ∈ st.2, EFI_ERROR t.Status = false) ∧
      ∀ t ∈ st.2, P t.Status ∧ t.Data =
        (List.range t.DataSize).map (fun i => f.data (t.FlashAddr - ME_FIRMWARE_START + i)))
    (fun e st => (∃ pre t rest, st.2 = pre ++ [t] ∧ t.Status = e ∧
        (∀ x ∈ pre, EFI_ERROR x.Status = false) ∧
        (pre ++ [t]).map TxRecord.range ++ rest = txPlan (min R f.size) 0) ∧
      ∀ t ∈ st.2, P t.Status ∧ t.Data =
        (List.range t.DataSize).map (fun i => f.data (t.FlashAddr - ME_FIRMWARE_START + i)))
    (by
      intro a st Mem p ha h16 hmem hI
      obtain ⟨hplan, hok, hdata⟩ := hI
      have haddr : (ME_FIRMWARE_START + a) % 2 ^ 32 = ME_FIRMWARE_START + a :=
        Nat.mod_eq_of_lt (by omega)
      have hd : ∀ t ∈ st.2 ++ [(⟨ME_FIRMWARE_START + a, min 16 (min R f.size - a),
          (List.range (min 16 (min R f.size - a))).map (fun i => Mem (p + i)),
          (wr (ME_FIRMWARE_START + a) (some p) Mem (min 16 (min R f.size - a)) st.1).1⟩ : TxRecord)],
          P t.Status ∧ t.Data = (List.range t.DataSize).map
            (fun i => f.data (t.FlashAddr - ME_FIRMWARE_START + i)) := by
        intro t ht
        rcases List.mem_append.1 ht with h1 | h1
        · exact hdata t h1
        · rw [List.mem_singleton] at h1
          subst h1
          refine ⟨hP _ _ _ _ _ (by omega) (by omega), ?_⟩
          simp only []
          apply List.map_congr_left
          intro i hi
          rw [List.mem_range] at hi
          rw [hmem i hi, Nat.add_sub_cancel_left]
      simp only [recordWrites, haddr, Option.getD_some]
      constructor
      · intro he
        refine ⟨?_, ?_, hd⟩
        · rw [txPlan_min, ← hplan, txPlan_of_lt _ a ha]
          simp [TxRecord.range]
        · intro t ht
          rcases List.mem_append.1 ht with h1 | h1
          · exact hok t h1
          · rw [List.mem_singleton] at h1
            subst h1
            exact he
      · intro he
        refine ⟨⟨st.2, _, txPlan (min R f.size) (a + 16), rfl, rfl, hok, ?_⟩, hd⟩
        rw [← hplan, txPlan_of_lt _ a ha]
        simp [TxRecord.range])
    (s, []) (by simp)
  obtain ⟨h1, -⟩ := h
  rcases h1 with ⟨hs, hplan, hok, hdata⟩ | ⟨he, ⟨pre, t, rest, hlog, hst, hpre, hpl⟩, hdata⟩
  · refine ⟨Or.inl ⟨hs, ?_, hok⟩, hdata⟩
    rw [txPlan_of_ge _ _ (le_refl _), List.append_nil] at hplan
    exact hplan
  · exact ⟨Or.inr ⟨he, pre, t, rest, hlog, hst, hpre, hpl⟩, hdata⟩

/-! ## The chunked transfer: verify side -/

theorem mismatchCount_succ (src flash : Nat → Byte) (d : Nat) :
    mismatchCount src flash (d + 1) =
      mismatchCount src flash d + (if src d ≠ flash (ME_FIRMWARE_START + d) then 1 else 0) := by
  unfold mismatchCount
  rw [List.range_succ, List.filter_append, List.length_append]
  by_cases h : src d = flash (ME_FIRMWARE_START + d) <;> simp [h]

theorem mismatchCount_mono (src flash : Nat → Byte) (d e : Nat) (h : d ≤ e) :
    mismatchCount src flash d ≤ mismatchCount src flash e := by
  induction e with
  | zero => simp [Nat.le_zero.1 h]
  | succ e ih =>
    rcases Nat.lt_or_ge d (e + 1) with h1 | h1
    · rw [mismatchCount_succ]
      exact le_trans (ih (by omega)) (Nat.le_add_right _ _)
    · rw [show d = e + 1 by omega]

theorem mismatchCount_pos (src flash : Nat → Byte) (n K : Nat) (hK : K < n)
    (hne : src K ≠ flash (ME_FIRMWARE_START + K)) : 0 < mismatchCount src flash n := by
  have h1 := mismatchCount_mono src flash (K + 1) n (by omega)
  rw [mismatchCount_succ, if_pos hne] at h1
  omega

theorem mismatchCount_eq_of_agree (src flash : Nat → Byte) (d e : Nat) (h : d ≤ e)
    (hag : ∀ k, d ≤ k → k < e → src k = flash (ME_FIRMWARE_START + k)) :
    mismatchCount src flash e = mismatchCount src flash d := by
  induction e with
  | zero => rw [Nat.le_zero.1 h]
  | succ e ih =>
    rcases Nat.lt_or_ge d (e + 1) with h1 | h1
    · rw [mismatchCount_succ, if_neg (by simpa using hag e (by omega) (by omega)),
        ih (by omega) (fun k hk1 hk2 => hag k hk1 (by omega))]
      rfl
    · rw [show d = e + 1 by omega]

theorem CountInv_step (src flash : Nat → Byte) (d c fst : Nat) (h : CountInv src flash d c fst) :
    CountInv src flash (d + 1)
      (if src d ≠ flash (ME_FIRMWARE_START + d) then c + 1 else c)
      (if src d ≠ flash (ME_FIRMWARE_START + d) then (if c = 0 then d else fst) else fst) := by
  obtain ⟨h1, h2, h3⟩ := h
  by_cases hne : src d ≠ flash (ME_FIRMWARE_START + d)
  · simp only [if_pos hne]
    refine ⟨by rw [mismatchCount_succ, if_pos hne, h1], by omega, fun _ => ?_⟩
    by_cases hc : c = 0
    · rw [if_pos hc]
      refine ⟨by omega, hne, ?_⟩
      intro i hi
      by_contra hcon
      have := mismatchCount_pos src flash d i hi hcon
      omega
    · rw [if_neg hc]
      obtain ⟨a1, a2, a3⟩ := h3 (by omega)
      exact ⟨by omega, a2, a3⟩
  · simp only [if_neg hne]
    refine ⟨by rw [mismatchCount_succ, if_neg hne, h1]; rfl, h2, fun hc => ?_⟩
    obtain ⟨a1, a2, a3⟩ := h3 hc
    exact ⟨by omega, a2, a3⟩

theorem CountInv_extend (src flash : Nat → Byte) (d e c fst : Nat) (hde : d ≤ e)
    (hag : ∀ k, d ≤ k → k < e → src k = flash (ME_FIRMWARE_START + k))
    (h : CountInv src flash d c fst) : CountInv src flash e c fst := by
  obtain ⟨h1, h2, h3⟩ := h
  refine ⟨by rw [mismatchCount_eq_of_agree src flash d e hde hag, h1], h2, fun hc => ?_⟩
  obtain ⟨a1, a2, a3⟩ := h3 hc
  exact ⟨by omega, a2, a3⟩

/-- The byte loop of `VerifyMeFirmware` keeps the counters right. -/
theorem countMismatches_inv (src flash FileBuffer FlashBuffer : Nat → Byte)
    (Offset ChunkSize : Nat)
    (hF : ∀ k, k < ChunkSize → FileBuffer k = src (Offset + k))
    (hB : ∀ k, k < ChunkSize → FlashBuffer k = flash (ME_FIRMWARE_START + (Offset + k)))
    (i c fst : Nat) (hi : i ≤ ChunkSize) (h : CountInv src flash (Offset + i) c fst) :
    CountInv src flash (Offset + ChunkSize)
      (countMismatches FileBuffer FlashBuffer Offset ChunkSize i c fst).1
      (countMismatches FileBuffer FlashBuffer Offset ChunkSize i c fst).2 := by
  generalize hr : ChunkSize - i = r
  induction r using Nat.strong_induction_on generalizing i c fst with
  | _ r ih =>
    rw [countMismatches]
    by_cases hlt : i < ChunkSize
    · rw [if_pos hlt]
      have hs := CountInv_step src flash (Offset + i) c fst h
      rw [← hF i hlt, ← hB i hlt] at hs
      by_cases hne : FileBuffer i ≠ FlashBuffer i
      · simp only [if_pos hne] at hs ⊢
        exact ih (ChunkSize - (i + 1)) (by omega) (i + 1) _ _ (by omega) hs rfl
      · simp only [if_neg hne] at hs ⊢
        exact ih (ChunkSize - (i + 1)) (by omega) (i + 1) _ _ (by omega) hs rfl
    · rw [if_neg hlt]
      rw [show i = ChunkSize by omega] at h
      exact h

theorem CompareMemFrom_eq_zero (A B : Nat → Byte) (i len : Nat)
    (h : CompareMemFrom A B i len = 0) : ∀ k, k < len → A (i + k) = B (i + k) := by
  induction len generalizing i with
  | zero => intro k hk; omega
  | succ len ih =>
    rw [CompareMemFrom] at h
    by_cases he : A i = B i
    · rw [if_pos he] at h
      intro k hk
      cases k with
      | zero => simpa using he
      | succ k =>
        have := ih (i + 1) h k (by omega)
        rw [show i + (k + 1) = i + 1 + k by omega]
        exact this
    · rw [if_neg he] at h
      exfalso
      apply he
      apply Fin.ext
      omega

theorem CompareMem_eq_zero (A B : Nat → Byte) (len : Nat) (h : CompareMem A B len = 0) :
    ∀ k, k < len → A k = B k := by
  intro k hk
  have := CompareMemFrom_eq_zero A B 0 len h k hk
  rw [Nat.zero_add] at this
  exact this

/-- The sub-chunk loop of `VerifyMeFirmware` over a flash-reading primitive fills the flash
buffer with the flash bytes of the chunk. -/
theorem readSubChunks_reads {σ : Type} (rd : ReadTx σ) (flashOf : σ → Nat → Byte)
    (h : ReadsFlash rd flashOf) (Offset ChunkSize : Nat)
    (hfit : ME_FIRMWARE_START + Offset + ChunkSize ≤ 2 ^ 32)
    (SubOffset : Nat) (B : Nat → Byte) (s : σ) (h16 : SubOffset % 16 = 0)
    (hB : ∀ k, k < min SubOffset ChunkSize → B k = flashOf s (ME_FIRMWARE_START + (Offset + k))) :
    (readSubChunks rd Offset ChunkSize SubOffset B s).1 = none ∧
    (∀ k, k < ChunkSize →
      (readSubChunks rd Offset ChunkSize SubOffset B s).2.1 k =
        flashOf s (ME_FIRMWARE_START + (Offset + k))) ∧
    flashOf (readSubChunks rd Offset ChunkSize SubOffset B s).2.2 = flashOf s := by
  generalize hr : ChunkSize - SubOffset = r
  induction r using Nat.strong_induction_on generalizing SubOffset B s with
  | _ r ih =>
    rw [readSubChunks]
    by_cases hlt : SubOffset < ChunkSize
    · rw [if_pos hlt]
      have hmin : (if ChunkSize - SubOffset < 16 then ChunkSize - SubOffset else 16) =
          min 16 (ChunkSize - SubOffset) := by split <;> omega
      have haddr : (ME_FIRMWARE_START + Offset + SubOffset) % 2 ^ 32 =
          ME_FIRMWARE_START + Offset + SubOffset := Nat.mod_eq_of_lt (by omega)
      simp only [hmin, haddr]
      have hst := h.status (ME_FIRMWARE_START + Offset + SubOffset) SubOffset B
        (min 16 (ChunkSize - SubOffset)) s (by omega) (by omega)
      have hda := h.data (ME_FIRMWARE_START + Offset + SubOffset) SubOffset B
        (min 16 (ChunkSize - SubOffset)) s (by omega) (by omega)
      have hfr := h.frame (ME_FIRMWARE_START + Offset + SubOffset) SubOffset B
        (min 16 (ChunkSize - SubOffset)) s (by omega) (by omega)
      rw [hst, EFI_ERROR_SUCCESS]
      simp only [Bool.false_eq_true, if_false]
      have := ih (ChunkSize - (SubOffset + 16)) (by omega) (SubOffset + 16)
        (rd (ME_FIRMWARE_START + Offset + SubOffset) (some SubOffset) B
          (min 16 (ChunkSize - SubOffset)) s).1.2
        (rd (ME_FIRMWARE_START + Offset + SubOffset) (some SubOffset) B
          (min 16 (ChunkSize - SubOffset)) s).2
        (by omega)
        (by
          intro k hk
          rw [hda, hfr]
          simp only []
          by_cases hin : SubOffset ≤ k ∧ k < SubOffset + min 16 (ChunkSize - SubOffset)
          · rw [if_pos hin]
            rw [show ME_FIRMWARE_START + Offset + SubOffset + (k - SubOffset) =
              ME_FIRMWARE_START + (Offset + k) by omega]
          · rw [if_neg hin]
            exact hB k (by omega))
        rfl
      rw [hfr] at this
      exact this
    · rw [if_neg hlt]
      exact ⟨rfl, fun k hk => hB k (by omega), rfl⟩

/-- The compare loop of `VerifyMeFirmware` over a flash-reading primitive and a reliable
source never returns early and keeps the counters right. -/
theorem verifyChunks_reads {σ : Type} (rd : ReadTx σ) (flashOf : σ → Nat → Byte)
    (h : ReadsFlash rd flashOf) (R sz : Nat) (data heap : Nat → Byte)
    (hR : ME_FIRMWARE_START + R ≤ 2 ^ 32)
    (Offset : Nat) (FileBuffer FlashBuffer : Nat → Byte) (c fst : Nat) (s : σ)
    (hO : Offset % 256 = 0)
    (hC : CountInv data (flashOf s) (min Offset (min R sz)) c fst) :
    (verifyChunks ramShell rd R sz FileBuffer FlashBuffer Offset c fst s
      ⟨sz, data, min Offset (min R sz), heap⟩).1.1 = none ∧
    CountInv data (flashOf s) (min R sz)
      (verifyChunks ramShell rd R sz FileBuffer FlashBuffer Offset c fst s
        ⟨sz, data, min Offset (min R sz), heap⟩).1.2.1
      (verifyChunks ramShell rd R sz FileBuffer FlashBuffer Offset c fst s
        ⟨sz, data, min Offset (min R sz), heap⟩).1.2.2 ∧
    flashOf (verifyChunks ramShell rd R sz FileBuffer FlashBuffer Offset c fst s
      ⟨sz, data, min Offset (min R sz), heap⟩).2.1 = flashOf s ∧
    ∃ pos, (verifyChunks ramShell rd R sz FileBuffer FlashBuffer Offset c fst s
      ⟨sz, data, min Offset (min R sz), heap⟩).2.2 = ⟨sz, data, pos, heap⟩ := by
  generalize hr : min R sz - Offset = r
  induction r using Nat.strong_induction_on
    generalizing Offset FileBuffer FlashBuffer c fst s with
  | _ r ih =>
    rw [verifyChunks]
    by_cases hlt : Offset < R ∧ Offset < sz
    · rw [if_pos hlt]
      have hn : Offset < min R sz := by omega
      have hchunk : (if sz - Offset < (if R - Offset < ME_CHUNK_SIZE then R - Offset
            else ME_CHUNK_SIZE) then sz - Offset
          else (if R - Offset < ME_CHUNK_SIZE then R - Offset else ME_CHUNK_SIZE)) =
          min 256 (min R sz - Offset) := by
        simp only [ME_CHUNK_SIZE]; split <;> split <;> omega
      simp only [hchunk]
      rw [Nat.min_eq_left (le_of_lt hn)] at hC ⊢
      rw [ramShell_read]
      have hk : min (min 256 (min R sz - Offset)) (sz - Offset) = min 256 (min R sz - Offset) := by
        omega
      simp only [hk, EFI_ERROR_SUCCESS, ne_eq, not_true_eq_false, or_self, Bool.false_eq_true,
        if_false]
      obtain ⟨hnone, hbuf, hfl⟩ := readSubChunks_reads rd flashOf h Offset
        (min 256 (min R sz - Offset)) (by omega) 0 FlashBuffer s (by omega)
        (by intro k hk0; simp at hk0)
      simp only [hnone]
      have hpos : Offset + min 256 (min R sz - Offset) = min (Offset + ME_CHUNK_SIZE) (min R sz) := by
        simp only [ME_CHUNK_SIZE]; omega
      have hF : ∀ k, k < min 256 (min R sz - Offset) →
          (if k < min 256 (min R sz - Offset) then data (Offset + k) else FileBuffer k) =
            data (Offset + k) := by
        intro k hk0
        rw [if_pos hk0]
      have hC2 : CountInv data (flashOf s) (Offset + min 256 (min R sz - Offset))
          (if CompareMem
              (fun i => if i < min 256 (min R sz - Offset) then data (Offset + i) else FileBuffer i)
              (readSubChunks rd Offset (min 256 (min R sz - Offset)) 0 FlashBuffer s).2.1
              (min 256 (min R sz - Offset)) ≠ 0 then
            countMismatches
              (fun i => if i < min 256 (min R sz - Offset) then data (Offset + i) else FileBuffer i)
              (readSubChunks rd Offset (min 256 (min R sz - Offset)) 0 FlashBuffer s).2.1
              Offset (min 256 (min R sz - Offset)) 0 c fst
          else (c, fst)).1
          (if CompareMem
              (fun i => if i < min 256 (min R sz - Offset) then data (Offset + i) else FileBuffer i)
              (readSubChunks rd Offset (min 256 (min R sz - Offset)) 0 FlashBuffer s).2.1
              (min 256 (min R sz - Offset)) ≠ 0 then
            countMismatches
              (fun i => if i < min 256 (min R sz - Offset) then data (Offset + i) else FileBuffer i)
              (readSubChunks rd Offset (min 256 (min R sz - Offset)) 0 FlashBuffer s).2.1
              Offset (min 256 (min R sz - Offset)) 0 c fst
          else (c, fst)).2 := by
        split
        · exact countMismatches_inv data (flashOf s) _ _ Offset _ hF hbuf 0 c fst (by omega)
            (by simpa using hC)
        · rename_i hz
          have hz0 := CompareMem_eq_zero _ _ _ (not_not.1 hz)
          refine CountInv_extend data (flashOf s) Offset _ c fst (by omega) ?_ hC
          intro k hk1 hk2
          have hk3 : k - Offset < min 256 (min R sz - Offset) := by omega
          have := hz0 (k - Offset) hk3
          rw [if_pos hk3, hbuf (k - Offset) hk3, show Offset + (k - Offset) = k by omega] at this
          exact this
      rw [hpos] at hC2 ⊢
      rw [← hfl] at hC2 ⊢
      exact ih (min R sz - (Offset + ME_CHUNK_SIZE)) (by simp only [ME_CHUNK_SIZE]; omega)
        (Offset + ME_CHUNK_SIZE) _ _ _ _ _ (by simp only [ME_CHUNK_SIZE]; omega) hC2 rfl
    · rw [if_neg hlt]
      rw [Nat.min_eq_right (by omega)] at hC ⊢
      exact ⟨rfl, hC, rfl, _, rfl⟩

/-- What `VerifyMeFirmware` computes over a flash-reading primitive and a reliable source:
it returns `EFI_SUCCESS`, its counters are right for the `min R size` bytes compared,
`Matches` tells whether the count is 0, and the flash is as it was. -/
theorem VerifyMeFirmwareOn_reads {σ : Type} (rd : ReadTx σ) (flashOf : σ → Nat → Byte)
    (h : ReadsFlash rd flashOf) (R : Nat) (hR : ME_FIRMWARE_START + R ≤ 2 ^ 32) (s : σ)
    (f : RamFile) :
    (VerifyMeFirmwareOn ramShell rd R s f).1.Status = EFI_SUCCESS ∧
    CountInv f.data (flashOf s) (min R f.size)
      (VerifyMeFirmwareOn ramShell rd R s f).1.MismatchCount
      (VerifyMeFirmwareOn ramShell rd R s f).1.FirstMismatchOffset ∧
    (VerifyMeFirmwareOn ramShell rd R s f).1.Matches =
      decide ((VerifyMeFirmwareOn ramShell rd R s f).1.MismatchCount = 0) ∧
    flashOf (VerifyMeFirmwareOn ramShell rd R s f).2.1 = flashOf s ∧
    ∃ pos, (VerifyMeFirmwareOn ramShell rd R s f).2.2 = ⟨f.size, f.data, pos, f.heap⟩ := by
  have h0 : CountInv f.data (flashOf s) (min 0 (min R f.size)) 0 0 := by
    rw [Nat.zero_min]
    exact ⟨rfl, fun _ => rfl, fun hc => absurd hc (lt_irrefl 0)⟩
  obtain ⟨h1, h2, h3, pos, h4⟩ := verifyChunks_reads rd flashOf h R f.size f.data f.heap hR 0
    f.heap f.heap 0 0 s (by omega) h0
  rw [Nat.zero_min] at h1 h2 h3 h4
  have e : VerifyMeFirmwareOn ramShell rd R s f =
      (if (verifyChunks ramShell rd R f.size f.heap f.heap 0 0 0 s
            ⟨f.size, f.data, 0, f.heap⟩).1.2.1 > 0 then
          (⟨EFI_SUCCESS, false,
              (verifyChunks ramShell rd R f.size f.heap f.heap 0 0 0 s
                ⟨f.size, f.data, 0, f.heap⟩).1.2.1,
              (verifyChunks ramShell rd R f.size f.heap f.heap 0 0 0 s
                ⟨f.size, f.data, 0, f.heap⟩).1.2.2⟩,
            (verifyChunks ramShell rd R f.size f.heap f.heap 0 0 0 s
              ⟨f.size, f.data, 0, f.heap⟩).2)
        else
          (⟨EFI_SUCCESS, true,
              (verifyChunks ramShell rd R f.size f.heap f.heap 0 0 0 s
                ⟨f.size, f.data, 0, f.heap⟩).1.2.1,
              (verifyChunks ramShell rd R f.size f.heap f.heap 0 0 0 s
                ⟨f.size, f.data, 0, f.heap⟩).1.2.2⟩,
            (verifyChunks ramShell rd R f.size f.heap f.heap 0 0 0 s
              ⟨f.size, f.data, 0, f.heap⟩).2)) := by
    simp only [VerifyMeFirmwareOn, ramShell_size, ramShell_alloc, ramShell_seek,
      EFI_ERROR_SUCCESS, Bool.false_eq_true, if_false]
    simp only [h1]
  rw [e]
  split
  · rename_i hpos
    exact ⟨rfl, h2, by simp only []; exact (decide_eq_false (by omega)).symm, h3, pos, h4⟩
  · rename_i hpos
    exact ⟨rfl, h2, by simp only []; exact (decide_eq_true (by omega)).symm, h3, pos, h4⟩

/-- C4. Over a flash-reading primitive and a reliable source, compared over
`n = min F ME_FIRMWARE_SIZE` bytes: if source and flash differ at some offset below `n` and
`K` is the least such offset, `VerifyMeFirmware` returns `EFI_SUCCESS` with
`Matches = FALSE`, a mismatch count of at least 1 and first-mismatch offset `K`. -/
theorem verify_first_mismatch {σ : Type} (rd : ReadTx σ) (flashOf : σ → Nat → Byte)
    (h : ReadsFlash rd flashOf) (s : σ) (f : RamFile) (K : Nat)
    (hK : K < min f.size ME_FIRMWARE_SIZE)
    (hne : f.data K ≠ flashOf s (ME_FIRMWARE_START + K))
    (hleast : ∀ i, i < K → f.data i = flashOf s (ME_FIRMWARE_START + i)) :
    (VerifyMeFirmwareOn ramShell rd ME_FIRMWARE_SIZE s f).1.Status = EFI_SUCCESS ∧
    (VerifyMeFirmwareOn ramShell rd ME_FIRMWARE_SIZE s f).1.Matches = false ∧
    1 ≤ (VerifyMeFirmwareOn ramShell rd ME_FIRMWARE_SIZE s f).1.MismatchCount ∧
    (VerifyMeFirmwareOn ramShell rd ME_FIRMWARE_SIZE s f).1.FirstMismatchOffset = K := by
  obtain ⟨h1, ⟨c1, c2, c3⟩, h3, -, -⟩ :=
    VerifyMeFirmwareOn_reads rd flashOf h ME_FIRMWARE_SIZE (by decide) s f
  have hpos : 0 < mismatchCount f.data (flashOf s) (min ME_FIRMWARE_SIZE f.size) :=
    mismatchCount_pos _ _ _ K (by omega) hne
  rw [← c1] at hpos
  obtain ⟨a1, a2, a3⟩ := c3 hpos
  refine ⟨h1, ?_, hpos, ?_⟩
  · rw [h3]
    exact decide_eq_false (by omega)
  · rcases Nat.lt_trichotomy (VerifyMeFirmwareOn ramShell rd ME_FIRMWARE_SIZE s f).1.FirstMismatchOffset K
      with hlt | heq | hgt
    · exact absurd (hleast _ hlt) a2
    · exact heq
    · exact absurd (a3 K hgt) hne

/-- A loop invariant for the sub-chunk loop of `VerifyMeFirmware`, for any read primitive. -/
theorem readSubChunks_inv {σ : Type} (rd : ReadTx σ) (Offset ChunkSize : Nat)
    (I : Nat → σ → Prop) (Q : Nat → σ → Prop)
    (hstep : ∀ sub s Mem, sub < ChunkSize → sub % 16 = 0 → I sub s →
      (EFI_ERROR (rd ((ME_FIRMWARE_START + Offset + sub) % 2 ^ 32) (some sub) Mem
          (min 16 (ChunkSize - sub)) s).1.1 = false →
        I (min (sub + 16) ChunkSize) (rd ((ME_FIRMWARE_START + Offset + sub) % 2 ^ 32)
          (some sub) Mem (min 16 (ChunkSize - sub)) s).2) ∧
      (EFI_ERROR (rd ((ME_FIRMWARE_START + Offset + sub) % 2 ^ 32) (some sub) Mem
          (min 16 (ChunkSize - sub)) s).1.1 = true →
        Q (rd ((ME_FIRMWARE_START + Offset + sub) % 2 ^ 32) (some sub) Mem
            (min 16 (ChunkSize - sub)) s).1.1
          (rd ((ME_FIRMWARE_START + Offset + sub) % 2 ^ 32) (some sub) Mem
            (min 16 (ChunkSize - sub)) s).2))
    (SubOffset : Nat) (B : Nat → Byte) (s : σ) (h16 : SubOffset % 16 = 0)
    (hI : I (min SubOffset ChunkSize) s) :
    ((readSubChunks rd Offset ChunkSize SubOffset B s).1 = none ∧
        I ChunkSize (readSubChunks rd Offset ChunkSize SubOffset B s).2.2) ∨
      (∃ e, (readSubChunks rd Offset ChunkSize SubOffset B s).1 = some e ∧
        EFI_ERROR e = true ∧ Q e (readSubChunks rd Offset ChunkSize SubOffset B s).2.2) := by
  generalize hr : ChunkSize - SubOffset = r
  induction r using Nat.strong_induction_on generalizing SubOffset B s with
  | _ r ih =>
    rw [readSubChunks]
    by_cases hlt : SubOffset < ChunkSize
    · rw [if_pos hlt]
      have hmin : (if ChunkSize - SubOffset < 16 then ChunkSize - SubOffset else 16) =
          min 16 (ChunkSize - SubOffset) := by split <;> omega
      simp only [hmin]
      rw [Nat.min_eq_left (le_of_lt hlt)] at hI
      obtain ⟨hok, herr⟩ := hstep SubOffset s B hlt h16 hI
      cases he : EFI_ERROR (rd ((ME_FIRMWARE_START + Offset + SubOffset) % 2 ^ 32)
          (some SubOffset) B (min 16 (ChunkSize - SubOffset)) s).1.1
      · simp only [Bool.false_eq_true, if_false]
        exact ih (ChunkSize - (SubOffset + 16)) (by omega) (SubOffset + 16) _ _ (by omega)
          (hok he) rfl
      · simp only [if_true]
        exact Or.inr ⟨_, rfl, he, herr he⟩
    · rw [if_neg hlt]
      rw [Nat.min_eq_right (by omega)] at hI
      exact Or.inl ⟨rfl, hI⟩

/-- A loop invariant for the compare loop of `VerifyMeFirmware` reading from a reliable
source, for any read primitive. -/
theorem verifyChunks_inv {σ : Type} (rd : ReadTx σ) (R sz : Nat) (data heap : Nat → Byte)
    (I : Nat → σ → Prop) (Q : Nat → σ → Prop)
    (hstep : ∀ a s Mem p, a < min R sz → a % 16 = 0 → I a s →
      (EFI_ERROR (rd ((ME_FIRMWARE_START + a) % 2 ^ 32) (some p) Mem
          (min 16 (min R sz - a)) s).1.1 = false →
        I (min (a + 16) (min R sz)) (rd ((ME_FIRMWARE_START + a) % 2 ^ 32) (some p) Mem
          (min 16 (min R sz - a)) s).2) ∧
      (EFI_ERROR (rd ((ME_FIRMWARE_START + a) % 2 ^ 32) (some p) Mem
          (min 16 (min R sz - a)) s).1.1 = true →
        Q (rd ((ME_FIRMWARE_START + a) % 2 ^ 32) (some p) Mem (min 16 (min R sz - a)) s).1.1
          (rd ((ME_FIRMWARE_START + a) % 2 ^ 32) (some p) Mem (min 16 (min R sz - a)) s).2))
    (Offset : Nat) (FileBuffer FlashBuffer : Nat → Byte) (c fst : Nat) (s : σ)
    (hO : Offset % 256 = 0) (hI : I (min Offset (min R sz)) s) :
    (((verifyChunks ramShell rd R sz FileBuffer FlashBuffer Offset c fst s
          ⟨sz, data, min Offset (min R sz), heap⟩).1.1 = none ∧
        I (min R sz) (verifyChunks ramShell rd R sz FileBuffer FlashBuffer Offset c fst s
          ⟨sz, data, min Offset (min R sz), heap⟩).2.1) ∨
      (∃ e, (verifyChunks ramShell rd R sz FileBuffer FlashBuffer Offset c fst s
          ⟨sz, data, min Offset (min R sz), heap⟩).1.1 = some e ∧ EFI_ERROR e = true ∧
        Q e (verifyChunks ramShell rd R sz FileBuffer FlashBuffer Offset c fst s
          ⟨sz, data, min Offset (min R sz), heap⟩).2.1)) ∧
    ∃ pos, (verifyChunks ramShell rd R sz FileBuffer FlashBuffer Offset c fst s
      ⟨sz, data, min Offset (min R sz), heap⟩).2.2 = ⟨sz, data, pos, heap⟩ := by
  generalize hr : min R sz - Offset = r
  induction r using Nat.strong_induction_on
    generalizing Offset FileBuffer FlashBuffer c fst s with
  | _ r ih =>
    rw [verifyChunks]
    by_cases hlt : Offset < R ∧ Offset < sz
    · rw [if_pos hlt]
      have hn : Offset < min R sz := by omega
      have hchunk : (if sz - Offset < (if R - Offset < ME_CHUNK_SIZE then R - Offset
            else ME_CHUNK_SIZE) then sz - Offset
          else (if R - Offset < ME_CHUNK_SIZE then R - Offset else ME_CHUNK_SIZE)) =
          min 256 (min R sz - Offset) := by
        simp only [ME_CHUNK_SIZE]; split <;> split <;> omega
      simp only [hchunk]
      rw [Nat.min_eq_left (le_of_lt hn)] at hI ⊢
      rw [ramShell_read]
      have hk : min (min 256 (min R sz - Offset)) (sz - Offset) = min 256 (min R sz - Offset) := by
        omega
      simp only [hk, EFI_ERROR_SUCCESS, ne_eq, not_true_eq_false, or_self, Bool.false_eq_true,
        if_false]
      have hsub := readSubChunks_inv rd Offset (min 256 (min R sz - Offset))
        (fun d s => I (Offset + d) s) Q
        (by
          intro sub s0 Mem hs h16 hI0
          have h := hstep (Offset + sub) s0 Mem sub (by omega) (by omega) hI0
          have e1 : min 16 (min R sz - (Offset + sub)) = min 16 (min 256 (min R sz - Offset) - sub) := by
            omega
          have e2 : ME_FIRMWARE_START + (Offset + sub) = ME_FIRMWARE_START + Offset + sub := by
            omega
          have e3 : min (Offset + sub + 16) (min R sz) =
              Offset + min (sub + 16) (min 256 (min R sz - Offset)) := by omega
          rw [e1, e2, e3] at h
          exact h)
        0 FlashBuffer s (by omega) (by simpa using hI)
      rcases hsub with ⟨hnone, hIc⟩ | ⟨e, hsome, herr, hQ⟩
      · simp only [hnone]
        have hpos : Offset + min 256 (min R sz - Offset) = min (Offset + ME_CHUNK_SIZE) (min R sz) := by
          simp only [ME_CHUNK_SIZE]; omega
        rw [hpos] at hIc ⊢
        exact ih (min R sz - (Offset + ME_CHUNK_SIZE)) (by simp only [ME_CHUNK_SIZE]; omega)
          (Offset + ME_CHUNK_SIZE) _ _ _ _ _ (by simp only [ME_CHUNK_SIZE]; omega) hIc rfl
      · simp only [hsome]
        exact ⟨Or.inr ⟨e, rfl, herr, hQ⟩, _, rfl⟩
    · rw [if_neg hlt]
      rw [Nat.min_eq_right (by omega)] at hI ⊢
      exact ⟨Or.inl ⟨rfl, hI⟩, _, rfl⟩

/-- The invariant of `verifyChunks_inv` for the whole of `VerifyMeFirmware` on a reliable
source: it returns `EFI_SUCCESS` after all transactions, or the error status of the
transaction that failed, with `Matches = FALSE`. -/
theorem VerifyMeFirmwareOn_inv {σ : Type} (rd : ReadTx σ) (R : Nat) (f : RamFile)
    (I : Nat → σ → Prop) (Q : Nat → σ → Prop)
    (hstep : ∀ a s Mem p, a < min R f.size → a % 16 = 0 → I a s →
      (EFI_ERROR (rd ((ME_FIRMWARE_START + a) % 2 ^ 32) (some p) Mem
          (min 16 (min R f.size - a)) s).1.1 = false →
        I (min (a + 16) (min R f.size)) (rd ((ME_FIRMWARE_START + a) % 2 ^ 32) (some p) Mem
          (min 16 (min R f.size - a)) s).2) ∧
      (EFI_ERROR (rd ((ME_FIRMWARE_START + a) % 2 ^ 32) (some p) Mem
          (min 16 (min R f.size - a)) s).1.1 = true →
        Q (rd ((ME_FIRMWARE_START + a) % 2 ^ 32) (some p) Mem (min 16 (min R f.size - a)) s).1.1
          (rd ((ME_FIRMWARE_START + a) % 2 ^ 32) (some p) Mem (min 16 (min R f.size - a)) s).2))
    (s : σ) (hI : I 0 s) :
    ((VerifyMeFirmwareOn ramShell rd R s f).1.Status = EFI_SUCCESS ∧
        I (min R f.size) (VerifyMeFirmwareOn ramShell rd R s f).2.1) ∨
      (EFI_ERROR (VerifyMeFirmwareOn ramShell rd R s f).1.Status = true ∧
        (VerifyMeFirmwareOn ramShell rd R s f).1.Matches = false ∧
        Q (VerifyMeFirmwareOn ramShell rd R s f).1.Status
          (VerifyMeFirmwareOn ramShell rd R s f).2.1) := by
  obtain ⟨h1, -⟩ := verifyChunks_inv rd R f.size f.data f.heap I Q hstep 0 f.heap f.heap 0 0 s
    (by omega) (by simpa using hI)
  rw [Nat.zero_min] at h1
  simp only [VerifyMeFirmwareOn, ramShell_size, ramShell_alloc, ramShell_seek,
    EFI_ERROR_SUCCESS, Bool.false_eq_true, if_false]
  rcases h1 with ⟨hnone, hI2⟩ | ⟨e, hsome, herr, hQ⟩
  · simp only [hnone]
    split
    · exact Or.inl ⟨rfl, hI2⟩
    · exact Or.inl ⟨rfl, hI2⟩
  · simp only [hsome]
    exact Or.inr ⟨herr, trivial, hQ⟩

/-- The log of `VerifyMeFirmware` on a reliable source, for any read primitive: as for
`WriteMeFirmware`, the whole schedule on success, and the schedule up to the one failed
transaction, whose status is returned, otherwise. -/
theorem VerifyMeFirmwareOn_log {σ : Type} (rd : ReadTx σ) (R : Nat)
    (hR : ME_FIRMWARE_START + R ≤ 2 ^ 32) (P : Nat → Prop)
    (hP : ∀ a p m n s, 1 ≤ n → n ≤ 16 → P (rd a (some p) m n s).1.1) (s : σ) (f : RamFile) :
    (((VerifyMeFirmwareOn ramShell (recordReads rd) R (s, []) f).1.Status = EFI_SUCCESS ∧
        (VerifyMeFirmwareOn ramShell (recordReads rd) R (s, []) f).2.1.2.map TxRecord.range =
          txPlan (min R f.size) 0 ∧
        ∀ t ∈ (VerifyMeFirmwareOn ramShell (recordReads rd) R (s, []) f).2.1.2,
          EFI_ERROR t.Status = false) ∨
      (EFI_ERROR (VerifyMeFirmwareOn ramShell (recordReads rd) R (s, []) f).1.Status = true ∧
        ∃ pre t rest,
          (VerifyMeFirmwareOn ramShell (recordReads rd) R (s, []) f).2.1.2 = pre ++ [t] ∧
          t.Status = (VerifyMeFirmwareOn ramShell (recordReads rd) R (s, []) f).1.Status ∧
          (∀ x ∈ pre, EFI_ERROR x.Status = false) ∧
          (pre ++ [t]).map TxRecord.range ++ rest = txPlan (min R f.size) 0)) ∧
    ∀ t ∈ (VerifyMeFirmwareOn ramShell (recordReads rd) R (s, []) f).2.1.2, P t.Status := by
  have h := VerifyMeFirmwareOn_inv (recordReads rd) R f
    (fun a st => st.2.map TxRecord.range ++ txPlan (min R f.size) a = txPlan (min R f.size) 0 ∧
      (∀ t ∈ st.2, EFI_ERROR t.Status = false) ∧ ∀ t ∈ st.2, P t.Status)
    (fun e st => (∃ pre t rest, st.2 = pre ++ [t] ∧ t.Status = e ∧
        (∀ x ∈ pre, EFI_ERROR x.Status = false) ∧
        (pre ++ [t]).map TxRecord.range ++ rest = txPlan (min R f.size) 0) ∧
      ∀ t ∈ st.2, P t.Status)
    (by
      intro a st Mem p ha h16 hI
      obtain ⟨hplan, hok, hprov⟩ := hI
      have haddr : (ME_FIRMWARE_START + a) % 2 ^ 32 = ME_FIRMWARE_START + a :=
        Nat.mod_eq_of_lt (by omega)
      have hd : ∀ t ∈ st.2 ++ [(⟨ME_FIRMWARE_START + a, min 16 (min R f.size - a),
          (List.range (min 16 (min R f.size - a))).map (fun i =>
            (rd (ME_FIRMWARE_START + a) (some p) Mem (min 16 (min R f.size - a)) st.1).1.2 (p + i)),
          (rd (ME_FIRMWARE_START + a) (some p) Mem (min 16 (min R f.size - a)) st.1).1.1⟩ :
            TxRecord)], P t.Status := by
        intro t ht
        rcases List.mem_append.1 ht with h1 | h1
        · exact hprov t h1
        · rw [List.mem_singleton] at h1
          subst h1
          exact hP _ _ _ _ _ (by omega) (by omega)
      simp only [recordReads, haddr, Option.getD_some]
      constructor
      · intro he
        refine ⟨?_, ?_, hd⟩
        · rw [txPlan_min, ← hplan, txPlan_of_lt _ a ha]
          simp [TxRecord.range]
        · intro t ht
          rcases List.mem_append.1 ht with h1 | h1
          · exact hok t h1
          · rw [List.mem_singleton] at h1
            subst h1
            exact he
      · intro he
        refine ⟨⟨st.2, _, txPlan (min R f.size) (a + 16), rfl, rfl, hok, ?_⟩, hd⟩
        rw [← hplan, txPlan_of_lt _ a ha]
        simp [TxRecord.range])
    (s, []) (by simp)
  rcases h with ⟨hs, hplan, hok, hprov⟩ | ⟨he, -, ⟨pre, t, rest, hlog, hst, hpre, hpl⟩, hprov⟩
  · refine ⟨Or.inl ⟨hs, ?_, hok⟩, hprov⟩
    rw [txPlan_of_ge _ _ (le_refl _), List.append_nil] at hplan
    exact hplan
  · exact ⟨Or.inr ⟨he, pre, t, rest, hlog, hst, hpre, hpl⟩, hprov⟩

/-! ## Properties of a transfer -/

theorem coversExactly_of_plan (n : Nat) (log : List TxRecord)
    (h : log.map TxRecord.range = txPlan n 0) : CoversExactly n log := by
  refine ⟨?_, ?_, ?_⟩
  · have : log.map TxRecord.DataSize = (log.map TxRecord.range).map Prod.snd := by
      rw [List.map_map]; rfl
    rw [this, h, txPlan_sum]
    rfl
  · intro t ht
    have hm : t.range ∈ txPlan n 0 := by
      rw [← h]; exact List.mem_map_of_mem _ ht
    have := txPlan_mem n 0 t.range hm
    simp only [TxRecord.range] at this
    omega
  · intro i hi
    have hg : (txPlan n 0)[i]? = some (log.get ⟨i, hi⟩).range := by
      rw [← h, List.getElem?_map, List.getElem?_eq_getElem hi]
      rfl
    have := txPlan_getElem n 0 i _ hg
    simp only [TxRecord.range] at this
    omega

theorem recordReads_readsFlash {σ : Type} (rd : ReadTx σ) (flashOf : σ → Nat → Byte)
    (h : ReadsFlash rd flashOf) :
    ReadsFlash (recordReads rd) (fun st : σ × List TxRecord => flashOf st.1) where
  status := fun a p Mem n st h1 h16 => h.status a p Mem n st.1 h1 h16
  data := fun a p Mem n st h1 h16 => h.data a p Mem n st.1 h1 h16
  frame := fun a p Mem n st h1 h16 => h.frame a p Mem n st.1 h1 h16

/-- C5. `VerifyMeFirmware` never stops at the first mismatch. Over a flash-reading primitive
and a reliable source it returns `EFI_SUCCESS`, its read transactions cover all
`n = min F ME_FIRMWARE_SIZE` bytes, its mismatch count is exactly the number of offsets below
`n` at which source and flash differ, and `Matches` is `TRUE` if and only if that count is 0. -/
theorem verify_counts_all {σ : Type} (rd : ReadTx σ) (flashOf : σ → Nat → Byte)
    (h : ReadsFlash rd flashOf) (s : σ) (f : RamFile) :
    (VerifyMeFirmwareOn ramShell (recordReads rd) ME_FIRMWARE_SIZE (s, []) f).1.Status =
      EFI_SUCCESS ∧
    CoversExactly (min f.size ME_FIRMWARE_SIZE)
      (VerifyMeFirmwareOn ramShell (recordReads rd) ME_FIRMWARE_SIZE (s, []) f).2.1.2 ∧
    (VerifyMeFirmwareOn ramShell (recordReads rd) ME_FIRMWARE_SIZE (s, []) f).1.MismatchCount =
      mismatchCount f.data (flashOf s) (min f.size ME_FIRMWARE_SIZE) ∧
    ((VerifyMeFirmwareOn ramShell (recordReads rd) ME_FIRMWARE_SIZE (s, []) f).1.Matches = true ↔
      mismatchCount f.data (flashOf s) (min f.size ME_FIRMWARE_SIZE) = 0) := by
  obtain ⟨h1, ⟨c1, -, -⟩, h3, -, -⟩ := VerifyMeFirmwareOn_reads (recordReads rd)
    (fun st : σ × List TxRecord => flashOf st.1) (recordReads_readsFlash rd flashOf h)
    ME_FIRMWARE_SIZE (by decide) (s, []) f
  obtain ⟨l1, -⟩ := VerifyMeFirmwareOn_log rd ME_FIRMWARE_SIZE (by decide) (fun _ => True)
    (fun _ _ _ _ _ _ _ => trivial) s f
  rw [Nat.min_comm]
  refine ⟨h1, ?_, c1, ?_⟩
  · rcases l1 with ⟨-, hplan, -⟩ | ⟨he, -⟩
    · exact coversExactly_of_plan _ _ hplan
    · rw [h1] at he
      exact absurd he (by decide)
  · rw [h3, c1]
    simp

/-- C10. If a transaction issued by `WriteMeFirmware` returns an error status, the function
returns exactly that status, the failed transaction is the last one issued, and the
transactions up to it (address, size and data) are the first ones of every error-free run
on the same source. The same holds for `VerifyMeFirmware` (address and size). -/
theorem transaction_error_aborts {σ : Type} (wr : WriteTx σ) (rd : ReadTx σ) (s : σ)
    (f : RamFile) :
    (∀ pre t post,
      (WriteMeFirmwareOn ramShell (recordWrites wr) ME_FIRMWARE_SIZE (s, []) f).2.1.2 =
        pre ++ t :: post →
      EFI_ERROR t.Status = true →
      (WriteMeFirmwareOn ramShell (recordWrites wr) ME_FIRMWARE_SIZE (s, []) f).1 = t.Status ∧
      post = [] ∧
      ∀ (σ0 : Type) (wr0 : WriteTx σ0) (s0 : σ0),
        (∀ a p m n x, 1 ≤ n → n ≤ 16 → EFI_ERROR (wr0 a (some p) m n x).1 = false) →
        (pre ++ [t]).map TxRecord.call <+:
          (WriteMeFirmwareOn ramShell (recordWrites wr0) ME_FIRMWARE_SIZE (s0, []) f).2.1.2.map
            TxRecord.call) ∧
    (∀ pre t post,
      (VerifyMeFirmwareOn ramShell (recordReads rd) ME_FIRMWARE_SIZE (s, []) f).2.1.2 =
        pre ++ t :: post →
      EFI_ERROR t.Status = true →
      (VerifyMeFirmwareOn ramShell (recordReads rd) ME_FIRMWARE_SIZE (s, []) f).1.Status =
        t.Status ∧
      post = [] ∧
      ∀ (σ0 : Type) (rd0 : ReadTx σ0) (s0 : σ0),
        (∀ a p m n x, 1 ≤ n → n ≤ 16 → EFI_ERROR (rd0 a (some p) m n x).1.1 = false) →
        (pre ++ [t]).map TxRecord.range <+:
          (VerifyMeFirmwareOn ramShell (recordReads rd0) ME_FIRMWARE_SIZE (s0, []) f).2.1.2.map
            TxRecord.range) := by
  constructor
  · intro pre t post hlog hterr
    obtain ⟨h1, h2⟩ := WriteMeFirmwareOn_log wr ME_FIRMWARE_SIZE (by decide) (fun _ => True)
      (fun _ _ _ _ _ _ _ => trivial) s f
    rcases h1 with ⟨-, -, hok⟩ | ⟨he, pre1, t1, rest, hlog1, hst, hpre, hplan⟩
    · exfalso
      have := hok t (by rw [hlog]; simp)
      rw [hterr] at this
      exact Bool.noConfusion this
    · have hpost : post = [] := by
        rcases List.eq_nil_or_concat post with hp | ⟨L, b, hp⟩
        · exact hp
        · exfalso
          rw [hlog, hp, List.concat_eq_append] at hlog1
          have e : pre ++ t :: (L ++ [b]) = (pre ++ t :: L) ++ [b] := by simp
          rw [e] at hlog1
          have := (List.append_inj' hlog1 rfl).1
          have hmem : t ∈ pre1 := by rw [← this]; simp
          have := hpre t hmem
          rw [hterr] at this
          exact Bool.noConfusion this
      subst hpost
      rw [hlog] at hlog1
      obtain ⟨e1, e2⟩ := List.append_inj' hlog1 rfl
      simp only [List.cons.injEq, and_true] at e2
      subst e1 e2
      refine ⟨hst.symm, rfl, ?_⟩
      intro σ0 wr0 s0 hw0
      obtain ⟨g1, g2⟩ := WriteMeFirmwareOn_log wr0 ME_FIRMWARE_SIZE (by decide)
        (fun st => EFI_ERROR st = false) hw0 s0 f
      rcases g1 with ⟨-, gplan, -⟩ | ⟨ge, p0, t0, r0, glog, gst, -, -⟩
      · -- both logs follow the schedule and carry the source bytes of their ranges
        have hcall : ∀ (l : List TxRecord),
            (∀ x ∈ l, x.Data = (List.range x.DataSize).map
              (fun i => f.data (x.FlashAddr - ME_FIRMWARE_START + i))) →
            l.map TxRecord.call = (l.map TxRecord.range).map
              (fun r => (r.1, r.2, (List.range r.2).map
                (fun i => f.data (r.1 - ME_FIRMWARE_START + i)))) := by
          intro l hl
          rw [List.map_map]
          apply List.map_congr_left
          intro x hx
          simp only [TxRecord.call, TxRecord.range, Function.comp]
          rw [hl x hx]
        rw [hcall _ (fun x hx => (g2 x hx).2), gplan, ← hplan,
          hcall _ (fun x hx => (h2 x (by rw [hlog]; exact hx)).2)]
        exact ⟨_, (List.map_append _ _ _).symm⟩
      · exfalso
        have := (g2 t0 (by rw [glog]; simp)).1
        rw [gst, ge] at this
        exact Bool.noConfusion this
  · intro pre t post hlog hterr
    obtain ⟨h1, -⟩ := VerifyMeFirmwareOn_log rd ME_FIRMWARE_SIZE (by decide) (fun _ => True)
      (fun _ _ _ _ _ _ _ => trivial) s f
    rcases h1 with ⟨-, -, hok⟩ | ⟨he, pre1, t1, rest, hlog1, hst, hpre, hplan⟩
    · exfalso
      have := hok t (by rw [hlog]; simp)
      rw [hterr] at this
      exact Bool.noConfusion this
    · have hpost : post = [] := by
        rcases List.eq_nil_or_concat post with hp | ⟨L, b, hp⟩
        · exact hp
        · exfalso
          rw [hlog, hp, List.concat_eq_append] at hlog1
          have e : pre ++ t :: (L ++ [b]) = (pre ++ t :: L) ++ [b] := by simp
          rw [e] at hlog1
          have := (List.append_inj' hlog1 rfl).1
          have hmem : t ∈ pre1 := by rw [← this]; simp
          have := hpre t hmem
          rw [hterr] at this
          exact Bool.noConfusion this
      subst hpost
      rw [hlog] at hlog1
      obtain ⟨e1, e2⟩ := List.append_inj' hlog1 rfl
      simp only [List.cons.injEq, and_true] at e2
      subst e1 e2
      refine ⟨hst.symm, rfl, ?_⟩
      intro σ0 rd0 s0 hr0
      obtain ⟨g1, g2⟩ := VerifyMeFirmwareOn_log rd0 ME_FIRMWARE_SIZE (by decide)
        (fun st => EFI_ERROR st = false) hr0 s0 f
      rcases g1 with ⟨-, gplan, -⟩ | ⟨ge, p0, t0, r0, glog, gst, -, -⟩
      · rw [gplan, ← hplan]
        exact ⟨_, rfl⟩
      · exfalso
        have := g2 t0 (by rw [glog]; simp)
        rw [gst, ge] at this
        exact Bool.noConfusion this

/-! ## End to end on a flash that stores what is written -/

theorem SameSource.refl (f : RamFile) : SameSource f f := ⟨rfl, rfl, rfl⟩

theorem sameSource_eq (f g : RamFile) (h : SameSource f g) :
    g = ⟨f.size, f.data, g.pos, f.heap⟩ := by
  obtain ⟨h1, h2, h3⟩ := h
  cases g
  simp only at h1 h2 h3
  subst h1 h2 h3
  rfl

/-- `WriteMeFirmware` succeeds when no transaction of a valid size fails. -/
theorem WriteMeFirmwareOn_ok {σ : Type} (wr : WriteTx σ)
    (hok : ∀ a p m n x, 1 ≤ n → n ≤ 16 → EFI_ERROR (wr a (some p) m n x).1 = false)
    (R : Nat) (s : σ) (f : RamFile) :
    (WriteMeFirmwareOn ramShell wr R s f).1 = EFI_SUCCESS := by
  obtain ⟨h, -⟩ := WriteMeFirmwareOn_inv wr R f (fun _ _ => True) (fun _ _ => False)
    (by
      intro a x Mem p ha h16 _ _
      have := hok ((ME_FIRMWARE_START + a) % 2 ^ 32) p Mem (min 16 (min R f.size - a)) x
        (by omega) (by omega)
      rw [this]
      exact ⟨fun _ => trivial, fun hc => Bool.noConfusion hc⟩)
    s trivial
  rcases h with ⟨h1, -⟩ | ⟨-, h2⟩
  · exact h1
  · exact absurd h2 not_false

/-- After a `WriteMeFirmware` that did not fail, over a flash-writing primitive, the first
`min R size` bytes of the region hold the source bytes and the rest of the flash is as it
was; the dump file is the same file. -/
theorem WriteMeFirmwareOn_stores {σ : Type} (wr : WriteTx σ) (flashOf : σ → Nat → Byte)
    (hS : StoresFlash wr flashOf) (R : Nat) (hR : ME_FIRMWARE_START + R ≤ 2 ^ 32) (s : σ)
    (f : RamFile) (hok : EFI_ERROR (WriteMeFirmwareOn ramShell wr R s f).1 = false) :
    (WriteMeFirmwareOn ramShell wr R s f).1 = EFI_SUCCESS ∧
    flashOf (WriteMeFirmwareOn ramShell wr R s f).2.1 =
      (fun x => if ME_FIRMWARE_START ≤ x ∧ x < ME_FIRMWARE_START + min R f.size then
        f.data (x - ME_FIRMWARE_START) else flashOf s x) ∧
    SameSource f (WriteMeFirmwareOn ramShell wr R s f).2.2 := by
  obtain ⟨h, pos, hf⟩ := WriteMeFirmwareOn_inv wr R f
    (fun a x => flashOf x = (fun y => if ME_FIRMWARE_START ≤ y ∧ y < ME_FIRMWARE_START + a then
        f.data (y - ME_FIRMWARE_START) else flashOf s y))
    (fun _ _ => True)
    (by
      intro a x Mem p ha h16 hmem hI
      have haddr : (ME_FIRMWARE_START + a) % 2 ^ 32 = ME_FIRMWARE_START + a :=
        Nat.mod_eq_of_lt (by omega)
      rw [haddr]
      refine ⟨fun he => ?_, fun _ => trivial⟩
      beta_reduce at hI ⊢
      rw [hS.flash (ME_FIRMWARE_START + a) p Mem (min 16 (min R f.size - a)) x (by omega)
        (by omega) he, hI]
      funext y
      beta_reduce
      by_cases h1 : ME_FIRMWARE_START + a ≤ y ∧
          y < ME_FIRMWARE_START + a + min 16 (min R f.size - a)
      · rw [if_pos h1, if_pos (by omega), hmem (y - (ME_FIRMWARE_START + a)) (by omega),
          show a + (y - (ME_FIRMWARE_START + a)) = y - ME_FIRMWARE_START by omega]
      · rw [if_neg h1]
        by_cases h2 : ME_FIRMWARE_START ≤ y ∧ y < ME_FIRMWARE_START + a
        · rw [if_pos h2, if_pos (by omega)]
        · rw [if_neg h2, if_neg (by omega)])
    s (by funext y; rw [if_neg (by omega)])
  refine ⟨?_, ?_, ?_⟩
  · rcases h with ⟨h1, -⟩ | ⟨h1, -⟩
    · exact h1
    · rw [hok] at h1; exact Bool.noConfusion h1
  · rcases h with ⟨-, h2⟩ | ⟨h1, -⟩
    · exact h2
    · rw [hok] at h1; exact Bool.noConfusion h1
  · rw [hf]
    exact ⟨rfl, rfl, rfl⟩

theorem mismatchCount_all (src flash : Nat → Byte) (n : Nat)
    (h : ∀ i, i < n → src i ≠ flash (ME_FIRMWARE_START + i)) : mismatchCount src flash n = n := by
  induction n with
  | zero => rfl
  | succ n ih =>
    rw [mismatchCount_succ, if_pos (h n (by omega)), ih (fun i hi => h i (by omega))]

/-- `VerifyMeFirmware` on a flash that agrees with the source reports a match and no
mismatch. -/
theorem VerifyMeFirmwareOn_match {σ : Type} (rd : ReadTx σ) (flashOf : σ → Nat → Byte)
    (hRd : ReadsFlash rd flashOf) (R : Nat) (hR : ME_FIRMWARE_START + R ≤ 2 ^ 32) (s : σ)
    (f g : RamFile) (hg : SameSource f g)
    (hag : ∀ i, i < min R f.size → f.data i = flashOf s (ME_FIRMWARE_START + i)) :
    (VerifyMeFirmwareOn ramShell rd R s g).1 = ⟨EFI_SUCCESS, true, 0, 0⟩ ∧
    flashOf (VerifyMeFirmwareOn ramShell rd R s g).2.1 = flashOf s ∧
    SameSource f (VerifyMeFirmwareOn ramShell rd R s g).2.2 := by
  obtain ⟨g1, g2, g3⟩ := hg
  obtain ⟨h1, ⟨c1, c2, -⟩, h3, h4, pos, h5⟩ := VerifyMeFirmwareOn_reads rd flashOf hRd R hR s g
  rw [g1, g2] at c1
  have hz : mismatchCount f.data (flashOf s) (min R f.size) = 0 := by
    rw [mismatchCount_eq_of_agree f.data (flashOf s) 0 _ (Nat.zero_le _)
      (fun k _ hk => hag k hk)]
    rfl
  rw [hz] at c1
  refine ⟨?_, h4, ?_⟩
  · cases hv : (VerifyMeFirmwareOn ramShell rd R s g).1 with
    | mk st m c fst =>
      rw [hv] at h1 c1 c2 h3
      simp only at h1 c1 c2 h3
      rw [h1, h3, c1, c2 c1]
      rfl
  · rw [h5]
    exact ⟨g1, g2, g3⟩

/-- `VerifyMeFirmware` on a flash that differs from the source at every one of the
`n = min R size > 0` offsets reports `n` mismatches, the first at offset 0. -/
theorem VerifyMeFirmwareOn_all_differ {σ : Type} (rd : ReadTx σ) (flashOf : σ → Nat → Byte)
    (hRd : ReadsFlash rd flashOf) (R : Nat) (hR : ME_FIRMWARE_START + R ≤ 2 ^ 32) (s : σ)
    (f g : RamFile) (hg : SameSource f g) (hpos : 0 < min R f.size)
    (hdiff : ∀ i, i < min R f.size → f.data i ≠ flashOf s (ME_FIRMWARE_START + i)) :
    (VerifyMeFirmwareOn ramShell rd R s g).1 = ⟨EFI_SUCCESS, false, min R f.size, 0⟩ ∧
    flashOf (VerifyMeFirmwareOn ramShell rd R s g).2.1 = flashOf s ∧
    SameSource f (VerifyMeFirmwareOn ramShell rd R s g).2.2 := by
  obtain ⟨g1, g2, g3⟩ := hg
  obtain ⟨h1, ⟨c1, -, c3⟩, h3, h4, pos, h5⟩ := VerifyMeFirmwareOn_reads rd flashOf hRd R hR s g
  rw [g1, g2] at c1 c3
  rw [mismatchCount_all f.data (flashOf s) _ hdiff] at c1
  refine ⟨?_, h4, ?_⟩
  · cases hv : (VerifyMeFirmwareOn ramShell rd R s g).1 with
    | mk st m c fst =>
      rw [hv] at h1 c1 c3 h3
      simp only at h1 c1 c3 h3
      obtain ⟨a1, a2, a3⟩ := c3 (by omega)
      have hf0 : fst = 0 := by
        by_contra hne
        exact hdiff 0 hpos (a3 0 (by omega))
      rw [h1, h3, c1, hf0]
      simp only [VerifyResult.mk.injEq, decide_eq_false_iff_not, true_and, and_true]
      omega
  · rw [h5]
    exact ⟨g1, g2, g3⟩

theorem transferOps_write {σ φ : Type} (S : Shell φ) (wr : WriteTx σ) (rd : ReadTx σ) (R : Nat)
    (rest : AppOps (σ × φ)) (w : σ × φ) :
    (transferOps S wr rd R rest).WriteMeFirmware w = WriteMeFirmwareOn S wr R w.1 w.2 := rfl

theorem transferOps_verify {σ φ : Type} (S : Shell φ) (wr : WriteTx σ) (rd : ReadTx σ) (R : Nat)
    (rest : AppOps (σ × φ)) (w : σ × φ) :
    (transferOps S wr rd R rest).VerifyMeFirmware w = VerifyMeFirmwareOn S rd R w.1 w.2 := rfl

theorem transferOps_restore {σ φ : Type} (S : Shell φ) (wr : WriteTx σ) (rd : ReadTx σ) (R : Nat)
    (rest : AppOps (σ × φ)) (w : σ × φ) :
    (transferOps S wr rd R rest).RestoreMeFirmware w = WriteMeFirmwareOn S wr R w.1 w.2 := rfl

theorem transferOps_seek {σ : Type} (wr : WriteTx σ) (rd : ReadTx σ) (R : Nat)
    (rest : AppOps (σ × RamFile)) (p : Nat) (w : σ × RamFile) :
    (transferOps ramShell wr rd R rest).ShellSetFilePosition p w =
      (EFI_SUCCESS, w.1, ⟨w.2.size, w.2.data, p, w.2.heap⟩) := rfl

theorem ShellAppMain_write_recorded {ω : Type} (ops : AppOps ω) (w : ω) (j : List Call) :
    ShellAppMain_write ops.recorded (w, j) =
      if EFI_ERROR (ops.WriteMeFirmware w).1 then
        (1, (ops.ShellCloseFile (ops.RestoreSpiClockSpeed (ops.WriteMeFirmware w).2).2).2,
          j ++ [Call.WriteMeFirmware (ops.WriteMeFirmware w).1,
            Call.RestoreSpiClockSpeed (ops.RestoreSpiClockSpeed (ops.WriteMeFirmware w).2).1,
            Call.ShellCloseFile (ops.ShellCloseFile
              (ops.RestoreSpiClockSpeed (ops.WriteMeFirmware w).2).2).1])
      else
        ShellAppMain_verify ops.recorded
          ((ops.WriteMeFirmware w).2, j ++ [Call.WriteMeFirmware (ops.WriteMeFirmware w).1]) := by
  unfold ShellAppMain_write
  simp only [AppOps.recorded]
  split <;> simp

/-- C8. End to end without corruption, the region size being the parameter `R`. On a flash
that stores what is written and reads it back, for every source: after a `WriteMeFirmware`
that did not fail, the first `n = min F R` bytes of the region equal the source bytes; the
application then calls `VerifyMeFirmware`, which reports mismatch count 0 and
`Matches = TRUE`, never calls `RestoreMeFirmware`, and returns 0. -/
theorem end_to_end_clean {σ : Type} (wr : WriteTx σ) (rd : ReadTx σ) (flashOf : σ → Nat → Byte)
    (hS : StoresFlash wr flashOf) (hRd : ReadsFlash rd flashOf) (R : Nat)
    (hR : ME_FIRMWARE_START + R ≤ 2 ^ 32) (rest : AppOps (σ × RamFile)) (s : σ) (f : RamFile)
    (hW : EFI_ERROR (WriteMeFirmwareOn ramShell wr R s f).1 = false) :
    (∀ i, i < min f.size R →
      flashOf (WriteMeFirmwareOn ramShell wr R s f).2.1 (ME_FIRMWARE_START + i) = f.data i) ∧
    (∃ a b, (ShellAppMain_write (transferOps ramShell wr rd R rest).recorded ((s, f), [])).2.2 =
      [Call.WriteMeFirmware EFI_SUCCESS, Call.VerifyMeFirmware ⟨EFI_SUCCESS, true, 0, 0⟩,
        Call.RestoreSpiClockSpeed a, Call.ShellCloseFile b]) ∧
    restoreCalls
      (ShellAppMain_write (transferOps ramShell wr rd R rest).recorded ((s, f), [])).2.2 = 0 ∧
    (ShellAppMain_write (transferOps ramShell wr rd R rest).recorded ((s, f), [])).1 = 0 := by
  obtain ⟨w1, w2, w3⟩ := WriteMeFirmwareOn_stores wr flashOf hS R hR s f hW
  have hflash : ∀ i, i < min R f.size →
      f.data i = flashOf (WriteMeFirmwareOn ramShell wr R s f).2.1 (ME_FIRMWARE_START + i) := by
    intro i hi
    rw [w2]
    beta_reduce
    rw [if_pos (by omega), Nat.add_sub_cancel_left]
  obtain ⟨v1, -, -⟩ := VerifyMeFirmwareOn_match rd flashOf hRd R hR
    (WriteMeFirmwareOn ramShell wr R s f).2.1 f (WriteMeFirmwareOn ramShell wr R s f).2.2 w3 hflash
  have hrun : ShellAppMain_write (transferOps ramShell wr rd R rest).recorded ((s, f), []) =
      (0, (rest.ShellCloseFile (rest.RestoreSpiClockSpeed
          (VerifyMeFirmwareOn ramShell rd R (WriteMeFirmwareOn ramShell wr R s f).2.1
            (WriteMeFirmwareOn ramShell wr R s f).2.2).2).2).2,
        [Call.WriteMeFirmware EFI_SUCCESS, Call.VerifyMeFirmware ⟨EFI_SUCCESS, true, 0, 0⟩,
          Call.RestoreSpiClockSpeed (rest.RestoreSpiClockSpeed
            (VerifyMeFirmwareOn ramShell rd R (WriteMeFirmwareOn ramShell wr R s f).2.1
              (WriteMeFirmwareOn ramShell wr R s f).2.2).2).1,
          Call.ShellCloseFile (rest.ShellCloseFile (rest.RestoreSpiClockSpeed
            (VerifyMeFirmwareOn ramShell rd R (WriteMeFirmwareOn ramShell wr R s f).2.1
              (WriteMeFirmwareOn ramShell wr R s f).2.2).2).2).1]) := by
    rw [ShellAppMain_write_recorded, transferOps_write]
    dsimp only
    rw [hW]
    simp only [Bool.false_eq_true, if_false]
    unfold ShellAppMain_verify
    rw [ShellAppMain_exit_recorded, verifyRestoreLoop_recorded, transferOps_verify]
    rw [v1, w1]
    simp only [EFI_ERROR_SUCCESS, Bool.false_eq_true, if_false, if_true]
    rfl
  refine ⟨fun i hi => (hflash i (by omega)).symm, ?_, ?_, ?_⟩
  · rw [hrun]
    exact ⟨_, _, rfl⟩
  · rw [hrun]
    rfl
  · rw [hrun]

theorem SameSource.seek (f g : RamFile) (h : SameSource f g) (p : Nat) :
    SameSource f ⟨g.size, g.data, p, g.heap⟩ := h

theorem WriteMeFirmwareOn_restores {σ : Type} (wr : WriteTx σ) (flashOf : σ → Nat → Byte)
    (hS : StoresFlash wr flashOf)
    (hok : ∀ a p m n x, 1 ≤ n → n ≤ 16 → EFI_ERROR (wr a (some p) m n x).1 = false)
    (R : Nat) (hR : ME_FIRMWARE_START + R ≤ 2 ^ 32) (s : σ) (f g : RamFile)
    (hg : SameSource f g) :
    (WriteMeFirmwareOn ramShell wr R s g).1 = EFI_SUCCESS ∧
    (∀ i, i < min R f.size →
      f.data i = flashOf (WriteMeFirmwareOn ramShell wr R s g).2.1 (ME_FIRMWARE_START + i)) ∧
    SameSource f (WriteMeFirmwareOn ramShell wr R s g).2.2 := by
  have h1 := WriteMeFirmwareOn_ok wr hok R s g
  obtain ⟨-, w2, w3⟩ := WriteMeFirmwareOn_stores wr flashOf hS R hR s g
    (by rw [h1]; exact EFI_ERROR_SUCCESS)
  obtain ⟨g1, g2, g3⟩ := hg
  refine ⟨h1, ?_, ?_⟩
  · intro i hi
    rw [w2]
    beta_reduce
    rw [if_pos (by omega), Nat.add_sub_cancel_left, g2]
  · exact ⟨w3.1.trans g1, w3.2.1.trans g2, w3.2.2.trans g3⟩

/-- C7. End to end with corruption, the region size being the parameter `R > 0`, on a flash
that stores what is written and reads it back, with a source of at least `R` bytes that
differs from the flash at every offset of the region when the verify/restore block starts
(source all `0xFF`, flash all `0x00`): the first `VerifyMeFirmware` reports `R` mismatches,
the first at offset 0; `RestoreMeFirmware` is then called exactly once; the second
`VerifyMeFirmware` reports `Matches = TRUE`; and the application returns 0. -/
theorem end_to_end_corrupted {σ : Type} (wr : WriteTx σ) (rd : ReadTx σ)
    (flashOf : σ → Nat → Byte) (hS : StoresFlash wr flashOf) (hRd : ReadsFlash rd flashOf)
    (hok : ∀ a p m n x, 1 ≤ n → n ≤ 16 → EFI_ERROR (wr a (some p) m n x).1 = false)
    (R : Nat) (hR : ME_FIRMWARE_START + R ≤ 2 ^ 32) (hpos : 0 < R)
    (rest : AppOps (σ × RamFile)) (s : σ) (f : RamFile) (hsz : R ≤ f.size)
    (hdiff : ∀ i, i < R → f.data i ≠ flashOf s (ME_FIRMWARE_START + i)) :
    (∃ a b, (ShellAppMain_verify (transferOps ramShell wr rd R rest).recorded ((s, f), [])).2.2 =
      [Call.VerifyMeFirmware ⟨EFI_SUCCESS, false, R, 0⟩,
        Call.ShellSetFilePosition 0 EFI_SUCCESS,
        Call.RestoreMeFirmware EFI_SUCCESS,
        Call.ShellSetFilePosition 0 EFI_SUCCESS,
        Call.VerifyMeFirmware ⟨EFI_SUCCESS, true, 0, 0⟩,
        Call.RestoreSpiClockSpeed a, Call.ShellCloseFile b]) ∧
    restoreCalls
      (ShellAppMain_verify (transferOps ramShell wr rd R rest).recorded ((s, f), [])).2.2 = 1 ∧
    (ShellAppMain_verify (transferOps ramShell wr rd R rest).recorded ((s, f), [])).1 = 0 := by
  have hn : min R f.size = R := Nat.min_eq_left hsz
  obtain ⟨v1, -, v3⟩ := VerifyMeFirmwareOn_all_differ rd flashOf hRd R hR s f f
    (SameSource.refl f) (by omega) (by rw [hn]; exact hdiff)
  rw [hn] at v1
  obtain ⟨r1, r2, r3⟩ := WriteMeFirmwareOn_restores wr flashOf hS hok R hR
    (VerifyMeFirmwareOn ramShell rd R s f).2.1 f
    ⟨(VerifyMeFirmwareOn ramShell rd R s f).2.2.size, (VerifyMeFirmwareOn ramShell rd R s f).2.2.data,
      0, (VerifyMeFirmwareOn ramShell rd R s f).2.2.heap⟩ (SameSource.seek f _ v3 0)
  obtain ⟨u1, -, -⟩ := VerifyMeFirmwareOn_match rd flashOf hRd R hR _ f _
    (SameSource.seek f _ r3 0) r2
  have hrun : ∃ w a b,
      ShellAppMain_verify (transferOps ramShell wr rd R rest).recorded ((s, f), []) =
      (0, w, [Call.VerifyMeFirmware ⟨EFI_SUCCESS, false, R, 0⟩,
        Call.ShellSetFilePosition 0 EFI_SUCCESS,
        Call.RestoreMeFirmware EFI_SUCCESS,
        Call.ShellSetFilePosition 0 EFI_SUCCESS,
        Call.VerifyMeFirmware ⟨EFI_SUCCESS, true, 0, 0⟩,
        Call.RestoreSpiClockSpeed a, Call.ShellCloseFile b]) := by
    unfold ShellAppMain_verify
    rw [ShellAppMain_exit_recorded, verifyRestoreLoop_recorded]
    simp only [transferOps_verify, transferOps_seek, transferOps_restore]
    rw [v1]
    simp only [EFI_ERROR_SUCCESS, Bool.false_eq_true, if_false]
    rw [if_pos (show 0 + 1 ≤ 3 by omega), r1]
    simp only [EFI_ERROR_SUCCESS, Bool.false_eq_true, if_false]
    rw [verifyRestoreLoop_recorded]
    simp only [transferOps_verify, transferOps_seek, transferOps_restore]
    rw [u1]
    simp only [EFI_ERROR_SUCCESS, Bool.false_eq_true, if_false, if_true]
    exact ⟨_, _, _, rfl⟩
  obtain ⟨w, a, b, hrun⟩ := hrun
  rw [hrun]
  exact ⟨⟨a, b, rfl⟩, rfl, rfl⟩

/-! ## The driver on the ideal controller is such a flash -/

theorem idealSpi_readsFlash (g : Globals) (hb : g.mSpiMmioBase ≠ 0) :
    ReadsFlash (ReadSpiChunk (idealSpi g.mSpiMmioBase) g) IdealSpi.flash where
  status := fun a p Mem n s h1 h16 => (ReadSpiChunk_ideal g hb a p n h1 h16 Mem s).1
  data := fun a p Mem n s h1 h16 => (ReadSpiChunk_ideal g hb a p n h1 h16 Mem s).2.1
  frame := fun a p Mem n s h1 h16 => (ReadSpiChunk_ideal g hb a p n h1 h16 Mem s).2.2

theorem idealSpi_storesFlash (g : Globals) (hb : g.mSpiMmioBase ≠ 0) :
    StoresFlash (WriteSpiChunk (idealSpi g.mSpiMmioBase) g) IdealSpi.flash where
  flash := fun a p Mem n s h1 h16 _ => (WriteSpiChunk_ideal g hb a p n h1 h16 Mem s).2

theorem idealSpi_write_ok (g : Globals) (hb : g.mSpiMmioBase ≠ 0) (a p : Nat) (m : Nat → Byte)
    (n : Nat) (x : IdealSpi) (h1 : 1 ≤ n) (h16 : n ≤ 16) :
    EFI_ERROR (WriteSpiChunk (idealSpi g.mSpiMmioBase) g a (some p) m n x).1 = false := by
  rw [(WriteSpiChunk_ideal g hb a p n h1 h16 m x).1]
  exact EFI_ERROR_SUCCESS

theorem EFI_ERROR_DEVICE_ERROR : EFI_ERROR EFI_DEVICE_ERROR = true := by decide

theorem mappedGlobals_mapped : mappedGlobals.mSpiMmioBase ≠ 0 := by decide

/-- The round trip of 16 bytes at the start of the ME region. -/
theorem spi_chunk_round_trip_witness :
    (mappedGlobals.mSpiMmioBase ≠ 0 ∧ 1 ≤ 16 ∧ 16 ≤ 16) ∧
    ((WriteSpiChunk (idealSpi mappedGlobals.mSpiMmioBase) mappedGlobals ME_FIRMWARE_START
        (some 0) rampBytes 16 blankSpi).1 = EFI_SUCCESS ∧
      (ReadSpiChunk (idealSpi mappedGlobals.mSpiMmioBase) mappedGlobals ME_FIRMWARE_START
        (some 0) (fun _ => 0) 16
        (WriteSpiChunk (idealSpi mappedGlobals.mSpiMmioBase) mappedGlobals ME_FIRMWARE_START
          (some 0) rampBytes 16 blankSpi).2).1.1 = EFI_SUCCESS ∧
      ∀ i, i < 16 →
        (ReadSpiChunk (idealSpi mappedGlobals.mSpiMmioBase) mappedGlobals ME_FIRMWARE_START
          (some 0) (fun _ => 0) 16
          (WriteSpiChunk (idealSpi mappedGlobals.mSpiMmioBase) mappedGlobals ME_FIRMWARE_START
            (some 0) rampBytes 16 blankSpi).2).1.2 (0 + i) = rampBytes (0 + i)) :=
  ⟨⟨mappedGlobals_mapped, by decide, by decide⟩,
    spi_chunk_round_trip mappedGlobals mappedGlobals_mapped 16 (by decide) (by decide)
      ME_FIRMWARE_START rampBytes (fun _ => 0) 0 0 blankSpi⟩

/-- A transaction of 17 bytes is refused. -/
theorem spi_chunk_bad_size_witness :
    (17 = 0 ∨ 17 > 16) ∧
    (WriteSpiChunk (idealSpi mappedGlobals.mSpiMmioBase) mappedGlobals ME_FIRMWARE_START (some 0)
        rampBytes 17 blankSpi = (EFI_INVALID_PARAMETER, blankSpi) ∧
      ReadSpiChunk (idealSpi mappedGlobals.mSpiMmioBase) mappedGlobals ME_FIRMWARE_START (some 0)
        rampBytes 17 blankSpi = ((EFI_INVALID_PARAMETER, rampBytes), blankSpi)) :=
  ⟨by decide,
    spi_chunk_bad_size (idealSpi mappedGlobals.mSpiMmioBase) mappedGlobals ME_FIRMWARE_START
      (some 0) rampBytes 17 blankSpi (by decide)⟩

/-- A 40-byte source of `0xFF` against an erased flash: the first mismatch is at offset 0. -/
theorem verify_first_mismatch_witness :
    (ReadsFlash (ReadSpiChunk (idealSpi mappedGlobals.mSpiMmioBase) mappedGlobals) IdealSpi.flash ∧
      0 < min (constFile 40 0xFF).size ME_FIRMWARE_SIZE ∧
      (constFile 40 0xFF).data 0 ≠ blankSpi.flash (ME_FIRMWARE_START + 0) ∧
      ∀ i, i < 0 → (constFile 40 0xFF).data i = blankSpi.flash (ME_FIRMWARE_START + i)) ∧
    ((VerifyMeFirmware (idealSpi mappedGlobals.mSpiMmioBase) ramShell mappedGlobals blankSpi
        (constFile 40 0xFF)).1.Status = EFI_SUCCESS ∧
      (VerifyMeFirmware (idealSpi mappedGlobals.mSpiMmioBase) ramShell mappedGlobals blankSpi
        (constFile 40 0xFF)).1.Matches = false ∧
      1 ≤ (VerifyMeFirmware (idealSpi mappedGlobals.mSpiMmioBase) ramShell mappedGlobals blankSpi
        (constFile 40 0xFF)).1.MismatchCount ∧
      (VerifyMeFirmware (idealSpi mappedGlobals.mSpiMmioBase) ramShell mappedGlobals blankSpi
        (constFile 40 0xFF)).1.FirstMismatchOffset = 0) :=
  ⟨⟨idealSpi_readsFlash mappedGlobals mappedGlobals_mapped, by decide, by decide,
      fun i hi => absurd hi (Nat.not_lt_zero i)⟩,
    verify_first_mismatch _ IdealSpi.flash (idealSpi_readsFlash mappedGlobals mappedGlobals_mapped)
      blankSpi (constFile 40 0xFF) 0 (by decide) (by decide)
      (fun i hi => absurd hi (Nat.not_lt_zero i))⟩

/-- A 40-byte source of `0xFF` against an erased flash: all 40 bytes are read and counted. -/
theorem verify_counts_all_witness :
    ReadsFlash (ReadSpiChunk (idealSpi mappedGlobals.mSpiMmioBase) mappedGlobals) IdealSpi.flash ∧
    ((VerifyMeFirmwareOn ramShell
        (recordReads (ReadSpiChunk (idealSpi mappedGlobals.mSpiMmioBase) mappedGlobals))
        ME_FIRMWARE_SIZE (blankSpi, []) (constFile 40 0xFF)).1.Status = EFI_SUCCESS ∧
      CoversExactly (min (constFile 40 0xFF).size ME_FIRMWARE_SIZE)
        (VerifyMeFirmwareOn ramShell
          (recordReads (ReadSpiChunk (idealSpi mappedGlobals.mSpiMmioBase) mappedGlobals))
          ME_FIRMWARE_SIZE (blankSpi, []) (constFile 40 0xFF)).2.1.2 ∧
      (VerifyMeFirmwareOn ramShell
        (recordReads (ReadSpiChunk (idealSpi mappedGlobals.mSpiMmioBase) mappedGlobals))
        ME_FIRMWARE_SIZE (blankSpi, []) (constFile 40 0xFF)).1.MismatchCount =
        mismatchCount (constFile 40 0xFF).data blankSpi.flash
          (min (constFile 40 0xFF).size ME_FIRMWARE_SIZE) ∧
      ((VerifyMeFirmwareOn ramShell
          (recordReads (ReadSpiChunk (idealSpi mappedGlobals.mSpiMmioBase) mappedGlobals))
          ME_FIRMWARE_SIZE (blankSpi, []) (constFile 40 0xFF)).1.Matches = true ↔
        mismatchCount (constFile 40 0xFF).data blankSpi.flash
          (min (constFile 40 0xFF).size ME_FIRMWARE_SIZE) = 0)) :=
  ⟨idealSpi_readsFlash mappedGlobals mappedGlobals_mapped,
    verify_counts_all _ IdealSpi.flash (idealSpi_readsFlash mappedGlobals mappedGlobals_mapped)
      blankSpi (constFile 40 0xFF)⟩

/-- A verify that never passes: three restores, then failure. -/
theorem retry_bound_witness :
    ((∀ x, EFI_ERROR ((constOps ⟨EFI_SUCCESS, false, 1, 0⟩ EFI_SUCCESS
          EFI_SUCCESS).VerifyMeFirmware x).1.Status = false ∧
        ((constOps ⟨EFI_SUCCESS, false, 1, 0⟩ EFI_SUCCESS EFI_SUCCESS).VerifyMeFirmware x).1.Matches =
          false) ∧
      (∀ p x, EFI_ERROR ((constOps ⟨EFI_SUCCESS, false, 1, 0⟩ EFI_SUCCESS
        EFI_SUCCESS).ShellSetFilePosition p x).1 = false) ∧
      (∀ x, EFI_ERROR ((constOps ⟨EFI_SUCCESS, false, 1, 0⟩ EFI_SUCCESS
        EFI_SUCCESS).RestoreMeFirmware x).1 = false)) ∧
    (restoreCalls (ShellAppMain_verify
        (constOps ⟨EFI_SUCCESS, false, 1, 0⟩ EFI_SUCCESS EFI_SUCCESS).recorded ((), [])).2.2 = 3 ∧
      verifyCalls (ShellAppMain_verify
        (constOps ⟨EFI_SUCCESS, false, 1, 0⟩ EFI_SUCCESS EFI_SUCCESS).recorded ((), [])).2.2 = 4 ∧
      (verifyRestoreLoop (constOps ⟨EFI_SUCCESS, false, 1, 0⟩ EFI_SUCCESS EFI_SUCCESS).recorded 3 0
        ((), [])).1.Status = EFI_DEVICE_ERROR ∧
      (ShellAppMain_verify
        (constOps ⟨EFI_SUCCESS, false, 1, 0⟩ EFI_SUCCESS EFI_SUCCESS).recorded ((), [])).1 = 1) :=
  ⟨⟨fun _ => ⟨EFI_ERROR_SUCCESS, rfl⟩, fun _ _ => EFI_ERROR_SUCCESS, fun _ => EFI_ERROR_SUCCESS⟩,
    (retry_bound (constOps ⟨EFI_SUCCESS, false, 1, 0⟩ EFI_SUCCESS EFI_SUCCESS) ()).2
      (fun _ => ⟨EFI_ERROR_SUCCESS, rfl⟩) (fun _ _ => EFI_ERROR_SUCCESS)
      (fun _ => EFI_ERROR_SUCCESS)⟩

theorem idealSpi_transfer_ok (R : Nat) (s : IdealSpi) (f : RamFile) :
    EFI_ERROR (WriteMeFirmwareOn ramShell
      (WriteSpiChunk (idealSpi mappedGlobals.mSpiMmioBase) mappedGlobals) R s f).1 = false := by
  rw [WriteMeFirmwareOn_ok _ (idealSpi_write_ok mappedGlobals mappedGlobals_mapped) R s f]
  exact EFI_ERROR_SUCCESS

/-- A 32-byte region, source all `0xFF`, flash erased to zero: one restore repairs it. -/
theorem end_to_end_corrupted_witness :
    (StoresFlash (WriteSpiChunk (idealSpi mappedGlobals.mSpiMmioBase) mappedGlobals)
        IdealSpi.flash ∧
      ReadsFlash (ReadSpiChunk (idealSpi mappedGlobals.mSpiMmioBase) mappedGlobals)
        IdealSpi.flash ∧
      (∀ a p m n x, 1 ≤ n → n ≤ 16 →
        EFI_ERROR (WriteSpiChunk (idealSpi mappedGlobals.mSpiMmioBase) mappedGlobals a (some p) m n
          x).1 = false) ∧
      ME_FIRMWARE_START + 32 ≤ 2 ^ 32 ∧ 0 < 32 ∧ 32 ≤ (constFile 32 0xFF).size ∧
      ∀ i, i < 32 → (constFile 32 0xFF).data i ≠ blankSpi.flash (ME_FIRMWARE_START + i)) ∧
    ((∃ a b, (ShellAppMain_verify (transferOps ramShell
          (WriteSpiChunk (idealSpi mappedGlobals.mSpiMmioBase) mappedGlobals)
          (ReadSpiChunk (idealSpi mappedGlobals.mSpiMmioBase) mappedGlobals) 32
          (idleOps (IdealSpi × RamFile))).recorded ((blankSpi, constFile 32 0xFF), [])).2.2 =
        [Call.VerifyMeFirmware ⟨EFI_SUCCESS, false, 32, 0⟩,
          Call.ShellSetFilePosition 0 EFI_SUCCESS,
          Call.RestoreMeFirmware EFI_SUCCESS,
          Call.ShellSetFilePosition 0 EFI_SUCCESS,
          Call.VerifyMeFirmware ⟨EFI_SUCCESS, true, 0, 0⟩,
          Call.RestoreSpiClockSpeed a, Call.ShellCloseFile b]) ∧
      restoreCalls (ShellAppMain_verify (transferOps ramShell
          (WriteSpiChunk (idealSpi mappedGlobals.mSpiMmioBase) mappedGlobals)
          (ReadSpiChunk (idealSpi mappedGlobals.mSpiMmioBase) mappedGlobals) 32
          (idleOps (IdealSpi × RamFile))).recorded ((blankSpi, constFile 32 0xFF), [])).2.2 = 1 ∧
      (ShellAppMain_verify (transferOps ramShell
          (WriteSpiChunk (idealSpi mappedGlobals.mSpiMmioBase) mappedGlobals)
          (ReadSpiChunk (idealSpi mappedGlobals.mSpiMmioBase) mappedGlobals) 32
          (idleOps (IdealSpi × RamFile))).recorded ((blankSpi, constFile 32 0xFF), [])).1 = 0) :=
  ⟨⟨idealSpi_storesFlash mappedGlobals mappedGlobals_mapped,
      idealSpi_readsFlash mappedGlobals mappedGlobals_mapped,
      idealSpi_write_ok mappedGlobals mappedGlobals_mapped,
      by decide, by decide, by decide, fun _ _ => show (0xFF : Byte) ≠ 0 by decide⟩,
    end_to_end_corrupted _ _ IdealSpi.flash
      (idealSpi_storesFlash mappedGlobals mappedGlobals_mapped)
      (idealSpi_readsFlash mappedGlobals mappedGlobals_mapped)
      (idealSpi_write_ok mappedGlobals mappedGlobals_mapped)
      32 (by decide) (by decide) (idleOps (IdealSpi × RamFile)) blankSpi (constFile 32 0xFF)
      (by decide) (fun _ _ => show (0xFF : Byte) ≠ 0 by decide)⟩

/-- A 100-byte region and a 100-byte source of `0xAA`: written, verified, never restored. -/
theorem end_to_end_clean_witness :
    (StoresFlash (WriteSpiChunk (idealSpi mappedGlobals.mSpiMmioBase) mappedGlobals)
        IdealSpi.flash ∧
      ReadsFlash (ReadSpiChunk (idealSpi mappedGlobals.mSpiMmioBase) mappedGlobals)
        IdealSpi.flash ∧
      ME_FIRMWARE_START + 100 ≤ 2 ^ 32 ∧
      EFI_ERROR (WriteMeFirmwareOn ramShell
        (WriteSpiChunk (idealSpi mappedGlobals.mSpiMmioBase) mappedGlobals) 100 blankSpi
        (constFile 100 0xAA)).1 = false) ∧
    ((∀ i, i < min (constFile 100 0xAA).size 100 →
        IdealSpi.flash (WriteMeFirmwareOn ramShell
          (WriteSpiChunk (idealSpi mappedGlobals.mSpiMmioBase) mappedGlobals) 100 blankSpi
          (constFile 100 0xAA)).2.1 (ME_FIRMWARE_START + i) = (constFile 100 0xAA).data i) ∧
      (∃ a b, (ShellAppMain_write (transferOps ramShell
          (WriteSpiChunk (idealSpi mappedGlobals.mSpiMmioBase) mappedGlobals)
          (ReadSpiChunk (idealSpi mappedGlobals.mSpiMmioBase) mappedGlobals) 100
          (idleOps (IdealSpi × RamFile))).recorded ((blankSpi, constFile 100 0xAA), [])).2.2 =
        [Call.WriteMeFirmware EFI_SUCCESS, Call.VerifyMeFirmware ⟨EFI_SUCCESS, true, 0, 0⟩,
          Call.RestoreSpiClockSpeed a, Call.ShellCloseFile b]) ∧
      restoreCalls (ShellAppMain_write (transferOps ramShell
          (WriteSpiChunk (idealSpi mappedGlobals.mSpiMmioBase) mappedGlobals)
          (ReadSpiChunk (idealSpi mappedGlobals.mSpiMmioBase) mappedGlobals) 100
          (idleOps (IdealSpi × RamFile))).recorded ((blankSpi, constFile 100 0xAA), [])).2.2 = 0 ∧
      (ShellAppMain_write (transferOps ramShell
          (WriteSpiChunk (idealSpi mappedGlobals.mSpiMmioBase) mappedGlobals)
          (ReadSpiChunk (idealSpi mappedGlobals.mSpiMmioBase) mappedGlobals) 100
          (idleOps (IdealSpi × RamFile))).recorded ((blankSpi, constFile 100 0xAA), [])).1 = 0) :=
  ⟨⟨idealSpi_storesFlash mappedGlobals mappedGlobals_mapped,
      idealSpi_readsFlash mappedGlobals mappedGlobals_mapped,
      by decide, idealSpi_transfer_ok 100 blankSpi (constFile 100 0xAA)⟩,
    end_to_end_clean _ _ IdealSpi.flash
      (idealSpi_storesFlash mappedGlobals mappedGlobals_mapped)
      (idealSpi_readsFlash mappedGlobals mappedGlobals_mapped)
      100 (by decide) (idleOps (IdealSpi × RamFile)) blankSpi (constFile 100 0xAA)
      (idealSpi_transfer_ok 100 blankSpi (constFile 100 0xAA))⟩

theorem constOps_failed_journal :
    (ShellAppMain_verify
      (constOps ⟨EFI_DEVICE_ERROR, false, 0, 0⟩ EFI_SUCCESS EFI_SUCCESS).recorded ((), [])).2.2 =
    [] ++ Call.VerifyMeFirmware ⟨EFI_DEVICE_ERROR, false, 0, 0⟩ ::
      [Call.RestoreSpiClockSpeed EFI_SUCCESS, Call.ShellCloseFile EFI_SUCCESS] := by
  unfold ShellAppMain_verify
  rw [ShellAppMain_exit_recorded, verifyRestoreLoop_recorded]
  rfl

/-- A first verify that fails with `EFI_DEVICE_ERROR`: only the clean-up calls follow. -/
theorem error_short_circuits_witness :
    ((ShellAppMain_verify
        (constOps ⟨EFI_DEVICE_ERROR, false, 0, 0⟩ EFI_SUCCESS EFI_SUCCESS).recorded ((), [])).2.2 =
        [] ++ Call.VerifyMeFirmware ⟨EFI_DEVICE_ERROR, false, 0, 0⟩ ::
          [Call.RestoreSpiClockSpeed EFI_SUCCESS, Call.ShellCloseFile EFI_SUCCESS] ∧
      Call.transferFailed (Call.VerifyMeFirmware ⟨EFI_DEVICE_ERROR, false, 0, 0⟩) = true) ∧
    ((∀ x ∈ [Call.RestoreSpiClockSpeed EFI_SUCCESS, Call.ShellCloseFile EFI_SUCCESS],
        Call.isVerifyOrRestore x = false) ∧
      (ShellAppMain_verify
        (constOps ⟨EFI_DEVICE_ERROR, false, 0, 0⟩ EFI_SUCCESS EFI_SUCCESS).recorded ((), [])).1 =
        1) :=
  ⟨⟨constOps_failed_journal, EFI_ERROR_DEVICE_ERROR⟩,
    error_short_circuits (constOps ⟨EFI_DEVICE_ERROR, false, 0, 0⟩ EFI_SUCCESS EFI_SUCCESS) () []
      [Call.RestoreSpiClockSpeed EFI_SUCCESS, Call.ShellCloseFile EFI_SUCCESS]
      (Call.VerifyMeFirmware ⟨EFI_DEVICE_ERROR, false, 0, 0⟩) constOps_failed_journal
      EFI_ERROR_DEVICE_ERROR⟩

theorem constWrite_log :
    (WriteMeFirmwareOn ramShell (recordWrites (constWrite EFI_DEVICE_ERROR)) ME_FIRMWARE_SIZE
      ((), []) (constFile 20 0xFF)).2.1.2 = [] ++ failedWrite :: [] := by
  simp only [WriteMeFirmwareOn, ramShell_size, ramShell_alloc, ramShell_seek, EFI_ERROR_SUCCESS,
    constFile, Bool.false_eq_true, if_false]
  rw [writeChunks, if_pos (by decide)]
  have h1 : (if 20 - 0 < (if ME_FIRMWARE_SIZE - 0 < ME_CHUNK_SIZE then ME_FIRMWARE_SIZE - 0
      else ME_CHUNK_SIZE) then 20 - 0
      else (if ME_FIRMWARE_SIZE - 0 < ME_CHUNK_SIZE then ME_FIRMWARE_SIZE - 0
        else ME_CHUNK_SIZE)) = 20 := by
    decide
  simp only [h1, ramShell_read]
  rw [if_neg (by decide), writeSubChunks, if_pos (by decide)]
  simp only [recordWrites, constWrite, EFI_ERROR_DEVICE_ERROR, if_true]
  rfl

theorem constRead_log :
    (VerifyMeFirmwareOn ramShell (recordReads (constRead EFI_DEVICE_ERROR)) ME_FIRMWARE_SIZE
      ((), []) (constFile 20 0xFF)).2.1.2 = [] ++ failedRead :: [] := by
  simp only [VerifyMeFirmwareOn, ramShell_size, ramShell_alloc, ramShell_seek, EFI_ERROR_SUCCESS,
    constFile, Bool.false_eq_true, if_false]
  rw [verifyChunks, if_pos (by decide)]
  have h1 : (if 20 - 0 < (if ME_FIRMWARE_SIZE - 0 < ME_CHUNK_SIZE then ME_FIRMWARE_SIZE - 0
      else ME_CHUNK_SIZE) then 20 - 0
      else (if ME_FIRMWARE_SIZE - 0 < ME_CHUNK_SIZE then ME_FIRMWARE_SIZE - 0
        else ME_CHUNK_SIZE)) = 20 := by
    decide
  simp only [h1, ramShell_read]
  rw [if_neg (by decide), readSubChunks, if_pos (by decide)]
  simp only [recordReads, constRead, EFI_ERROR_DEVICE_ERROR, if_true]
  rfl

/-- A 20-byte source on primitives whose every transaction fails with `EFI_DEVICE_ERROR`: one
transaction is issued, its status is returned, and it is the first transaction of every
error-free run. -/
theorem transaction_error_aborts_witness :
    ((WriteMeFirmwareOn ramShell (recordWrites (constWrite EFI_DEVICE_ERROR)) ME_FIRMWARE_SIZE
          ((), []) (constFile 20 0xFF)).2.1.2 = [] ++ failedWrite :: [] ∧
      EFI_ERROR failedWrite.Status = true ∧
      (VerifyMeFirmwareOn ramShell (recordReads (constRead EFI_DEVICE_ERROR)) ME_FIRMWARE_SIZE
          ((), []) (constFile 20 0xFF)).2.1.2 = [] ++ failedRead :: [] ∧
      EFI_ERROR failedRead.Status = true) ∧
    (((WriteMeFirmwareOn ramShell (recordWrites (constWrite EFI_DEVICE_ERROR)) ME_FIRMWARE_SIZE
          ((), []) (constFile 20 0xFF)).1 = failedWrite.Status ∧
        ([] : List TxRecord) = [] ∧
        ∀ (σ0 : Type) (wr0 : WriteTx σ0) (s0 : σ0),
          (∀ a p m n x, 1 ≤ n → n ≤ 16 → EFI_ERROR (wr0 a (some p) m n x).1 = false) →
          ([] ++ [failedWrite]).map TxRecord.call <+:
            (WriteMeFirmwareOn ramShell (recordWrites wr0) ME_FIRMWARE_SIZE (s0, [])
              (constFile 20 0xFF)).2.1.2.map TxRecord.call) ∧
      ((VerifyMeFirmwareOn ramShell (recordReads (constRead EFI_DEVICE_ERROR)) ME_FIRMWARE_SIZE
          ((), []) (constFile 20 0xFF)).1.Status = failedRead.Status ∧
        ([] : List TxRecord) = [] ∧
        ∀ (σ0 : Type) (rd0 : ReadTx σ0) (s0 : σ0),
          (∀ a p m n x, 1 ≤ n → n ≤ 16 → EFI_ERROR (rd0 a (some p) m n x).1.1 = false) →
          ([] ++ [failedRead]).map TxRecord.range <+:
            (VerifyMeFirmwareOn ramShell (recordReads rd0) ME_FIRMWARE_SIZE (s0, [])
              (constFile 20 0xFF)).2.1.2.map TxRecord.range)) :=
  ⟨⟨constWrite_log, EFI_ERROR_DEVICE_ERROR, constRead_log, EFI_ERROR_DEVICE_ERROR⟩,
    (transaction_error_aborts (constWrite EFI_DEVICE_ERROR) (constRead EFI_DEVICE_ERROR) ()
      (constFile 20 0xFF)).1 [] failedWrite [] constWrite_log EFI_ERROR_DEVICE_ERROR,
    (transaction_error_aborts (constWrite EFI_DEVICE_ERROR) (constRead EFI_DEVICE_ERROR) ()
      (constFile 20 0xFF)).2 [] failedRead [] constRead_log EFI_ERROR_DEVICE_ERROR⟩

/-! ## Controller set-up -/

theorem EFI_NOT_FOUND_ne_SUCCESS : EFI_NOT_FOUND ≠ EFI_SUCCESS := by decide

theorem EFI_DEVICE_ERROR_ne_SUCCESS : EFI_DEVICE_ERROR ≠ EFI_SUCCESS := by decide

/-- C19. `MapSpiController` returns `EFI_NOT_FOUND`, leaving the globals (and so an unmapped
controller base) as they are, if and only if the vendor ID read at PCI 00:1f.5 differs from
0x8086 or the device ID differs from 0x7E23; otherwise it returns `EFI_SUCCESS` and the
controller base is the fixed address 0x7C120000, whatever the two BAR registers read. -/
theorem map_spi_controller {π : Type} (P : PciBus π) (g : Globals) (c : π) :
    ((MapSpiController P g c).1.1 = EFI_NOT_FOUND ↔
      ((P.PciRead16 (P.PCI_LIB_ADDRESS 0 0x1f 5 0) c).1 ≠ 0x8086 ∨
        (P.PciRead16 (P.PCI_LIB_ADDRESS 0 0x1f 5 2)
          (P.PciRead16 (P.PCI_LIB_ADDRESS 0 0x1f 5 0) c).2).1 ≠ 0x7E23)) ∧
    ((MapSpiController P g c).1.1 = EFI_NOT_FOUND → (MapSpiController P g c).1.2 = g) ∧
    ((MapSpiController P g c).1.1 ≠ EFI_NOT_FOUND →
      (MapSpiController P g c).1.1 = EFI_SUCCESS ∧
      (MapSpiController P g c).1.2.mSpiMmioBase = 0x7C120000) := by
  by_cases h : (P.PciRead16 (P.PCI_LIB_ADDRESS 0 0x1f 5 0) c).1 ≠ SPI_VENDOR_ID ∨
      (P.PciRead16 (P.PCI_LIB_ADDRESS 0 0x1f 5 2)
        (P.PciRead16 (P.PCI_LIB_ADDRESS 0 0x1f 5 0) c).2).1 ≠ SPI_DEVICE_ID
  · have e : (MapSpiController P g c).1 = (EFI_NOT_FOUND, g) := by
      simp only [MapSpiController, if_pos h]
    have h2 := h
    simp only [SPI_VENDOR_ID, SPI_DEVICE_ID] at h2
    rw [e]
    exact ⟨⟨fun _ => h2, fun _ => rfl⟩, fun _ => rfl, fun hn => absurd rfl hn⟩
  · have e : (MapSpiController P g c).1.1 = EFI_SUCCESS ∧
        (MapSpiController P g c).1.2.mSpiMmioBase = SPI_MMIO_BASE := by
      simp only [MapSpiController, if_neg h]
      refine ⟨trivial, ?_⟩
      split_ifs with h3
      · rfl
      · simp only [not_or, not_not] at h3
        exact h3.2
    have h2 := h
    simp only [SPI_VENDOR_ID, SPI_DEVICE_ID] at h2
    have hne : EFI_SUCCESS ≠ EFI_NOT_FOUND := by decide
    rw [e.1]
    exact ⟨⟨fun x => absurd x hne, fun x => absurd x h2⟩, fun x => absurd x hne,
      fun _ => ⟨rfl, e.2⟩⟩

theorem fregFields (v : Nat) :
    ((((v &&& 0x7FFF) <<< 12) % 2 ^ 64 = ME_FIRMWARE_START ∧
      ((((v >>> 16) &&& 0x7FFF) <<< 12) % 2 ^ 64 = ME_FIRMWARE_END ∨
        (((v >>> 16) &&& 0x7FFF) <<< 12) % 2 ^ 64 = ME_FIRMWARE_END &&& not64 0xFFF)) ↔
      (v % 2 ^ 15 = 0x126 ∧ (v / 2 ^ 16) % 2 ^ 15 = 0xEC7)) := by
  have e1 : v &&& 0x7FFF = v % 2 ^ 15 := Nat.and_pow_two_sub_one_eq_mod v 15
  have e2 : (v >>> 16) &&& 0x7FFF = (v / 2 ^ 16) % 2 ^ 15 := by
    rw [Nat.shiftRight_eq_div_pow]
    exact Nat.and_pow_two_sub_one_eq_mod _ 15
  have e3 : ME_FIRMWARE_END &&& not64 0xFFF = 0xEC7000 := by decide
  rw [e1, e2, e3, Nat.shiftLeft_eq, Nat.shiftLeft_eq]
  simp only [ME_FIRMWARE_START, ME_FIRMWARE_END]
  have b1 : v % 2 ^ 15 < 2 ^ 15 := Nat.mod_lt _ (by decide)
  have b2 : (v / 2 ^ 16) % 2 ^ 15 < 2 ^ 15 := Nat.mod_lt _ (by decide)
  generalize v % 2 ^ 15 = x at b1 ⊢
  generalize (v / 2 ^ 16) % 2 ^ 15 = y at b2 ⊢
  norm_num at b1 b2 ⊢
  omega

theorem VerifyMeRegion_result {σ : Type} (H : Hardware σ) (g : Globals)
    (hb : g.mSpiMmioBase ≠ 0) (s : σ) (Freg2 : Nat)
    (hF : Freg2 = (H.MmioRead32 (g.mSpiMmioBase + SPI_FREG2)
      (H.MmioRead32 (g.mSpiMmioBase + SPI_FREG1)
        (H.MmioRead32 (g.mSpiMmioBase + SPI_FREG0) s).2).2).1) :
    (VerifyMeRegion H g s).1 =
      if Freg2 % 2 ^ 15 = 0x126 ∧ (Freg2 / 2 ^ 16) % 2 ^ 15 = 0xEC7 then
        (EFI_SUCCESS, some (ME_FIRMWARE_START, ME_FIRMWARE_END))
      else (EFI_NOT_FOUND, none) := by
  by_cases h : Freg2 % 2 ^ 15 = 0x126 ∧ (Freg2 / 2 ^ 16) % 2 ^ 15 = 0xEC7
  · simp only [VerifyMeRegion, if_neg hb, ← hF, if_pos ((fregFields Freg2).2 h), if_pos h]
  · simp only [VerifyMeRegion, if_neg hb, ← hF, if_neg (fun x => h ((fregFields Freg2).1 x)),
      if_neg h]

/-- C18. With the controller mapped and `Freg2` the value read from `FREG2`,
`VerifyMeRegion` returns `EFI_SUCCESS` if and only if the base field (bits 0-14) of `Freg2`
is 0x126 and its limit field (bits 16-30) is 0xEC7; on success it outputs
`MeBase = 0x126000` and `MeLimit = 0xEC7FFF`; for every other value it returns
`EFI_NOT_FOUND`; and any run, on any hardware, whose `FREG2` has the same two fields gives
the same result, so that bits 15 and 31 and the other registers do not matter. -/
theorem verify_me_region {σ : Type} (H : Hardware σ) (g : Globals) (hb : g.mSpiMmioBase ≠ 0)
    (s : σ) (Freg2 : Nat)
    (hF : Freg2 = (H.MmioRead32 (g.mSpiMmioBase + SPI_FREG2)
      (H.MmioRead32 (g.mSpiMmioBase + SPI_FREG1)
        (H.MmioRead32 (g.mSpiMmioBase + SPI_FREG0) s).2).2).1) :
    ((VerifyMeRegion H g s).1.1 = EFI_SUCCESS ↔
      (Freg2 % 2 ^ 15 = 0x126 ∧ (Freg2 / 2 ^ 16) % 2 ^ 15 = 0xEC7)) ∧
    ((VerifyMeRegion H g s).1.1 = EFI_SUCCESS →
      (VerifyMeRegion H g s).1.2 = some (0x126000, 0xEC7FFF)) ∧
    ((VerifyMeRegion H g s).1.1 ≠ EFI_SUCCESS →
      (VerifyMeRegion H g s).1 = (EFI_NOT_FOUND, none)) ∧
    (∀ (τ : Type) (K : Hardware τ) (k : Globals) (x : τ), k.mSpiMmioBase ≠ 0 →
      (K.MmioRead32 (k.mSpiMmioBase + SPI_FREG2)
        (K.MmioRead32 (k.mSpiMmioBase + SPI_FREG1)
          (K.MmioRead32 (k.mSpiMmioBase + SPI_FREG0) x).2).2).1 % 2 ^ 15 = Freg2 % 2 ^ 15 →
      ((K.MmioRead32 (k.mSpiMmioBase + SPI_FREG2)
        (K.MmioRead32 (k.mSpiMmioBase + SPI_FREG1)
          (K.MmioRead32 (k.mSpiMmioBase + SPI_FREG0) x).2).2).1 / 2 ^ 16) % 2 ^ 15 =
        (Freg2 / 2 ^ 16) % 2 ^ 15 →
      (VerifyMeRegion K k x).1 = (VerifyMeRegion H g s).1) := by
  have e := VerifyMeRegion_result H g hb s Freg2 hF
  refine ⟨?_, ?_, ?_, ?_⟩
  · rw [e]
    split_ifs with h
    · exact ⟨fun _ => h, fun _ => rfl⟩
    · exact ⟨fun x => absurd x EFI_NOT_FOUND_ne_SUCCESS, fun x => absurd x h⟩
  · rw [e]
    split_ifs with h
    · exact fun _ => rfl
    · exact fun x => absurd x EFI_NOT_FOUND_ne_SUCCESS
  · rw [e]
    split_ifs with h
    · exact fun x => absurd rfl x
    · exact fun _ => rfl
  · intro τ K k x hk h1 h2
    rw [e, VerifyMeRegion_result K k hk x _ rfl, h1, h2]

/-- C17, as amended. Invoked while the controller base is `NULL`, `VerifyMeRegion`,
`ProbeSpiClockControl`, `SetSpiClockSpeed`, `RestoreSpiClockSpeed` and
`DisableWriteProtection` return `EFI_NOT_READY`, while `WriteSpiChunk` and `ReadSpiChunk`
return `EFI_INVALID_PARAMETER` (for every pointer and size); none of them accesses a
register: the device state and the access log are as before the call. -/
theorem unmapped_operations_fail {σ : Type} (H : Hardware σ) (g : Globals)
    (hg : g.mSpiMmioBase = 0) (s : σ) (log : List Access) :
    VerifyMeRegion H.logged g (s, log) = ((EFI_NOT_READY, none), (s, log)) ∧
    ProbeSpiClockControl H.logged g (s, log) = ((EFI_NOT_READY, none), (s, log)) ∧
    (∀ d, SetSpiClockSpeed H.logged g d (s, log) = (EFI_NOT_READY, g, (s, log))) ∧
    RestoreSpiClockSpeed H.logged g (s, log) = (EFI_NOT_READY, g, (s, log)) ∧
    DisableWriteProtection H.logged g (s, log) = (EFI_NOT_READY, (s, log)) ∧
    (∀ a Data Mem n,
      WriteSpiChunk H.logged g a Data Mem n (s, log) = (EFI_INVALID_PARAMETER, (s, log))) ∧
    (∀ a Data Mem n,
      ReadSpiChunk H.logged g a Data Mem n (s, log) =
        ((EFI_INVALID_PARAMETER, Mem), (s, log))) := by
  refine ⟨?_, ?_, ?_, ?_, ?_, ?_, ?_⟩
  · simp only [VerifyMeRegion, if_pos hg]
  · simp only [ProbeSpiClockControl, if_pos hg]
  · intro d
    simp only [SetSpiClockSpeed, if_pos hg]
  · simp only [RestoreSpiClockSpeed, if_pos hg]
  · simp only [DisableWriteProtection, if_pos hg]
  · intro a Data Mem n
    simp only [WriteSpiChunk, hg, true_or, if_true]
  · intro a Data Mem n
    simp only [ReadSpiChunk, hg, true_or, if_true]

/-- C12. With the controller mapped: when the saved-clock slot holds 0, the "nothing saved"
value, `RestoreSpiClockSpeed` returns `EFI_SUCCESS` and accesses no register (the device
state and the access log are unchanged); and after any `RestoreSpiClockSpeed` that returned
`EFI_SUCCESS` the slot holds 0, so that a second `RestoreSpiClockSpeed` returns
`EFI_SUCCESS` and accesses no register. -/
theorem restore_clock_idempotent {σ : Type} (H : Hardware σ) (g : Globals)
    (hb : g.mSpiMmioBase ≠ 0) (s : σ) :
    (g.mOriginalSpiClock = 0 →
      ∀ log, RestoreSpiClockSpeed H.logged g (s, log) = (EFI_SUCCESS, g, (s, log))) ∧
    ((RestoreSpiClockSpeed H g s).1 = EFI_SUCCESS →
      (RestoreSpiClockSpeed H g s).2.1.mOriginalSpiClock = 0 ∧
      ∀ log, RestoreSpiClockSpeed H.logged (RestoreSpiClockSpeed H g s).2.1
          ((RestoreSpiClockSpeed H g s).2.2, log) =
        (EFI_SUCCESS, (RestoreSpiClockSpeed H g s).2.1,
          ((RestoreSpiClockSpeed H g s).2.2, log))) := by
  have key : ∀ (g0 : Globals) (x : σ × List Access), g0.mSpiMmioBase ≠ 0 →
      g0.mOriginalSpiClock = 0 → RestoreSpiClockSpeed H.logged g0 x = (EFI_SUCCESS, g0, x) := by
    intro g0 x h1 h2
    simp only [RestoreSpiClockSpeed, if_neg h1, if_pos h2]
  have hslot : (RestoreSpiClockSpeed H g s).1 = EFI_SUCCESS →
      (RestoreSpiClockSpeed H g s).2.1.mOriginalSpiClock = 0 ∧
      (RestoreSpiClockSpeed H g s).2.1.mSpiMmioBase ≠ 0 := by
    simp only [RestoreSpiClockSpeed, if_neg hb]
    by_cases h0 : g.mOriginalSpiClock = 0
    · simp only [if_pos h0]
      exact fun _ => ⟨h0, hb⟩
    · simp only [if_neg h0]
      split_ifs <;>
        first
        | exact fun h => absurd h EFI_DEVICE_ERROR_ne_SUCCESS
        | exact fun _ => ⟨rfl, hb⟩
  refine ⟨fun h0 log => key g (s, log) hb h0, fun hs => ⟨(hslot hs).1, fun log => ?_⟩⟩
  exact key _ _ (hslot hs).2 (hslot hs).1

/-! ### The set-up properties at sample inputs -/

theorem meRegs_freg2 :
    (0x0EC70126 : Nat) = ((regFile readOnly).MmioRead32 (mappedGlobals.mSpiMmioBase + SPI_FREG2)
      ((regFile readOnly).MmioRead32 (mappedGlobals.mSpiMmioBase + SPI_FREG1)
        ((regFile readOnly).MmioRead32 (mappedGlobals.mSpiMmioBase + SPI_FREG0)
          meRegs).2).2).1 := by
  decide

/-- The region check on a register file whose `FREG2` holds `0x0EC70126`. -/
theorem verify_me_region_witness :
    (mappedGlobals.mSpiMmioBase ≠ 0 ∧
      (0x0EC70126 : Nat) =
        ((regFile readOnly).MmioRead32 (mappedGlobals.mSpiMmioBase + SPI_FREG2)
          ((regFile readOnly).MmioRead32 (mappedGlobals.mSpiMmioBase + SPI_FREG1)
            ((regFile readOnly).MmioRead32 (mappedGlobals.mSpiMmioBase + SPI_FREG0)
              meRegs).2).2).1) ∧
    (VerifyMeRegion (regFile readOnly) mappedGlobals meRegs).1.1 = EFI_SUCCESS ∧
    (VerifyMeRegion (regFile readOnly) mappedGlobals meRegs).1.2 = some (0x126000, 0xEC7FFF) :=
  ⟨⟨mappedGlobals_mapped, meRegs_freg2⟩,
    (verify_me_region (regFile readOnly) mappedGlobals mappedGlobals_mapped meRegs 0x0EC70126
      meRegs_freg2).1.2 (by decide),
    (verify_me_region (regFile readOnly) mappedGlobals mappedGlobals_mapped meRegs 0x0EC70126
      meRegs_freg2).2.1 ((verify_me_region (regFile readOnly) mappedGlobals mappedGlobals_mapped
        meRegs 0x0EC70126 meRegs_freg2).1.2 (by decide))⟩

/-- The globals as initialised: the clock functions fail with `EFI_NOT_READY`, a write
transaction with `EFI_INVALID_PARAMETER`, and the access log stays empty. -/
theorem unmapped_operations_fail_witness :
    initialGlobals.mSpiMmioBase = 0 ∧
    (VerifyMeRegion (idealSpi 0).logged initialGlobals (blankSpi, []) =
        ((EFI_NOT_READY, none), (blankSpi, [])) ∧
      RestoreSpiClockSpeed (idealSpi 0).logged initialGlobals (blankSpi, []) =
        (EFI_NOT_READY, initialGlobals, (blankSpi, [])) ∧
      WriteSpiChunk (idealSpi 0).logged initialGlobals ME_FIRMWARE_START (some 0) rampBytes 16
        (blankSpi, []) = (EFI_INVALID_PARAMETER, (blankSpi, []))) :=
  ⟨rfl, (unmapped_operations_fail (idealSpi 0) initialGlobals rfl blankSpi []).1,
    (unmapped_operations_fail (idealSpi 0) initialGlobals rfl blankSpi []).2.2.2.1,
    (unmapped_operations_fail (idealSpi 0) initialGlobals rfl blankSpi []).2.2.2.2.2.1 _ _ _ _⟩

/-- With the globals as initialised (base `NULL`) and a valid buffer of 16 bytes, the two
transaction primitives do not return `EFI_NOT_READY`. -/
theorem unmapped_chunk_status_counterexample :
    initialGlobals.mSpiMmioBase = 0 ∧
    (WriteSpiChunk (idealSpi 0) initialGlobals ME_FIRMWARE_START (some 0) rampBytes 16
      blankSpi).1 ≠ EFI_NOT_READY ∧
    (ReadSpiChunk (idealSpi 0) initialGlobals ME_FIRMWARE_START (some 0) rampBytes 16
      blankSpi).1.1 ≠ EFI_NOT_READY := by
  refine ⟨rfl, ?_, ?_⟩
  · simp only [WriteSpiChunk, initialGlobals, true_or, if_true]
    decide
  · simp only [ReadSpiChunk, initialGlobals, true_or, if_true]
    decide

/-- A restore with the divider field `0x100` saved, on a fully writable register file. -/
theorem restore_clock_idempotent_witness :
    (savedGlobals.mSpiMmioBase ≠ 0 ∧
      (RestoreSpiClockSpeed (regFile allWritable) savedGlobals zeroRegs).1 = EFI_SUCCESS) ∧
    ((RestoreSpiClockSpeed (regFile allWritable) savedGlobals zeroRegs).2.1.mOriginalSpiClock = 0 ∧
      ∀ log, RestoreSpiClockSpeed (regFile allWritable).logged
          (RestoreSpiClockSpeed (regFile allWritable) savedGlobals zeroRegs).2.1
          ((RestoreSpiClockSpeed (regFile allWritable) savedGlobals zeroRegs).2.2, log) =
        (EFI_SUCCESS, (RestoreSpiClockSpeed (regFile allWritable) savedGlobals zeroRegs).2.1,
          ((RestoreSpiClockSpeed (regFile allWritable) savedGlobals zeroRegs).2.2, log))) :=
  ⟨⟨by decide, by decide⟩,
    (restore_clock_idempotent (regFile allWritable) savedGlobals (by decide) zeroRegs).2
      (by decide)⟩

/-! ## The clock divider on a register file -/

theorem regFile_read (wm : Nat → Nat) (a : Nat) (s : Nat → Nat) :
    (regFile wm).MmioRead32 a s = (s a, s) := rfl

theorem regFile_stall (wm : Nat → Nat) (n : Nat) (s : Nat → Nat) :
    (regFile wm).Stall n s = s := rfl

theorem regFile_write_locked (wm : Nat → Nat) (a v : Nat) (s : Nat → Nat) (x : Nat)
    (h : wm x = 0) : (regFile wm).MmioWrite32 a v s x = s x := by
  show (if x = a then (s a ^^^ (s a &&& wm a)) ||| (v &&& wm a) else s x) = s x
  split_ifs with hx
  · subst hx
    rw [h]
    simp
  · rfl

theorem keep_restore (o t m : Nat) :
    ((((o ^^^ (o &&& m)) ||| (t &&& m)) ^^^ (((o ^^^ (o &&& m)) ||| (t &&& m)) &&& m)) |||
      (o &&& m)) = o := by
  apply Nat.eq_of_testBit_eq
  intro i
  simp only [Nat.testBit_or, Nat.testBit_xor, Nat.testBit_and]
  cases o.testBit i <;> cases m.testBit i <;> cases t.testBit i <;> rfl

theorem regFile_restore (wm : Nat → Nat) (a t : Nat) (s : Nat → Nat) :
    (regFile wm).MmioWrite32 a (s a) ((regFile wm).MmioWrite32 a t s) = s := by
  funext x
  show (if x = a then _ else _) = s x
  split_ifs with hx
  · subst hx
    show (((if x = x then _ else _) ^^^ ((if x = x then _ else _) &&& wm x)) |||
      (s x &&& wm x)) = s x
    rw [if_pos rfl]
    exact keep_restore (s x) t (wm x)
  · show (if x = a then _ else _) = s x
    rw [if_neg hx]

theorem waitNotBusy_regFile (wm : Nat → Nat) (base : Nat) (n c : Nat) (s : Nat → Nat) :
    (waitNotBusy (regFile wm) base n c s).2.2 = s := by
  induction n generalizing c with
  | zero => rfl
  | succ n ih =>
    simp only [waitNotBusy, regFile_read, regFile_stall]
    split_ifs
    · rfl
    · exact ih _

theorem probeMethod3_regFile (wm : Nat → Nat) (base o : Nat) (s : Nat → Nat)
    (ho : o = s (base + SPI_HSFCTL)) : (probeMethod3 (regFile wm) base o s).2 = s := by
  subst ho
  simp only [probeMethod3, regFile_read, regFile_stall]
  split_ifs <;> exact regFile_restore wm _ _ s

theorem probeMethod2_regFile (wm : Nat → Nat) (base o0 o1 : Nat) (s : Nat → Nat)
    (h0 : o0 = s (base + SPI_HSFSTS_CTL)) (h1 : o1 = s (base + SPI_HSFCTL)) :
    (probeMethod2 (regFile wm) base o0 o1 s).2 = s := by
  subst h0
  simp only [probeMethod2, regFile_read, regFile_stall]
  split_ifs
  · exact regFile_restore wm _ _ s
  · rw [regFile_restore]
    exact probeMethod3_regFile wm base o1 s h1
  · exact probeMethod3_regFile wm base o1 s h1

theorem ProbeSpiClockControl_regFile (wm : Nat → Nat) (g : Globals) (s : Nat → Nat) :
    (ProbeSpiClockControl (regFile wm) g s).2 = s := by
  simp only [ProbeSpiClockControl, regFile_read, regFile_stall]
  split_ifs
  · rfl
  · rw [waitNotBusy_regFile]
    exact regFile_restore wm _ _ s
  · rw [waitNotBusy_regFile, regFile_restore]
    exact probeMethod2_regFile wm _ _ _ s rfl rfl
  · rw [waitNotBusy_regFile]
    exact probeMethod2_regFile wm _ _ _ s rfl rfl

theorem ProbeSpiClockControl_outcomes {σ : Type} (H : Hardware σ) (g : Globals)
    (hb : g.mSpiMmioBase ≠ 0) (s : σ) :
    (ProbeSpiClockControl H g s).1 = (EFI_SUCCESS, some ⟨0x0010, 8, 0x700⟩) ∨
    (ProbeSpiClockControl H g s).1 = (EFI_SUCCESS, some ⟨0x0000, 8, 0x700⟩) ∨
    (ProbeSpiClockControl H g s).1 = (EFI_SUCCESS, some ⟨0x0004, 8, 0x700⟩) ∨
    (ProbeSpiClockControl H g s).1 = (EFI_NOT_FOUND, some ⟨0x0010, 8, 0x700⟩) := by
  simp only [ProbeSpiClockControl, probeMethod2, probeMethod3, if_neg hb]
  split_ifs <;>
    first
    | exact Or.inl rfl
    | exact Or.inr (Or.inl rfl)
    | exact Or.inr (Or.inr (Or.inl rfl))
    | exact Or.inr (Or.inr (Or.inr rfl))

/-- C13. Probe leaves the hardware as found. Over a register file in which every register
keeps its value except for the bits a write can change (writable-bit masks `wm`, arbitrary),
for every initial state: the registers at offsets 0x0000, 0x0004 and 0x0010 hold after
`ProbeSpiClockControl` the values they held before it, in particular the divider field,
bits 8-10; so does every other register; and the outcome is one of the four: confirmed at
0x0010, at 0x0000, at 0x0004, or not found with the default location. -/
theorem probe_leaves_registers (wm : Nat → Nat) (g : Globals) (hb : g.mSpiMmioBase ≠ 0)
    (s : Nat → Nat) :
    ((ProbeSpiClockControl (regFile wm) g s).2 (g.mSpiMmioBase + 0x0000) =
        s (g.mSpiMmioBase + 0x0000) ∧
      (ProbeSpiClockControl (regFile wm) g s).2 (g.mSpiMmioBase + 0x0004) =
        s (g.mSpiMmioBase + 0x0004) ∧
      (ProbeSpiClockControl (regFile wm) g s).2 (g.mSpiMmioBase + 0x0010) =
        s (g.mSpiMmioBase + 0x0010)) ∧
    (ProbeSpiClockControl (regFile wm) g s).2 (g.mSpiMmioBase + 0x0010) &&& 0x700 =
      s (g.mSpiMmioBase + 0x0010) &&& 0x700 ∧
    (∀ a, (ProbeSpiClockControl (regFile wm) g s).2 a = s a) ∧
    ((ProbeSpiClockControl (regFile wm) g s).1 = (EFI_SUCCESS, some ⟨0x0010, 8, 0x700⟩) ∨
      (ProbeSpiClockControl (regFile wm) g s).1 = (EFI_SUCCESS, some ⟨0x0000, 8, 0x700⟩) ∨
      (ProbeSpiClockControl (regFile wm) g s).1 = (EFI_SUCCESS, some ⟨0x0004, 8, 0x700⟩) ∨
      (ProbeSpiClockControl (regFile wm) g s).1 = (EFI_NOT_FOUND, some ⟨0x0010, 8, 0x700⟩)) := by
  rw [ProbeSpiClockControl_regFile]
  exact ⟨⟨rfl, rfl, rfl⟩, rfl, fun _ => rfl, ProbeSpiClockControl_outcomes _ g hb s⟩

/-- The four outcomes of the probe on four register files, each leaving the probed register
as it was. -/
theorem probe_leaves_registers_witness :
    mappedGlobals.mSpiMmioBase ≠ 0 ∧
    ((ProbeSpiClockControl (regFile allWritable) mappedGlobals slowRegs).1 =
        (EFI_SUCCESS, some ⟨0x0010, 8, 0x700⟩) ∧
      (ProbeSpiClockControl (regFile allWritable) mappedGlobals slowRegs).2
        (mappedGlobals.mSpiMmioBase + 0x0010) = slowRegs (mappedGlobals.mSpiMmioBase + 0x0010)) ∧
    ((ProbeSpiClockControl (regFile (onlyWritable (SPI_MMIO_BASE + SPI_HSFSTS_CTL)))
        mappedGlobals slowRegs).1 = (EFI_SUCCESS, some ⟨0x0000, 8, 0x700⟩) ∧
      (ProbeSpiClockControl (regFile (onlyWritable (SPI_MMIO_BASE + SPI_HSFSTS_CTL)))
        mappedGlobals slowRegs).2 (mappedGlobals.mSpiMmioBase + 0x0000) =
        slowRegs (mappedGlobals.mSpiMmioBase + 0x0000)) ∧
    ((ProbeSpiClockControl (regFile (onlyWritable (SPI_MMIO_BASE + SPI_HSFCTL)))
        mappedGlobals slowRegs).1 = (EFI_SUCCESS, some ⟨0x0004, 8, 0x700⟩) ∧
      (ProbeSpiClockControl (regFile (onlyWritable (SPI_MMIO_BASE + SPI_HSFCTL)))
        mappedGlobals slowRegs).2 (mappedGlobals.mSpiMmioBase + 0x0004) =
        slowRegs (mappedGlobals.mSpiMmioBase + 0x0004)) ∧
    ((ProbeSpiClockControl (regFile readOnly) mappedGlobals slowRegs).1 =
        (EFI_NOT_FOUND, some ⟨0x0010, 8, 0x700⟩) ∧
      (ProbeSpiClockControl (regFile readOnly) mappedGlobals slowRegs).2
        (mappedGlobals.mSpiMmioBase + 0x0010) = slowRegs (mappedGlobals.mSpiMmioBase + 0x0010)) :=
  ⟨mappedGlobals_mapped,
    ⟨by decide,
      (probe_leaves_registers allWritable mappedGlobals mappedGlobals_mapped slowRegs).1.2.2⟩,
    ⟨by decide,
      (probe_leaves_registers _ mappedGlobals mappedGlobals_mapped slowRegs).1.1⟩,
    ⟨by decide,
      (probe_leaves_registers _ mappedGlobals mappedGlobals_mapped slowRegs).1.2.1⟩,
    ⟨by decide,
      (probe_leaves_registers readOnly mappedGlobals mappedGlobals_mapped slowRegs).1.2.2⟩⟩

/-- C11 on the code. On a fully writable, idle register file whose clock-control register
holds divider field 0 (`SPI_CLOCK_DIV_1`), `SetSpiClockSpeed (SPI_CLOCK_DIV_RELIABLE)`
succeeds, the following `RestoreSpiClockSpeed` returns `EFI_SUCCESS`, and the divider field
is then `SPI_CLOCK_DIV_8`, not the 0 it was before: the saved field 0 is taken for "nothing
saved". With the field `0x400` before, the same two calls do leave it at `0x400`. -/
theorem set_restore_divider_zero :
    ((SetSpiClockSpeed (regFile allWritable) mappedGlobals SPI_CLOCK_DIV_RELIABLE zeroRegs).1 =
        EFI_SUCCESS ∧
      (RestoreSpiClockSpeed (regFile allWritable)
        (SetSpiClockSpeed (regFile allWritable) mappedGlobals SPI_CLOCK_DIV_RELIABLE zeroRegs).2.1
        (SetSpiClockSpeed (regFile allWritable) mappedGlobals SPI_CLOCK_DIV_RELIABLE
          zeroRegs).2.2).1 = EFI_SUCCESS ∧
      zeroRegs (mappedGlobals.mSpiMmioBase + SPI_CLOCK_CTL) &&& SPI_CLOCK_DIV_MASK =
        SPI_CLOCK_DIV_1 ∧
      (RestoreSpiClockSpeed (regFile allWritable)
        (SetSpiClockSpeed (regFile allWritable) mappedGlobals SPI_CLOCK_DIV_RELIABLE zeroRegs).2.1
        (SetSpiClockSpeed (regFile allWritable) mappedGlobals SPI_CLOCK_DIV_RELIABLE
          zeroRegs).2.2).2.2 (mappedGlobals.mSpiMmioBase + SPI_CLOCK_CTL) &&&
        SPI_CLOCK_DIV_MASK = SPI_CLOCK_DIV_8) ∧
    ((SetSpiClockSpeed (regFile allWritable) mappedGlobals SPI_CLOCK_DIV_RELIABLE slowRegs).1 =
        EFI_SUCCESS ∧
      slowRegs (mappedGlobals.mSpiMmioBase + SPI_CLOCK_CTL) &&& SPI_CLOCK_DIV_MASK = 0x400 ∧
      (RestoreSpiClockSpeed (regFile allWritable)
        (SetSpiClockSpeed (regFile allWritable) mappedGlobals SPI_CLOCK_DIV_RELIABLE slowRegs).2.1
        (SetSpiClockSpeed (regFile allWritable) mappedGlobals SPI_CLOCK_DIV_RELIABLE
          slowRegs).2.2).2.2 (mappedGlobals.mSpiMmioBase + SPI_CLOCK_CTL) &&&
        SPI_CLOCK_DIV_MASK = 0x400) := by
  decide

/-! ## The probe as seen on the register accesses -/

theorem attemptsFrom_none_polls (P L : List Access) (hP : ∀ x ∈ P, Access.isWrite x = false) :
    attemptsFrom none (P ++ L) = attemptsFrom none L := by
  induction P with
  | nil => rfl
  | cons x P ih =>
    have hx := hP x (List.mem_cons_self _ _)
    have ih2 := ih (fun y hy => hP y (List.mem_cons_of_mem _ hy))
    cases x with
    | read a v => simpa [attemptsFrom] using ih2
    | write a v => simp [Access.isWrite] at hx
    | stall n => simpa [attemptsFrom] using ih2

theorem waitNotBusy_logged {σ : Type} (H : Hardware σ) (base : Nat) (n c : Nat) (s : σ)
    (L : List Access) :
    ∃ P, (∀ x ∈ P, Access.isWrite x = false) ∧
      waitNotBusy H.logged base n c (s, L) =
        ((waitNotBusy H base n c s).1, (waitNotBusy H base n c s).2.1,
          (waitNotBusy H base n c s).2.2, L ++ P) := by
  induction n generalizing c s L with
  | zero => exact ⟨[], by simp, by simp [waitNotBusy]⟩
  | succ n ih =>
    by_cases hi : (H.MmioRead32 (base + SPI_HSFSTS_CTL) s).1 &&& HSFSTS_CTL_SCIP = 0
    · refine ⟨[Access.read (base + SPI_HSFSTS_CTL) (H.MmioRead32 (base + SPI_HSFSTS_CTL) s).1],
        by simp [Access.isWrite], ?_⟩
      simp only [waitNotBusy, Hardware.logged, if_pos hi]
    · obtain ⟨P, hP, e⟩ := ih (H.MmioRead32 (base + SPI_HSFSTS_CTL) s).1
        (H.Stall 100 (H.MmioRead32 (base + SPI_HSFSTS_CTL) s).2)
        (L ++ [Access.read (base + SPI_HSFSTS_CTL) (H.MmioRead32 (base + SPI_HSFSTS_CTL) s).1] ++
          [Access.stall 100])
      refine ⟨[Access.read (base + SPI_HSFSTS_CTL) (H.MmioRead32 (base + SPI_HSFSTS_CTL) s).1,
        Access.stall 100] ++ P, ?_, ?_⟩
      · intro x hx
        rcases List.mem_append.1 hx with h | h
        · simp at h
          rcases h with h | h <;> subst h <;> rfl
        · exact hP x h
      · simp only [waitNotBusy, Hardware.logged, if_neg hi] at e ⊢
        rw [e]
        simp

theorem probeReport_none (b : Nat) :
    ProbeReport b [] []
      (EFI_NOT_FOUND, some ⟨SPI_CLOCK_CTL, SPI_CLOCK_DIV_SHIFT, SPI_CLOCK_DIV_MASK⟩) := by
  refine ⟨List.Sublist.slnil, by simp, _, rfl, rfl, rfl, ?_, ?_⟩
  · intro h
    exact absurd h EFI_NOT_FOUND_ne_SUCCESS
  · intro _
    exact ⟨rfl, rfl, by simp⟩

theorem probeReport_skip (b c : Nat) (cands : List Nat) (atts : List (Nat × Nat × Nat))
    (res : Nat × Option ClockLoc) (h : ProbeReport b cands atts res) :
    ProbeReport b (c :: cands) atts res := by
  obtain ⟨h1, h2, h3⟩ := h
  exact ⟨List.Sublist.cons _ h1, h2, h3⟩

theorem probeReport_fail (b c : Nat) (cands : List Nat) (atts : List (Nat × Nat × Nat))
    (res : Nat × Option ClockLoc) (t v : Nat) (ht : t &&& 0x700 = 0x300)
    (hv : v &&& 0x700 ≠ t &&& 0x700) (h : ProbeReport b cands atts res) :
    ProbeReport b (c :: cands) ((b + c, t, v) :: atts) res := by
  obtain ⟨h1, h2, loc, e, hs, hm, hok, hno⟩ := h
  refine ⟨List.Sublist.cons₂ _ h1, ?_, loc, e, hs, hm, ?_, ?_⟩
  · intro x hx
    rcases List.mem_cons.1 hx with rfl | hx
    · exact ht
    · exact h2 x hx
  · intro hr
    obtain ⟨pre, t1, v1, e1, m1, p1⟩ := hok hr
    refine ⟨(b + c, t, v) :: pre, t1, v1, by rw [e1]; rfl, m1, ?_⟩
    intro x hx
    rcases List.mem_cons.1 hx with rfl | hx
    · exact hv
    · exact p1 x hx
  · intro hr
    obtain ⟨r1, r2, r3⟩ := hno hr
    refine ⟨r1, r2, ?_⟩
    intro x hx
    rcases List.mem_cons.1 hx with rfl | hx
    · exact hv
    · exact r3 x hx

theorem probeReport_hit (b c : Nat) (cands : List Nat) (t v : Nat) (ht : t &&& 0x700 = 0x300)
    (hv : v &&& 0x700 = t &&& 0x700) :
    ProbeReport b (c :: cands) [(b + c, t, v)] (EFI_SUCCESS, some ⟨c, 8, 0x700⟩) := by
  refine ⟨?_, ?_, _, rfl, rfl, rfl, ?_, ?_⟩
  · exact List.Sublist.cons₂ _ (List.nil_sublist _)
  · intro x hx
    rcases List.mem_singleton.1 hx with rfl
    exact ht
  · intro _
    exact ⟨[], t, v, rfl, hv, by simp⟩
  · intro h
    exact absurd rfl h

theorem testPattern (o : Nat) : ((o &&& not32 0x700) ||| 0x300) &&& 0x700 = 0x300 := by
  have hNK : not32 0x700 &&& 0x700 = 0 := by decide
  have hCK : 0x300 &&& 0x700 = 0x300 := by decide
  apply Nat.eq_of_testBit_eq
  intro i
  have a := congrArg (fun x => Nat.testBit x i) hNK
  have b := congrArg (fun x => Nat.testBit x i) hCK
  simp only [Nat.testBit_and, Nat.zero_testBit] at a b
  simp only [Nat.testBit_and, Nat.testBit_or]
  revert a b
  cases o.testBit i <;> cases (not32 0x700).testBit i <;> cases (0x300).testBit i <;>
    cases (0x700).testBit i <;> simp

theorem probeMethod3_logged {σ : Type} (H : Hardware σ) (base o : Nat) (s : σ)
    (L : List Access) :
    ∃ A atts, (probeMethod3 H.logged base o (s, L)).2.2 = L ++ A ∧
      (∀ st, attemptsFrom st A = atts) ∧
      ProbeReport base [SPI_HSFCTL] atts (probeMethod3 H.logged base o (s, L)).1 := by
  simp only [probeMethod3, Hardware.logged]
  generalize H.MmioRead32 (base + SPI_HSFCTL) (H.Stall 1000 (H.MmioWrite32 (base + SPI_HSFCTL)
    (o &&& not32 HSFCTL_CLOCK_DIV_MASK ||| 3 <<< HSFCTL_CLOCK_DIV_SHIFT) s)) = rb
  have ht : (o &&& not32 HSFCTL_CLOCK_DIV_MASK ||| 3 <<< HSFCTL_CLOCK_DIV_SHIFT) &&& 0x700 =
      0x300 := testPattern o
  split_ifs with hm
  · refine ⟨_, _, by simp only [List.append_assoc]; rfl, ?_,
      probeReport_hit base SPI_HSFCTL [] _ rb.1 ht hm⟩
    intro st
    simp [attemptsFrom]
  · refine ⟨_, _, by simp only [List.append_assoc]; rfl, ?_,
      probeReport_fail base SPI_HSFCTL [] [] _ _ rb.1 ht hm (probeReport_none base)⟩
    intro st
    simp [attemptsFrom]

theorem probeMethod2_logged {σ : Type} (H : Hardware σ) (base o0 o1 : Nat) (s : σ)
    (L : List Access) :
    ∃ A atts, (probeMethod2 H.logged base o0 o1 (s, L)).2.2 = L ++ A ∧
      (∀ st, attemptsFrom st A = atts) ∧
      ProbeReport base [SPI_HSFSTS_CTL, SPI_HSFCTL] atts
        (probeMethod2 H.logged base o0 o1 (s, L)).1 := by
  simp only [probeMethod2]
  have ht : (o0 &&& not32 HSFSTS_CTL_FSPI_MASK ||| HSFSTS_CTL_FSPI_DIV_8) &&& 0x700 = 0x300 :=
    testPattern o0
  split_ifs with hi hm
  · simp only [Hardware.logged] at hm ⊢
    refine ⟨_, _, by simp only [List.append_assoc]; rfl, ?_,
      probeReport_hit base SPI_HSFSTS_CTL _ _ _ ht (hm.trans ht.symm)⟩
    intro st
    simp [attemptsFrom]
  · simp only [Hardware.logged] at hm ⊢
    generalize H.MmioRead32 (base + SPI_HSFSTS_CTL) (H.Stall 1000
      (H.MmioWrite32 (base + SPI_HSFSTS_CTL)
        (o0 &&& not32 HSFSTS_CTL_FSPI_MASK ||| HSFSTS_CTL_FSPI_DIV_8) s)) = rb at hm ⊢
    obtain ⟨A, atts, e, ha, hr⟩ := probeMethod3_logged H base o1
      (H.MmioWrite32 (base + SPI_HSFSTS_CTL) o0 rb.2)
      (L ++ [Access.write (base + SPI_HSFSTS_CTL)
        (o0 &&& not32 HSFSTS_CTL_FSPI_MASK ||| HSFSTS_CTL_FSPI_DIV_8)] ++ [Access.stall 1000] ++
        [Access.read (base + SPI_HSFSTS_CTL) rb.1] ++ [Access.write (base + SPI_HSFSTS_CTL) o0])
    simp only [Hardware.logged] at e hr
    refine ⟨_, _, by rw [e]; simp only [List.append_assoc]; rfl, ?_,
      probeReport_fail base SPI_HSFSTS_CTL _ _ _ _ rb.1 ht (fun h => hm (h.trans ht)) hr⟩
    intro st
    simp [attemptsFrom, ha]
  · obtain ⟨A, atts, e, ha, hr⟩ := probeMethod3_logged H base o1 s L
    exact ⟨A, atts, e, ha, probeReport_skip _ _ _ _ _ hr⟩

theorem ProbeSpiClockControl_logged {σ : Type} (H : Hardware σ) (g : Globals)
    (hb : g.mSpiMmioBase ≠ 0) (s : σ) :
    ProbeReport g.mSpiMmioBase [SPI_CLOCK_CTL, SPI_HSFSTS_CTL, SPI_HSFCTL]
      (attempts (ProbeSpiClockControl H.logged g (s, [])).2.2)
      (ProbeSpiClockControl H.logged g (s, [])).1 := by
  simp only [ProbeSpiClockControl, if_neg hb]
  generalize hr0 : H.logged.MmioRead32 (g.mSpiMmioBase + SPI_HSFSTS_CTL) (s, []) = r0
  generalize hr1 : H.logged.MmioRead32 (g.mSpiMmioBase + SPI_HSFCTL) r0.2 = r1
  have hl : ∀ x ∈ r1.2.2, Access.isWrite x = false := by
    rw [← hr1, ← hr0]
    simp [Hardware.logged, Access.isWrite]
  obtain ⟨P, hP, hw⟩ := waitNotBusy_logged H g.mSpiMmioBase 1000 0 r1.2.1 r1.2.2
  rw [show (r1.2.1, r1.2.2) = r1.2 from rfl] at hw
  rw [hw]
  have hpre : ∀ x ∈ r1.2.2 ++ P, Access.isWrite x = false := by
    intro x hx
    rcases List.mem_append.1 hx with h | h
    · exact hl x h
    · exact hP x h
  generalize r1.2.2 ++ P = L0 at hpre ⊢
  generalize (waitNotBusy H g.mSpiMmioBase 1000 0 r1.2.1) = w
  have ht : ∀ o, (o &&& not32 SPI_CLOCK_DIV_MASK ||| SPI_CLOCK_DIV_8) &&& 0x700 = 0x300 :=
    fun o => testPattern o
  split_ifs with hi hm
  · simp only [Hardware.logged]
    simp only [attempts, List.append_assoc, attemptsFrom_none_polls _ _ hpre]
    simp only [Hardware.logged] at hm
    have := probeReport_hit g.mSpiMmioBase SPI_CLOCK_CTL [SPI_HSFSTS_CTL, SPI_HSFCTL] _ _
      (ht (H.MmioRead32 (g.mSpiMmioBase + SPI_CLOCK_CTL) w.2.2).1) (hm.trans (ht _).symm)
    simpa [attemptsFrom] using this
  · simp only [Hardware.logged] at hm ⊢
    generalize hc : H.MmioRead32 (g.mSpiMmioBase + SPI_CLOCK_CTL) w.2.2 = c at hm ⊢
    generalize hrb : H.MmioRead32 (g.mSpiMmioBase + SPI_CLOCK_CTL) (H.Stall 1000
      (H.MmioWrite32 (g.mSpiMmioBase + SPI_CLOCK_CTL)
        (c.1 &&& not32 SPI_CLOCK_DIV_MASK ||| SPI_CLOCK_DIV_8) c.2)) = rb at hm ⊢
    obtain ⟨A, atts, e, ha, hr⟩ := probeMethod2_logged H g.mSpiMmioBase r0.1 r1.1
      (H.MmioWrite32 (g.mSpiMmioBase + SPI_CLOCK_CTL) c.1 rb.2)
      (L0 ++ [Access.read (g.mSpiMmioBase + SPI_CLOCK_CTL) c.1] ++
        [Access.write (g.mSpiMmioBase + SPI_CLOCK_CTL)
          (c.1 &&& not32 SPI_CLOCK_DIV_MASK ||| SPI_CLOCK_DIV_8)] ++ [Access.stall 1000] ++
        [Access.read (g.mSpiMmioBase + SPI_CLOCK_CTL) rb.1] ++
        [Access.write (g.mSpiMmioBase + SPI_CLOCK_CTL) c.1])
    simp only [Hardware.logged] at e hr
    rw [e]
    simp only [attempts, List.append_assoc, attemptsFrom_none_polls _ _ hpre]
    have := probeReport_fail g.mSpiMmioBase SPI_CLOCK_CTL _ _ _ _ rb.1 (ht c.1)
      (fun h => hm (h.trans (ht c.1))) hr
    simpa [attemptsFrom, ha] using this
  · obtain ⟨A, atts, e, ha, hr⟩ := probeMethod2_logged H g.mSpiMmioBase r0.1 r1.1 w.2.2 L0
    rw [e]
    simp only [attempts, attemptsFrom_none_polls _ _ hpre, ha]
    exact probeReport_skip _ _ _ _ _ hr

/-! ## Waiting for the controller -/

theorem waitNotBusy_busy {σ : Type} (H : Hardware σ) (base : Nat)
    (hbusy : ∀ x, (H.MmioRead32 (base + SPI_HSFSTS_CTL) x).1 &&& HSFSTS_CTL_SCIP ≠ 0)
    (n c : Nat) (s : σ) : (waitNotBusy H base n c s).1 = 0 := by
  induction n generalizing c s with
  | zero => rfl
  | succ n ih =>
    simp only [waitNotBusy, if_neg (hbusy s)]
    exact ih _ _

theorem waitNotBusy_busy_log {σ : Type} (H : Hardware σ) (base : Nat)
    (hbusy : ∀ x, (H.MmioRead32 (base + SPI_HSFSTS_CTL) x).1 &&& HSFSTS_CTL_SCIP ≠ 0)
    (n c : Nat) (s : σ) (L : List Access) :
    (waitNotBusy H.logged base n c (s, L)).2.2.2.filter Access.isWrite =
      L.filter Access.isWrite ∧
    ((waitNotBusy H.logged base n c (s, L)).2.2.2.filter Access.isRead).length =
      (L.filter Access.isRead).length + n ∧
    (readsAt (base + SPI_HSFSTS_CTL) (waitNotBusy H.logged base n c (s, L)).2.2.2).length =
      (readsAt (base + SPI_HSFSTS_CTL) L).length + n := by
  induction n generalizing c s L with
  | zero => exact ⟨rfl, rfl, rfl⟩
  | succ n ih =>
    have hb : ¬ (H.logged.MmioRead32 (base + SPI_HSFSTS_CTL) (s, L)).1 &&& HSFSTS_CTL_SCIP = 0 :=
      hbusy s
    simp only [waitNotBusy, if_neg hb]
    obtain ⟨h1, h2, h3⟩ := ih (H.logged.MmioRead32 (base + SPI_HSFSTS_CTL) (s, L)).1
      (H.Stall 100 (H.MmioRead32 (base + SPI_HSFSTS_CTL) s).2)
      (L ++ [Access.read (base + SPI_HSFSTS_CTL) (H.MmioRead32 (base + SPI_HSFSTS_CTL) s).1] ++
        [Access.stall 100])
    simp only [Hardware.logged] at h1 h2 h3 ⊢
    refine ⟨?_, ?_, ?_⟩
    · rw [h1]
      simp [Access.isWrite]
    · rw [h2]
      simp [Access.isRead]
      omega
    · rw [h3]
      simp [readsAt]
      omega

theorem logged_busy {σ : Type} (H : Hardware σ) (base : Nat)
    (hbusy : ∀ x, (H.MmioRead32 (base + SPI_HSFSTS_CTL) x).1 &&& HSFSTS_CTL_SCIP ≠ 0) :
    ∀ x, (H.logged.MmioRead32 (base + SPI_HSFSTS_CTL) x).1 &&& HSFSTS_CTL_SCIP ≠ 0 :=
  fun x => hbusy x.1

theorem WriteSpiChunk_busy {σ : Type} (H : Hardware σ) (g : Globals) (hb : g.mSpiMmioBase ≠ 0)
    (hbusy : ∀ x, (H.MmioRead32 (g.mSpiMmioBase + SPI_HSFSTS_CTL) x).1 &&& HSFSTS_CTL_SCIP ≠ 0)
    (a p : Nat) (Mem : Nat → Byte) (n : Nat) (h1 : 1 ≤ n) (h16 : n ≤ 16) (s : σ) :
    WriteSpiChunk H g a (some p) Mem n s =
      (EFI_DEVICE_ERROR, (waitNotBusy H g.mSpiMmioBase 1000 0 s).2.2) := by
  have hg : ¬ (g.mSpiMmioBase = 0 ∨ (some p : Option Nat) = none ∨ n = 0 ∨ n > 16) := by
    simp; omega
  simp only [WriteSpiChunk, if_neg hg, waitNotBusy_busy H _ hbusy, if_true]

theorem ReadSpiChunk_busy {σ : Type} (H : Hardware σ) (g : Globals) (hb : g.mSpiMmioBase ≠ 0)
    (hbusy : ∀ x, (H.MmioRead32 (g.mSpiMmioBase + SPI_HSFSTS_CTL) x).1 &&& HSFSTS_CTL_SCIP ≠ 0)
    (a p : Nat) (Mem : Nat → Byte) (n : Nat) (h1 : 1 ≤ n) (h16 : n ≤ 16) (s : σ) :
    ReadSpiChunk H g a (some p) Mem n s =
      ((EFI_DEVICE_ERROR, Mem), (waitNotBusy H g.mSpiMmioBase 1000 0 s).2.2) := by
  have hg : ¬ (g.mSpiMmioBase = 0 ∨ (some p : Option Nat) = none ∨ n = 0 ∨ n > 16) := by
    simp; omega
  simp only [ReadSpiChunk, if_neg hg, waitNotBusy_busy H _ hbusy, if_true]

/-- C15, as amended. If the busy flag (SCIP) is set on every read of the status register,
the idle wait at the start of `WriteSpiChunk` and of `ReadSpiChunk` (controller mapped, valid
buffer and size) gives up after exactly 1000 reads, all of the status register, and the
operation returns `EFI_DEVICE_ERROR`, having written no register; `ReadSpiChunk` leaves the
buffer as it was. -/
theorem idle_wait_timeout {σ : Type} (H : Hardware σ) (g : Globals) (hb : g.mSpiMmioBase ≠ 0)
    (hbusy : ∀ x, (H.MmioRead32 (g.mSpiMmioBase + SPI_HSFSTS_CTL) x).1 &&& HSFSTS_CTL_SCIP ≠ 0)
    (a p : Nat) (Mem : Nat → Byte) (n : Nat) (h1 : 1 ≤ n) (h16 : n ≤ 16) (s : σ) :
    ((WriteSpiChunk H.logged g a (some p) Mem n (s, [])).1 = EFI_DEVICE_ERROR ∧
      (WriteSpiChunk H.logged g a (some p) Mem n (s, [])).2.2.filter Access.isWrite = [] ∧
      ((WriteSpiChunk H.logged g a (some p) Mem n (s, [])).2.2.filter Access.isRead).length =
        1000 ∧
      (readsAt (g.mSpiMmioBase + SPI_HSFSTS_CTL)
        (WriteSpiChunk H.logged g a (some p) Mem n (s, [])).2.2).length = 1000) ∧
    ((ReadSpiChunk H.logged g a (some p) Mem n (s, [])).1 = (EFI_DEVICE_ERROR, Mem) ∧
      (ReadSpiChunk H.logged g a (some p) Mem n (s, [])).2.2.filter Access.isWrite = [] ∧
      ((ReadSpiChunk H.logged g a (some p) Mem n (s, [])).2.2.filter Access.isRead).length =
        1000 ∧
      (readsAt (g.mSpiMmioBase + SPI_HSFSTS_CTL)
        (ReadSpiChunk H.logged g a (some p) Mem n (s, [])).2.2).length = 1000) := by
  obtain ⟨l1, l2, l3⟩ := waitNotBusy_busy_log H g.mSpiMmioBase hbusy 1000 0 s []
  rw [WriteSpiChunk_busy H.logged g hb (logged_busy H _ hbusy) a p Mem n h1 h16,
    ReadSpiChunk_busy H.logged g hb (logged_busy H _ hbusy) a p Mem n h1 h16]
  exact ⟨⟨rfl, l1, l2, l3⟩, rfl, l1, l2, l3⟩

theorem constSpi_busy (base : Nat) :
    ∀ x, ((constSpi HSFSTS_CTL_SCIP).MmioRead32 (base + SPI_HSFSTS_CTL) x).1 &&&
      HSFSTS_CTL_SCIP ≠ 0 := by
  intro x
  show HSFSTS_CTL_SCIP &&& HSFSTS_CTL_SCIP ≠ 0
  decide

/-- A controller that always reads busy: 16 bytes, 1000 polls, `EFI_DEVICE_ERROR`. -/
theorem idle_wait_timeout_witness :
    (mappedGlobals.mSpiMmioBase ≠ 0 ∧
      (∀ x, ((constSpi HSFSTS_CTL_SCIP).MmioRead32 (mappedGlobals.mSpiMmioBase + SPI_HSFSTS_CTL)
        x).1 &&& HSFSTS_CTL_SCIP ≠ 0) ∧ 1 ≤ 16 ∧ 16 ≤ 16) ∧
    ((WriteSpiChunk (constSpi HSFSTS_CTL_SCIP).logged mappedGlobals ME_FIRMWARE_START (some 0)
        rampBytes 16 ((), [])).1 = EFI_DEVICE_ERROR ∧
      (WriteSpiChunk (constSpi HSFSTS_CTL_SCIP).logged mappedGlobals ME_FIRMWARE_START (some 0)
        rampBytes 16 ((), [])).2.2.filter Access.isWrite = [] ∧
      (readsAt (mappedGlobals.mSpiMmioBase + SPI_HSFSTS_CTL)
        (WriteSpiChunk (constSpi HSFSTS_CTL_SCIP).logged mappedGlobals ME_FIRMWARE_START (some 0)
          rampBytes 16 ((), [])).2.2).length = 1000) :=
  ⟨⟨mappedGlobals_mapped, constSpi_busy _, by decide, by decide⟩,
    (idle_wait_timeout (constSpi HSFSTS_CTL_SCIP) mappedGlobals mappedGlobals_mapped
      (constSpi_busy _) ME_FIRMWARE_START 0 rampBytes 16 (by decide) (by decide) ()).1.1,
    (idle_wait_timeout (constSpi HSFSTS_CTL_SCIP) mappedGlobals mappedGlobals_mapped
      (constSpi_busy _) ME_FIRMWARE_START 0 rampBytes 16 (by decide) (by decide) ()).1.2.1,
    (idle_wait_timeout (constSpi HSFSTS_CTL_SCIP) mappedGlobals mappedGlobals_mapped
      (constSpi_busy _) ME_FIRMWARE_START 0 rampBytes 16 (by decide) (by decide) ()).1.2.2.2⟩

/-- On a controller that always reads busy, the status of the two transaction primitives
is not `EFI_TIMEOUT`. -/
theorem idle_timeout_status_counterexample :
    (∀ x, ((constSpi HSFSTS_CTL_SCIP).MmioRead32 (mappedGlobals.mSpiMmioBase + SPI_HSFSTS_CTL)
      x).1 &&& HSFSTS_CTL_SCIP ≠ 0) ∧
    (WriteSpiChunk (constSpi HSFSTS_CTL_SCIP) mappedGlobals ME_FIRMWARE_START (some 0) rampBytes
      16 ()).1 ≠ EFI_TIMEOUT ∧
    (ReadSpiChunk (constSpi HSFSTS_CTL_SCIP) mappedGlobals ME_FIRMWARE_START (some 0) rampBytes
      16 ()).1.1 ≠ EFI_TIMEOUT := by
  refine ⟨constSpi_busy _, ?_, ?_⟩
  · rw [WriteSpiChunk_busy _ _ mappedGlobals_mapped (constSpi_busy _) _ _ _ 16 (by decide)
      (by decide)]
    decide
  · rw [ReadSpiChunk_busy _ _ mappedGlobals_mapped (constSpi_busy _) _ _ _ 16 (by decide)
      (by decide)]
    decide

/-- C16 on the code. On a controller whose flash cycle completes with an error, the status
register reading `FDONE | FCERR` (`0x0000000C`) in the completion wait, `WriteSpiChunk`
returns `EFI_SUCCESS`, and `ReadSpiChunk` returns `EFI_SUCCESS` and copies the data
register into the buffer (byte 0 becomes `0xDD`): the completion flag is tested before
the error flag. -/
theorem completion_error_with_done :
    (HSFSTS_CTL_FDONE ||| HSFSTS_CTL_FCERR) &&& HSFSTS_CTL_FCERR ≠ 0 ∧
    (WriteSpiChunk (failingSpi SPI_MMIO_BASE 0xAABBCCDD) mappedGlobals ME_FIRMWARE_START (some 0)
      rampBytes 16 false).1 = EFI_SUCCESS ∧
    (ReadSpiChunk (failingSpi SPI_MMIO_BASE 0xAABBCCDD) mappedGlobals ME_FIRMWARE_START (some 0)
      (fun _ => 0) 4 false).1.1 = EFI_SUCCESS ∧
    (ReadSpiChunk (failingSpi SPI_MMIO_BASE 0xAABBCCDD) mappedGlobals ME_FIRMWARE_START (some 0)
      (fun _ => 0) 4 false).1.2 0 = 0xDD := by
  refine ⟨by decide, by decide, by decide, ?_⟩
  have hg : ¬ (mappedGlobals.mSpiMmioBase = 0 ∨ (some 0 : Option Nat) = none ∨ 4 = 0 ∨ 4 > 16) := by
    decide
  have hw : waitNotBusy (failingSpi SPI_MMIO_BASE 0xAABBCCDD) mappedGlobals.mSpiMmioBase 1000 0
      false = (1000, 0, false) := by decide
  simp only [ReadSpiChunk, if_neg hg, hw]
  rw [if_neg (by decide), if_neg (by decide)]
  have hc : waitComplete (failingSpi SPI_MMIO_BASE 0xAABBCCDD) mappedGlobals.mSpiMmioBase 10000
      ((failingSpi SPI_MMIO_BASE 0xAABBCCDD).MmioWrite32
        (mappedGlobals.mSpiMmioBase + SPI_HSFSTS_CTL)
        ((HSFSTS_CTL_FCYCLE_READ <<< HSFSTS_CTL_FCYCLE_SHIFT |||
          (4 - 1) <<< HSFSTS_CTL_FDBC_SHIFT ||| HSFSTS_CTL_FGO) % 2 ^ 32)
        ((failingSpi SPI_MMIO_BASE 0xAABBCCDD).MmioWrite32
          (mappedGlobals.mSpiMmioBase + SPI_FADDR) ME_FIRMWARE_START false)) =
      (none, 10000, true) := by decide
  simp only [hc]
  rw [if_neg (by decide), readFdata, if_pos (by decide)]
  simp only []
  rw [readFdata, if_neg (by decide)]
  decide

/-! ## Write protection -/

/-- C20. With the controller mapped, on any hardware, `f0` being the first value read from
`FRAP`: if bit 2 of `f0` is clear, `DisableWriteProtection` returns `EFI_SUCCESS` and writes
no register; it returns `EFI_ACCESS_DENIED` if and only if `FRAP` is read three times and
bit 2 is set in each value read (the initial read and the read-back after each of the two
clear attempts), the writes then being `FRAP := f0` with bit 2 cleared, the two VSEC writes,
and `FRAP := 0`; in every other case it returns `EFI_SUCCESS`. In particular, on a register
file whose `FRAP` cannot be written and has bit 2 set, it returns `EFI_ACCESS_DENIED`
whatever the status register (and so `FLOCKDN`) holds. -/
theorem write_protection_denied {σ : Type} (H : Hardware σ) (g : Globals)
    (hb : g.mSpiMmioBase ≠ 0) (s : σ) :
    (∃ f0 rest, readsAt (g.mSpiMmioBase + SPI_FRAP)
        (DisableWriteProtection H.logged g (s, [])).2.2 = f0 :: rest ∧
      (f0 &&& (1 <<< 2) = 0 →
        (DisableWriteProtection H.logged g (s, [])).1 = EFI_SUCCESS ∧
        (DisableWriteProtection H.logged g (s, [])).2.2.filter Access.isWrite = []) ∧
      ((DisableWriteProtection H.logged g (s, [])).1 = EFI_ACCESS_DENIED →
        (DisableWriteProtection H.logged g (s, [])).2.2.filter Access.isWrite =
          [Access.write (g.mSpiMmioBase + SPI_FRAP) (f0 &&& not32 (1 <<< 2)),
            Access.write VSEC_CSME_BYPASS 0xFFFFFFFF, Access.write VSEC_ME_CONTROL 1,
            Access.write (g.mSpiMmioBase + SPI_FRAP) 0])) ∧
    ((DisableWriteProtection H.logged g (s, [])).1 = EFI_ACCESS_DENIED ↔
      ∃ f0 f1 f2, readsAt (g.mSpiMmioBase + SPI_FRAP)
          (DisableWriteProtection H.logged g (s, [])).2.2 = [f0, f1, f2] ∧
        f0 &&& (1 <<< 2) ≠ 0 ∧ f1 &&& (1 <<< 2) ≠ 0 ∧ f2 &&& (1 <<< 2) ≠ 0) ∧
    ((DisableWriteProtection H.logged g (s, [])).1 ≠ EFI_ACCESS_DENIED →
      (DisableWriteProtection H.logged g (s, [])).1 = EFI_SUCCESS) ∧
    (∀ (wm regs : Nat → Nat), wm (g.mSpiMmioBase + SPI_FRAP) = 0 →
      regs (g.mSpiMmioBase + SPI_FRAP) &&& (1 <<< 2) ≠ 0 →
      (DisableWriteProtection (regFile wm) g regs).1 = EFI_ACCESS_DENIED) := by
  have hne : EFI_SUCCESS ≠ EFI_ACCESS_DENIED := by decide
  have ha : g.mSpiMmioBase + SPI_HSFSTS_CTL ≠ g.mSpiMmioBase + SPI_FRAP := by
    simp [SPI_HSFSTS_CTL, SPI_FRAP]
  refine ⟨?_, ?_, ?_, ?_⟩
  · simp only [DisableWriteProtection, if_neg hb, Hardware.logged, List.nil_append]
    generalize H.MmioRead32 (g.mSpiMmioBase + SPI_HSFSTS_CTL) s = r0
    generalize H.MmioRead32 (g.mSpiMmioBase + SPI_FRAP) r0.2 = r1
    generalize H.Stall 100000 (H.MmioWrite32 (g.mSpiMmioBase + SPI_FRAP)
      (r1.1 &&& not32 (1 <<< 2)) r1.2) = s2
    generalize H.MmioRead32 (g.mSpiMmioBase + SPI_FRAP) s2 = r2
    generalize H.Stall 100000 (H.MmioWrite32 (g.mSpiMmioBase + SPI_FRAP) 0
      (H.Stall 100000 (H.MmioWrite32 VSEC_ME_CONTROL 1
        (H.Stall 100000 (H.MmioWrite32 VSEC_CSME_BYPASS 0xFFFFFFFF r2.2))))) = s3
    generalize H.MmioRead32 (g.mSpiMmioBase + SPI_FRAP) s3 = r3
    split_ifs with h0 h1 h2
    · refine ⟨r1.1, [r2.1, r3.1], ?_, ?_, ?_⟩
      · simp [readsAt, ha]
      · intro h; exact absurd h h0
      · intro _
        simp [Access.isWrite]
    · refine ⟨r1.1, [r2.1, r3.1], ?_, ?_, ?_⟩
      · simp [readsAt, ha]
      · intro h; exact absurd h h0
      · intro h; exact absurd h hne
    · refine ⟨r1.1, [r2.1], ?_, ?_, ?_⟩
      · simp [readsAt, ha]
      · intro h; exact absurd h h0
      · intro h; exact absurd h hne
    · refine ⟨r1.1, [], ?_, ?_, ?_⟩
      · simp [readsAt, ha]
      · intro _
        simp [Access.isWrite]
      · intro h; exact absurd h hne
  · simp only [DisableWriteProtection, if_neg hb, Hardware.logged, List.nil_append]
    generalize H.MmioRead32 (g.mSpiMmioBase + SPI_HSFSTS_CTL) s = r0
    generalize H.MmioRead32 (g.mSpiMmioBase + SPI_FRAP) r0.2 = r1
    generalize H.Stall 100000 (H.MmioWrite32 (g.mSpiMmioBase + SPI_FRAP)
      (r1.1 &&& not32 (1 <<< 2)) r1.2) = s2
    generalize H.MmioRead32 (g.mSpiMmioBase + SPI_FRAP) s2 = r2
    generalize H.Stall 100000 (H.MmioWrite32 (g.mSpiMmioBase + SPI_FRAP) 0
      (H.Stall 100000 (H.MmioWrite32 VSEC_ME_CONTROL 1
        (H.Stall 100000 (H.MmioWrite32 VSEC_CSME_BYPASS 0xFFFFFFFF r2.2))))) = s3
    generalize H.MmioRead32 (g.mSpiMmioBase + SPI_FRAP) s3 = r3
    split_ifs with h0 h1 h2
    · refine ⟨fun _ => ⟨r1.1, r2.1, r3.1, ?_, h0, h1, h2⟩, fun _ => rfl⟩
      simp [readsAt, ha]
    · refine ⟨fun h => absurd h hne, ?_⟩
      rintro ⟨f0, f1, f2, e, -, -, h⟩
      simp [readsAt, ha] at e
      rw [← e.2.2] at h
      exact absurd h h2
    · refine ⟨fun h => absurd h hne, ?_⟩
      rintro ⟨f0, f1, f2, e, -, -, h⟩
      simp [readsAt, ha] at e
    · refine ⟨fun h => absurd h hne, ?_⟩
      rintro ⟨f0, f1, f2, e, -, -, h⟩
      simp [readsAt, ha] at e
  · simp only [DisableWriteProtection, if_neg hb, Hardware.logged, List.nil_append]
    split_ifs
    · intro h; exact absurd rfl h
    all_goals exact fun _ => rfl
  · intro wm regs hw hr
    have hfr : ∀ (x : Nat → Nat) a v,
        (regFile wm).MmioWrite32 a v x (g.mSpiMmioBase + SPI_FRAP) = x (g.mSpiMmioBase + SPI_FRAP) :=
      fun x a v => regFile_write_locked wm a v x _ hw
    simp only [DisableWriteProtection, if_neg hb, regFile_read, regFile_stall, hfr]
    simp only [if_pos hr]


/-- A locked `FRAP` with the ME write-protect bit set. -/
theorem write_protection_denied_witness :
    (mappedGlobals.mSpiMmioBase ≠ 0 ∧ readOnly (mappedGlobals.mSpiMmioBase + SPI_FRAP) = 0 ∧
      lockedRegs (mappedGlobals.mSpiMmioBase + SPI_FRAP) &&& (1 <<< 2) ≠ 0) ∧
    (DisableWriteProtection (regFile readOnly) mappedGlobals lockedRegs).1 = EFI_ACCESS_DENIED :=
  ⟨⟨mappedGlobals_mapped, rfl, by decide⟩,
    (write_protection_denied (regFile readOnly) mappedGlobals mappedGlobals_mapped
      lockedRegs).2.2.2 readOnly lockedRegs rfl (by decide)⟩

/-! ## Further facts on the clock divider and the completion wait -/

theorem regFile_write_same (wm : Nat → Nat) (a v : Nat) (s : Nat → Nat) :
    (regFile wm).MmioWrite32 a v s a = (s a ^^^ (s a &&& wm a)) ||| (v &&& wm a) := by
  show (if a = a then _ else _) = _
  rw [if_pos rfl]

theorem regFile_write_other (wm : Nat → Nat) (a v : Nat) (s : Nat → Nat) (x : Nat)
    (h : x ≠ a) : (regFile wm).MmioWrite32 a v s x = s x := by
  show (if x = a then _ else _) = _
  rw [if_neg h]

theorem waitNotBusy_regFile_idle (wm : Nat → Nat) (base n c : Nat) (s : Nat → Nat)
    (h : s (base + SPI_HSFSTS_CTL) &&& HSFSTS_CTL_SCIP = 0) :
    waitNotBusy (regFile wm) base (n + 1) c s = (n + 1, s (base + SPI_HSFSTS_CTL), s) := by
  simp only [waitNotBusy, regFile_read, if_pos h]

/-- The field selected by `K` of a register after a write, when the bits of `K` are
writable. -/
theorem written_field (o v m K : Nat) (hm : m &&& K = K) :
    ((o ^^^ (o &&& m)) ||| (v &&& m)) &&& K = v &&& K := by
  apply Nat.eq_of_testBit_eq
  intro i
  have a := congrArg (fun x => Nat.testBit x i) hm
  simp only [Nat.testBit_and] at a
  simp only [Nat.testBit_and, Nat.testBit_or, Nat.testBit_xor]
  revert a
  cases o.testBit i <;> cases v.testBit i <;> cases m.testBit i <;> cases K.testBit i <;> simp

/-- The field selected by `K` of the value `(x & ~K) | (d & K)`, for a 32-bit mask `K`. -/
theorem merged_field (x d K : Nat) (hK : K < 2 ^ 32) :
    ((x &&& not32 K) ||| (d &&& K)) &&& K = d &&& K := by
  apply Nat.eq_of_testBit_eq
  intro i
  have hn : (not32 K).testBit i = (decide (i < 32) ^^ K.testBit i) := by
    unfold not32
    rw [Nat.mod_eq_of_lt hK, Nat.testBit_xor, Nat.testBit_two_pow_sub_one]
  simp only [Nat.testBit_and, Nat.testBit_or, hn]
  by_cases hi : i < 32
  · simp only [hi, decide_True]
    cases x.testBit i <;> cases d.testBit i <;> cases K.testBit i <;> rfl
  · have hk : K.testBit i = false :=
      Nat.testBit_lt_two_pow (Nat.lt_of_lt_of_le hK (Nat.pow_le_pow_right (by decide)
        (Nat.le_of_not_lt hi)))
    simp only [hk, Bool.and_false, Bool.or_false]

theorem ProbeSpiClockControl_regFile_idle (wm : Nat → Nat) (g : Globals)
    (hb : g.mSpiMmioBase ≠ 0) (s : Nat → Nat)
    (hidle : s (g.mSpiMmioBase + SPI_HSFSTS_CTL) &&& HSFSTS_CTL_SCIP = 0)
    (hw : wm (g.mSpiMmioBase + SPI_CLOCK_CTL) &&& 0x700 = 0x700) :
    (ProbeSpiClockControl (regFile wm) g s).1 =
      (EFI_SUCCESS, some ⟨SPI_CLOCK_CTL, SPI_CLOCK_DIV_SHIFT, SPI_CLOCK_DIV_MASK⟩) := by
  have hwait : waitNotBusy (regFile wm) g.mSpiMmioBase 1000 0 s =
      (1000, s (g.mSpiMmioBase + SPI_HSFSTS_CTL), s) :=
    waitNotBusy_regFile_idle wm g.mSpiMmioBase 999 0 s hidle
  simp only [ProbeSpiClockControl, if_neg hb, regFile_read, regFile_stall, hwait]
  rw [if_pos (by decide), regFile_write_same]
  have hrb : ((s (g.mSpiMmioBase + SPI_CLOCK_CTL) ^^^
      (s (g.mSpiMmioBase + SPI_CLOCK_CTL) &&& wm (g.mSpiMmioBase + SPI_CLOCK_CTL))) |||
      ((s (g.mSpiMmioBase + SPI_CLOCK_CTL) &&& not32 SPI_CLOCK_DIV_MASK ||| SPI_CLOCK_DIV_8) &&&
        wm (g.mSpiMmioBase + SPI_CLOCK_CTL))) &&& SPI_CLOCK_DIV_MASK = SPI_CLOCK_DIV_8 := by
    have := written_field (s (g.mSpiMmioBase + SPI_CLOCK_CTL))
      (s (g.mSpiMmioBase + SPI_CLOCK_CTL) &&& not32 SPI_CLOCK_DIV_MASK ||| SPI_CLOCK_DIV_8)
      (wm (g.mSpiMmioBase + SPI_CLOCK_CTL)) 0x700 hw
    exact this.trans (testPattern _)
  rw [if_pos hrb]

/-- The set/restore pair on an idle register file whose divider bits are writable. -/
theorem divider_set_then_restore (wm : Nat → Nat) (g : Globals) (hb : g.mSpiMmioBase ≠ 0)
    (s : Nat → Nat) (d : Nat)
    (hidle : s (g.mSpiMmioBase + SPI_HSFSTS_CTL) &&& HSFSTS_CTL_SCIP = 0)
    (hw : wm (g.mSpiMmioBase + SPI_CLOCK_CTL) &&& 0x700 = 0x700) :
    (SetSpiClockSpeed (regFile wm) g d s).1 = EFI_SUCCESS ∧
    (RestoreSpiClockSpeed (regFile wm) (SetSpiClockSpeed (regFile wm) g d s).2.1
      (SetSpiClockSpeed (regFile wm) g d s).2.2).1 = EFI_SUCCESS ∧
    (s (g.mSpiMmioBase + SPI_CLOCK_CTL) &&& 0x700 ≠ 0 →
      (RestoreSpiClockSpeed (regFile wm) (SetSpiClockSpeed (regFile wm) g d s).2.1
        (SetSpiClockSpeed (regFile wm) g d s).2.2).2.2 (g.mSpiMmioBase + SPI_CLOCK_CTL) &&& 0x700 =
        s (g.mSpiMmioBase + SPI_CLOCK_CTL) &&& 0x700) ∧
    (s (g.mSpiMmioBase + SPI_CLOCK_CTL) &&& 0x700 = 0 →
      (RestoreSpiClockSpeed (regFile wm) (SetSpiClockSpeed (regFile wm) g d s).2.1
        (SetSpiClockSpeed (regFile wm) g d s).2.2).2.2 (g.mSpiMmioBase + SPI_CLOCK_CTL) &&& 0x700 =
        d &&& 0x700) := by
  have hwait : ∀ x : Nat → Nat, x (g.mSpiMmioBase + SPI_HSFSTS_CTL) &&& HSFSTS_CTL_SCIP = 0 →
      waitNotBusy (regFile wm) g.mSpiMmioBase 1000 0 x =
        (1000, x (g.mSpiMmioBase + SPI_HSFSTS_CTL), x) :=
    fun x hx => waitNotBusy_regFile_idle wm g.mSpiMmioBase 999 0 x hx
  have hne : g.mSpiMmioBase + SPI_HSFSTS_CTL ≠ g.mSpiMmioBase + SPI_CLOCK_CTL := by
    simp [SPI_HSFSTS_CTL, SPI_CLOCK_CTL]
  -- the run of `SetSpiClockSpeed`
  have hset : SetSpiClockSpeed (regFile wm) g d s =
      (EFI_SUCCESS,
        { g with mOriginalSpiClock := s (g.mSpiMmioBase + SPI_CLOCK_CTL) &&& SPI_CLOCK_DIV_MASK },
        (regFile wm).MmioWrite32 (g.mSpiMmioBase + SPI_CLOCK_CTL)
          ((s (g.mSpiMmioBase + SPI_CLOCK_CTL) &&& not32 SPI_CLOCK_DIV_MASK) |||
            (d &&& SPI_CLOCK_DIV_MASK)) s) := by
    simp only [SetSpiClockSpeed, if_neg hb, ProbeSpiClockControl_regFile_idle wm g hb s hidle hw,
      ProbeSpiClockControl_regFile, Option.getD_some, regFile_read, regFile_stall, hwait s hidle]
    rw [if_neg (by decide), regFile_write_same]
    have hrb := (written_field (s (g.mSpiMmioBase + SPI_CLOCK_CTL))
      ((s (g.mSpiMmioBase + SPI_CLOCK_CTL) &&& not32 SPI_CLOCK_DIV_MASK) |||
        (d &&& SPI_CLOCK_DIV_MASK)) (wm (g.mSpiMmioBase + SPI_CLOCK_CTL)) SPI_CLOCK_DIV_MASK
      hw).trans (merged_field _ d SPI_CLOCK_DIV_MASK (by decide))
    rw [if_pos hrb]
  rw [hset]
  generalize hs1 : (regFile wm).MmioWrite32 (g.mSpiMmioBase + SPI_CLOCK_CTL)
    ((s (g.mSpiMmioBase + SPI_CLOCK_CTL) &&& not32 SPI_CLOCK_DIV_MASK) |||
      (d &&& SPI_CLOCK_DIV_MASK)) s = s1
  have hidle1 : s1 (g.mSpiMmioBase + SPI_HSFSTS_CTL) &&& HSFSTS_CTL_SCIP = 0 := by
    rw [← hs1, regFile_write_other wm _ _ s _ hne]
    exact hidle
  have hfield1 : s1 (g.mSpiMmioBase + SPI_CLOCK_CTL) &&& 0x700 = d &&& 0x700 := by
    rw [← hs1, regFile_write_same]
    exact (written_field _ _ _ SPI_CLOCK_DIV_MASK hw).trans
      (merged_field _ d SPI_CLOCK_DIV_MASK (by decide))
  refine ⟨rfl, ?_, ?_, ?_⟩
  · by_cases h0 : s (g.mSpiMmioBase + SPI_CLOCK_CTL) &&& SPI_CLOCK_DIV_MASK = 0
    · simp only [RestoreSpiClockSpeed, if_neg hb, if_pos h0]
    · simp only [RestoreSpiClockSpeed, if_neg hb, if_neg h0, ProbeSpiClockControl_regFile,
        hwait s1 hidle1]
      rw [if_neg (by decide)]
  · intro h0
    have h0' : ¬ s (g.mSpiMmioBase + SPI_CLOCK_CTL) &&& SPI_CLOCK_DIV_MASK = 0 := h0
    have hp := ProbeSpiClockControl_regFile_idle wm
      ⟨g.mSpiMmioBase, s (g.mSpiMmioBase + SPI_CLOCK_CTL) &&& SPI_CLOCK_DIV_MASK, g.mEnableHap⟩
      hb s1 hidle1 hw
    simp only [RestoreSpiClockSpeed, if_neg hb, if_neg h0', ProbeSpiClockControl_regFile,
      hp, EFI_ERROR_SUCCESS, hwait s1 hidle1, regFile_read, regFile_stall]
    rw [if_neg (by decide)]
    simp only [Bool.false_eq_true, if_false, Option.getD_some]
    rw [regFile_write_same]
    have := (written_field (s1 (g.mSpiMmioBase + SPI_CLOCK_CTL))
      ((s1 (g.mSpiMmioBase + SPI_CLOCK_CTL) &&& not32 SPI_CLOCK_DIV_MASK) |||
        ((s (g.mSpiMmioBase + SPI_CLOCK_CTL) &&& SPI_CLOCK_DIV_MASK) &&& SPI_CLOCK_DIV_MASK))
      (wm (g.mSpiMmioBase + SPI_CLOCK_CTL)) SPI_CLOCK_DIV_MASK hw).trans
      (merged_field _ (s (g.mSpiMmioBase + SPI_CLOCK_CTL) &&& SPI_CLOCK_DIV_MASK)
        SPI_CLOCK_DIV_MASK (by decide))
    show _ &&& SPI_CLOCK_DIV_MASK = _ &&& SPI_CLOCK_DIV_MASK
    rw [this, Nat.and_assoc, Nat.and_self]
  · intro h0
    have h0' : s (g.mSpiMmioBase + SPI_CLOCK_CTL) &&& SPI_CLOCK_DIV_MASK = 0 := h0
    simp only [RestoreSpiClockSpeed, if_neg hb, if_pos h0']
    exact hfield1

/-- The completion wait when the error flag comes without the completion flag: both
primitives return `EFI_DEVICE_ERROR` and `ReadSpiChunk` leaves the buffer as it was. -/
theorem error_flag_alone_fails {σ : Type} (H : Hardware σ) (g : Globals)
    (hb : g.mSpiMmioBase ≠ 0)
    (hidle : ∀ x, (H.MmioRead32 (g.mSpiMmioBase + SPI_HSFSTS_CTL) x).1 &&& HSFSTS_CTL_SCIP = 0)
    (hdone : ∀ x, (H.MmioRead32 (g.mSpiMmioBase + SPI_HSFSTS_CTL) x).1 &&& HSFSTS_CTL_FDONE = 0)
    (herr : ∀ x, (H.MmioRead32 (g.mSpiMmioBase + SPI_HSFSTS_CTL) x).1 &&& HSFSTS_CTL_FCERR ≠ 0)
    (a p : Nat) (Mem : Nat → Byte) (n : Nat) (h1 : 1 ≤ n) (h16 : n ≤ 16) (s : σ) :
    (WriteSpiChunk H g a (some p) Mem n s).1 = EFI_DEVICE_ERROR ∧
    (ReadSpiChunk H g a (some p) Mem n s).1 = (EFI_DEVICE_ERROR, Mem) := by
  have hg : ¬ (g.mSpiMmioBase = 0 ∨ (some p : Option Nat) = none ∨ n = 0 ∨ n > 16) := by
    simp; omega
  have hw0 : ∀ k x, waitNotBusy H g.mSpiMmioBase (k + 1) 0 x =
      (k + 1, (H.MmioRead32 (g.mSpiMmioBase + SPI_HSFSTS_CTL) x).1,
        (H.MmioRead32 (g.mSpiMmioBase + SPI_HSFSTS_CTL) x).2) := by
    intro k x
    simp only [waitNotBusy, if_pos (hidle x)]
  have hw : ∀ x, waitNotBusy H g.mSpiMmioBase 1000 0 x =
      (1000, (H.MmioRead32 (g.mSpiMmioBase + SPI_HSFSTS_CTL) x).1,
        (H.MmioRead32 (g.mSpiMmioBase + SPI_HSFSTS_CTL) x).2) := fun x => hw0 999 x
  have hc0 : ∀ k x, (waitComplete H g.mSpiMmioBase (k + 1) x).1 = some EFI_DEVICE_ERROR := by
    intro k x
    have h1 : ¬ (H.MmioRead32 (g.mSpiMmioBase + SPI_HSFSTS_CTL) x).1 &&& HSFSTS_CTL_FDONE ≠ 0 :=
      fun h => h (hdone x)
    simp only [waitComplete, if_neg h1, if_pos (herr x)]
  have hc : ∀ x, (waitComplete H g.mSpiMmioBase 10000 x).1 = some EFI_DEVICE_ERROR :=
    fun x => hc0 9999 x
  constructor
  · simp only [WriteSpiChunk, if_neg hg, hw, hc]
    rw [if_neg (by decide)]
  · simp only [ReadSpiChunk, if_neg hg, hw, hc]
    rw [if_neg (by decide)]

/-! ## devmem2: the batch mode -/

theorem access_memory_illegal_type {μ : Type} (K : DevMem μ) (target access_type writeval : Nat)
    (do_write : Bool) (m : μ) (h : accessWidth access_type = none) :
    (access_memory K target access_type writeval do_write m).1 = -1 := by
  unfold access_memory
  simp only [h]
  split_ifs
  · rfl
  · split <;> rfl

/-- The calls of the batch loop: one per argument, in order, all with the same access type. -/
theorem batchLoop_journal {μ : Type} (access : MemAccess μ) (strtoul : String → Nat)
    (access_type : Nat) (args : List String) (m : μ) (j : List MemCall) :
    ((batchLoop (recordAccess access) strtoul access_type args (m, j)).2.map
        (fun c => (c.target, c.access_type, c.writeval, c.do_write))) =
      j.map (fun c => (c.target, c.access_type, c.writeval, c.do_write)) ++
        args.map (fun a => (strtoul a % 2 ^ 64, access_type, 0, false)) := by
  induction args generalizing m j with
  | nil => simp [batchLoop]
  | cons a rest ih =>
    rw [batchLoop]
    simp only [recordAccess]
    rw [ih]
    simp

/-- C21. On the argument list `-b 0x10000000 0x10000004 0x10000008` of the usage text,
`main` calls `access_memory` once per address, in order, as a read, but with the access
type `'0'` (the first character of the second address), not `'w'`; `access_memory` has no
case for it and returns `-1` on every call; `main` returns 0. -/
theorem batch_mode_access_type {μ : Type} (K : DevMem μ) (strtoul : String → Nat) (m : μ)
    (fuel : Nat) :
    (∃ m1, mainOn (recordAccess (access_memory K)) strtoul
        ["devmem2", "-b", "0x10000000", "0x10000004", "0x10000008"]
        [⟨'b'.toNat, "", 2, ["devmem2", "-b", "0x10000000", "0x10000004", "0x10000008"]⟩]
        2 fuel (m, []) =
      Except.ok (0, m1,
        [⟨strtoul "0x10000000" % 2 ^ 64, '0'.toNat, 0, false, -1⟩,
         ⟨strtoul "0x10000004" % 2 ^ 64, '0'.toNat, 0, false, -1⟩,
         ⟨strtoul "0x10000008" % 2 ^ 64, '0'.toNat, 0, false, -1⟩])) ∧
    accessWidth '0'.toNat = none ∧ accessWidth 'w'.toNat = some 4 := by
  have h0 : accessWidth '0'.toNat = none := by decide
  have hp : parseOptions strtoul 5
      [⟨'b'.toNat, "", 2, ["devmem2", "-b", "0x10000000", "0x10000004", "0x10000008"]⟩]
      ⟨false, false, false, false, true, false, 0, 0⟩ =
      Except.ok ⟨false, false, true, false, true, false, 0, 0⟩ := by
    simp [parseOptions]
  have ht : tolower (firstChar (argAt ["devmem2", "-b", "0x10000000", "0x10000004", "0x10000008"]
      (2 + 1))) = '0'.toNat := by decide
  refine ⟨?_, h0, by decide⟩
  simp only [mainOn, Options.initial, List.length_cons, List.length_nil, hp]
  simp only [Bool.false_eq_true, if_false, if_true, ht]
  simp [batchLoop, recordAccess]
  have h48 : accessWidth 48 = none := h0
  exact ⟨access_memory_illegal_type K _ _ _ _ _ h48, access_memory_illegal_type K _ _ _ _ _ h48,
    access_memory_illegal_type K _ _ _ _ _ h48⟩

/-- With a single address the access type stays `'w'`. -/
theorem batch_mode_single_address {μ : Type} (K : DevMem μ) (strtoul : String → Nat) (m : μ)
    (prog a : String) (fuel : Nat) :
    ∃ m1 ret, mainOn (recordAccess (access_memory K)) strtoul [prog, "-b", a]
        [⟨'b'.toNat, "", 2, [prog, "-b", a]⟩] 2 fuel (m, []) =
      Except.ok (0, m1, [⟨strtoul a % 2 ^ 64, 'w'.toNat, 0, false, ret⟩]) := by
  have hp : parseOptions strtoul 3 [⟨'b'.toNat, "", 2, [prog, "-b", a]⟩]
      ⟨false, false, false, false, true, false, 0, 0⟩ =
      Except.ok ⟨false, false, true, false, true, false, 0, 0⟩ := by
    simp [parseOptions]
  simp only [mainOn, Options.initial, List.length_cons, List.length_nil, hp]
  simp [batchLoop, recordAccess]

/-! ## DSMIL unlock: the completion marker -/

/-- C22. The value that `DsmilFullUnlock` writes to MSR 0x1B0 as its last access, in every
mode, is `0x55554549464C554B`; its bytes, most significant first, are the ASCII codes of
"UUEIFLUK", not those of "UEFIUNLK", whose encoding is `0x55454649554E4C4B`. -/
theorem uefi_marker_bytes {ω : Type} (ops : UnlockOps ω) (Mode : Option String) (w : ω) :
    (∃ w1, DsmilFullUnlock ops Mode w =
      (EFI_SUCCESS, ops.AsmWriteMsr64 0x1B0 0x55554549464C554B w1)) ∧
    bytesMsbFirst UefiMarker = [0x55, 0x55, 0x45, 0x49, 0x46, 0x4C, 0x55, 0x4B] ∧
    bytesMsbFirst UefiMarker = charCodes "UUEIFLUK" ∧
    bytesMsbFirst UefiMarker ≠ charCodes "UEFIUNLK" ∧
    bytesMsbFirst 0x55454649554E4C4B = charCodes "UEFIUNLK" := by
  refine ⟨⟨_, rfl⟩, by decide, by decide, by decide, by decide⟩

/-! ## An empty source -/

theorem WriteMeFirmwareOn_empty {σ : Type} (wr : WriteTx σ) (R : Nat) (s : σ) (f : RamFile)
    (hf : f.size = 0) :
    WriteMeFirmwareOn ramShell wr R s f = (EFI_SUCCESS, s, ⟨f.size, f.data, 0, f.heap⟩) := by
  simp only [WriteMeFirmwareOn, ramShell_size, ramShell_alloc, ramShell_seek, EFI_ERROR_SUCCESS,
    Bool.false_eq_true, if_false]
  rw [writeChunks, if_neg (by omega)]

theorem VerifyMeFirmwareOn_empty {σ : Type} (rd : ReadTx σ) (R : Nat) (s : σ) (f : RamFile)
    (hf : f.size = 0) :
    VerifyMeFirmwareOn ramShell rd R s f =
      (⟨EFI_SUCCESS, true, 0, 0⟩, s, ⟨f.size, f.data, 0, f.heap⟩) := by
  simp only [VerifyMeFirmwareOn, ramShell_size, ramShell_alloc, ramShell_seek, EFI_ERROR_SUCCESS,
    Bool.false_eq_true, if_false]
  rw [verifyChunks, if_neg (by omega)]
  simp

/-- C30. An empty source is accepted as a successful restoration. For a source of length 0,
`WriteMeFirmware` returns `EFI_SUCCESS` and `VerifyMeFirmware` returns `EFI_SUCCESS` with
`Matches = TRUE` and mismatch count 0, both without issuing a transaction; `ShellAppMain`
from step 6 on calls them once each, then restores the clock and closes the file with the
transaction log still empty, and returns 0. -/
theorem empty_source_accepted {σ : Type} (wr : WriteTx σ) (rd : ReadTx σ)
    (rest : AppOps ((σ × List TxRecord) × RamFile)) (s : σ) (f : RamFile) (hf : f.size = 0) :
    ((WriteMeFirmwareOn ramShell (recordWrites wr) ME_FIRMWARE_SIZE (s, []) f).1 = EFI_SUCCESS ∧
      (WriteMeFirmwareOn ramShell (recordWrites wr) ME_FIRMWARE_SIZE (s, []) f).2.1 = (s, [])) ∧
    ((VerifyMeFirmwareOn ramShell (recordReads rd) ME_FIRMWARE_SIZE (s, []) f).1 =
        ⟨EFI_SUCCESS, true, 0, 0⟩ ∧
      (VerifyMeFirmwareOn ramShell (recordReads rd) ME_FIRMWARE_SIZE (s, []) f).2.1 = (s, [])) ∧
    ShellAppMain_write
        (transferOps ramShell (recordWrites wr) (recordReads rd) ME_FIRMWARE_SIZE rest).recorded
        (((s, []), f), []) =
      (0,
        (rest.ShellCloseFile
          (rest.RestoreSpiClockSpeed ((s, []), ⟨f.size, f.data, 0, f.heap⟩)).2).2,
        [Call.WriteMeFirmware EFI_SUCCESS, Call.VerifyMeFirmware ⟨EFI_SUCCESS, true, 0, 0⟩,
          Call.RestoreSpiClockSpeed
            (rest.RestoreSpiClockSpeed ((s, []), ⟨f.size, f.data, 0, f.heap⟩)).1,
          Call.ShellCloseFile (rest.ShellCloseFile
            (rest.RestoreSpiClockSpeed ((s, []), ⟨f.size, f.data, 0, f.heap⟩)).2).1]) := by
  have hW := WriteMeFirmwareOn_empty (recordWrites wr) ME_FIRMWARE_SIZE (s, []) f hf
  have hV := VerifyMeFirmwareOn_empty (recordReads rd) ME_FIRMWARE_SIZE (s, []) f hf
  have hV2 := VerifyMeFirmwareOn_empty (recordReads rd) ME_FIRMWARE_SIZE (s, [])
    ⟨f.size, f.data, 0, f.heap⟩ hf
  refine ⟨⟨?_, ?_⟩, ⟨?_, ?_⟩, ?_⟩
  · rw [hW]
  · rw [hW]
  · rw [hV]
  · rw [hV]
  · rw [ShellAppMain_write_recorded, transferOps_write]
    dsimp only
    rw [hW]
    simp only [EFI_ERROR_SUCCESS, Bool.false_eq_true, if_false]
    unfold ShellAppMain_verify
    rw [ShellAppMain_exit_recorded, verifyRestoreLoop_recorded, transferOps_verify]
    dsimp only
    rw [hV2]
    simp only [EFI_ERROR_SUCCESS, Bool.false_eq_true, if_false, if_true]
    rfl

theorem empty_source_accepted_witness :
    emptyFile.size = 0 ∧
    ((WriteMeFirmwareOn ramShell
          (recordWrites (WriteSpiChunk (idealSpi mappedGlobals.mSpiMmioBase) mappedGlobals))
          ME_FIRMWARE_SIZE (blankSpi, []) emptyFile).1 = EFI_SUCCESS ∧
        (WriteMeFirmwareOn ramShell
          (recordWrites (WriteSpiChunk (idealSpi mappedGlobals.mSpiMmioBase) mappedGlobals))
          ME_FIRMWARE_SIZE (blankSpi, []) emptyFile).2.1 = (blankSpi, [])) ∧
      ((VerifyMeFirmwareOn ramShell
          (recordReads (ReadSpiChunk (idealSpi mappedGlobals.mSpiMmioBase) mappedGlobals))
          ME_FIRMWARE_SIZE (blankSpi, []) emptyFile).1 = ⟨EFI_SUCCESS, true, 0, 0⟩ ∧
        (VerifyMeFirmwareOn ramShell
          (recordReads (ReadSpiChunk (idealSpi mappedGlobals.mSpiMmioBase) mappedGlobals))
          ME_FIRMWARE_SIZE (blankSpi, []) emptyFile).2.1 = (blankSpi, [])) ∧
      ShellAppMain_write
          (transferOps ramShell
            (recordWrites (WriteSpiChunk (idealSpi mappedGlobals.mSpiMmioBase) mappedGlobals))
            (recordReads (ReadSpiChunk (idealSpi mappedGlobals.mSpiMmioBase) mappedGlobals))
            ME_FIRMWARE_SIZE (idleOps ((IdealSpi × List TxRecord) × RamFile))).recorded
          (((blankSpi, []), emptyFile), []) =
        (0,
          ((idleOps ((IdealSpi × List TxRecord) × RamFile)).ShellCloseFile
            ((idleOps ((IdealSpi × List TxRecord) × RamFile)).RestoreSpiClockSpeed
              ((blankSpi, []), ⟨emptyFile.size, emptyFile.data, 0, emptyFile.heap⟩)).2).2,
          [Call.WriteMeFirmware EFI_SUCCESS, Call.VerifyMeFirmware ⟨EFI_SUCCESS, true, 0, 0⟩,
            Call.RestoreSpiClockSpeed
              ((idleOps ((IdealSpi × List TxRecord) × RamFile)).RestoreSpiClockSpeed
                ((blankSpi, []), ⟨emptyFile.size, emptyFile.data, 0, emptyFile.heap⟩)).1,
            Call.ShellCloseFile ((idleOps ((IdealSpi × List TxRecord) × RamFile)).ShellCloseFile
              ((idleOps ((IdealSpi × List TxRecord) × RamFile)).RestoreSpiClockSpeed
                ((blankSpi, []), ⟨emptyFile.size, emptyFile.data, 0, emptyFile.heap⟩)).2).1]) :=
  ⟨rfl, empty_source_accepted _ _ (idleOps ((IdealSpi × List TxRecord) × RamFile)) blankSpi
    emptyFile rfl⟩

/-! ## The transactions tile the range -/

theorem journal_extend (J j L : List Call) (P : Call → Prop)
    (h : ∃ new, J = (j ++ L) ++ new ∧ ∀ c ∈ new, P c) (hL : ∀ c ∈ L, P c) :
    ∃ new, J = j ++ new ∧ ∀ c ∈ new, P c := by
  obtain ⟨new, e, hnew⟩ := h
  refine ⟨L ++ new, by rw [e, List.append_assoc], ?_⟩
  intro c hc
  rcases List.mem_append.1 hc with hc | hc
  · exact hL c hc
  · exact hnew c hc

/-- The calls of the verify/restore loop are no clock calls and no set-up calls. -/
theorem verifyRestoreLoop_no_clock {ω : Type} (ops : AppOps ω) (Max RA : Nat) (w : ω)
    (j : List Call) :
    ∃ new, (verifyRestoreLoop ops.recorded Max RA (w, j)).2.2 = j ++ new ∧
      ∀ c ∈ new, Call.isSetClock c = false ∧ Call.isRestoreClock c = false ∧
        Call.setupFailed c = false := by
  generalize hr : Max + 1 - RA = r
  induction r using Nat.strong_induction_on generalizing RA w j with
  | _ r ih =>
    rw [verifyRestoreLoop_recorded]
    split_ifs with h1 h2 h3 h4 h5 h6
    · exact ⟨_, rfl, by simp [Call.isSetClock, Call.isRestoreClock, Call.setupFailed]⟩
    · exact ⟨_, rfl, by simp [Call.isSetClock, Call.isRestoreClock, Call.setupFailed]⟩
    · exact ⟨_, rfl, by simp [Call.isSetClock, Call.isRestoreClock, Call.setupFailed]⟩
    · exact ⟨_, rfl, by simp [Call.isSetClock, Call.isRestoreClock, Call.setupFailed]⟩
    · exact ⟨_, rfl, by simp [Call.isSetClock, Call.isRestoreClock, Call.setupFailed]⟩
    · exact journal_extend _ _ _ _ (ih (Max + 1 - (RA + 1)) (by omega) (RA + 1) _ _ rfl)
        (by simp [Call.isSetClock, Call.isRestoreClock, Call.setupFailed])
    · exact ⟨_, rfl, by simp [Call.isSetClock, Call.isRestoreClock, Call.setupFailed]⟩

/-- The journal of `ShellAppMain` from step 6 on: calls that are not clock calls, then one
`RestoreSpiClockSpeed`, then `ShellCloseFile`. -/
theorem ShellAppMain_write_clock {ω : Type} (ops : AppOps ω) (w : ω) (j : List Call) :
    ∃ mid a b, (ShellAppMain_write ops.recorded (w, j)).2.2 =
        j ++ (mid ++ [Call.RestoreSpiClockSpeed a, Call.ShellCloseFile b]) ∧
      ∀ c ∈ mid, Call.isSetClock c = false ∧ Call.isRestoreClock c = false ∧
        Call.setupFailed c = false := by
  rw [ShellAppMain_write_recorded]
  split_ifs with h
  · refine ⟨[Call.WriteMeFirmware (ops.WriteMeFirmware w).1], _, _, rfl, ?_⟩
    simp [Call.isSetClock, Call.isRestoreClock, Call.setupFailed]
  · unfold ShellAppMain_verify
    rw [ShellAppMain_exit_recorded]
    obtain ⟨new, e, hnew⟩ := verifyRestoreLoop_no_clock ops 3 0 (ops.WriteMeFirmware w).2
      (j ++ [Call.WriteMeFirmware (ops.WriteMeFirmware w).1])
    refine ⟨Call.WriteMeFirmware (ops.WriteMeFirmware w).1 :: new, ?a, ?b, ?h, ?_⟩
    case h =>
      rw [e, List.append_assoc, List.append_assoc]
      exact rfl
    intro c hc
    rcases List.mem_cons.1 hc with hc | hc
    · subst hc
      simp [Call.isSetClock, Call.isRestoreClock, Call.setupFailed]
    · exact hnew c hc

/-- C26. In every execution of `ShellAppMain`, either `MapSpiController`, `VerifyMeRegion` or
`ShellOpenFileByName` returned an error, that call is the last one made, the application
returns 1 and there is no `SetSpiClockSpeed` and no `RestoreSpiClockSpeed` call; or
`SetSpiClockSpeed` is called once, exactly one `RestoreSpiClockSpeed` call follows it, that
call is followed only by `ShellCloseFile`, and no set-up call failed. -/
theorem clock_restored_once {ω : Type} (ops : AppOps ω) (w : ω) :
    (∃ pre c, (ShellAppMain ops.recorded (w, [])).2.2 = pre ++ [c] ∧
        Call.setupFailed c = true ∧ (ShellAppMain ops.recorded (w, [])).1 = 1 ∧
        ∀ x ∈ pre ++ [c], Call.isSetClock x = false ∧ Call.isRestoreClock x = false) ∨
    (∃ pre st mid a b, (ShellAppMain ops.recorded (w, [])).2.2 =
          pre ++ Call.SetSpiClockSpeed SPI_CLOCK_DIV_RELIABLE st ::
            (mid ++ [Call.RestoreSpiClockSpeed a, Call.ShellCloseFile b]) ∧
        (∀ x ∈ pre ++ mid, Call.isSetClock x = false ∧ Call.isRestoreClock x = false) ∧
        ∀ x ∈ (ShellAppMain ops.recorded (w, [])).2.2, Call.setupFailed x = false) := by
  by_cases h1 : EFI_ERROR (ops.MapSpiController w).1 = true
  · left
    refine ⟨[], Call.MapSpiController (ops.MapSpiController w).1, ?_, h1, ?_, ?_⟩
    · simp [ShellAppMain, AppOps.recorded, h1]
    · simp [ShellAppMain, AppOps.recorded, h1]
    · simp [Call.isSetClock, Call.isRestoreClock]
  by_cases h2 : EFI_ERROR (ops.VerifyMeRegion (ops.MapSpiController w).2).1 = true
  · left
    refine ⟨[Call.MapSpiController (ops.MapSpiController w).1],
      Call.VerifyMeRegion (ops.VerifyMeRegion (ops.MapSpiController w).2).1, ?_, h2, ?_, ?_⟩
    · simp [ShellAppMain, AppOps.recorded, h1, h2]
    · simp [ShellAppMain, AppOps.recorded, h1, h2]
    · simp [Call.isSetClock, Call.isRestoreClock]
  by_cases h3 : EFI_ERROR (ops.ShellOpenFileByName (ops.DisableWriteProtection
      (ops.UnlockMeProtection (ops.VerifyMeRegion (ops.MapSpiController w).2).2).2).2).1 = true
  · left
    refine ⟨[Call.MapSpiController (ops.MapSpiController w).1,
        Call.VerifyMeRegion (ops.VerifyMeRegion (ops.MapSpiController w).2).1,
        Call.UnlockMeProtection (ops.UnlockMeProtection
          (ops.VerifyMeRegion (ops.MapSpiController w).2).2).1,
        Call.DisableWriteProtection (ops.DisableWriteProtection (ops.UnlockMeProtection
          (ops.VerifyMeRegion (ops.MapSpiController w).2).2).2).1],
      Call.ShellOpenFileByName (ops.ShellOpenFileByName (ops.DisableWriteProtection
        (ops.UnlockMeProtection (ops.VerifyMeRegion (ops.MapSpiController w).2).2).2).2).1,
      ?_, h3, ?_, ?_⟩
    · simp [ShellAppMain, AppOps.recorded, h1, h2, h3]
    · simp [ShellAppMain, AppOps.recorded, h1, h2, h3]
    · simp [Call.isSetClock, Call.isRestoreClock]
  · right
    have h1f := Bool.of_not_eq_true h1
    have h2f := Bool.of_not_eq_true h2
    have h3f := Bool.of_not_eq_true h3
    have hrun : ShellAppMain ops.recorded (w, []) =
        ShellAppMain_write ops.recorded
          ((ops.SetSpiClockSpeed SPI_CLOCK_DIV_RELIABLE (ops.ShellOpenFileByName
            (ops.DisableWriteProtection (ops.UnlockMeProtection
              (ops.VerifyMeRegion (ops.MapSpiController w).2).2).2).2).2).2,
          [Call.MapSpiController (ops.MapSpiController w).1,
            Call.VerifyMeRegion (ops.VerifyMeRegion (ops.MapSpiController w).2).1,
            Call.UnlockMeProtection (ops.UnlockMeProtection
              (ops.VerifyMeRegion (ops.MapSpiController w).2).2).1,
            Call.DisableWriteProtection (ops.DisableWriteProtection (ops.UnlockMeProtection
              (ops.VerifyMeRegion (ops.MapSpiController w).2).2).2).1,
            Call.ShellOpenFileByName (ops.ShellOpenFileByName (ops.DisableWriteProtection
              (ops.UnlockMeProtection (ops.VerifyMeRegion (ops.MapSpiController w).2).2).2).2).1,
            Call.SetSpiClockSpeed SPI_CLOCK_DIV_RELIABLE
              (ops.SetSpiClockSpeed SPI_CLOCK_DIV_RELIABLE (ops.ShellOpenFileByName
                (ops.DisableWriteProtection (ops.UnlockMeProtection
                  (ops.VerifyMeRegion (ops.MapSpiController w).2).2).2).2).2).1]) := by
      simp [ShellAppMain, AppOps.recorded, h1f, h2f, h3f]
    obtain ⟨mid, a, b, e, hmid⟩ := ShellAppMain_write_clock ops
      (ops.SetSpiClockSpeed SPI_CLOCK_DIV_RELIABLE (ops.ShellOpenFileByName
        (ops.DisableWriteProtection (ops.UnlockMeProtection
          (ops.VerifyMeRegion (ops.MapSpiController w).2).2).2).2).2).2
      [Call.MapSpiController (ops.MapSpiController w).1,
        Call.VerifyMeRegion (ops.VerifyMeRegion (ops.MapSpiController w).2).1,
        Call.UnlockMeProtection (ops.UnlockMeProtection
          (ops.VerifyMeRegion (ops.MapSpiController w).2).2).1,
        Call.DisableWriteProtection (ops.DisableWriteProtection (ops.UnlockMeProtection
          (ops.VerifyMeRegion (ops.MapSpiController w).2).2).2).1,
        Call.ShellOpenFileByName (ops.ShellOpenFileByName (ops.DisableWriteProtection
          (ops.UnlockMeProtection (ops.VerifyMeRegion (ops.MapSpiController w).2).2).2).2).1,
        Call.SetSpiClockSpeed SPI_CLOCK_DIV_RELIABLE
          (ops.SetSpiClockSpeed SPI_CLOCK_DIV_RELIABLE (ops.ShellOpenFileByName
            (ops.DisableWriteProtection (ops.UnlockMeProtection
              (ops.VerifyMeRegion (ops.MapSpiController w).2).2).2).2).2).1]
    rw [hrun, e]
    refine ⟨[Call.MapSpiController (ops.MapSpiController w).1,
        Call.VerifyMeRegion (ops.VerifyMeRegion (ops.MapSpiController w).2).1,
        Call.UnlockMeProtection (ops.UnlockMeProtection
          (ops.VerifyMeRegion (ops.MapSpiController w).2).2).1,
        Call.DisableWriteProtection (ops.DisableWriteProtection (ops.UnlockMeProtection
          (ops.VerifyMeRegion (ops.MapSpiController w).2).2).2).1,
        Call.ShellOpenFileByName (ops.ShellOpenFileByName (ops.DisableWriteProtection
          (ops.UnlockMeProtection (ops.VerifyMeRegion (ops.MapSpiController w).2).2).2).2).1],
      _, mid, a, b, rfl, ?_, ?_⟩
    · intro x hx
      rcases List.mem_append.1 hx with hp | hm
      · have hpre : ∀ y ∈ [Call.MapSpiController (ops.MapSpiController w).1,
            Call.VerifyMeRegion (ops.VerifyMeRegion (ops.MapSpiController w).2).1,
            Call.UnlockMeProtection (ops.UnlockMeProtection
              (ops.VerifyMeRegion (ops.MapSpiController w).2).2).1,
            Call.DisableWriteProtection (ops.DisableWriteProtection (ops.UnlockMeProtection
              (ops.VerifyMeRegion (ops.MapSpiController w).2).2).2).1,
            Call.ShellOpenFileByName (ops.ShellOpenFileByName (ops.DisableWriteProtection
              (ops.UnlockMeProtection (ops.VerifyMeRegion (ops.MapSpiController w).2).2).2).2).1],
            Call.isSetClock y = false ∧ Call.isRestoreClock y = false := by
          simp [Call.isSetClock, Call.isRestoreClock]
        exact hpre x hp
      · exact ⟨(hmid x hm).1, (hmid x hm).2.1⟩
    · have hpre : ∀ y ∈ [Call.MapSpiController (ops.MapSpiController w).1,
          Call.VerifyMeRegion (ops.VerifyMeRegion (ops.MapSpiController w).2).1,
          Call.UnlockMeProtection (ops.UnlockMeProtection
            (ops.VerifyMeRegion (ops.MapSpiController w).2).2).1,
          Call.DisableWriteProtection (ops.DisableWriteProtection (ops.UnlockMeProtection
            (ops.VerifyMeRegion (ops.MapSpiController w).2).2).2).1,
          Call.ShellOpenFileByName (ops.ShellOpenFileByName (ops.DisableWriteProtection
            (ops.UnlockMeProtection (ops.VerifyMeRegion (ops.MapSpiController w).2).2).2).2).1,
          Call.SetSpiClockSpeed SPI_CLOCK_DIV_RELIABLE
            (ops.SetSpiClockSpeed SPI_CLOCK_DIV_RELIABLE (ops.ShellOpenFileByName
              (ops.DisableWriteProtection (ops.UnlockMeProtection
                (ops.VerifyMeRegion (ops.MapSpiController w).2).2).2).2).2).1],
          Call.setupFailed y = false := by
        simp [Call.setupFailed, h1f, h2f, h3f]
      intro x hx
      rcases List.mem_append.1 hx with hp | hm
      · exact hpre x hp
      · rcases List.mem_append.1 hm with hm | hm
        · exact (hmid x hm).2.2
        · have hpost : ∀ y ∈ [Call.RestoreSpiClockSpeed a, Call.ShellCloseFile b],
              Call.setupFailed y = false := by
            simp [Call.setupFailed]
          exact hpost x hm

/-! ## Register writes while the controller is busy; the saved divider after two changes -/

theorem waitNotBusy_busySpi (base n c : Nat) (s : List (Nat × Nat)) :
    waitNotBusy busySpi base (n + 1) c s = (0, HSFSTS_CTL_SCIP, s) := by
  have hb : ∀ x, (busySpi.MmioRead32 (base + SPI_HSFSTS_CTL) x).1 &&& HSFSTS_CTL_SCIP ≠ 0 :=
    fun _ => (by decide : HSFSTS_CTL_SCIP &&& HSFSTS_CTL_SCIP ≠ 0)
  induction n generalizing c with
  | zero =>
    rw [waitNotBusy, if_neg (hb s)]
    rfl
  | succ n ih =>
    rw [waitNotBusy, if_neg (hb s)]
    exact ih _

/-- C24 on the code. On a controller whose status register reads busy (`SCIP`) at every read,
`ProbeSpiClockControl` still writes the `HSFCTL` register twice, the test pattern of its
method 3 and the value read before, and so do `SetSpiClockSpeed`, which then times out in
its own idle wait, and `RestoreSpiClockSpeed` with a saved divider; method 1 is skipped
after its idle wait and method 2 after its test of `SCIP`. `WriteSpiChunk` and
`ReadSpiChunk` write no register on that controller. -/
theorem probe_writes_while_busy :
    (∀ x, (busySpi.MmioRead32 (mappedGlobals.mSpiMmioBase + SPI_HSFSTS_CTL) x).1 &&&
      HSFSTS_CTL_SCIP ≠ 0) ∧
    (ProbeSpiClockControl busySpi mappedGlobals []).2 =
      [(mappedGlobals.mSpiMmioBase + SPI_HSFCTL, 0x320),
        (mappedGlobals.mSpiMmioBase + SPI_HSFCTL, 0x20)] ∧
    ((SetSpiClockSpeed busySpi mappedGlobals SPI_CLOCK_DIV_RELIABLE []).1 = EFI_DEVICE_ERROR ∧
      (SetSpiClockSpeed busySpi mappedGlobals SPI_CLOCK_DIV_RELIABLE []).2.2 =
        [(mappedGlobals.mSpiMmioBase + SPI_HSFCTL, 0x320),
          (mappedGlobals.mSpiMmioBase + SPI_HSFCTL, 0x20)]) ∧
    ((RestoreSpiClockSpeed busySpi savedGlobals []).1 = EFI_DEVICE_ERROR ∧
      (RestoreSpiClockSpeed busySpi savedGlobals []).2.2 =
        [(savedGlobals.mSpiMmioBase + SPI_HSFCTL, 0x320),
          (savedGlobals.mSpiMmioBase + SPI_HSFCTL, 0x20)]) ∧
    (WriteSpiChunk busySpi mappedGlobals ME_FIRMWARE_START (some 0) rampBytes 16 []).2 = [] ∧
    (ReadSpiChunk busySpi mappedGlobals ME_FIRMWARE_START (some 0) rampBytes 16 []).2 = [] := by
  have hw : ∀ s, waitNotBusy busySpi mappedGlobals.mSpiMmioBase 1000 0 s =
      (0, HSFSTS_CTL_SCIP, s) := fun s => waitNotBusy_busySpi _ 999 0 s
  have hw2 : ∀ s, waitNotBusy busySpi savedGlobals.mSpiMmioBase 1000 0 s =
      (0, HSFSTS_CTL_SCIP, s) := fun s => waitNotBusy_busySpi _ 999 0 s
  have hp : ProbeSpiClockControl busySpi mappedGlobals [] =
      ((EFI_NOT_FOUND, some ⟨SPI_CLOCK_CTL, SPI_CLOCK_DIV_SHIFT, SPI_CLOCK_DIV_MASK⟩),
        [(mappedGlobals.mSpiMmioBase + SPI_HSFCTL, 0x320),
          (mappedGlobals.mSpiMmioBase + SPI_HSFCTL, 0x20)]) := by
    simp only [ProbeSpiClockControl, hw]
    decide
  have hp2 : ProbeSpiClockControl busySpi savedGlobals [] =
      ((EFI_NOT_FOUND, some ⟨SPI_CLOCK_CTL, SPI_CLOCK_DIV_SHIFT, SPI_CLOCK_DIV_MASK⟩),
        [(savedGlobals.mSpiMmioBase + SPI_HSFCTL, 0x320),
          (savedGlobals.mSpiMmioBase + SPI_HSFCTL, 0x20)]) := by
    simp only [ProbeSpiClockControl, hw2]
    decide
  have hs : (SetSpiClockSpeed busySpi mappedGlobals SPI_CLOCK_DIV_RELIABLE []).1 =
        EFI_DEVICE_ERROR ∧
      (SetSpiClockSpeed busySpi mappedGlobals SPI_CLOCK_DIV_RELIABLE []).2.2 =
        [(mappedGlobals.mSpiMmioBase + SPI_HSFCTL, 0x320),
          (mappedGlobals.mSpiMmioBase + SPI_HSFCTL, 0x20)] := by
    simp only [SetSpiClockSpeed, hp, hw]
    decide
  have hr : (RestoreSpiClockSpeed busySpi savedGlobals []).1 = EFI_DEVICE_ERROR ∧
      (RestoreSpiClockSpeed busySpi savedGlobals []).2.2 =
        [(savedGlobals.mSpiMmioBase + SPI_HSFCTL, 0x320),
          (savedGlobals.mSpiMmioBase + SPI_HSFCTL, 0x20)] := by
    simp only [RestoreSpiClockSpeed, hp2, hw2]
    decide
  have hb : ∀ x, (busySpi.MmioRead32 (mappedGlobals.mSpiMmioBase + SPI_HSFSTS_CTL) x).1 &&&
      HSFSTS_CTL_SCIP ≠ 0 := fun _ => (by decide : HSFSTS_CTL_SCIP &&& HSFSTS_CTL_SCIP ≠ 0)
  refine ⟨hb, by rw [hp], hs, hr, ?_, ?_⟩
  · rw [WriteSpiChunk_busy _ _ mappedGlobals_mapped hb _ _ _ 16 (by decide) (by decide), hw]
  · rw [ReadSpiChunk_busy _ _ mappedGlobals_mapped hb _ _ _ 16 (by decide) (by decide), hw]

/-- A mask inside the writable 32 bits is writable. -/
theorem mask_writable (m K : Nat) (hm : m &&& 0xFFFFFFFF = 0xFFFFFFFF)
    (hK : K &&& 0xFFFFFFFF = K) : m &&& K = K := by
  apply Nat.eq_of_testBit_eq
  intro i
  have a := congrArg (fun x => Nat.testBit x i) hm
  have b := congrArg (fun x => Nat.testBit x i) hK
  simp only [Nat.testBit_and] at a b ⊢
  revert a b
  cases m.testBit i <;> cases K.testBit i <;> cases (0xFFFFFFFF : Nat).testBit i <;> simp

theorem ctl_write_value (n : Nat) (h1 : 1 ≤ n) (h16 : n ≤ 16) :
    ((HSFSTS_CTL_FCYCLE_WRITE <<< HSFSTS_CTL_FCYCLE_SHIFT) |||
      ((n - 1) <<< HSFSTS_CTL_FDBC_SHIFT) ||| HSFSTS_CTL_FGO) % 2 ^ 32 =
      0x00000005 + (n - 1) * 2 ^ 24 := by
  interval_cases n <;> decide

theorem ctl_read_value (n : Nat) (h1 : 1 ≤ n) (h16 : n ≤ 16) :
    ((HSFSTS_CTL_FCYCLE_READ <<< HSFSTS_CTL_FCYCLE_SHIFT) |||
      ((n - 1) <<< HSFSTS_CTL_FDBC_SHIFT) ||| HSFSTS_CTL_FGO) % 2 ^ 32 =
      0x00000001 + (n - 1) * 2 ^ 24 := by
  interval_cases n <;> decide

theorem ctl_write_flags (n : Nat) (h1 : 1 ≤ n) (h16 : n ≤ 16) :
    (0x00000005 + (n - 1) * 2 ^ 24) &&& HSFSTS_CTL_FCERR ≠ 0 ∧
    (0x00000005 + (n - 1) * 2 ^ 24) &&& HSFSTS_CTL_FDONE = 0 ∧
    (0x00000005 + (n - 1) * 2 ^ 24) &&& HSFSTS_CTL_SCIP = 0 ∧
    (0x00000005 + (n - 1) * 2 ^ 24) &&& 0xFFFFFFFF = 0x00000005 + (n - 1) * 2 ^ 24 := by
  interval_cases n <;> decide

theorem ctl_read_flags (n : Nat) (h1 : 1 ≤ n) (h16 : n ≤ 16) :
    (0x00000001 + (n - 1) * 2 ^ 24) &&& HSFSTS_CTL_FCERR = 0 ∧
    (0x00000001 + (n - 1) * 2 ^ 24) &&& HSFSTS_CTL_FDONE = 0 := by
  interval_cases n <;> decide

/-- The first completion poll after a control word with the error bit and without the
completion bit has been written to a status register that reads back what is written. -/
theorem waitComplete_regFile_error (wm : Nat → Nat) (base ctl : Nat)
    (hw : wm (base + SPI_HSFSTS_CTL) &&& 0xFFFFFFFF = 0xFFFFFFFF)
    (herr : ctl &&& HSFSTS_CTL_FCERR ≠ 0) (hdone : ctl &&& HSFSTS_CTL_FDONE = 0)
    (k : Nat) (X : (Nat → Nat) × List Access) :
    waitComplete (regFile wm).logged base (k + 1)
        ((regFile wm).logged.MmioWrite32 (base + SPI_HSFSTS_CTL) ctl X) =
      (some EFI_DEVICE_ERROR, k + 1,
        (regFile wm).MmioWrite32 (base + SPI_HSFSTS_CTL) ctl X.1,
        X.2 ++ [Access.write (base + SPI_HSFSTS_CTL) ctl,
          Access.read (base + SPI_HSFSTS_CTL)
            ((regFile wm).MmioWrite32 (base + SPI_HSFSTS_CTL) ctl X.1 (base + SPI_HSFSTS_CTL))]) := by
  have hv8 : (regFile wm).MmioWrite32 (base + SPI_HSFSTS_CTL) ctl X.1 (base + SPI_HSFSTS_CTL) &&&
      HSFSTS_CTL_FDONE = 0 := by
    rw [regFile_write_same, written_field _ _ _ _ (mask_writable _ _ hw (by decide))]
    exact hdone
  have hv4 : (regFile wm).MmioWrite32 (base + SPI_HSFSTS_CTL) ctl X.1 (base + SPI_HSFSTS_CTL) &&&
      HSFSTS_CTL_FCERR ≠ 0 := by
    rw [regFile_write_same, written_field _ _ _ _ (mask_writable _ _ hw (by decide))]
    exact herr
  simp only [waitComplete, Hardware.logged, regFile_read]
  rw [if_neg (fun h => h hv8), if_pos hv4]
  simp

/-- C29. The write control word collides with the error flag. For every size `n` from 1 to
16 the control word of `WriteSpiChunk` is `0x00000005 + (n - 1) * 2 ^ 24`; its bit 2, the
write cycle code `0x02` shifted left by 1, is the error flag `FCERR`; the control word of
`ReadSpiChunk` is `0x00000001 + (n - 1) * 2 ^ 24`, with that bit clear. On an idle register
file whose status/control register reads back what was last written, `WriteSpiChunk` ends
with the write of its control word and one status read, which returns the control word, and
returns `EFI_DEVICE_ERROR`. -/
theorem write_control_word_error (wm : Nat → Nat) (g : Globals) (hb : g.mSpiMmioBase ≠ 0)
    (hw : wm (g.mSpiMmioBase + SPI_HSFSTS_CTL) &&& 0xFFFFFFFF = 0xFFFFFFFF)
    (s : Nat → Nat) (hidle : s (g.mSpiMmioBase + SPI_HSFSTS_CTL) &&& HSFSTS_CTL_SCIP = 0)
    (a p : Nat) (Mem : Nat → Byte) (n : Nat) (h1 : 1 ≤ n) (h16 : n ≤ 16) :
    (((HSFSTS_CTL_FCYCLE_WRITE <<< HSFSTS_CTL_FCYCLE_SHIFT) |||
        ((n - 1) <<< HSFSTS_CTL_FDBC_SHIFT) ||| HSFSTS_CTL_FGO) % 2 ^ 32 =
        0x00000005 + (n - 1) * 2 ^ 24 ∧
      HSFSTS_CTL_FCYCLE_WRITE <<< HSFSTS_CTL_FCYCLE_SHIFT = HSFSTS_CTL_FCERR ∧
      (0x00000005 + (n - 1) * 2 ^ 24) &&& HSFSTS_CTL_FCERR ≠ 0) ∧
    (((HSFSTS_CTL_FCYCLE_READ <<< HSFSTS_CTL_FCYCLE_SHIFT) |||
        ((n - 1) <<< HSFSTS_CTL_FDBC_SHIFT) ||| HSFSTS_CTL_FGO) % 2 ^ 32 =
        0x00000001 + (n - 1) * 2 ^ 24 ∧
      (0x00000001 + (n - 1) * 2 ^ 24) &&& HSFSTS_CTL_FCERR = 0) ∧
    (WriteSpiChunk (regFile wm).logged g a (some p) Mem n (s, [])).1 = EFI_DEVICE_ERROR ∧
    ∃ pre v, (WriteSpiChunk (regFile wm).logged g a (some p) Mem n (s, [])).2.2 =
        pre ++ [Access.write (g.mSpiMmioBase + SPI_HSFSTS_CTL) (0x00000005 + (n - 1) * 2 ^ 24),
          Access.read (g.mSpiMmioBase + SPI_HSFSTS_CTL) v] ∧
      v &&& 0xFFFFFFFF = 0x00000005 + (n - 1) * 2 ^ 24 := by
  obtain ⟨f4, f8, -, f32⟩ := ctl_write_flags n h1 h16
  refine ⟨⟨ctl_write_value n h1 h16, by decide, f4⟩,
    ⟨ctl_read_value n h1 h16, (ctl_read_flags n h1 h16).1⟩, ?_⟩
  have hg : ¬ (g.mSpiMmioBase = 0 ∨ (some p : Option Nat) = none ∨ n = 0 ∨ n > 16) := by
    simp; omega
  have hwait0 : ∀ k, waitNotBusy (regFile wm).logged g.mSpiMmioBase (k + 1) 0 (s, []) =
      (k + 1, s (g.mSpiMmioBase + SPI_HSFSTS_CTL),
        (s, [Access.read (g.mSpiMmioBase + SPI_HSFSTS_CTL) (s (g.mSpiMmioBase + SPI_HSFSTS_CTL))])) := by
    intro k
    simp only [waitNotBusy, Hardware.logged, regFile_read, if_pos hidle, List.nil_append]
  have hwait : waitNotBusy (regFile wm).logged g.mSpiMmioBase 1000 0 (s, []) =
      (1000, s (g.mSpiMmioBase + SPI_HSFSTS_CTL),
        (s, [Access.read (g.mSpiMmioBase + SPI_HSFSTS_CTL) (s (g.mSpiMmioBase + SPI_HSFSTS_CTL))])) :=
    hwait0 999
  have hpoll := fun X => waitComplete_regFile_error wm g.mSpiMmioBase
    (0x00000005 + (n - 1) * 2 ^ 24) hw f4 f8 9999 X
  simp only [WriteSpiChunk, if_neg hg, hwait, ctl_write_value n h1 h16]
  rw [if_neg (by decide)]
  simp only [hpoll]
  refine ⟨trivial, _, _, rfl, ?_⟩
  rw [regFile_write_same, written_field _ _ _ _ (mask_writable _ _ hw (by decide))]
  exact f32

theorem write_control_word_error_witness :
    (mappedGlobals.mSpiMmioBase ≠ 0 ∧
      allWritable (mappedGlobals.mSpiMmioBase + SPI_HSFSTS_CTL) &&& 0xFFFFFFFF = 0xFFFFFFFF ∧
      zeroRegs (mappedGlobals.mSpiMmioBase + SPI_HSFSTS_CTL) &&& HSFSTS_CTL_SCIP = 0 ∧
      1 ≤ 16 ∧ 16 ≤ 16) ∧
    ((((HSFSTS_CTL_FCYCLE_WRITE <<< HSFSTS_CTL_FCYCLE_SHIFT) |||
        ((16 - 1) <<< HSFSTS_CTL_FDBC_SHIFT) ||| HSFSTS_CTL_FGO) % 2 ^ 32 =
        0x00000005 + (16 - 1) * 2 ^ 24 ∧
      HSFSTS_CTL_FCYCLE_WRITE <<< HSFSTS_CTL_FCYCLE_SHIFT = HSFSTS_CTL_FCERR ∧
      (0x00000005 + (16 - 1) * 2 ^ 24) &&& HSFSTS_CTL_FCERR ≠ 0) ∧
    (((HSFSTS_CTL_FCYCLE_READ <<< HSFSTS_CTL_FCYCLE_SHIFT) |||
        ((16 - 1) <<< HSFSTS_CTL_FDBC_SHIFT) ||| HSFSTS_CTL_FGO) % 2 ^ 32 =
        0x00000001 + (16 - 1) * 2 ^ 24 ∧
      (0x00000001 + (16 - 1) * 2 ^ 24) &&& HSFSTS_CTL_FCERR = 0) ∧
    (WriteSpiChunk (regFile allWritable).logged mappedGlobals ME_FIRMWARE_START (some 0)
      rampBytes 16 (zeroRegs, [])).1 = EFI_DEVICE_ERROR ∧
    ∃ pre v, (WriteSpiChunk (regFile allWritable).logged mappedGlobals ME_FIRMWARE_START (some 0)
        rampBytes 16 (zeroRegs, [])).2.2 =
        pre ++ [Access.write (mappedGlobals.mSpiMmioBase + SPI_HSFSTS_CTL)
            (0x00000005 + (16 - 1) * 2 ^ 24),
          Access.read (mappedGlobals.mSpiMmioBase + SPI_HSFSTS_CTL) v] ∧
      v &&& 0xFFFFFFFF = 0x00000005 + (16 - 1) * 2 ^ 24) :=
  ⟨⟨by decide, by decide, by decide, by decide, by decide⟩,
    write_control_word_error allWritable mappedGlobals mappedGlobals_mapped (by decide) zeroRegs
      (by decide) ME_FIRMWARE_START 0 rampBytes 16 (by decide) (by decide)⟩

/-! ## The clock-control register is the first data register -/

theorem writeFdata_regFile_below (wm : Nat → Nat) (base : Nat) (Mem : Nat → Byte) (p n x : Nat) :
    ∀ i (st : Nat → Nat), x < base + SPI_FDATA0 + i →
      writeFdata (regFile wm) base Mem p n i st x = st x := by
  intro i
  generalize hr : 16 - i = r
  induction r using Nat.strong_induction_on generalizing i with
  | _ r ih =>
    intro st hx
    by_cases hc : i < n ∧ i < 16
    · rw [writeFdata, if_pos hc]
      rw [ih (16 - (i + 4)) (by omega) (i + 4) rfl _ (by omega)]
      exact regFile_write_other wm _ _ st x (by omega)
    · rw [writeFdata, if_neg hc]

/-- The first data register after the staging loop holds the first data word. -/
theorem writeFdata_regFile_first (wm : Nat → Nat) (base : Nat) (Mem : Nat → Byte) (p n : Nat)
    (h1 : 1 ≤ n) (st : Nat → Nat) :
    writeFdata (regFile wm) base Mem p n 0 st (base + SPI_FDATA0) =
      (regFile wm).MmioWrite32 (base + SPI_FDATA0)
        (CopyMemToWord Mem p (if n < 4 then n else 4)) st (base + SPI_FDATA0) := by
  rw [writeFdata, if_pos ⟨by omega, by omega⟩]
  simp only [Nat.sub_zero, Nat.add_zero, Nat.zero_add]
  rw [writeFdata_regFile_below wm base Mem p n (base + SPI_FDATA0) 4 _ (by omega)]

theorem waitComplete_regFile (wm : Nat → Nat) (base n : Nat) (st : Nat → Nat) :
    (waitComplete (regFile wm) base n st).2.2 = st := by
  induction n generalizing st with
  | zero => rfl
  | succ n ih =>
    simp only [waitComplete, regFile_read, regFile_stall]
    split_ifs
    · rfl
    · rfl
    · exact ih st

/-- The registers after a write transaction on an idle register file. -/
theorem WriteSpiChunk_regFile_state (wm : Nat → Nat) (g : Globals) (hb : g.mSpiMmioBase ≠ 0)
    (st : Nat → Nat) (hidle : st (g.mSpiMmioBase + SPI_HSFSTS_CTL) &&& HSFSTS_CTL_SCIP = 0)
    (a p : Nat) (Mem : Nat → Byte) (n : Nat) (h1 : 1 ≤ n) (h16 : n ≤ 16) :
    (WriteSpiChunk (regFile wm) g a (some p) Mem n st).2 =
      (regFile wm).MmioWrite32 (g.mSpiMmioBase + SPI_HSFSTS_CTL) (0x00000005 + (n - 1) * 2 ^ 24)
        (writeFdata (regFile wm) g.mSpiMmioBase Mem p n 0
          ((regFile wm).MmioWrite32 (g.mSpiMmioBase + SPI_FADDR) a
            (if st (g.mSpiMmioBase + SPI_HSFSTS_CTL) &&& HSFSTS_CTL_FCERR ≠ 0 then
              (regFile wm).MmioWrite32 (g.mSpiMmioBase + SPI_HSFSTS_CTL)
                (st (g.mSpiMmioBase + SPI_HSFSTS_CTL) ||| HSFSTS_CTL_FCERR) st
            else st))) := by
  have hg : ¬ (g.mSpiMmioBase = 0 ∨ (some p : Option Nat) = none ∨ n = 0 ∨ n > 16) := by
    simp; omega
  have hwait : waitNotBusy (regFile wm) g.mSpiMmioBase 1000 0 st =
      (1000, st (g.mSpiMmioBase + SPI_HSFSTS_CTL), st) :=
    waitNotBusy_regFile_idle wm g.mSpiMmioBase 999 0 st hidle
  simp only [WriteSpiChunk, if_neg hg, hwait, ctl_write_value n h1 h16, Option.getD_some]
  rw [if_neg (by decide)]
  generalize hS : (regFile wm).MmioWrite32 (g.mSpiMmioBase + SPI_HSFSTS_CTL)
    (0x00000005 + (n - 1) * 2 ^ 24) _ = S
  have hc := waitComplete_regFile wm g.mSpiMmioBase 10000 S
  generalize waitComplete (regFile wm) g.mSpiMmioBase 10000 S = c at hc
  obtain ⟨c1, c2, c3⟩ := c
  simp only at hc
  subst hc
  cases c1 with
  | none => simp only []; split_ifs <;> rfl
  | some v => rfl

/-- Bits 8-10 of a value, from its field under the mask `0x700`. -/
theorem field_bits (z : Nat) : (z >>> 8) % 8 = (z &&& 0x700) >>> 8 := by
  show (z >>> 8) % 2 ^ 3 = (z &&& ((2 ^ 3 - 1) <<< 8)) >>> 8
  apply Nat.eq_of_testBit_eq
  intro i
  simp only [Nat.testBit_mod_two_pow, Nat.testBit_shiftRight, Nat.testBit_and,
    Nat.testBit_shiftLeft, Nat.testBit_two_pow_sub_one]
  have e : 8 + i - 8 = i := by omega
  have g : 8 + i ≥ 8 := by omega
  rw [e]
  simp only [g, decide_True, Bool.true_and]
  cases z.testBit (8 + i) <;> cases decide (i < 3) <;> rfl

/-- Bits 8-10 of the first data word: bits 0-2 of the second byte, if there is one. -/
theorem dataWord_bits (Mem : Nat → Byte) (p n : Nat) (h1 : 1 ≤ n) :
    (CopyMemToWord Mem p (if n < 4 then n else 4) >>> 8) % 8 =
      if 2 ≤ n then (Mem (p + 1)).val % 8 else 0 := by
  by_cases h2 : 2 ≤ n
  · rw [if_pos h2]
    have hw := congrArg Fin.val
      (wordByte_CopyMemToWord Mem p (if n < 4 then n else 4) 1 (by split_ifs <;> omega)
        (by split_ifs <;> omega))
    simp only [wordByte, pow_one] at hw
    rw [Nat.shiftRight_eq_div_pow, ← hw]
    exact (Nat.mod_mod_of_dvd _ (by decide)).symm
  · rw [if_neg h2]
    have e : n = 1 := by omega
    subst e
    have h0 := (Mem p).isLt
    simp only [Nat.one_lt_ofNat, if_true, CopyMemToWord, Nat.add_zero, pow_zero,
      Nat.mul_one, Nat.zero_add, Nat.shiftRight_eq_div_pow]
    rw [Nat.div_eq_of_lt (by omega)]

theorem SetSpiClockSpeed_regFile_idle (wm : Nat → Nat) (g : Globals) (hb : g.mSpiMmioBase ≠ 0)
    (s : Nat → Nat) (d : Nat)
    (hidle : s (g.mSpiMmioBase + SPI_HSFSTS_CTL) &&& HSFSTS_CTL_SCIP = 0)
    (hw : wm (g.mSpiMmioBase + SPI_CLOCK_CTL) &&& 0x700 = 0x700) :
    SetSpiClockSpeed (regFile wm) g d s =
      (EFI_SUCCESS,
        ⟨g.mSpiMmioBase, s (g.mSpiMmioBase + SPI_CLOCK_CTL) &&& SPI_CLOCK_DIV_MASK, g.mEnableHap⟩,
        (regFile wm).MmioWrite32 (g.mSpiMmioBase + SPI_CLOCK_CTL)
          ((s (g.mSpiMmioBase + SPI_CLOCK_CTL) &&& not32 SPI_CLOCK_DIV_MASK) |||
            (d &&& SPI_CLOCK_DIV_MASK)) s) := by
  have hwait : waitNotBusy (regFile wm) g.mSpiMmioBase 1000 0 s =
      (1000, s (g.mSpiMmioBase + SPI_HSFSTS_CTL), s) :=
    waitNotBusy_regFile_idle wm g.mSpiMmioBase 999 0 s hidle
  simp only [SetSpiClockSpeed, if_neg hb, ProbeSpiClockControl_regFile_idle wm g hb s hidle hw,
    ProbeSpiClockControl_regFile, Option.getD_some, regFile_read, regFile_stall, hwait]
  rw [if_neg (by decide), regFile_write_same]
  have hrb := (written_field (s (g.mSpiMmioBase + SPI_CLOCK_CTL))
    ((s (g.mSpiMmioBase + SPI_CLOCK_CTL) &&& not32 SPI_CLOCK_DIV_MASK) |||
      (d &&& SPI_CLOCK_DIV_MASK)) (wm (g.mSpiMmioBase + SPI_CLOCK_CTL)) SPI_CLOCK_DIV_MASK
    hw).trans (merged_field _ d SPI_CLOCK_DIV_MASK (by decide))
  rw [if_pos hrb]

theorem RestoreSpiClockSpeed_regFile_idle (wm : Nat → Nat) (g : Globals)
    (hb : g.mSpiMmioBase ≠ 0) (s : Nat → Nat)
    (hidle : s (g.mSpiMmioBase + SPI_HSFSTS_CTL) &&& HSFSTS_CTL_SCIP = 0)
    (hw : wm (g.mSpiMmioBase + SPI_CLOCK_CTL) &&& 0x700 = 0x700)
    (hsaved : g.mOriginalSpiClock ≠ 0) :
    RestoreSpiClockSpeed (regFile wm) g s =
      (EFI_SUCCESS, ⟨g.mSpiMmioBase, 0, g.mEnableHap⟩,
        (regFile wm).MmioWrite32 (g.mSpiMmioBase + SPI_CLOCK_CTL)
          ((s (g.mSpiMmioBase + SPI_CLOCK_CTL) &&& not32 SPI_CLOCK_DIV_MASK) |||
            (g.mOriginalSpiClock &&& SPI_CLOCK_DIV_MASK)) s) := by
  have hwait : waitNotBusy (regFile wm) g.mSpiMmioBase 1000 0 s =
      (1000, s (g.mSpiMmioBase + SPI_HSFSTS_CTL), s) :=
    waitNotBusy_regFile_idle wm g.mSpiMmioBase 999 0 s hidle
  simp only [RestoreSpiClockSpeed, if_neg hb, if_neg hsaved, ProbeSpiClockControl_regFile,
    ProbeSpiClockControl_regFile_idle wm g hb s hidle hw, EFI_ERROR_SUCCESS, hwait, regFile_read,
    regFile_stall]
  rw [if_neg (by decide)]
  simp only [Bool.false_eq_true, if_false, Option.getD_some]

/-- The set / write transaction / restore sequence on an idle, fully writable register file:
the staged data word takes the place of the divider, and the restore, if it writes at all,
writes the saved field into the data register. -/
theorem clock_data_alias (g : Globals) (hb : g.mSpiMmioBase ≠ 0) (s : Nat → Nat)
    (hidle : s (g.mSpiMmioBase + SPI_HSFSTS_CTL) &&& HSFSTS_CTL_SCIP = 0)
    (d a p : Nat) (Mem : Nat → Byte) (n : Nat) (h1 : 1 ≤ n) (h16 : n ≤ 16) :
    ((SetSpiClockSpeed (regFile allWritable) g d s).1 = EFI_SUCCESS ∧
      (SetSpiClockSpeed (regFile allWritable) g d s).2.2 (g.mSpiMmioBase + SPI_CLOCK_CTL) &&&
        0x700 = d &&& 0x700) ∧
    ((WriteSpiChunk (regFile allWritable) (SetSpiClockSpeed (regFile allWritable) g d s).2.1 a
        (some p) Mem n (SetSpiClockSpeed (regFile allWritable) g d s).2.2).2
        (g.mSpiMmioBase + SPI_FDATA0) >>> 8) % 8 =
      (if 2 ≤ n then (Mem (p + 1)).val % 8 else 0) ∧
    (RestoreSpiClockSpeed (regFile allWritable)
      (SetSpiClockSpeed (regFile allWritable) g d s).2.1
      (WriteSpiChunk (regFile allWritable) (SetSpiClockSpeed (regFile allWritable) g d s).2.1 a
        (some p) Mem n (SetSpiClockSpeed (regFile allWritable) g d s).2.2).2).1 = EFI_SUCCESS ∧
    (s (g.mSpiMmioBase + SPI_CLOCK_CTL) &&& 0x700 ≠ 0 →
      (RestoreSpiClockSpeed (regFile allWritable)
        (SetSpiClockSpeed (regFile allWritable) g d s).2.1
        (WriteSpiChunk (regFile allWritable) (SetSpiClockSpeed (regFile allWritable) g d s).2.1 a
          (some p) Mem n (SetSpiClockSpeed (regFile allWritable) g d s).2.2).2).2.2
        (g.mSpiMmioBase + SPI_FDATA0) &&& 0x700 = s (g.mSpiMmioBase + SPI_CLOCK_CTL) &&& 0x700) ∧
    (s (g.mSpiMmioBase + SPI_CLOCK_CTL) &&& 0x700 = 0 →
      (RestoreSpiClockSpeed (regFile allWritable)
        (SetSpiClockSpeed (regFile allWritable) g d s).2.1
        (WriteSpiChunk (regFile allWritable) (SetSpiClockSpeed (regFile allWritable) g d s).2.1 a
          (some p) Mem n (SetSpiClockSpeed (regFile allWritable) g d s).2.2).2).2.2 =
        (WriteSpiChunk (regFile allWritable) (SetSpiClockSpeed (regFile allWritable) g d s).2.1 a
          (some p) Mem n (SetSpiClockSpeed (regFile allWritable) g d s).2.2).2) := by
  have hwC : allWritable (g.mSpiMmioBase + SPI_CLOCK_CTL) &&& 0x700 = 0x700 := by
    show (0xFFFFFFFF : Nat) &&& 0x700 = 0x700
    decide
  have hwS : allWritable (g.mSpiMmioBase + SPI_HSFSTS_CTL) &&& 0xFFFFFFFF = 0xFFFFFFFF := by
    show (0xFFFFFFFF : Nat) &&& 0xFFFFFFFF = 0xFFFFFFFF
    decide
  have hne : g.mSpiMmioBase + SPI_HSFSTS_CTL ≠ g.mSpiMmioBase + SPI_CLOCK_CTL := by
    simp [SPI_HSFSTS_CTL, SPI_CLOCK_CTL]
  have hne2 : g.mSpiMmioBase + SPI_FDATA0 ≠ g.mSpiMmioBase + SPI_HSFSTS_CTL := by
    simp [SPI_HSFSTS_CTL, SPI_FDATA0]
  have hfd : g.mSpiMmioBase + SPI_FDATA0 = g.mSpiMmioBase + SPI_CLOCK_CTL := rfl
  obtain ⟨-, -, fscip, -⟩ := ctl_write_flags n h1 h16
  rw [SetSpiClockSpeed_regFile_idle allWritable g hb s d hidle hwC]
  generalize hs1 : (regFile allWritable).MmioWrite32 (g.mSpiMmioBase + SPI_CLOCK_CTL)
    ((s (g.mSpiMmioBase + SPI_CLOCK_CTL) &&& not32 SPI_CLOCK_DIV_MASK) |||
      (d &&& SPI_CLOCK_DIV_MASK)) s = s1
  have hidle1 : s1 (g.mSpiMmioBase + SPI_HSFSTS_CTL) &&& HSFSTS_CTL_SCIP = 0 := by
    rw [← hs1, regFile_write_other allWritable _ _ s _ hne]
    exact hidle
  have hfield1 : s1 (g.mSpiMmioBase + SPI_CLOCK_CTL) &&& 0x700 = d &&& 0x700 := by
    rw [← hs1, regFile_write_same]
    exact (written_field _ _ _ SPI_CLOCK_DIV_MASK hwC).trans
      (merged_field _ d SPI_CLOCK_DIV_MASK (by decide))
  simp only []
  have hW := WriteSpiChunk_regFile_state allWritable
    ⟨g.mSpiMmioBase, s (g.mSpiMmioBase + SPI_CLOCK_CTL) &&& SPI_CLOCK_DIV_MASK, g.mEnableHap⟩
    hb s1 hidle1 a p Mem n h1 h16
  simp only [] at hW
  generalize hs2 : (WriteSpiChunk (regFile allWritable)
    ⟨g.mSpiMmioBase, s (g.mSpiMmioBase + SPI_CLOCK_CTL) &&& SPI_CLOCK_DIV_MASK, g.mEnableHap⟩
    a (some p) Mem n s1).2 = s2 at hW ⊢
  have hdata : s2 (g.mSpiMmioBase + SPI_FDATA0) &&& 0x700 =
      CopyMemToWord Mem p (if n < 4 then n else 4) &&& 0x700 := by
    rw [hW, regFile_write_other allWritable _ _ _ _ hne2, writeFdata_regFile_first _ _ _ _ _ h1,
      regFile_write_same]
    exact written_field _ _ _ 0x700 hwC
  have hidle2 : s2 (g.mSpiMmioBase + SPI_HSFSTS_CTL) &&& HSFSTS_CTL_SCIP = 0 := by
    rw [hW, regFile_write_same,
      written_field _ _ _ _ (mask_writable _ _ hwS (by decide))]
    exact fscip
  refine ⟨⟨trivial, hfield1⟩, ?_, ?_, ?_, ?_⟩
  · rw [field_bits, hdata, ← field_bits]
    exact dataWord_bits Mem p n h1
  · by_cases h0 : s (g.mSpiMmioBase + SPI_CLOCK_CTL) &&& SPI_CLOCK_DIV_MASK = 0
    · simp only [RestoreSpiClockSpeed, if_neg hb, if_pos h0]
    · rw [RestoreSpiClockSpeed_regFile_idle allWritable
        (⟨g.mSpiMmioBase, s (g.mSpiMmioBase + SPI_CLOCK_CTL) &&& SPI_CLOCK_DIV_MASK,
        g.mEnableHap⟩ : Globals) hb s2 hidle2 hwC h0]
  · intro h0
    have h0' : ¬ s (g.mSpiMmioBase + SPI_CLOCK_CTL) &&& SPI_CLOCK_DIV_MASK = 0 := h0
    rw [RestoreSpiClockSpeed_regFile_idle allWritable
        (⟨g.mSpiMmioBase, s (g.mSpiMmioBase + SPI_CLOCK_CTL) &&& SPI_CLOCK_DIV_MASK,
        g.mEnableHap⟩ : Globals) hb s2 hidle2 hwC h0']
    simp only []
    rw [hfd, regFile_write_same]
    have := (written_field (s2 (g.mSpiMmioBase + SPI_CLOCK_CTL))
      ((s2 (g.mSpiMmioBase + SPI_CLOCK_CTL) &&& not32 SPI_CLOCK_DIV_MASK) |||
        ((s (g.mSpiMmioBase + SPI_CLOCK_CTL) &&& SPI_CLOCK_DIV_MASK) &&& SPI_CLOCK_DIV_MASK))
      (allWritable (g.mSpiMmioBase + SPI_CLOCK_CTL)) SPI_CLOCK_DIV_MASK hwC).trans
      (merged_field _ (s (g.mSpiMmioBase + SPI_CLOCK_CTL) &&& SPI_CLOCK_DIV_MASK)
        SPI_CLOCK_DIV_MASK (by decide))
    show _ &&& SPI_CLOCK_DIV_MASK = _ &&& SPI_CLOCK_DIV_MASK
    rw [this, Nat.and_assoc, Nat.and_self]
  · intro h0
    have h0' : s (g.mSpiMmioBase + SPI_CLOCK_CTL) &&& SPI_CLOCK_DIV_MASK = 0 := h0
    simp only [RestoreSpiClockSpeed, if_neg hb, if_pos h0']

/-- C28 on the code. `SPI_CLOCK_CTL` and `SPI_FDATA0` are the same offset `0x0010`. On a fully
writable, idle register file whose register `0x0010` holds 0, `SetSpiClockSpeed (0x300)`
succeeds at that offset; a write transaction of the 16 bytes 0, 1, .., 15 then leaves bits
8-10 of the register equal to bits 0-2 of the second byte, 1, not `0x300`; and the following
`RestoreSpiClockSpeed` returns `EFI_SUCCESS` without writing the data register, which keeps
the staged data: the saved field 0 is taken for "nothing saved". -/
theorem restore_skips_data_register :
    (SPI_CLOCK_CTL = SPI_FDATA0 ∧ SPI_FDATA0 = 0x0010) ∧
    zeroRegs (mappedGlobals.mSpiMmioBase + SPI_CLOCK_CTL) &&& 0x700 = 0 ∧
    ((SetSpiClockSpeed (regFile allWritable) mappedGlobals 0x300 zeroRegs).1 = EFI_SUCCESS ∧
      (SetSpiClockSpeed (regFile allWritable) mappedGlobals 0x300 zeroRegs).2.2
        (mappedGlobals.mSpiMmioBase + SPI_CLOCK_CTL) &&& 0x700 = 0x300) ∧
    ((WriteSpiChunk (regFile allWritable)
        (SetSpiClockSpeed (regFile allWritable) mappedGlobals 0x300 zeroRegs).2.1
        ME_FIRMWARE_START (some 0) rampBytes 16
        (SetSpiClockSpeed (regFile allWritable) mappedGlobals 0x300 zeroRegs).2.2).2
        (mappedGlobals.mSpiMmioBase + SPI_FDATA0) >>> 8) % 8 = 1 ∧
    (RestoreSpiClockSpeed (regFile allWritable)
      (SetSpiClockSpeed (regFile allWritable) mappedGlobals 0x300 zeroRegs).2.1
      (WriteSpiChunk (regFile allWritable)
        (SetSpiClockSpeed (regFile allWritable) mappedGlobals 0x300 zeroRegs).2.1
        ME_FIRMWARE_START (some 0) rampBytes 16
        (SetSpiClockSpeed (regFile allWritable) mappedGlobals 0x300 zeroRegs).2.2).2).1 =
      EFI_SUCCESS ∧
    (RestoreSpiClockSpeed (regFile allWritable)
      (SetSpiClockSpeed (regFile allWritable) mappedGlobals 0x300 zeroRegs).2.1
      (WriteSpiChunk (regFile allWritable)
        (SetSpiClockSpeed (regFile allWritable) mappedGlobals 0x300 zeroRegs).2.1
        ME_FIRMWARE_START (some 0) rampBytes 16
        (SetSpiClockSpeed (regFile allWritable) mappedGlobals 0x300 zeroRegs).2.2).2).2.2 =
      (WriteSpiChunk (regFile allWritable)
        (SetSpiClockSpeed (regFile allWritable) mappedGlobals 0x300 zeroRegs).2.1
        ME_FIRMWARE_START (some 0) rampBytes 16
        (SetSpiClockSpeed (regFile allWritable) mappedGlobals 0x300 zeroRegs).2.2).2 := by
  obtain ⟨⟨a1, a2⟩, a3, a4, -, a6⟩ := clock_data_alias mappedGlobals mappedGlobals_mapped zeroRegs
    (by decide) 0x300 ME_FIRMWARE_START 0 rampBytes 16 (by decide) (by decide)
  exact ⟨⟨rfl, rfl⟩, by decide, ⟨a1, a2⟩, a3, a4, a6 (by decide)⟩

/-- With the divider field `0x400` before, the restore does write the data register: bits
8-10 of the staged data are replaced by the saved field. -/
theorem restore_writes_data_register :
    (RestoreSpiClockSpeed (regFile allWritable)
      (SetSpiClockSpeed (regFile allWritable) mappedGlobals 0x300 slowRegs).2.1
      (WriteSpiChunk (regFile allWritable)
        (SetSpiClockSpeed (regFile allWritable) mappedGlobals 0x300 slowRegs).2.1
        ME_FIRMWARE_START (some 0) rampBytes 16
        (SetSpiClockSpeed (regFile allWritable) mappedGlobals 0x300 slowRegs).2.2).2).2.2
      (mappedGlobals.mSpiMmioBase + SPI_FDATA0) &&& 0x700 = 0x400 :=
  (clock_data_alias mappedGlobals mappedGlobals_mapped slowRegs
    (by decide) 0x300 ME_FIRMWARE_START 0 rampBytes 16 (by decide) (by decide)).2.2.2.1 (by decide)

/-! ## The completion wait that never sees a flag -/

theorem readsAt_append (a : Nat) (L M : List Access) :
    readsAt a (L ++ M) = readsAt a L ++ readsAt a M := by
  simp [readsAt, List.filterMap_append]

theorem readsAt_writes (a : Nat) (P : List Access) (h : ∀ x ∈ P, Access.isWrite x = true) :
    readsAt a P = [] := by
  induction P with
  | nil => rfl
  | cons x rest ih =>
    have hx := h x (List.mem_cons_self _ _)
    cases x with
    | read b v => exact absurd hx (by simp [Access.isWrite])
    | write b v =>
      have := ih (fun y hy => h y (List.mem_cons_of_mem _ hy))
      simpa [readsAt] using this
    | stall t => exact absurd hx (by simp [Access.isWrite])

/-- The staging loop on logged hardware appends register writes only. -/
theorem writeFdata_logged {σ : Type} (H : Hardware σ) (base : Nat) (Mem : Nat → Byte)
    (p n : Nat) : ∀ i (X : σ × List Access),
      ∃ P, (∀ x ∈ P, Access.isWrite x = true) ∧
        (writeFdata H.logged base Mem p n i X).2 = X.2 ++ P := by
  intro i
  generalize hr : 16 - i = r
  induction r using Nat.strong_induction_on generalizing i with
  | _ r ih =>
    intro X
    by_cases hc : i < n ∧ i < 16
    · rw [writeFdata, if_pos hc]
      obtain ⟨P, hP, e⟩ := ih (16 - (i + 4)) (by omega) (i + 4) rfl
        (H.logged.MmioWrite32 (base + SPI_FDATA0 + i)
          (CopyMemToWord Mem (p + i) (if n - i < 4 then n - i else 4)) X)
      refine ⟨Access.write (base + SPI_FDATA0 + i)
        (CopyMemToWord Mem (p + i) (if n - i < 4 then n - i else 4)) :: P, ?_, ?_⟩
      · intro x hx
        rcases List.mem_cons.1 hx with h | h
        · subst h; rfl
        · exact hP x h
      · rw [e]
        simp [Hardware.logged]
    · rw [writeFdata, if_neg hc]
      exact ⟨[], by simp, by simp⟩

/-- The drain loop on logged hardware appends reads of the data registers only. -/
theorem readFdata_logged {σ : Type} (H : Hardware σ) (base p n : Nat) :
    ∀ i (Mem : Nat → Byte) (X : σ × List Access),
      ∃ P, (∀ x ∈ P, Access.isWrite x = false) ∧ readsAt (base + SPI_HSFSTS_CTL) P = [] ∧
        (readFdata H.logged base p n i Mem X).2.2 = X.2 ++ P := by
  intro i
  generalize hr : 16 - i = r
  induction r using Nat.strong_induction_on generalizing i with
  | _ r ih =>
    intro Mem X
    by_cases hc : i < n ∧ i < 16
    · rw [readFdata, if_pos hc]
      obtain ⟨P, hP, hR, e⟩ := ih (16 - (i + 4)) (by omega) (i + 4) rfl
        (CopyMemFromWord Mem (p + i) (H.logged.MmioRead32 (base + SPI_FDATA0 + i) X).1
          (if n - i < 4 then n - i else 4))
        (H.logged.MmioRead32 (base + SPI_FDATA0 + i) X).2
      refine ⟨Access.read (base + SPI_FDATA0 + i) (H.MmioRead32 (base + SPI_FDATA0 + i) X.1).1 :: P,
        ?_, ?_, ?_⟩
      · intro x hx
        rcases List.mem_cons.1 hx with h | h
        · subst h; rfl
        · exact hP x h
      · have hne : ¬ base + SPI_FDATA0 + i = base + SPI_HSFSTS_CTL := by
          simp only [SPI_FDATA0, SPI_HSFSTS_CTL]
          omega
        have h2 : readsAt (base + SPI_HSFSTS_CTL)
            [Access.read (base + SPI_FDATA0 + i) (H.MmioRead32 (base + SPI_FDATA0 + i) X.1).1] =
            [] := by
          simp [readsAt, hne]
        have e2 : Access.read (base + SPI_FDATA0 + i) (H.MmioRead32 (base + SPI_FDATA0 + i) X.1).1 ::
            P = [Access.read (base + SPI_FDATA0 + i)
              (H.MmioRead32 (base + SPI_FDATA0 + i) X.1).1] ++ P := rfl
        rw [e2, readsAt_append, h2, hR]
        rfl
      · rw [e]
        simp [Hardware.logged]
    · rw [readFdata, if_neg hc]
      exact ⟨[], by simp, rfl, by simp⟩

/-- The idle wait on logged hardware appends at most `n` status reads and no write. -/
theorem waitNotBusy_logged_bound {σ : Type} (H : Hardware σ) (base : Nat) :
    ∀ n c (X : σ × List Access),
      ∃ P, (∀ x ∈ P, Access.isWrite x = false) ∧
        (readsAt (base + SPI_HSFSTS_CTL) P).length ≤ n ∧
        (waitNotBusy H.logged base n c X).2.2.2 = X.2 ++ P := by
  intro n
  induction n with
  | zero => exact fun c X => ⟨[], by simp, by simp [readsAt], by simp [waitNotBusy]⟩
  | succ n ih =>
    intro c X
    by_cases hi : (H.logged.MmioRead32 (base + SPI_HSFSTS_CTL) X).1 &&& HSFSTS_CTL_SCIP = 0
    · refine ⟨[Access.read (base + SPI_HSFSTS_CTL) (H.MmioRead32 (base + SPI_HSFSTS_CTL) X.1).1],
        by simp [Access.isWrite], by simp [readsAt], ?_⟩
      simp only [waitNotBusy, if_pos hi]
      simp [Hardware.logged]
    · obtain ⟨P, hP, hR, e⟩ := ih (H.logged.MmioRead32 (base + SPI_HSFSTS_CTL) X).1
        (H.logged.Stall 100 (H.logged.MmioRead32 (base + SPI_HSFSTS_CTL) X).2)
      refine ⟨[Access.read (base + SPI_HSFSTS_CTL) (H.MmioRead32 (base + SPI_HSFSTS_CTL) X.1).1,
        Access.stall 100] ++ P, ?_, ?_, ?_⟩
      · intro x hx
        rcases List.mem_append.1 hx with h | h
        · simp at h
          rcases h with h | h <;> subst h <;> rfl
        · exact hP x h
      · have h2 : readsAt (base + SPI_HSFSTS_CTL)
            [Access.read (base + SPI_HSFSTS_CTL) (H.MmioRead32 (base + SPI_HSFSTS_CTL) X.1).1,
              Access.stall 100] = [(H.MmioRead32 (base + SPI_HSFSTS_CTL) X.1).1] := by
          simp [readsAt]
        rw [readsAt_append, List.length_append, h2, List.length_singleton]
        omega
      · simp only [waitNotBusy, if_neg hi]
        rw [e]
        simp [Hardware.logged]

/-- The completion wait on logged hardware appends at most `n` status reads and no write. -/
theorem waitComplete_logged_bound {σ : Type} (H : Hardware σ) (base : Nat) :
    ∀ n (X : σ × List Access),
      ∃ P, (∀ x ∈ P, Access.isWrite x = false) ∧
        (readsAt (base + SPI_HSFSTS_CTL) P).length ≤ n ∧
        (waitComplete H.logged base n X).2.2.2 = X.2 ++ P := by
  intro n
  induction n with
  | zero => exact fun X => ⟨[], by simp, by simp [readsAt], by simp [waitComplete]⟩
  | succ n ih =>
    intro X
    by_cases hd : (H.logged.MmioRead32 (base + SPI_HSFSTS_CTL) X).1 &&& HSFSTS_CTL_FDONE ≠ 0
    · refine ⟨[Access.read (base + SPI_HSFSTS_CTL) (H.MmioRead32 (base + SPI_HSFSTS_CTL) X.1).1],
        by simp [Access.isWrite], by simp [readsAt], ?_⟩
      simp only [waitComplete, if_pos hd]
      simp [Hardware.logged]
    by_cases he : (H.logged.MmioRead32 (base + SPI_HSFSTS_CTL) X).1 &&& HSFSTS_CTL_FCERR ≠ 0
    · refine ⟨[Access.read (base + SPI_HSFSTS_CTL) (H.MmioRead32 (base + SPI_HSFSTS_CTL) X.1).1],
        by simp [Access.isWrite], by simp [readsAt], ?_⟩
      simp only [waitComplete, if_neg hd, if_pos he]
      simp [Hardware.logged]
    · obtain ⟨P, hP, hR, e⟩ := ih
        (H.logged.Stall 100 (H.logged.MmioRead32 (base + SPI_HSFSTS_CTL) X).2)
      refine ⟨[Access.read (base + SPI_HSFSTS_CTL) (H.MmioRead32 (base + SPI_HSFSTS_CTL) X.1).1,
        Access.stall 100] ++ P, ?_, ?_, ?_⟩
      · intro x hx
        rcases List.mem_append.1 hx with h | h
        · simp at h
          rcases h with h | h <;> subst h <;> rfl
        · exact hP x h
      · have h2 : readsAt (base + SPI_HSFSTS_CTL)
            [Access.read (base + SPI_HSFSTS_CTL) (H.MmioRead32 (base + SPI_HSFSTS_CTL) X.1).1,
              Access.stall 100] = [(H.MmioRead32 (base + SPI_HSFSTS_CTL) X.1).1] := by
          simp [readsAt]
        rw [readsAt_append, List.length_append, h2, List.length_singleton]
        omega
      · simp only [waitComplete, if_neg hd, if_neg he]
        rw [e]
        simp [Hardware.logged]

/-- The completion wait that sees neither flag: `n` status reads, no write, and the loop
runs out. -/
theorem waitComplete_logged_pending {σ : Type} (H : Hardware σ) (base : Nat) (I : σ → Prop)
    (hread : ∀ x, I x → I (H.MmioRead32 (base + SPI_HSFSTS_CTL) x).2 ∧
      (H.MmioRead32 (base + SPI_HSFSTS_CTL) x).1 &&& HSFSTS_CTL_FDONE = 0 ∧
      (H.MmioRead32 (base + SPI_HSFSTS_CTL) x).1 &&& HSFSTS_CTL_FCERR = 0)
    (hstall : ∀ t x, I x → I (H.Stall t x)) :
    ∀ n (X : σ × List Access), I X.1 →
      ∃ s1 P, waitComplete H.logged base n X = (none, 0, (s1, X.2 ++ P)) ∧
        (∀ x ∈ P, Access.isWrite x = false) ∧
        (readsAt (base + SPI_HSFSTS_CTL) P).length = n := by
  intro n
  induction n with
  | zero => exact fun X _ => ⟨X.1, [], by simp [waitComplete], by simp, by simp [readsAt]⟩
  | succ n ih =>
    intro X hX
    obtain ⟨i1, i2, i3⟩ := hread X.1 hX
    have hd : ¬ (H.logged.MmioRead32 (base + SPI_HSFSTS_CTL) X).1 &&& HSFSTS_CTL_FDONE ≠ 0 :=
      fun h => h i2
    have he : ¬ (H.logged.MmioRead32 (base + SPI_HSFSTS_CTL) X).1 &&& HSFSTS_CTL_FCERR ≠ 0 :=
      fun h => h i3
    obtain ⟨s1, P, e, hP, hR⟩ := ih
      (H.logged.Stall 100 (H.logged.MmioRead32 (base + SPI_HSFSTS_CTL) X).2)
      (hstall 100 _ i1)
    refine ⟨s1, [Access.read (base + SPI_HSFSTS_CTL) (H.MmioRead32 (base + SPI_HSFSTS_CTL) X.1).1,
      Access.stall 100] ++ P, ?_, ?_, ?_⟩
    · simp only [waitComplete, if_neg hd, if_neg he]
      rw [e]
      simp [Hardware.logged]
    · intro x hx
      rcases List.mem_append.1 hx with h | h
      · simp at h
        rcases h with h | h <;> subst h <;> rfl
      · exact hP x h
    · have h2 : readsAt (base + SPI_HSFSTS_CTL)
          [Access.read (base + SPI_HSFSTS_CTL) (H.MmioRead32 (base + SPI_HSFSTS_CTL) X.1).1,
            Access.stall 100] = [(H.MmioRead32 (base + SPI_HSFSTS_CTL) X.1).1] := by
        simp [readsAt]
      rw [readsAt_append, List.length_append, hR, h2, List.length_singleton]
      omega

theorem ctl_go (n : Nat) (h1 : 1 ≤ n) (h16 : n ≤ 16) :
    (0x00000005 + (n - 1) * 2 ^ 24) &&& HSFSTS_CTL_FGO ≠ 0 ∧
    (0x00000001 + (n - 1) * 2 ^ 24) &&& HSFSTS_CTL_FGO ≠ 0 := by
  interval_cases n <;> decide

/-- The log of a transaction on logged hardware from the end of the idle wait to the write
of the flash address: register writes only. -/
theorem cleared_log {σ : Type} (H : Hardware σ) (base a v : Nat) (X : σ × List Access) :
    ∃ W, (∀ x ∈ W, Access.isWrite x = true) ∧
      (H.logged.MmioWrite32 (base + SPI_FADDR) a
        (if v &&& HSFSTS_CTL_FCERR ≠ 0 then
          H.logged.MmioWrite32 (base + SPI_HSFSTS_CTL) (v ||| HSFSTS_CTL_FCERR) X
        else X)).2 = X.2 ++ W := by
  by_cases h : v &&& HSFSTS_CTL_FCERR ≠ 0
  · refine ⟨[Access.write (base + SPI_HSFSTS_CTL) (v ||| HSFSTS_CTL_FCERR),
      Access.write (base + SPI_FADDR) a], by simp [Access.isWrite], ?_⟩
    rw [if_pos h]
    simp [Hardware.logged]
  · refine ⟨[Access.write (base + SPI_FADDR) a], by simp [Access.isWrite], ?_⟩
    rw [if_neg h]
    simp [Hardware.logged]

/-- The same up to the end of the staging loop of `WriteSpiChunk`. -/
theorem staged_log {σ : Type} (H : Hardware σ) (base a : Nat) (Mem : Nat → Byte) (p n : Nat)
    (v : Nat) (X : σ × List Access) :
    ∃ W, (∀ x ∈ W, Access.isWrite x = true) ∧
      (writeFdata H.logged base Mem p n 0
        (H.logged.MmioWrite32 (base + SPI_FADDR) a
          (if v &&& HSFSTS_CTL_FCERR ≠ 0 then
            H.logged.MmioWrite32 (base + SPI_HSFSTS_CTL) (v ||| HSFSTS_CTL_FCERR) X
          else X))).2 = X.2 ++ W := by
  obtain ⟨P, hP, e⟩ := writeFdata_logged H base Mem p n 0
    (H.logged.MmioWrite32 (base + SPI_FADDR) a
      (if v &&& HSFSTS_CTL_FCERR ≠ 0 then
        H.logged.MmioWrite32 (base + SPI_HSFSTS_CTL) (v ||| HSFSTS_CTL_FCERR) X
      else X))
  obtain ⟨W, hW, e2⟩ := cleared_log H base a v X
  refine ⟨W ++ P, ?_, ?_⟩
  · intro x hx
    rcases List.mem_append.1 hx with h | h
    · exact hW x h
    · exact hP x h
  · rw [e, e2, List.append_assoc]

/-- For every hardware and every argument, the status reads of a write transaction are at
most 1000 + 10000. -/
theorem WriteSpiChunk_poll_bound {σ : Type} (H : Hardware σ) (g : Globals) (a : Nat)
    (Data : Option Nat) (Mem : Nat → Byte) (n : Nat) (s : σ) :
    (readsAt (g.mSpiMmioBase + SPI_HSFSTS_CTL)
      (WriteSpiChunk H.logged g a Data Mem n (s, [])).2.2).length ≤ 1000 + 10000 := by
  by_cases hg : g.mSpiMmioBase = 0 ∨ Data = none ∨ n = 0 ∨ n > 16
  · simp [WriteSpiChunk, if_pos hg, readsAt]
  obtain ⟨P1, hP1, hR1, e1⟩ := waitNotBusy_logged_bound H g.mSpiMmioBase 1000 0 (s, [])
  simp only [List.nil_append] at e1
  simp only [WriteSpiChunk, if_neg hg]
  by_cases hw : (waitNotBusy H.logged g.mSpiMmioBase 1000 0 (s, [])).1 = 0
  · rw [if_pos hw]
    simp only []
    rw [e1]
    omega
  · rw [if_neg hw]
    obtain ⟨W, hW, e2⟩ := staged_log H g.mSpiMmioBase a Mem (Data.getD 0) n
      (waitNotBusy H.logged g.mSpiMmioBase 1000 0 (s, [])).2.1
      (waitNotBusy H.logged g.mSpiMmioBase 1000 0 (s, [])).2.2
    generalize writeFdata H.logged g.mSpiMmioBase Mem (Data.getD 0) n 0 _ = X3 at e2 ⊢
    obtain ⟨Pc, hPc, hRc, e3⟩ := waitComplete_logged_bound H g.mSpiMmioBase 10000
      (H.logged.MmioWrite32 (g.mSpiMmioBase + SPI_HSFSTS_CTL)
        (((HSFSTS_CTL_FCYCLE_WRITE <<< HSFSTS_CTL_FCYCLE_SHIFT) |||
          ((n - 1) <<< HSFSTS_CTL_FDBC_SHIFT) ||| HSFSTS_CTL_FGO) % 2 ^ 32) X3)
    generalize waitComplete H.logged g.mSpiMmioBase 10000 _ = c at e3 ⊢
    have e4 : ∀ (v : Nat) (Y : σ × List Access),
        (H.logged.MmioWrite32 (g.mSpiMmioBase + SPI_HSFSTS_CTL) v Y).2 =
          Y.2 ++ [Access.write (g.mSpiMmioBase + SPI_HSFSTS_CTL) v] := fun _ _ => rfl
    have hlen : (readsAt (g.mSpiMmioBase + SPI_HSFSTS_CTL) c.2.2.2).length ≤ 1000 + 10000 := by
      rw [e3, e4, e2, e1, readsAt_append, readsAt_append, readsAt_append,
        readsAt_writes _ W hW, readsAt_writes _ [_] (by simp [Access.isWrite])]
      simp only [List.length_append, List.length_nil]
      omega
    obtain ⟨c1, c2, c3⟩ := c
    cases c1 with
    | none =>
      simp only []
      split_ifs <;> exact hlen
    | some v => exact hlen

/-- For every hardware and every argument, the status reads of a read transaction are at
most 1000 + 10000. -/
theorem ReadSpiChunk_poll_bound {σ : Type} (H : Hardware σ) (g : Globals) (a : Nat)
    (Data : Option Nat) (Mem : Nat → Byte) (n : Nat) (s : σ) :
    (readsAt (g.mSpiMmioBase + SPI_HSFSTS_CTL)
      (ReadSpiChunk H.logged g a Data Mem n (s, [])).2.2).length ≤ 1000 + 10000 := by
  by_cases hg : g.mSpiMmioBase = 0 ∨ Data = none ∨ n = 0 ∨ n > 16
  · simp [ReadSpiChunk, if_pos hg, readsAt]
  obtain ⟨P1, hP1, hR1, e1⟩ := waitNotBusy_logged_bound H g.mSpiMmioBase 1000 0 (s, [])
  simp only [List.nil_append] at e1
  simp only [ReadSpiChunk, if_neg hg]
  by_cases hw : (waitNotBusy H.logged g.mSpiMmioBase 1000 0 (s, [])).1 = 0
  · rw [if_pos hw]
    simp only []
    rw [e1]
    omega
  · rw [if_neg hw]
    obtain ⟨W, hW, e2⟩ := cleared_log H g.mSpiMmioBase a
      (waitNotBusy H.logged g.mSpiMmioBase 1000 0 (s, [])).2.1
      (waitNotBusy H.logged g.mSpiMmioBase 1000 0 (s, [])).2.2
    generalize H.logged.MmioWrite32 (g.mSpiMmioBase + SPI_FADDR) a _ = X3 at e2 ⊢
    obtain ⟨Pc, hPc, hRc, e3⟩ := waitComplete_logged_bound H g.mSpiMmioBase 10000
      (H.logged.MmioWrite32 (g.mSpiMmioBase + SPI_HSFSTS_CTL)
        (((HSFSTS_CTL_FCYCLE_READ <<< HSFSTS_CTL_FCYCLE_SHIFT) |||
          ((n - 1) <<< HSFSTS_CTL_FDBC_SHIFT) ||| HSFSTS_CTL_FGO) % 2 ^ 32) X3)
    generalize waitComplete H.logged g.mSpiMmioBase 10000 _ = c at e3 ⊢
    have e4 : ∀ (v : Nat) (Y : σ × List Access),
        (H.logged.MmioWrite32 (g.mSpiMmioBase + SPI_HSFSTS_CTL) v Y).2 =
          Y.2 ++ [Access.write (g.mSpiMmioBase + SPI_HSFSTS_CTL) v] := fun _ _ => rfl
    have hlen : (readsAt (g.mSpiMmioBase + SPI_HSFSTS_CTL) c.2.2.2).length ≤ 1000 + 10000 := by
      rw [e3, e4, e2, e1, readsAt_append, readsAt_append, readsAt_append,
        readsAt_writes _ W hW, readsAt_writes _ [_] (by simp [Access.isWrite])]
      simp only [List.length_append, List.length_nil]
      omega
    obtain ⟨c1, c2, c3⟩ := c
    cases c1 with
    | none =>
      simp only []
      split_ifs
      · exact hlen
      · obtain ⟨Pf, -, hRf, ef⟩ := readFdata_logged H g.mSpiMmioBase (Data.getD 0) n 0 Mem c3
        rw [ef, readsAt_append, hRf, List.append_nil]
        exact hlen
    | some v => exact hlen

/-- C27. Completion-wait timeout. For a valid size, with the controller idle at the first
status read, if no status value read after a go-bit has been written has the completion flag
`FDONE` or the error flag `FCERR`, `WriteSpiChunk` and `ReadSpiChunk` return `EFI_TIMEOUT`
after one status read of the idle wait, the write of the control word and exactly 10000
status reads of the completion wait, with no register write after the control word;
`ReadSpiChunk` leaves the buffer as it was. For every hardware and all arguments, a
transaction makes at most 1000 + 10000 status reads. -/
theorem completion_wait_timeout {σ : Type} (H : Hardware σ) (g : Globals)
    (hb : g.mSpiMmioBase ≠ 0) (I : σ → Prop)
    (hgo : ∀ v x, v &&& HSFSTS_CTL_FGO ≠ 0 →
      I (H.MmioWrite32 (g.mSpiMmioBase + SPI_HSFSTS_CTL) v x))
    (hread : ∀ x, I x → I (H.MmioRead32 (g.mSpiMmioBase + SPI_HSFSTS_CTL) x).2 ∧
      (H.MmioRead32 (g.mSpiMmioBase + SPI_HSFSTS_CTL) x).1 &&& HSFSTS_CTL_FDONE = 0 ∧
      (H.MmioRead32 (g.mSpiMmioBase + SPI_HSFSTS_CTL) x).1 &&& HSFSTS_CTL_FCERR = 0)
    (hstall : ∀ t x, I x → I (H.Stall t x))
    (a p : Nat) (Mem : Nat → Byte) (n : Nat) (h1 : 1 ≤ n) (h16 : n ≤ 16) (s : σ)
    (hidle : (H.MmioRead32 (g.mSpiMmioBase + SPI_HSFSTS_CTL) s).1 &&& HSFSTS_CTL_SCIP = 0) :
    ((WriteSpiChunk H.logged g a (some p) Mem n (s, [])).1 = EFI_TIMEOUT ∧
      ∃ pre post, (WriteSpiChunk H.logged g a (some p) Mem n (s, [])).2.2 =
          pre ++ Access.write (g.mSpiMmioBase + SPI_HSFSTS_CTL) (0x00000005 + (n - 1) * 2 ^ 24) ::
            post ∧
        (readsAt (g.mSpiMmioBase + SPI_HSFSTS_CTL) pre).length = 1 ∧
        (readsAt (g.mSpiMmioBase + SPI_HSFSTS_CTL) post).length = 10000 ∧
        ∀ x ∈ post, Access.isWrite x = false) ∧
    ((ReadSpiChunk H.logged g a (some p) Mem n (s, [])).1 = (EFI_TIMEOUT, Mem) ∧
      ∃ pre post, (ReadSpiChunk H.logged g a (some p) Mem n (s, [])).2.2 =
          pre ++ Access.write (g.mSpiMmioBase + SPI_HSFSTS_CTL) (0x00000001 + (n - 1) * 2 ^ 24) ::
            post ∧
        (readsAt (g.mSpiMmioBase + SPI_HSFSTS_CTL) pre).length = 1 ∧
        (readsAt (g.mSpiMmioBase + SPI_HSFSTS_CTL) post).length = 10000 ∧
        ∀ x ∈ post, Access.isWrite x = false) ∧
    ∀ (a0 : Nat) (Data0 : Option Nat) (Mem0 : Nat → Byte) (n0 : Nat) (s0 : σ),
      (readsAt (g.mSpiMmioBase + SPI_HSFSTS_CTL)
        (WriteSpiChunk H.logged g a0 Data0 Mem0 n0 (s0, [])).2.2).length ≤ 1000 + 10000 ∧
      (readsAt (g.mSpiMmioBase + SPI_HSFSTS_CTL)
        (ReadSpiChunk H.logged g a0 Data0 Mem0 n0 (s0, [])).2.2).length ≤ 1000 + 10000 := by
  have hg : ¬ (g.mSpiMmioBase = 0 ∨ (some p : Option Nat) = none ∨ n = 0 ∨ n > 16) := by
    simp; omega
  have hwait0 : ∀ k, waitNotBusy H.logged g.mSpiMmioBase (k + 1) 0 (s, []) =
      (k + 1, (H.MmioRead32 (g.mSpiMmioBase + SPI_HSFSTS_CTL) s).1,
        ((H.MmioRead32 (g.mSpiMmioBase + SPI_HSFSTS_CTL) s).2,
          [Access.read (g.mSpiMmioBase + SPI_HSFSTS_CTL)
            (H.MmioRead32 (g.mSpiMmioBase + SPI_HSFSTS_CTL) s).1])) := by
    intro k
    have hi : (H.logged.MmioRead32 (g.mSpiMmioBase + SPI_HSFSTS_CTL) (s, [])).1 &&&
        HSFSTS_CTL_SCIP = 0 := hidle
    simp only [waitNotBusy, if_pos hi]
    simp [Hardware.logged]
  have hwait := hwait0 999
  have hr0 : readsAt (g.mSpiMmioBase + SPI_HSFSTS_CTL)
      [Access.read (g.mSpiMmioBase + SPI_HSFSTS_CTL)
        (H.MmioRead32 (g.mSpiMmioBase + SPI_HSFSTS_CTL) s).1] =
      [(H.MmioRead32 (g.mSpiMmioBase + SPI_HSFSTS_CTL) s).1] := by
    simp [readsAt]
  have hpend := waitComplete_logged_pending H g.mSpiMmioBase I hread hstall 10000
  obtain ⟨goW, goR⟩ := ctl_go n h1 h16
  refine ⟨?_, ?_, fun a0 Data0 Mem0 n0 s0 =>
    ⟨WriteSpiChunk_poll_bound H g a0 Data0 Mem0 n0 s0,
      ReadSpiChunk_poll_bound H g a0 Data0 Mem0 n0 s0⟩⟩
  · simp only [WriteSpiChunk, if_neg hg, hwait, ctl_write_value n h1 h16, Option.getD_some]
    rw [if_neg (by decide)]
    obtain ⟨W, hW, e2⟩ := staged_log H g.mSpiMmioBase a Mem p n
      (H.MmioRead32 (g.mSpiMmioBase + SPI_HSFSTS_CTL) s).1
      ((H.MmioRead32 (g.mSpiMmioBase + SPI_HSFSTS_CTL) s).2,
        [Access.read (g.mSpiMmioBase + SPI_HSFSTS_CTL)
          (H.MmioRead32 (g.mSpiMmioBase + SPI_HSFSTS_CTL) s).1])
    generalize writeFdata H.logged g.mSpiMmioBase Mem p n 0 _ = X3 at e2 ⊢
    obtain ⟨s1, P, e3, hP, hR⟩ := hpend
      (H.logged.MmioWrite32 (g.mSpiMmioBase + SPI_HSFSTS_CTL) (0x00000005 + (n - 1) * 2 ^ 24) X3)
      (hgo _ _ goW)
    rw [e3]
    refine ⟨rfl, X3.2, P, ?_, ?_, hR, hP⟩
    · show (H.logged.MmioWrite32 (g.mSpiMmioBase + SPI_HSFSTS_CTL)
        (0x00000005 + (n - 1) * 2 ^ 24) X3).2 ++ P = _
      show (X3.2 ++ [Access.write (g.mSpiMmioBase + SPI_HSFSTS_CTL)
        (0x00000005 + (n - 1) * 2 ^ 24)]) ++ P = _
      simp
    · rw [e2, readsAt_append, readsAt_writes _ W hW, hr0]
      rfl
  · simp only [ReadSpiChunk, if_neg hg, hwait, ctl_read_value n h1 h16, Option.getD_some]
    rw [if_neg (by decide)]
    obtain ⟨W, hW, e2⟩ := cleared_log H g.mSpiMmioBase a
      (H.MmioRead32 (g.mSpiMmioBase + SPI_HSFSTS_CTL) s).1
      ((H.MmioRead32 (g.mSpiMmioBase + SPI_HSFSTS_CTL) s).2,
        [Access.read (g.mSpiMmioBase + SPI_HSFSTS_CTL)
          (H.MmioRead32 (g.mSpiMmioBase + SPI_HSFSTS_CTL) s).1])
    generalize H.logged.MmioWrite32 (g.mSpiMmioBase + SPI_FADDR) a _ = X3 at e2 ⊢
    obtain ⟨s1, P, e3, hP, hR⟩ := hpend
      (H.logged.MmioWrite32 (g.mSpiMmioBase + SPI_HSFSTS_CTL) (0x00000001 + (n - 1) * 2 ^ 24) X3)
      (hgo _ _ goR)
    rw [e3]
    refine ⟨rfl, X3.2, P, ?_, ?_, hR, hP⟩
    · show (X3.2 ++ [Access.write (g.mSpiMmioBase + SPI_HSFSTS_CTL)
        (0x00000001 + (n - 1) * 2 ^ 24)]) ++ P = _
      simp
    · rw [e2, readsAt_append, readsAt_writes _ W hW, hr0]
      rfl

theorem completion_wait_timeout_witness :
    (mappedGlobals.mSpiMmioBase ≠ 0 ∧
      (∀ v x, v &&& HSFSTS_CTL_FGO ≠ 0 →
        (fun _ : Unit => True)
          ((constSpi 0).MmioWrite32 (mappedGlobals.mSpiMmioBase + SPI_HSFSTS_CTL) v x)) ∧
      (∀ x, (fun _ : Unit => True) x →
        (fun _ : Unit => True)
          ((constSpi 0).MmioRead32 (mappedGlobals.mSpiMmioBase + SPI_HSFSTS_CTL) x).2 ∧
        ((constSpi 0).MmioRead32 (mappedGlobals.mSpiMmioBase + SPI_HSFSTS_CTL) x).1 &&&
          HSFSTS_CTL_FDONE = 0 ∧
        ((constSpi 0).MmioRead32 (mappedGlobals.mSpiMmioBase + SPI_HSFSTS_CTL) x).1 &&&
          HSFSTS_CTL_FCERR = 0) ∧
      (∀ t x, (fun _ : Unit => True) x → (fun _ : Unit => True) ((constSpi 0).Stall t x)) ∧
      1 ≤ 16 ∧ 16 ≤ 16 ∧
      ((constSpi 0).MmioRead32 (mappedGlobals.mSpiMmioBase + SPI_HSFSTS_CTL) ()).1 &&&
        HSFSTS_CTL_SCIP = 0) ∧
    (WriteSpiChunk (constSpi 0).logged mappedGlobals ME_FIRMWARE_START (some 0) rampBytes 16
        ((), [])).1 = EFI_TIMEOUT ∧
    (ReadSpiChunk (constSpi 0).logged mappedGlobals ME_FIRMWARE_START (some 0) rampBytes 16
        ((), [])).1 = (EFI_TIMEOUT, rampBytes) :=
  ⟨⟨by decide, fun _ _ _ => trivial, fun _ _ => ⟨trivial, (by decide : (0 : Nat) &&& HSFSTS_CTL_FDONE = 0),
        (by decide : (0 : Nat) &&& HSFSTS_CTL_FCERR = 0)⟩,
      fun _ _ _ => trivial, by decide, by decide, by decide⟩,
    (completion_wait_timeout (constSpi 0) mappedGlobals mappedGlobals_mapped (fun _ => True)
      (fun _ _ _ => trivial) (fun _ _ => ⟨trivial, (by decide : (0 : Nat) &&& HSFSTS_CTL_FDONE = 0),
        (by decide : (0 : Nat) &&& HSFSTS_CTL_FCERR = 0)⟩) (fun _ _ _ => trivial)
      ME_FIRMWARE_START 0 rampBytes 16 (by decide) (by decide) () (by decide)).1.1,
    (completion_wait_timeout (constSpi 0) mappedGlobals mappedGlobals_mapped (fun _ => True)
      (fun _ _ _ => trivial) (fun _ _ => ⟨trivial, (by decide : (0 : Nat) &&& HSFSTS_CTL_FDONE = 0),
        (by decide : (0 : Nat) &&& HSFSTS_CTL_FCERR = 0)⟩) (fun _ _ _ => trivial)
      ME_FIRMWARE_START 0 rampBytes 16 (by decide) (by decide) () (by decide)).2.1.1⟩

/-! ## The candidates that the probe tries -/

theorem probeMethod3_tried {σ : Type} (H : Hardware σ) (base o : Nat) (s : σ)
    (L : List Access) :
    ∃ A v, (probeMethod3 H.logged base o (s, L)).2.2 = L ++ A ∧
      ∀ st, attemptsFrom st A =
        [(base + SPI_HSFCTL, o &&& not32 HSFCTL_CLOCK_DIV_MASK ||| 3 <<< HSFCTL_CLOCK_DIV_SHIFT,
          v)] := by
  simp only [probeMethod3, Hardware.logged]
  generalize H.MmioRead32 (base + SPI_HSFCTL) (H.Stall 1000 (H.MmioWrite32 (base + SPI_HSFCTL)
    (o &&& not32 HSFCTL_CLOCK_DIV_MASK ||| 3 <<< HSFCTL_CLOCK_DIV_SHIFT) s)) = rb
  split_ifs with hm
  · refine ⟨_, rb.1, by simp only [List.append_assoc]; rfl, ?_⟩
    intro st
    simp [attemptsFrom]
  · refine ⟨_, rb.1, by simp only [List.append_assoc]; rfl, ?_⟩
    intro st
    simp [attemptsFrom]

theorem probeMethod2_tried {σ : Type} (H : Hardware σ) (base o0 o1 : Nat) (s : σ)
    (L : List Access) :
    ∃ A atts, (probeMethod2 H.logged base o0 o1 (s, L)).2.2 = L ++ A ∧
      (∀ st, attemptsFrom st A = atts) ∧
      ((o0 &&& HSFSTS_CTL_SCIP ≠ 0 ∧ ∃ t3 v3, atts = [(base + SPI_HSFCTL, t3, v3)]) ∨
        (o0 &&& HSFSTS_CTL_SCIP = 0 ∧ ∃ t v, t &&& 0x700 = 0x300 ∧
          ((v &&& 0x700 = 0x300 ∧ atts = [(base + SPI_HSFSTS_CTL, t, v)]) ∨
            (v &&& 0x700 ≠ 0x300 ∧ ∃ t3 v3,
              atts = [(base + SPI_HSFSTS_CTL, t, v), (base + SPI_HSFCTL, t3, v3)])))) := by
  simp only [probeMethod2]
  have ht : (o0 &&& not32 HSFSTS_CTL_FSPI_MASK ||| HSFSTS_CTL_FSPI_DIV_8) &&& 0x700 = 0x300 :=
    testPattern o0
  split_ifs with hi hm
  · simp only [Hardware.logged] at hm ⊢
    refine ⟨_, [(base + SPI_HSFSTS_CTL,
        o0 &&& not32 HSFSTS_CTL_FSPI_MASK ||| HSFSTS_CTL_FSPI_DIV_8, _)],
      by simp only [List.append_assoc]; rfl, ?_, Or.inr ⟨hi, _, _, ht, Or.inl ⟨hm, rfl⟩⟩⟩
    intro st
    simp [attemptsFrom]
  · simp only [Hardware.logged] at hm ⊢
    generalize H.MmioRead32 (base + SPI_HSFSTS_CTL) (H.Stall 1000
      (H.MmioWrite32 (base + SPI_HSFSTS_CTL)
        (o0 &&& not32 HSFSTS_CTL_FSPI_MASK ||| HSFSTS_CTL_FSPI_DIV_8) s)) = rb at hm ⊢
    obtain ⟨A, v3, e, ha⟩ := probeMethod3_tried H base o1
      (H.MmioWrite32 (base + SPI_HSFSTS_CTL) o0 rb.2)
      (L ++ [Access.write (base + SPI_HSFSTS_CTL)
        (o0 &&& not32 HSFSTS_CTL_FSPI_MASK ||| HSFSTS_CTL_FSPI_DIV_8)] ++ [Access.stall 1000] ++
        [Access.read (base + SPI_HSFSTS_CTL) rb.1] ++ [Access.write (base + SPI_HSFSTS_CTL) o0])
    simp only [Hardware.logged] at e
    refine ⟨_, [(base + SPI_HSFSTS_CTL,
        o0 &&& not32 HSFSTS_CTL_FSPI_MASK ||| HSFSTS_CTL_FSPI_DIV_8, rb.1),
        (base + SPI_HSFCTL, o1 &&& not32 HSFCTL_CLOCK_DIV_MASK ||| 3 <<< HSFCTL_CLOCK_DIV_SHIFT,
          v3)], by rw [e]; simp only [List.append_assoc]; rfl, ?_,
      Or.inr ⟨hi, _, rb.1, ht, Or.inr ⟨hm, _, v3, rfl⟩⟩⟩
    intro st
    simp [attemptsFrom, ha]
  · obtain ⟨A, v3, e, ha⟩ := probeMethod3_tried H base o1 s L
    exact ⟨A, _, e, ha, Or.inl ⟨hi, _, v3, rfl⟩⟩

/-- The attempts of `ProbeSpiClockControl`: those of method 1, made if its idle wait ended
with polls left, followed, unless method 1 confirmed its candidate, by those of methods 2
and 3. -/
theorem ProbeSpiClockControl_tried {σ : Type} (H : Hardware σ) (g : Globals)
    (hb : g.mSpiMmioBase ≠ 0) (s : σ) :
    ∃ a1 rest, attempts (ProbeSpiClockControl H.logged g (s, [])).2.2 = a1 ++ rest ∧
      ((a1 = [] ∧ ¬ 0 < (waitNotBusy H g.mSpiMmioBase 1000 0
            (H.MmioRead32 (g.mSpiMmioBase + SPI_HSFCTL)
              (H.MmioRead32 (g.mSpiMmioBase + SPI_HSFSTS_CTL) s).2).2).1) ∨
        (0 < (waitNotBusy H g.mSpiMmioBase 1000 0
            (H.MmioRead32 (g.mSpiMmioBase + SPI_HSFCTL)
              (H.MmioRead32 (g.mSpiMmioBase + SPI_HSFSTS_CTL) s).2).2).1 ∧
          ∃ t v, t &&& 0x700 = 0x300 ∧ a1 = [(g.mSpiMmioBase + SPI_CLOCK_CTL, t, v)])) ∧
      ((∃ x ∈ a1, x.2.2 &&& 0x700 = 0x300) → rest = []) ∧
      ((∀ x ∈ a1, x.2.2 &&& 0x700 ≠ 0x300) →
        (((H.MmioRead32 (g.mSpiMmioBase + SPI_HSFSTS_CTL) s).1 &&& HSFSTS_CTL_SCIP ≠ 0 ∧
            ∃ t3 v3, rest = [(g.mSpiMmioBase + SPI_HSFCTL, t3, v3)]) ∨
          ((H.MmioRead32 (g.mSpiMmioBase + SPI_HSFSTS_CTL) s).1 &&& HSFSTS_CTL_SCIP = 0 ∧
            ∃ t v, t &&& 0x700 = 0x300 ∧
              ((v &&& 0x700 = 0x300 ∧ rest = [(g.mSpiMmioBase + SPI_HSFSTS_CTL, t, v)]) ∨
                (v &&& 0x700 ≠ 0x300 ∧ ∃ t3 v3,
                  rest = [(g.mSpiMmioBase + SPI_HSFSTS_CTL, t, v),
                    (g.mSpiMmioBase + SPI_HSFCTL, t3, v3)]))))) := by
  simp only [ProbeSpiClockControl, if_neg hb]
  generalize hr0 : H.logged.MmioRead32 (g.mSpiMmioBase + SPI_HSFSTS_CTL) (s, []) = r0
  generalize hr1 : H.logged.MmioRead32 (g.mSpiMmioBase + SPI_HSFCTL) r0.2 = r1
  have hl : ∀ x ∈ r1.2.2, Access.isWrite x = false := by
    rw [← hr1, ← hr0]
    simp [Hardware.logged, Access.isWrite]
  have e0 : (H.MmioRead32 (g.mSpiMmioBase + SPI_HSFSTS_CTL) s).1 = r0.1 := by
    rw [← hr0]; rfl
  have e1 : (H.MmioRead32 (g.mSpiMmioBase + SPI_HSFCTL)
      (H.MmioRead32 (g.mSpiMmioBase + SPI_HSFSTS_CTL) s).2).2 = r1.2.1 := by
    rw [← hr1, ← hr0]; rfl
  rw [e0, e1]
  obtain ⟨P, hP, hw⟩ := waitNotBusy_logged H g.mSpiMmioBase 1000 0 r1.2.1 r1.2.2
  rw [show (r1.2.1, r1.2.2) = r1.2 from rfl] at hw
  rw [hw]
  have hpre : ∀ x ∈ r1.2.2 ++ P, Access.isWrite x = false := by
    intro x hx
    rcases List.mem_append.1 hx with h | h
    · exact hl x h
    · exact hP x h
  generalize r1.2.2 ++ P = L0 at hpre ⊢
  generalize (waitNotBusy H g.mSpiMmioBase 1000 0 r1.2.1) = w
  have ht : ∀ o, (o &&& not32 SPI_CLOCK_DIV_MASK ||| SPI_CLOCK_DIV_8) &&& 0x700 = 0x300 :=
    fun o => testPattern o
  split_ifs with hi hm
  · simp only [Hardware.logged]
    simp only [attempts, List.append_assoc, attemptsFrom_none_polls _ _ hpre]
    simp only [Hardware.logged] at hm
    generalize hc : H.MmioRead32 (g.mSpiMmioBase + SPI_CLOCK_CTL) w.2.2 = c at hm ⊢
    generalize hrb : H.MmioRead32 (g.mSpiMmioBase + SPI_CLOCK_CTL) (H.Stall 1000
      (H.MmioWrite32 (g.mSpiMmioBase + SPI_CLOCK_CTL)
        (c.1 &&& not32 SPI_CLOCK_DIV_MASK ||| SPI_CLOCK_DIV_8) c.2)) = rb at hm ⊢
    refine ⟨[(g.mSpiMmioBase + SPI_CLOCK_CTL,
        c.1 &&& not32 SPI_CLOCK_DIV_MASK ||| SPI_CLOCK_DIV_8, rb.1)], [],
      by simp [attemptsFrom], Or.inr ⟨hi, _, _, ht c.1, rfl⟩, fun _ => rfl, ?_⟩
    intro h
    exact absurd hm (h _ (List.mem_singleton.2 rfl))
  · simp only [Hardware.logged] at hm ⊢
    generalize hc : H.MmioRead32 (g.mSpiMmioBase + SPI_CLOCK_CTL) w.2.2 = c at hm ⊢
    generalize hrb : H.MmioRead32 (g.mSpiMmioBase + SPI_CLOCK_CTL) (H.Stall 1000
      (H.MmioWrite32 (g.mSpiMmioBase + SPI_CLOCK_CTL)
        (c.1 &&& not32 SPI_CLOCK_DIV_MASK ||| SPI_CLOCK_DIV_8) c.2)) = rb at hm ⊢
    obtain ⟨A, atts, e, ha, hs⟩ := probeMethod2_tried H g.mSpiMmioBase r0.1 r1.1
      (H.MmioWrite32 (g.mSpiMmioBase + SPI_CLOCK_CTL) c.1 rb.2)
      (L0 ++ [Access.read (g.mSpiMmioBase + SPI_CLOCK_CTL) c.1] ++
        [Access.write (g.mSpiMmioBase + SPI_CLOCK_CTL)
          (c.1 &&& not32 SPI_CLOCK_DIV_MASK ||| SPI_CLOCK_DIV_8)] ++ [Access.stall 1000] ++
        [Access.read (g.mSpiMmioBase + SPI_CLOCK_CTL) rb.1] ++
        [Access.write (g.mSpiMmioBase + SPI_CLOCK_CTL) c.1])
    simp only [Hardware.logged] at e
    rw [e]
    simp only [attempts, List.append_assoc, attemptsFrom_none_polls _ _ hpre]
    refine ⟨[(g.mSpiMmioBase + SPI_CLOCK_CTL,
        c.1 &&& not32 SPI_CLOCK_DIV_MASK ||| SPI_CLOCK_DIV_8, rb.1)], atts,
      by simp [attemptsFrom, ha],
      Or.inr ⟨hi, _, _, ht c.1, rfl⟩, ?_, fun _ => hs⟩
    rintro ⟨x, hx, hx2⟩
    rcases List.mem_singleton.1 hx with rfl
    exact absurd hx2 hm
  · obtain ⟨A, atts, e, ha, hs⟩ := probeMethod2_tried H g.mSpiMmioBase r0.1 r1.1 w.2.2 L0
    rw [e]
    simp only [attempts, attemptsFrom_none_polls _ _ hpre, ha]
    exact ⟨[], atts, rfl, Or.inl ⟨rfl, hi⟩, by simp, fun _ => hs⟩

/-- The three statements on which candidates are tried, from the shape of the attempts. -/
theorem tried_of_shape (b w1 o0 : Nat) (a1 rest : List (Nat × Nat × Nat))
    (h1 : (a1 = [] ∧ ¬ 0 < w1) ∨
      (0 < w1 ∧ ∃ t v, t &&& 0x700 = 0x300 ∧ a1 = [(b + SPI_CLOCK_CTL, t, v)]))
    (h2 : (∃ x ∈ a1, x.2.2 &&& 0x700 = 0x300) → rest = [])
    (h3 : (∀ x ∈ a1, x.2.2 &&& 0x700 ≠ 0x300) →
      ((o0 &&& HSFSTS_CTL_SCIP ≠ 0 ∧ ∃ t3 v3, rest = [(b + SPI_HSFCTL, t3, v3)]) ∨
        (o0 &&& HSFSTS_CTL_SCIP = 0 ∧ ∃ t v, t &&& 0x700 = 0x300 ∧
          ((v &&& 0x700 = 0x300 ∧ rest = [(b + SPI_HSFSTS_CTL, t, v)]) ∨
            (v &&& 0x700 ≠ 0x300 ∧ ∃ t3 v3,
              rest = [(b + SPI_HSFSTS_CTL, t, v), (b + SPI_HSFCTL, t3, v3)]))))) :
    ((∃ x ∈ a1 ++ rest, x.1 = b + 0x0010) ↔ 0 < w1) ∧
    ((∃ x ∈ a1 ++ rest, x.1 = b + 0x0000) ↔
      (o0 &&& HSFSTS_CTL_SCIP = 0 ∧
        ∀ x ∈ a1 ++ rest, x.1 = b + 0x0010 → x.2.2 &&& 0x700 ≠ x.2.1 &&& 0x700)) ∧
    ((∃ x ∈ a1 ++ rest, x.1 = b + 0x0004) ↔
      ∀ x ∈ a1 ++ rest, x.1 ≠ b + 0x0004 → x.2.2 &&& 0x700 ≠ x.2.1 &&& 0x700) := by
  rcases h1 with ⟨rfl, hw⟩ | ⟨hw, t, v, ht, rfl⟩
  · rcases h3 (by simp) with ⟨hi, t3, v3, rfl⟩ | ⟨hi, t, v, ht, ⟨hv, rfl⟩ | ⟨hv, t3, v3, rfl⟩⟩
    · simp [SPI_CLOCK_CTL, SPI_HSFSTS_CTL, SPI_HSFCTL, hw, hi]
    · simp [SPI_CLOCK_CTL, SPI_HSFSTS_CTL, SPI_HSFCTL, hw, hi, ht, hv]
    · simp [SPI_CLOCK_CTL, SPI_HSFSTS_CTL, SPI_HSFCTL, hw, hi, ht, hv]
  · by_cases hv : v &&& 0x700 = 0x300
    · have hr : rest = [] := h2 ⟨_, List.mem_singleton.2 rfl, hv⟩
      subst hr
      simp [SPI_CLOCK_CTL, SPI_HSFSTS_CTL, SPI_HSFCTL, hw, ht, hv]
    · have h3b := h3 (by simpa using hv)
      rcases h3b with ⟨hi, t3, v3, rfl⟩ | ⟨hi, t2, v2, ht2, ⟨hv2, rfl⟩ | ⟨hv2, t3, v3, rfl⟩⟩
      · simp [SPI_CLOCK_CTL, SPI_HSFSTS_CTL, SPI_HSFCTL, hw, hi, ht, hv]
      · simp [SPI_CLOCK_CTL, SPI_HSFSTS_CTL, SPI_HSFCTL, hw, hi, ht, hv, ht2, hv2]
      · simp [SPI_CLOCK_CTL, SPI_HSFSTS_CTL, SPI_HSFCTL, hw, hi, ht, hv, ht2, hv2]

/-- On a controller that is busy for ever the probe makes one attempt only, at offset
0x0004: the candidates 0x0010 and 0x0000 are not tried, although no candidate confirms, and
the probe returns `EFI_NOT_FOUND` with the default location. -/
theorem probe_busy_single_attempt :
    attempts (ProbeSpiClockControl busySpi.logged mappedGlobals ([], [])).2.2 =
      [(mappedGlobals.mSpiMmioBase + 0x0004, 0x320, 0x20)] ∧
    (ProbeSpiClockControl busySpi.logged mappedGlobals ([], [])).1 =
      (EFI_NOT_FOUND, some ⟨0x0010, 8, 0x700⟩) := by
  obtain ⟨P, hP, hw⟩ := waitNotBusy_logged busySpi mappedGlobals.mSpiMmioBase 1000 0 []
    [Access.read (mappedGlobals.mSpiMmioBase + SPI_HSFSTS_CTL) HSFSTS_CTL_SCIP,
      Access.read (mappedGlobals.mSpiMmioBase + SPI_HSFCTL) HSFSTS_CTL_SCIP]
  have hw0 : ∀ x, waitNotBusy busySpi mappedGlobals.mSpiMmioBase 1000 0 x =
      (0, HSFSTS_CTL_SCIP, x) := fun x => waitNotBusy_busySpi _ 999 0 x
  rw [hw0] at hw
  have hx : (busySpi.logged.MmioRead32 (mappedGlobals.mSpiMmioBase + SPI_HSFCTL)
      (busySpi.logged.MmioRead32 (mappedGlobals.mSpiMmioBase + SPI_HSFSTS_CTL) ([], [])).2).2 =
      ([], [Access.read (mappedGlobals.mSpiMmioBase + SPI_HSFSTS_CTL) HSFSTS_CTL_SCIP,
        Access.read (mappedGlobals.mSpiMmioBase + SPI_HSFCTL) HSFSTS_CTL_SCIP]) := rfl
  have hpre : ∀ x ∈ [Access.read (mappedGlobals.mSpiMmioBase + SPI_HSFSTS_CTL) HSFSTS_CTL_SCIP,
      Access.read (mappedGlobals.mSpiMmioBase + SPI_HSFCTL) HSFSTS_CTL_SCIP] ++ P,
      Access.isWrite x = false := by
    intro x hx
    rcases List.mem_append.1 hx with h | h
    · simp at h
      rcases h with h | h <;> subst h <;> rfl
    · exact hP x h
  have hp : ProbeSpiClockControl busySpi.logged mappedGlobals ([], []) =
      ((EFI_NOT_FOUND, some ⟨SPI_CLOCK_CTL, SPI_CLOCK_DIV_SHIFT, SPI_CLOCK_DIV_MASK⟩),
        ([(mappedGlobals.mSpiMmioBase + SPI_HSFCTL, 0x320),
          (mappedGlobals.mSpiMmioBase + SPI_HSFCTL, 0x20)],
          ([Access.read (mappedGlobals.mSpiMmioBase + SPI_HSFSTS_CTL) HSFSTS_CTL_SCIP,
            Access.read (mappedGlobals.mSpiMmioBase + SPI_HSFCTL) HSFSTS_CTL_SCIP] ++ P) ++
          [Access.write (mappedGlobals.mSpiMmioBase + SPI_HSFCTL) 0x320] ++ [Access.stall 1000] ++
          [Access.read (mappedGlobals.mSpiMmioBase + SPI_HSFCTL) 0x20] ++
          [Access.write (mappedGlobals.mSpiMmioBase + SPI_HSFCTL) 0x20])) := by
    simp only [ProbeSpiClockControl, if_neg mappedGlobals_mapped, hx, hw]
    rw [if_neg (by decide)]
    simp only [probeMethod2, probeMethod3, Hardware.logged, busySpi]
    rw [if_neg (by decide), if_neg (by decide)]
    simp only [List.nil_append, List.singleton_append]
    exact rfl
  rw [hp]
  refine ⟨?_, rfl⟩
  simp only [attempts, List.append_assoc]
  rw [← List.append_assoc, attemptsFrom_none_polls _ _ hpre]
  decide

/-- C14, as amended. With the controller mapped, `ProbeSpiClockControl` goes through the
candidates in the order offset 0x0010, 0x0000, 0x0004 (the write-then-read-back attempts it
makes are at these offsets, in this order, each at most once), each with a test pattern
whose bits 8-10 are 0x300, but its busy guards decide which of them it tries:

* 0x0010 is tried exactly when the idle wait of method 1 ended with polls left (it saw
  `SCIP` clear within its 1000 polls);
* 0x0000 is tried exactly when `SCIP` is clear in the status value read at entry and the
  attempt at 0x0010, if made, did not read back as written;
* 0x0004 is tried exactly when no attempt at another offset read back as written.

The out-parameters are always written, with shift 8 and mask 0x700. If the status is
`EFI_SUCCESS`, the reported offset is that of the last attempt, whose bits 8-10 read back
as written, while no earlier attempt read back as written; otherwise the status is
`EFI_NOT_FOUND`, the reported offset is the default 0x0010, and no attempt read back as
written. -/
theorem probe_candidates_and_report {σ : Type} (H : Hardware σ) (g : Globals)
    (hb : g.mSpiMmioBase ≠ 0) (s : σ) :
    ((attempts (ProbeSpiClockControl H.logged g (s, [])).2.2).map (fun x => x.1)).Sublist
      [g.mSpiMmioBase + 0x0010, g.mSpiMmioBase + 0x0000, g.mSpiMmioBase + 0x0004] ∧
    (∀ x ∈ attempts (ProbeSpiClockControl H.logged g (s, [])).2.2, x.2.1 &&& 0x700 = 0x300) ∧
    ((∃ x ∈ attempts (ProbeSpiClockControl H.logged g (s, [])).2.2,
        x.1 = g.mSpiMmioBase + 0x0010) ↔
      0 < (waitNotBusy H g.mSpiMmioBase 1000 0
        (H.MmioRead32 (g.mSpiMmioBase + SPI_HSFCTL)
          (H.MmioRead32 (g.mSpiMmioBase + SPI_HSFSTS_CTL) s).2).2).1) ∧
    ((∃ x ∈ attempts (ProbeSpiClockControl H.logged g (s, [])).2.2,
        x.1 = g.mSpiMmioBase + 0x0000) ↔
      ((H.MmioRead32 (g.mSpiMmioBase + SPI_HSFSTS_CTL) s).1 &&& HSFSTS_CTL_SCIP = 0 ∧
        ∀ x ∈ attempts (ProbeSpiClockControl H.logged g (s, [])).2.2,
          x.1 = g.mSpiMmioBase + 0x0010 → x.2.2 &&& 0x700 ≠ x.2.1 &&& 0x700)) ∧
    ((∃ x ∈ attempts (ProbeSpiClockControl H.logged g (s, [])).2.2,
        x.1 = g.mSpiMmioBase + 0x0004) ↔
      ∀ x ∈ attempts (ProbeSpiClockControl H.logged g (s, [])).2.2,
        x.1 ≠ g.mSpiMmioBase + 0x0004 → x.2.2 &&& 0x700 ≠ x.2.1 &&& 0x700) ∧
    ∃ loc, (ProbeSpiClockControl H.logged g (s, [])).1.2 = some loc ∧
      loc.ClockBitShift = 8 ∧ loc.ClockBitMask = 0x700 ∧
      ((ProbeSpiClockControl H.logged g (s, [])).1.1 = EFI_SUCCESS →
        ∃ pre t v, attempts (ProbeSpiClockControl H.logged g (s, [])).2.2 =
            pre ++ [(g.mSpiMmioBase + loc.ClockRegOffset, t, v)] ∧
          v &&& 0x700 = t &&& 0x700 ∧ ∀ x ∈ pre, x.2.2 &&& 0x700 ≠ x.2.1 &&& 0x700) ∧
      ((ProbeSpiClockControl H.logged g (s, [])).1.1 ≠ EFI_SUCCESS →
        (ProbeSpiClockControl H.logged g (s, [])).1.1 = EFI_NOT_FOUND ∧
        loc.ClockRegOffset = 0x0010 ∧
        ∀ x ∈ attempts (ProbeSpiClockControl H.logged g (s, [])).2.2,
          x.2.2 &&& 0x700 ≠ x.2.1 &&& 0x700) := by
  obtain ⟨r1, r2, r3⟩ := ProbeSpiClockControl_logged H g hb s
  obtain ⟨a1, rest, e, h1, h2, h3⟩ := ProbeSpiClockControl_tried H g hb s
  obtain ⟨t1, t2, t3⟩ := tried_of_shape g.mSpiMmioBase _ _ a1 rest h1 h2 h3
  rw [← e] at t1 t2 t3
  exact ⟨r1, r2, t1, t2, t3, r3⟩

/-- On a register file whose only writable register is the one at offset 0x0000, idle: two
attempts, at 0x0010 and then at 0x0000, the second one reported; 0x0004 is not tried. -/
theorem probe_candidates_and_report_witness :
    mappedGlobals.mSpiMmioBase ≠ 0 ∧
    attempts (ProbeSpiClockControl (regFile (onlyWritable (SPI_MMIO_BASE + SPI_HSFSTS_CTL))).logged
      mappedGlobals (slowRegs, [])).2.2 =
      [(SPI_MMIO_BASE + 0x0010, 0x300, 0x400), (SPI_MMIO_BASE + 0x0000, 0x300, 0x300)] ∧
    ((attempts (ProbeSpiClockControl
        (regFile (onlyWritable (SPI_MMIO_BASE + SPI_HSFSTS_CTL))).logged
        mappedGlobals (slowRegs, [])).2.2).map (fun x => x.1)).Sublist
      [mappedGlobals.mSpiMmioBase + 0x0010, mappedGlobals.mSpiMmioBase + 0x0000,
        mappedGlobals.mSpiMmioBase + 0x0004] ∧
    ((∃ x ∈ attempts (ProbeSpiClockControl
          (regFile (onlyWritable (SPI_MMIO_BASE + SPI_HSFSTS_CTL))).logged
          mappedGlobals (slowRegs, [])).2.2, x.1 = mappedGlobals.mSpiMmioBase + 0x0004) ↔
      ∀ x ∈ attempts (ProbeSpiClockControl
          (regFile (onlyWritable (SPI_MMIO_BASE + SPI_HSFSTS_CTL))).logged
          mappedGlobals (slowRegs, [])).2.2,
        x.1 ≠ mappedGlobals.mSpiMmioBase + 0x0004 → x.2.2 &&& 0x700 ≠ x.2.1 &&& 0x700) :=
  ⟨mappedGlobals_mapped, by decide,
    (probe_candidates_and_report (regFile (onlyWritable (SPI_MMIO_BASE + SPI_HSFSTS_CTL)))
      mappedGlobals mappedGlobals_mapped slowRegs).1,
    (probe_candidates_and_report (regFile (onlyWritable (SPI_MMIO_BASE + SPI_HSFSTS_CTL)))
      mappedGlobals mappedGlobals_mapped slowRegs).2.2.2.2.1⟩

theorem waitNotBusy_idle {σ : Type} (H : Hardware σ) (base n c : Nat) (s : σ)
    (h : (H.MmioRead32 (base + SPI_HSFSTS_CTL) s).1 &&& HSFSTS_CTL_SCIP = 0) :
    (waitNotBusy H base (n + 1) c s).1 = n + 1 := by
  simp only [waitNotBusy, if_pos h]

/-- On a controller whose status register never reads busy, the attempts are the candidates
0x0010, 0x0000, 0x0004 in this order, up to and including the first one that reads back as
written: all three if none does. -/
theorem probe_idle_tries_in_order {σ : Type} (H : Hardware σ) (g : Globals)
    (hb : g.mSpiMmioBase ≠ 0) (s : σ)
    (hidle : ∀ x, (H.MmioRead32 (g.mSpiMmioBase + SPI_HSFSTS_CTL) x).1 &&& HSFSTS_CTL_SCIP = 0) :
    ∃ n, 1 ≤ n ∧
      (attempts (ProbeSpiClockControl H.logged g (s, [])).2.2).map (fun x => x.1) =
        [g.mSpiMmioBase + 0x0010, g.mSpiMmioBase + 0x0000, g.mSpiMmioBase + 0x0004].take n ∧
      ((∀ x ∈ attempts (ProbeSpiClockControl H.logged g (s, [])).2.2,
          x.2.2 &&& 0x700 ≠ x.2.1 &&& 0x700) → n = 3) ∧
      (∀ x ∈ (attempts (ProbeSpiClockControl H.logged g (s, [])).2.2).dropLast,
          x.2.2 &&& 0x700 ≠ x.2.1 &&& 0x700) ∧
      (n < 3 → ∃ x, (attempts (ProbeSpiClockControl H.logged g (s, [])).2.2).getLast? = some x ∧
          x.2.2 &&& 0x700 = x.2.1 &&& 0x700) := by
  obtain ⟨a1, rest, e, h1, h2, h3⟩ := ProbeSpiClockControl_tried H g hb s
  have hw : 0 < (waitNotBusy H g.mSpiMmioBase 1000 0
      (H.MmioRead32 (g.mSpiMmioBase + SPI_HSFCTL)
        (H.MmioRead32 (g.mSpiMmioBase + SPI_HSFSTS_CTL) s).2).2).1 := by
    have h2 : (waitNotBusy H g.mSpiMmioBase 1000 0
        (H.MmioRead32 (g.mSpiMmioBase + SPI_HSFCTL)
          (H.MmioRead32 (g.mSpiMmioBase + SPI_HSFSTS_CTL) s).2).2).1 = 1000 :=
      waitNotBusy_idle H g.mSpiMmioBase 999 0 _ (hidle _)
    rw [h2]
    decide
  have hi := hidle s
  rw [e]
  rcases h1 with ⟨_, hn⟩ | ⟨_, t, v, ht, rfl⟩
  · exact absurd hw hn
  · by_cases hv : v &&& 0x700 = 0x300
    · have hr : rest = [] := h2 ⟨_, List.mem_singleton.2 rfl, hv⟩
      subst hr
      refine ⟨1, by decide, ?_⟩
      simp [SPI_CLOCK_CTL, ht, hv]
    · rcases h3 (by simpa using hv) with ⟨hi2, _⟩ | ⟨_, t2, v2, ht2, ⟨hv2, rfl⟩ | ⟨hv2, t3, v3, rfl⟩⟩
      · exact absurd hi hi2
      · refine ⟨2, by decide, ?_⟩
        simp [SPI_CLOCK_CTL, SPI_HSFSTS_CTL, ht, hv, ht2, hv2]
      · refine ⟨3, by decide, ?_⟩
        simp [SPI_CLOCK_CTL, SPI_HSFSTS_CTL, SPI_HSFCTL, ht, hv, ht2, hv2]

/-! ## The saved divider after two changes -/

theorem toOff_lt (x : Nat) : toOff x < 2 ^ 63 := by
  unfold toOff
  have h : x % 2 ^ 64 < 2 ^ 64 := Nat.mod_lt _ (by decide)
  split_ifs with hc <;> omega

/-- The calls of the range loop on the range `0x1000` to `0x1008`: three reads, at `0x1000`,
`0x1004` and `0x1008`, after which the loop is left. -/
theorem rangeLoop_small {μ : Type} (access : MemAccess μ) (t : Nat) (m : μ) (fuel : Nat) :
    ∃ m1 r1 r2 r3, rangeLoop (recordAccess access) t 0x1008 (fuel + 4) 0x1000 (m, []) =
      Except.ok (m1, [⟨0x1000, t, 0, false, r1⟩, ⟨0x1004, t, 0, false, r2⟩,
        ⟨0x1008, t, 0, false, r3⟩]) := by
  have e1 : offAdd 0x1000 4 = 0x1004 := by decide
  have e2 : offAdd 0x1004 4 = 0x1008 := by decide
  have e3 : offAdd 0x1008 4 = 0x100C := by decide
  simp [rangeLoop, recordAccess, e1, e2, e3]

/-- With the end of the range at the largest `off_t`, `addr <= range_end` holds for every
`addr`: the loop is not left, whatever the fuel. -/
theorem rangeLoop_no_end {μ : Type} (access : MemAccess μ) (t : Nat) (fuel : Nat) (addr : Int)
    (m : μ) (h : addr < 2 ^ 63) :
    ∃ m1, rangeLoop access t (2 ^ 63 - 1) fuel addr m = Except.error m1 := by
  induction fuel generalizing addr m with
  | zero => exact ⟨m, rfl⟩
  | succ n ih =>
    rw [rangeLoop, if_pos (by omega)]
    exact ih _ _ (toOff_lt _)

/-- The wrap of the loop variable: on the range `0x7FFFFFFFFFFFFFF8` to
`0x7FFFFFFFFFFFFFFF` the third read is at the smallest `off_t`, passed to `access_memory`
as `0x8000000000000000`, and the run is still in the loop. -/
theorem rangeLoop_wrap {μ : Type} (access : MemAccess μ) (t : Nat) (m : μ) :
    ∃ m1 r1 r2 r3,
      rangeLoop (recordAccess access) t 0x7FFFFFFFFFFFFFFF 3 0x7FFFFFFFFFFFFFF8 (m, []) =
        Except.error (m1, [⟨0x7FFFFFFFFFFFFFF8, t, 0, false, r1⟩,
          ⟨0x7FFFFFFFFFFFFFFC, t, 0, false, r2⟩, ⟨0x8000000000000000, t, 0, false, r3⟩]) := by
  have e1 : offAdd 0x7FFFFFFFFFFFFFF8 4 = 0x7FFFFFFFFFFFFFFC := by decide
  have e2 : offAdd 0x7FFFFFFFFFFFFFFC 4 = -0x8000000000000000 := by decide
  have e3 : ((-0x8000000000000000 : Int) % 2 ^ 64).toNat = 0x8000000000000000 := by decide
  have e4 : ((0x7FFFFFFFFFFFFFF8 : Int) % 2 ^ 64).toNat = 0x7FFFFFFFFFFFFFF8 := by decide
  have e5 : ((0x7FFFFFFFFFFFFFFC : Int) % 2 ^ 64).toNat = 0x7FFFFFFFFFFFFFFC := by decide
  simp only [rangeLoop, recordAccess, e1, e2]
  rw [if_pos (by decide), if_pos (by decide), if_pos (by decide), e3, e4, e5]
  exact ⟨_, _, _, _, rfl⟩

/-- The case `'r'` reads its second address in the argument vector of the return: on
`devmem2 0x2000 -r 0x1000 0x1008`, where `getopt_long` returns `'r'` with `optind = 4`
before it moves the address `0x2000` behind the options, the range is `0x1000` to
`0x1008`. -/
theorem parseOptions_range (strtoul : String → Nat) :
    parseOptions strtoul 5
      [⟨'r'.toNat, "0x1000", 4, ["devmem2", "0x2000", "-r", "0x1000", "0x1008"]⟩]
      Options.initial =
      Except.ok ⟨false, false, false, false, true, true, toOff (strtoul "0x1000"),
        toOff (strtoul "0x1008")⟩ := by
  simp [parseOptions, Options.initial, argAt]

/-- The idle wait ends with polls left exactly when one of its reads of the status register,
of which there are at most `n`, returned `SCIP` clear. -/
theorem waitNotBusy_polls {σ : Type} (H : Hardware σ) (base : Nat) (n c : Nat) (s : σ)
    (L : List Access) :
    ∃ P, (waitNotBusy H.logged base n c (s, L)).2.2.2 = L ++ P ∧
      (readsAt (base + SPI_HSFSTS_CTL) P).length ≤ n ∧
      (0 < (waitNotBusy H base n c s).1 ↔
        ∃ v ∈ readsAt (base + SPI_HSFSTS_CTL) P, v &&& HSFSTS_CTL_SCIP = 0) := by
  induction n generalizing c s L with
  | zero => exact ⟨[], by simp [waitNotBusy], by simp [readsAt], by simp [waitNotBusy, readsAt]⟩
  | succ n ih =>
    by_cases hi : (H.MmioRead32 (base + SPI_HSFSTS_CTL) s).1 &&& HSFSTS_CTL_SCIP = 0
    · refine ⟨[Access.read (base + SPI_HSFSTS_CTL) (H.MmioRead32 (base + SPI_HSFSTS_CTL) s).1],
        ?_, by simp [readsAt], ?_⟩
      · simp only [waitNotBusy, Hardware.logged, if_pos hi]
      · simp only [waitNotBusy, if_pos hi]
        simp [readsAt, hi]
    · obtain ⟨P, e, hl, hiff⟩ := ih (H.MmioRead32 (base + SPI_HSFSTS_CTL) s).1
        (H.Stall 100 (H.MmioRead32 (base + SPI_HSFSTS_CTL) s).2)
        (L ++ [Access.read (base + SPI_HSFSTS_CTL) (H.MmioRead32 (base + SPI_HSFSTS_CTL) s).1] ++
          [Access.stall 100])
      refine ⟨[Access.read (base + SPI_HSFSTS_CTL) (H.MmioRead32 (base + SPI_HSFSTS_CTL) s).1,
        Access.stall 100] ++ P, ?_, ?_, ?_⟩
      · simp only [waitNotBusy, Hardware.logged, if_neg hi] at e ⊢
        rw [e]
        simp
      · have : readsAt (base + SPI_HSFSTS_CTL)
            ([Access.read (base + SPI_HSFSTS_CTL) (H.MmioRead32 (base + SPI_HSFSTS_CTL) s).1,
              Access.stall 100] ++ P) =
            (H.MmioRead32 (base + SPI_HSFSTS_CTL) s).1 :: readsAt (base + SPI_HSFSTS_CTL) P := by
          simp [readsAt]
        rw [this]
        simp only [List.length_cons]
        omega
      · have : readsAt (base + SPI_HSFSTS_CTL)
            ([Access.read (base + SPI_HSFSTS_CTL) (H.MmioRead32 (base + SPI_HSFSTS_CTL) s).1,
              Access.stall 100] ++ P) =
            (H.MmioRead32 (base + SPI_HSFSTS_CTL) s).1 :: readsAt (base + SPI_HSFSTS_CTL) P := by
          simp [readsAt]
        rw [this]
        simp only [waitNotBusy, if_neg hi]
        rw [hiff]
        simp [hi]

end MeRestore
